import Mathlib

set_option linter.unusedSectionVars false

/-!
# Spin image estimation (`pcl/features/impl/spin_image.hpp`)

A shallow embedding of `pcl::SpinImageEstimation`: the per-point descriptor
`computeSiForPoint`, the validation gate `initCompute`, the batch driver
`computeFeature`, and the properties the specification states about them.

Conventions of the embedding.

* Floating point values are elements of an arbitrary linearly ordered field `α`
  with a floor function (exact arithmetic).  `sqrt`, `asin`, `acos` and the
  constant `PI = 4 * atan2 (1, 1)` are supplied by the environment (`Env`).
* Where the outcome depends on the last bit of a `double`, lines 97-105 and
  166-212 are given a second time with every operation rounded on its own to
  the nearest `double` (IEEE 754 binary64, ties to even): the definitions whose
  names end in `Double`.  A result from `2 ^ 1024` on is an infinity, reported
  like a division by zero; the conversions between `int` and `double` are
  exact.
* A C++ exception, a failed `assert`, an access outside a container, the use of
  an uninitialised value and a division by zero (which IEEE arithmetic answers
  with an infinity or a NaN, values the exact model does not have) are the
  error outcomes of `Except SiError`.
* `assert` is compiled out when `NDEBUG` is defined: `Env.ndebug`.
* `unsigned int image_width_` is a natural number; the conversions
  `int (image_width_)` and `2 * image_width_` are exact for every width whose
  grid of `(W+1) * (2W+1)` cells is of a realistic size.
  `unsigned int min_pts_neighb_` is a natural number below `2 ^ 32` and the
  conversion `(int) min_pts_neighb_` is modelled with its wrap-around.
* The neighbour search and the base class `FeatureFromNormals` are not part of
  the file under study; they are functions of the environment.  The search
  returns the list of the indices found, and `neighb_cnt` is its length.
* The output cloud is a list of arrays `histogram`, whose length is fixed by the
  type of the output point; `computeFeature` returns the cloud it leaves behind
  together with the exception that ended it, if any.  The conversion
  `(float) res (iRow, iCol)` is the identity of the exact model.  For the
  specialisation for `Eigen::MatrixXf` the rows of the matrix `output.points`
  take the place of the arrays `histogram`.
-/

namespace SpinImage

/-- Outcomes of the code other than a normal return. -/
inductive SiError where
  /-- PCLException "Too few points for spin image, ..." -/
  | tooFewPoints
  /-- PCLException "Some normals are not normalized" -/
  | normalsNotNormalized
  /-- PCLException "Some rotation axis is not normalized" -/
  | axisNotNormalized
  /-- A failed `assert` (only when `NDEBUG` is not defined). -/
  | assertionFailed
  /-- Null pointer, index outside a container, or use of an uninitialised value. -/
  | invalidAccess
  /-- Division by zero: the IEEE result is an infinity or a NaN. -/
  | notFinite
  deriving DecidableEq

/-- Three coordinates: `Eigen::Vector3f`. -/
structure Vector3f (α : Type) where
  x : α
  y : α
  z : α
  deriving DecidableEq

namespace Vector3f

variable {α : Type}

/-- The dot product: `u.dot (v)`. -/
def dot [Add α] [Mul α] (u v : Vector3f α) : α :=
  u.x * v.x + u.y * v.y + u.z * v.z

/-- The difference of two vectors. -/
def sub [Sub α] (u v : Vector3f α) : Vector3f α :=
  ⟨u.x - v.x, u.y - v.y, u.z - v.z⟩

/-- The sum of two vectors. -/
def add [Add α] (u v : Vector3f α) : Vector3f α :=
  ⟨u.x + v.x, u.y + v.y, u.z + v.z⟩

end Vector3f

/-- A point cloud behind a shared pointer: `none` is the null pointer. -/
abbrev Cloud (α : Type) := Option (List (Vector3f α))

/-- The members of `SpinImageEstimation` (and of its base classes) that the
code under study reads or writes. -/
structure SpinImageEstimation (α : Type) where
  is_angular : Bool
  use_custom_axis : Bool
  use_custom_axes_cloud : Bool
  is_radial : Bool
  image_width : Nat
  support_angle_cos : α
  min_pts_neighb : Nat
  search_radius : α
  input : Cloud α
  input_normals : Cloud α
  surface : Cloud α
  normals : Cloud α
  fake_surface : Bool
  rotation_axis : Vector3f α
  rotation_axes_cloud : Cloud α
  indices : List Nat

/-- What the code takes from outside this file: the math library, the build
mode, the neighbour search and the base class. -/
structure Env (α : Type) where
  /-- The function `sqrt` of the math library. -/
  sqrt : α → α
  /-- The function `asin` of the math library. -/
  asin : α → α
  /-- The function `acos` of the math library. -/
  acos : α → α
  /-- The static constant `PI = 4.0 * std::atan2 (1.0, 1.0)`. -/
  PI : α
  /-- Whether `NDEBUG` is defined, so that `assert` expands to nothing. -/
  ndebug : Bool
  /-- The call `searchForNeighbors (index, radius, nn_indices, nn_sqr_dists)`: the
  indices it stores in `nn_indices`; its return value is their number. -/
  searchForNeighbors : Nat → α → List Nat
  /-- The call `FeatureFromNormals::initCompute ()`, a check of the current state. -/
  baseInitCompute : SpinImageEstimation α → Bool
  /-- The call `FeatureFromNormals::deinitCompute ()`. -/
  baseDeinitCompute : SpinImageEstimation α → SpinImageEstimation α

section Code

variable {α : Type} [LinearOrderedField α] [FloorRing α]

/-- The constant `std::numeric_limits<float>::epsilon ()`, that is `2 ^ (-23)`. -/
def epsFloat : α := 1 / 2 ^ 23

/-- The constant `std::numeric_limits<double>::epsilon ()`, that is `2 ^ (-52)`. -/
def epsDouble : α := 1 / 2 ^ 52

/-- The conversion `(int) u` of an `unsigned int` to a 32-bit `int`: values from
`2 ^ 31` on wrap around to negative numbers. -/
def toInt32 (u : Nat) : Int :=
  if u % 2 ^ 32 < 2 ^ 31 then ((u % 2 ^ 32 : Nat) : Int) else ((u % 2 ^ 32 : Nat) : Int) - 2 ^ 32

/-- The macro `assert (cond)`. -/
def cassert (e : Env α) (cond : Bool) : Except SiError Unit :=
  if e.ndebug || cond then pure () else throw SiError.assertionFailed

/-- A floating point division `x / y`; a zero divisor leaves exact arithmetic. -/
def fdiv (x y : α) : Except SiError α :=
  if y = 0 then throw SiError.notFinite else pure (x / y)

/-- The access `cloud->points[i]`. -/
def pointAt (cloud : Cloud α) (i : Nat) : Except SiError (Vector3f α) :=
  match cloud with
  | none => throw SiError.invalidAccess
  | some pts =>
    match pts.get? i with
    | none => throw SiError.invalidAccess
    | some p => pure p

/-- The use of a vector that may be the uninitialised `Eigen::Vector3f ()`. -/
def initialized (v : Option (Vector3f α)) : Except SiError (Vector3f α) :=
  match v with
  | none => throw SiError.invalidAccess
  | some p => pure p

/-- The norm `v.norm ()`. -/
def norm (e : Env α) (v : Vector3f α) : α :=
  e.sqrt (v.dot v)

/-- A dense array of rows of coefficients: `Eigen::ArrayXXd`. -/
abbrev Grid (α : Type) := List (List α)

/-- The array `Eigen::ArrayXXd::Zero (rows, cols)`. -/
def gridZero (rows cols : Nat) : Grid α :=
  List.replicate rows (List.replicate cols 0)

/-- The sum of all coefficients: `m.sum ()`. -/
def gridSum (g : Grid α) : α :=
  (g.map List.sum).sum

/-- Adds `w` to the entry at position `c` of a row. -/
def rowAdd : List α → Nat → α → List α
  | [], _, _ => []
  | x :: xs, 0, w => (x + w) :: xs
  | x :: xs, c + 1, w => x :: rowAdd xs c w

/-- The update `m (r, c) += w`; the indices are `int`s and must lie inside the
array. -/
def gridAdd (g : Grid α) (r c : Int) (w : α) : Except SiError (Grid α) :=
  if 0 ≤ r ∧ 0 ≤ c then
    match g.get? r.toNat with
    | none => throw SiError.invalidAccess
    | some row =>
      if c.toNat < row.length then pure (g.set r.toNat (rowAdd row c.toNat w))
      else throw SiError.invalidAccess
  else throw SiError.invalidAccess

/-- Several updates `m (r, c) += w`, in order. -/
def gridAddCells (g : Grid α) : List ((Int × Int) × α) → Except SiError (Grid α)
  | [] => pure g
  | cell :: cells => do
    let g1 ← gridAdd g cell.1.1 cell.1.2 cell.2
    gridAddCells g1 cells

/-- The coefficient-wise quotient of two rows. -/
def rowDiv : List α → List α → Except SiError (List α)
  | x :: xs, y :: ys => do
    let q ← fdiv x y
    let qs ← rowDiv xs ys
    pure (q :: qs)
  | _, _ => pure []

/-- The coefficient-wise quotient `num / den` of two arrays. -/
def gridDiv : Grid α → Grid α → Except SiError (Grid α)
  | r :: rs, d :: ds => do
    let q ← rowDiv r d
    let qs ← gridDiv rs ds
    pure (q :: qs)
  | _, _ => pure []

/-- The array `m + c` for a scalar `c`. -/
def gridAddScalar (g : Grid α) (c : α) : Grid α :=
  g.map (fun row => row.map (fun x => x + c))

/-- The update `m /= c` for a scalar `c`. -/
def gridDivScalar (g : Grid α) (c : α) : Except SiError (Grid α) :=
  if c = 0 then throw SiError.notFinite
  else pure (g.map (fun row => row.map (fun x => x / c)))

/-- Lines 97-105: the bin size.  The code computes it before the loop; a
division by zero there is reported where the value is first used, in the
iteration of the first neighbour that reaches line 166. -/
def binSize (s : SpinImageEstimation α) (e : Env α) : Except SiError α :=
  if s.is_radial then
    fdiv s.search_radius (s.image_width : α)
  else do
    let q ← fdiv s.search_radius (s.image_width : α)
    fdiv q (e.sqrt 2)

/-- Lines 75-81: the query point and its normal (`none` is the uninitialised
placeholder of line 81). -/
def originOf (s : SpinImageEstimation α) (index : Nat) :
    Except SiError (Vector3f α × Option (Vector3f α)) := do
  let origin_point ← pointAt s.input index
  match s.input_normals with
  | some _ =>
    let origin_normal ← pointAt s.input_normals index
    pure (origin_point, some origin_normal)
  | none => pure (origin_point, none)

/-- Lines 83-87: the rotation axis of the query point `index`. -/
def rotationAxisOf (s : SpinImageEstimation α) (index : Nat)
    (origin_normal : Option (Vector3f α)) : Except SiError (Option (Vector3f α)) :=
  if s.use_custom_axis then pure (some s.rotation_axis)
  else if s.use_custom_axes_cloud then do
    let axis ← pointAt s.rotation_axes_cloud index
    pure (some axis)
  else pure origin_normal

/-- Lines 120-144: the filter on the normal of neighbour `nn`.  `none` is the
`continue` of line 137, `some c` the value of `cos_between_normals` with which
the iteration goes on. -/
def normalFilter (s : SpinImageEstimation α) (origin_normal : Option (Vector3f α))
    (nn : Nat) : Except SiError (Option α) :=
  if 0 < s.support_angle_cos ∨ s.is_angular = true then do
    let query_normal ← initialized origin_normal
    let n ← pointAt s.normals nn
    let cos_between_normals := query_normal.dot n
    if |cos_between_normals| > 1 + 10 * epsFloat then
      throw SiError.normalsNotNormalized
    else
      let cos_between_normals := max (-1) (min 1 cos_between_normals)
      if |cos_between_normals| < s.support_angle_cos then pure none
      else if cos_between_normals < 0 then pure (some (-cos_between_normals))
      else pure (some cos_between_normals)
  else pure (some (-2))

/-- Lines 166-182: the coordinates `(alpha, beta)` of a neighbour at distance
`direction_norm` whose direction makes the cosine `cos_dir_axis` with the
axis; `none` is the `continue` of line 180. -/
def coordinates (s : SpinImageEstimation α) (e : Env α) (bin_size direction_norm
    cos_dir_axis : α) : Option (α × α) :=
  if s.is_radial then
    some (direction_norm, e.asin cos_dir_axis)
  else
    let beta := direction_norm * cos_dir_axis
    let alpha := direction_norm * e.sqrt (1 - cos_dir_axis * cos_dir_axis)
    if |beta| ≥ bin_size * (s.image_width : α) ∨ alpha ≥ bin_size * (s.image_width : α) then
      none
    else some (alpha, beta)

/-- Where a neighbour lands: the bin and the fractional offsets in it. -/
structure Splat (α : Type) where
  alpha_bin : Int
  beta_bin : Int
  a : α
  b : α

/-- Line 189: the size of a bin along `beta`. -/
def betaBinSize (s : SpinImageEstimation α) (e : Env α) (bin_size : α) : Except SiError α :=
  if s.is_radial then do
    let h ← fdiv e.PI 2
    fdiv h (s.image_width : α)
  else pure bin_size

/-- Lines 195-200: the adjustment of a point on the outer border in `alpha`;
the result is the pair of `alpha_bin` and `alpha`. -/
def alphaBorder (s : SpinImageEstimation α) (bin_size : α) (alpha_bin : Int) (alpha : α) :
    Int × α :=
  if alpha_bin = (s.image_width : Int) then
    (alpha_bin - 1, bin_size * (((alpha_bin - 1 + 1 : Int)) : α) - epsDouble)
  else (alpha_bin, alpha)

/-- Lines 201-206: the adjustment of a point on the outer border in `beta`; the
result is the pair of `beta_bin` and `beta`. -/
def betaBorder (s : SpinImageEstimation α) (beta_bin_size : α) (beta_bin : Int) (beta : α) :
    Int × α :=
  if beta_bin = 2 * (s.image_width : Int) then
    (beta_bin - 1,
      beta_bin_size * (((beta_bin - 1 - (s.image_width : Int) + 1 : Int)) : α) - epsDouble)
  else (beta_bin, beta)

/-- Lines 184-212: the bilinear interpolation of the coordinates
`(alpha, beta)`, with the adjustment of the border bins. -/
def interpolate (s : SpinImageEstimation α) (e : Env α) (bin_size alpha beta : α) :
    Except SiError (Splat α) := do
  cassert e (decide (alpha ≥ 0))
  cassert e (decide (alpha ≤ bin_size * (s.image_width : α) + 20 * epsFloat))
  let beta_bin_size ← betaBinSize s e bin_size
  let beta_q ← fdiv beta beta_bin_size
  let beta_bin : Int := ⌊beta_q⌋ + (s.image_width : Int)
  cassert e (decide (0 ≤ beta_bin ∧ beta_bin < 2 * (s.image_width : Int) + 1))
  let alpha_q ← fdiv alpha bin_size
  let alpha_bin : Int := ⌊alpha_q⌋
  cassert e (decide (0 ≤ alpha_bin ∧ alpha_bin < (s.image_width : Int) + 1))
  let border_a := alphaBorder s bin_size alpha_bin alpha
  let border_b := betaBorder s beta_bin_size beta_bin beta
  let a := border_a.2 / bin_size - ((border_a.1 : Int) : α)
  let b := border_b.2 / beta_bin_size - (((border_b.1 - (s.image_width : Int) : Int)) : α)
  cassert e (decide (0 ≤ a ∧ a ≤ 1))
  cassert e (decide (0 ≤ b ∧ b ≤ 1))
  pure ⟨border_a.1, border_b.1, a, b⟩

/-- Lines 119-212: one iteration of the loop up to the interpolation, for the
neighbour `nn`.  `none` is a `continue`; otherwise the cosine between the
normals and the place of the neighbour in the grid. -/
def neighborSplat (s : SpinImageEstimation α) (e : Env α) (origin_point : Vector3f α)
    (origin_normal rotation_axis : Option (Vector3f α)) (nn : Nat) :
    Except SiError (Option (α × Splat α)) := do
  match ← normalFilter s origin_normal nn with
  | none => pure none
  | some cos_between_normals =>
    let p ← pointAt s.surface nn
    let direction := p.sub origin_point
    let direction_norm := norm e direction
    if |direction_norm| < 10 * epsDouble then pure none
    else
      cassert e (decide (direction_norm > 0))
      let axis ← initialized rotation_axis
      -- the divisor is not zero: its absolute value is at least 10 * epsilon
      let cos_dir_axis := direction.dot axis / direction_norm
      if |cos_dir_axis| > 1 + 10 * epsFloat then
        throw SiError.axisNotNormalized
      else
        let cos_dir_axis := max (-1) (min 1 cos_dir_axis)
        let bin_size ← binSize s e
        match coordinates s e bin_size direction_norm cos_dir_axis with
        | none => pure none
        | some (alpha, beta) =>
          let sp ← interpolate s e bin_size alpha beta
          pure (some (cos_between_normals, sp))

/-- Lines 214-217: the four cells a neighbour is added to, with their weights. -/
def bilinearCells (sp : Splat α) : List ((Int × Int) × α) :=
  [((sp.alpha_bin, sp.beta_bin), (1 - sp.a) * (1 - sp.b)),
   ((sp.alpha_bin + 1, sp.beta_bin), sp.a * (1 - sp.b)),
   ((sp.alpha_bin, sp.beta_bin + 1), (1 - sp.a) * sp.b),
   ((sp.alpha_bin + 1, sp.beta_bin + 1), sp.a * sp.b)]

/-- Lines 214-225: the updates of `m_matrix` and `m_averAngles` for one
neighbour. -/
def accumulateOne (s : SpinImageEstimation α) (e : Env α) (acc : Grid α × Grid α)
    (contribution : α × Splat α) : Except SiError (Grid α × Grid α) := do
  let m_matrix ← gridAddCells acc.1 (bilinearCells contribution.2)
  if s.is_angular then
    let m_averAngles ← gridAddCells acc.2
      ((bilinearCells contribution.2).map (fun cell => (cell.1, cell.2 * e.acos contribution.1)))
    pure (m_matrix, m_averAngles)
  else pure (m_matrix, acc.2)

/-- Lines 118-226: the loop over the neighbours, from the arrays `acc`. -/
def accumulate (s : SpinImageEstimation α) (e : Env α) (origin_point : Vector3f α)
    (origin_normal rotation_axis : Option (Vector3f α)) :
    List Nat → Grid α × Grid α → Except SiError (Grid α × Grid α)
  | [], acc => pure acc
  | nn :: rest, acc => do
    match ← neighborSplat s e origin_point origin_normal rotation_axis nn with
    | none => accumulate s e origin_point origin_normal rotation_axis rest acc
    | some contribution =>
      let acc1 ← accumulateOne s e acc contribution
      accumulate s e origin_point origin_normal rotation_axis rest acc1

/-- Lines 228-239: the final normalisation. -/
def normalize (s : SpinImageEstimation α) (neighb_cnt : Int) (acc : Grid α × Grid α) :
    Except SiError (Grid α) :=
  if s.is_angular then
    gridDiv acc.2 (gridAddScalar acc.1 epsDouble)
  else if neighb_cnt > 1 then
    gridDivScalar acc.1 (gridSum acc.1)
  else pure acc.1

/-- The function `SpinImageEstimation::computeSiForPoint (index)`. -/
def computeSiForPoint (s : SpinImageEstimation α) (e : Env α) (index : Nat) :
    Except SiError (Grid α) := do
  cassert e (decide (s.image_width > 0))
  cassert e (decide (s.support_angle_cos ≤ 1 ∧ s.support_angle_cos ≥ 0))
  let origin ← originOf s index
  let rotation_axis ← rotationAxisOf s index origin.2
  let m_matrix : Grid α := gridZero (s.image_width + 1) (2 * s.image_width + 1)
  let m_averAngles : Grid α := gridZero (s.image_width + 1) (2 * s.image_width + 1)
  let nn_indices := e.searchForNeighbors index s.search_radius
  let neighb_cnt : Int := (nn_indices.length : Int)
  if neighb_cnt < toInt32 s.min_pts_neighb then
    throw SiError.tooFewPoints
  else
    let acc ← accumulate s e origin.1 origin.2 rotation_axis nn_indices (m_matrix, m_averAngles)
    normalize s neighb_cnt acc

/-- The size `cloud->size ()` of a cloud. -/
def cloudSize (cloud : Cloud α) : Except SiError Nat :=
  match cloud with
  | none => throw SiError.invalidAccess
  | some pts => pure pts.length

/-- Lines 249-254: without a surface, the input cloud and its normals stand in
for the surface and its normals. -/
def aliasSurface (s : SpinImageEstimation α) : SpinImageEstimation α :=
  if s.surface.isNone then
    { s with surface := s.input, normals := s.input_normals, fake_surface := true }
  else s

/-- Lines 262-265: with a fake surface, missing input normals are taken from the
surface normals. -/
def aliasInputNormals (s : SpinImageEstimation α) : SpinImageEstimation α :=
  if s.fake_surface && s.input_normals.isNone then
    { s with input_normals := s.normals }
  else s

/-- The messages `initCompute` writes with `PCL_ERROR`. -/
inductive InitMessage where
  /-- The message "Init failed." -/
  | initFailed
  /-- The message "No normals for input cloud were given!" -/
  | noNormals
  /-- The message "Rotation axis cloud have different size from input!" -/
  | axesCloudSize
  deriving DecidableEq

/-- What a call of `initCompute` that returns leaves behind: the value returned,
the message written, and the state of the object. -/
structure InitResult (α : Type) where
  value : Bool
  message : Option InitMessage
  state : SpinImageEstimation α

/-- The function `SpinImageEstimation::initCompute ()`. -/
def initCompute (s : SpinImageEstimation α) (e : Env α) : Except SiError (InitResult α) :=
  let s1 := aliasSurface s
  if !e.baseInitCompute s1 then
    pure ⟨false, some InitMessage.initFailed, s1⟩
  else do
    let s2 := aliasInputNormals s1
    cassert e (!(s2.use_custom_axis && s2.use_custom_axes_cloud))
    if !s2.use_custom_axis && !s2.use_custom_axes_cloud && s2.input_normals.isNone then
      pure ⟨false, some InitMessage.noNormals, e.baseDeinitCompute s2⟩
    else if (s2.is_angular || decide (s2.support_angle_cos > 0)) && s2.input_normals.isNone then
      pure ⟨false, some InitMessage.noNormals, e.baseDeinitCompute s2⟩
    else if s2.use_custom_axes_cloud then do
      let axes_size ← cloudSize s2.rotation_axes_cloud
      let input_size ← cloudSize s2.input
      if axes_size = input_size then
        pure ⟨false, some InitMessage.axesCloudSize, e.baseDeinitCompute s2⟩
      else pure ⟨true, none, s2⟩
    else pure ⟨true, none, s2⟩

end Code

section Contributing

variable {α : Type} [LinearOrderedField α] [FloorRing α]

/-- Whether the iteration for the neighbour `nn` reaches the accumulation of
lines 214-217: the neighbour passes the filter on the normals, is not
coincident with the query point and, in rectangular mode, lies inside the
support cylinder. -/
def contributes (s : SpinImageEstimation α) (e : Env α) (origin_point : Vector3f α)
    (origin_normal rotation_axis : Option (Vector3f α)) (nn : Nat) : Bool :=
  match neighborSplat s e origin_point origin_normal rotation_axis nn with
  | Except.ok (some _) => true
  | _ => false

/-- The contributing neighbours of the query point `index`, in the order of
the search. -/
def contributors (s : SpinImageEstimation α) (e : Env α) (index : Nat) : List Nat :=
  match originOf s index with
  | Except.ok origin =>
    match rotationAxisOf s index origin.2 with
    | Except.ok rotation_axis =>
      (e.searchForNeighbors index s.search_radius).filter
        (contributes s e origin.1 origin.2 rotation_axis)
    | Except.error _ => []
  | Except.error _ => []

end Contributing

section RotatedScene

variable {α : Type} [LinearOrderedField α] [FloorRing α]

/-- The image `q + R (p - q)` of the point `p` under the map `R` applied about
the point `q`. -/
def rotateAbout (R : Vector3f α → Vector3f α) (q p : Vector3f α) : Vector3f α :=
  q.add (R (p.sub q))

/-- The scene with every surface point moved by `R` about `q` and every normal
(of the surface and of the query cloud) moved by `R`. -/
def rotateScene (R : Vector3f α → Vector3f α) (q : Vector3f α) (s : SpinImageEstimation α) :
    SpinImageEstimation α :=
  { s with
    surface := s.surface.map (List.map (rotateAbout R q)),
    normals := s.normals.map (List.map R),
    input_normals := s.input_normals.map (List.map R) }

end RotatedScene

section Fixtures

variable {α : Type} [LinearOrderedField α] [FloorRing α]

/-- An object with two query points and their normals, no surface set, and an
axis cloud of `axes`; the flags and the input normals are the arguments. -/
def initScene (custom_axis custom_axes_cloud : Bool) (normals : Cloud α)
    (axes : List (Vector3f α)) : SpinImageEstimation α :=
  { is_angular := false, use_custom_axis := custom_axis,
    use_custom_axes_cloud := custom_axes_cloud, is_radial := false, image_width := 8,
    support_angle_cos := 0, min_pts_neighb := 0, search_radius := 1,
    input := some [⟨0, 0, 0⟩, ⟨1, 0, 0⟩], input_normals := normals,
    surface := none, normals := none, fake_surface := false, rotation_axis := ⟨0, 0, 1⟩,
    rotation_axes_cloud := some axes, indices := [0, 1] }

/-- An environment whose base class accepts every state and whose neighbour
search returns `nn` for every query. -/
def plainEnv (sqrt asin acos : α → α) (PI : α) (ndebug : Bool) (nn : List Nat) : Env α :=
  ⟨sqrt, asin, acos, PI, ndebug, fun _ _ => nn, fun _ => true, fun s => s⟩

/-- A scene in self-comparison mode, after `initCompute`: the query point 0 at
the origin with the normal `n0`, and two points at distance 1 from it in the
plane `z = 0` with the normal `(0, 0, 1)`; the image width is 1. -/
def demoScene (radial : Bool) (cos radius : α) (min_pts : Nat) (n0 : Vector3f α) :
    SpinImageEstimation α :=
  { is_angular := false, use_custom_axis := false, use_custom_axes_cloud := false,
    is_radial := radial, image_width := 1, support_angle_cos := cos,
    min_pts_neighb := min_pts, search_radius := radius,
    input := some [⟨0, 0, 0⟩, ⟨1, 0, 0⟩, ⟨0, 1, 0⟩],
    input_normals := some [n0, ⟨0, 0, 1⟩, ⟨0, 0, 1⟩],
    surface := some [⟨0, 0, 0⟩, ⟨1, 0, 0⟩, ⟨0, 1, 0⟩],
    normals := some [n0, ⟨0, 0, 1⟩, ⟨0, 0, 1⟩],
    fake_surface := true, rotation_axis := ⟨0, 0, 1⟩, rotation_axes_cloud := none,
    indices := [0] }

/-- The rotation by a quarter turn about the `z` axis. -/
def quarterTurn (v : Vector3f α) : Vector3f α :=
  ⟨-v.y, v.x, v.z⟩

end Fixtures

section Shape

variable {α : Type}

/-- The array has `rows` rows of `cols` coefficients each. -/
def GridShape (g : Grid α) (rows cols : Nat) : Prop :=
  g.length = rows ∧ ∀ row ∈ g, row.length = cols

end Shape

section ErrorPredicates

/-- The outcome is not the "too few points" exception. -/
def NotTooFew {β : Type} (x : Except SiError β) : Prop :=
  x ≠ Except.error SiError.tooFewPoints

end ErrorPredicates

section Feature

variable {α : Type} [LinearOrderedField α] [FloorRing α]

/-- The coefficient `m (r, c)` of an array, if there is one. -/
def gridAt (g : Grid α) (r c : Nat) : Option α :=
  (g.get? r).bind (fun row => row.get? c)

/-- The number of columns `m.cols ()` of an array. -/
def gridCols (g : Grid α) : Nat :=
  match g with
  | [] => 0
  | row :: _ => row.length

/-- The cloud of descriptors `PointCloudOut`: for every point the array
`histogram`, whose length is fixed by the type of the point. -/
abbrev PointCloudOut (α : Type) := List (List α)

/-- The assignment `histogram[idx] = v`; the index must lie inside the array. -/
def histSet (hist : List α) (idx : Nat) (v : α) : Except SiError (List α) :=
  if idx < hist.length then pure (hist.set idx v) else throw SiError.invalidAccess

/-- Lines 312-315: the loop over `iCol` for one row of the grid, from the column
`iCol` on; `base` is `iRow * res.cols ()` and `coefficients` are the
coefficients `res (iRow, iCol)`, `res (iRow, iCol + 1)`, ... of the row. -/
def copyRow (hist : List α) (base : Nat) : (coefficients : List α) → (iCol : Nat) →
    Except SiError (List α)
  | [], _ => pure hist
  | v :: vs, iCol => do
    let hist1 ← histSet hist (base + iCol) v
    copyRow hist1 base vs (iCol + 1)

/-- Lines 310-316: the loop over `iRow`, from the row `iRow` on; `cols` is
`res.cols ()` and `rows` are the rows `iRow`, `iRow + 1`, ... of the grid. -/
def copyRows (hist : List α) (cols : Nat) : (rows : Grid α) → (iRow : Nat) →
    Except SiError (List α)
  | [], _ => pure hist
  | row :: rows, iRow => do
    let hist1 ← copyRow hist (iRow * cols) row 0
    copyRows hist1 cols rows (iRow + 1)

/-- Lines 309-316: the copy of the grid `res` into `output.points[i_input]`
(the grid of a query point has at least one coefficient, so that the point is
accessed). -/
def writeSlot (output : PointCloudOut α) (i_input : Nat) (res : Grid α) :
    Except SiError (PointCloudOut α) :=
  match output.get? i_input with
  | none => throw SiError.invalidAccess
  | some hist => do
    let hist1 ← copyRows hist (gridCols res) res 0
    pure (output.set i_input hist1)

/-- What a call of `computeFeature` leaves behind: the output cloud, and the
exception (or other failure) that ended the call, if any. -/
structure FeatureRun (α : Type) where
  output : PointCloudOut α
  failure : Option SiError

/-- Lines 305-317: the loop over the query indices, from the position `i_input`
on; `rest` are the entries `i_input`, `i_input + 1`, ... of `indices_`.  An
exception of `computeSiForPoint` leaves the loop and the function. -/
def computeFeatureFrom (s : SpinImageEstimation α) (e : Env α) :
    (i_input : Nat) → (rest : List Nat) → PointCloudOut α → FeatureRun α
  | _, [], output => ⟨output, none⟩
  | i_input, index :: rest, output =>
    match computeSiForPoint s e index with
    | Except.error err => ⟨output, some err⟩
    | Except.ok res =>
      match writeSlot output i_input res with
      | Except.error err => ⟨output, some err⟩
      | Except.ok output1 => computeFeatureFrom s e (i_input + 1) rest output1

/-- The function `SpinImageEstimation::computeFeature (output)`. -/
def computeFeature (s : SpinImageEstimation α) (e : Env α) (output : PointCloudOut α) :
    FeatureRun α :=
  computeFeatureFrom s e 0 s.indices output

/-- The grid in row-major order: the rows one after the other. -/
def rowMajor (g : Grid α) : List α :=
  g.flatten

end Feature

section TinyFixture

variable {α : Type} [LinearOrderedField α] [FloorRing α]

/-- A scene in self-comparison mode with a search radius of 12 double epsilons,
in radial mode with the image width 16, so that `bin_size` is 3/4 of the double
epsilon: the query point 0 at the origin with the normal `(0, 0, 1)`, the point
1 at the distance of the search radius with the normal `(1, 0, 0)`, and the
point 2 at the distance of 23/2 double epsilons with the normal `(0, 0, 1)`. -/
def tinyScene (angular : Bool) : SpinImageEstimation α :=
  { is_angular := angular, use_custom_axis := false, use_custom_axes_cloud := false,
    is_radial := true, image_width := 16, support_angle_cos := 0,
    min_pts_neighb := 0, search_radius := 12 * epsDouble,
    input := some [⟨0, 0, 0⟩, ⟨12 * epsDouble, 0, 0⟩, ⟨0, 23 / 2 * epsDouble, 0⟩],
    input_normals := some [⟨0, 0, 1⟩, ⟨1, 0, 0⟩, ⟨0, 0, 1⟩],
    surface := some [⟨0, 0, 0⟩, ⟨12 * epsDouble, 0, 0⟩, ⟨0, 23 / 2 * epsDouble, 0⟩],
    normals := some [⟨0, 0, 1⟩, ⟨1, 0, 0⟩, ⟨0, 0, 1⟩],
    fake_surface := true, rotation_axis := ⟨0, 0, 1⟩, rotation_axes_cloud := none,
    indices := [0] }

end TinyFixture

section Splice

variable {α : Type}

/-- The array `hist` with the values `vs` written over its entries at the
positions `k`, `k + 1`, ... -/
def splice (hist : List α) (k : Nat) (vs : List α) : List α :=
  hist.take k ++ vs ++ hist.drop (k + vs.length)

end Splice

section BatchFixtures

variable {α : Type} [LinearOrderedField α] [FloorRing α]

/-- The demonstration scene with the three points as query points and a minimum
of one neighbour. -/
def batchScene : SpinImageEstimation α :=
  { demoScene true (1 / 8) 2 1 ⟨0, 0, 1⟩ with indices := [0, 1, 2] }

/-- An environment whose base class accepts every state and whose neighbour
search returns `nn` for the query 0 and no neighbour for the other queries. -/
def sparseEnv (sqrt asin acos : α → α) (PI : α) (ndebug : Bool) (nn : List Nat) : Env α :=
  ⟨sqrt, asin, acos, PI, ndebug, fun index _ => if index = 0 then nn else [], fun _ => true,
    fun s => s⟩

end BatchFixtures

section Entries

variable {α : Type} [LinearOrderedField α] [FloorRing α]

/-- The coefficient `m (r, c)` of an array, taken to be 0 outside the array. -/
def entry (g : Grid α) (r c : Nat) : α :=
  (gridAt g r c).getD 0

/-- The total weight that the updates `cells` add to the coefficient `(r, c)`. -/
def cellWeight (cells : List ((Int × Int) × α)) (r c : Nat) : α :=
  (cells.map (fun cell => if cell.1 = ((r : Int), (c : Int)) then cell.2 else 0)).sum

end Entries

section Mirror

variable {α : Type} [LinearOrderedField α] [FloorRing α]

/-- The mirror image of the point `p` in the plane through `q` perpendicular
to `axis`. -/
def reflect (axis q p : Vector3f α) : Vector3f α :=
  let k := 2 * (p.sub q).dot axis / axis.dot axis
  ⟨p.x - k * axis.x, p.y - k * axis.y, p.z - k * axis.z⟩

/-- Lines 146-212 for a neighbour at the point `p` that reaches them: its place
in the grid, if it gets one. -/
def placeOf (s : SpinImageEstimation α) (e : Env α) (origin_point axis p : Vector3f α) :
    Option (Splat α) :=
  match binSize s e with
  | Except.error _ => none
  | Except.ok bin_size =>
    match coordinates s e bin_size (norm e (p.sub origin_point))
        (max (-1) (min 1 ((p.sub origin_point).dot axis / norm e (p.sub origin_point)))) with
    | none => none
    | some (alpha, beta) =>
      match interpolate s e bin_size alpha beta with
      | Except.error _ => none
      | Except.ok sp => some sp

/-- The weight that a neighbour at the point `p` adds to the coefficient
`(r, c)` of `m_matrix`. -/
def pointWeight (s : SpinImageEstimation α) (e : Env α) (origin_point axis : Vector3f α)
    (r c : Nat) (p : Vector3f α) : α :=
  match placeOf s e origin_point axis p with
  | none => 0
  | some sp => cellWeight (bilinearCells sp) r c

/-- The point `surface_->points[nn]`, if there is one. -/
def surfacePoint (s : SpinImageEstimation α) (nn : Nat) : Option (Vector3f α) :=
  match pointAt s.surface nn with
  | Except.error _ => none
  | Except.ok p => some p

/-- The points of the contributing neighbours of the query point `index`, in
the order of the search. -/
def contributorPoints (s : SpinImageEstimation α) (e : Env α) (index : Nat) :
    List (Vector3f α) :=
  (contributors s e index).filterMap (surfacePoint s)

end Mirror

section MirrorFixture

variable {α : Type} [LinearOrderedField α] [FloorRing α]

/-- A scene in self-comparison mode, after `initCompute`, in rectangular
mode with the image width 1: the query point 0 at the origin and two points that
are mirror images of each other in the plane `z = 0`; all normals are
`(0, 0, 1)`. -/
def mirrorScene (radius : α) : SpinImageEstimation α :=
  { is_angular := false, use_custom_axis := false, use_custom_axes_cloud := false,
    is_radial := false, image_width := 1, support_angle_cos := 0,
    min_pts_neighb := 0, search_radius := radius,
    input := some [⟨0, 0, 0⟩, ⟨3, 0, 4⟩, ⟨3, 0, -4⟩],
    input_normals := some [⟨0, 0, 1⟩, ⟨0, 0, 1⟩, ⟨0, 0, 1⟩],
    surface := some [⟨0, 0, 0⟩, ⟨3, 0, 4⟩, ⟨3, 0, -4⟩],
    normals := some [⟨0, 0, 1⟩, ⟨0, 0, 1⟩, ⟨0, 0, 1⟩],
    fake_surface := true, rotation_axis := ⟨0, 0, 1⟩, rotation_axes_cloud := none,
    indices := [0] }

end MirrorFixture

section MoreErrorPredicates

/-- The outcome is not the exception "Some normals are not normalized". -/
def NoNormalsError {β : Type} (x : Except SiError β) : Prop :=
  x ≠ Except.error SiError.normalsNotNormalized

end MoreErrorPredicates

section FlippedNormals

variable {α : Type} [LinearOrderedField α] [FloorRing α]

/-- The opposite vector. -/
def Vector3f.neg (v : Vector3f α) : Vector3f α :=
  ⟨-v.x, -v.y, -v.z⟩

/-- The vectors `vs`, the entries `i`, `i + 1`, ... of a cloud, with those
negated whose index is marked by `flip`. -/
def flipFrom (flip : Nat → Bool) : Nat → List (Vector3f α) → List (Vector3f α)
  | _, [] => []
  | i, v :: vs => (if flip i then v.neg else v) :: flipFrom flip (i + 1) vs

/-- A cloud of normals in which the normals of the points marked by `flip` are
negated. -/
def flipNormals (flip : Nat → Bool) (cloud : Cloud α) : Cloud α :=
  cloud.map (flipFrom flip 0)

end FlippedNormals

section MatrixOutput

variable {α : Type} [LinearOrderedField α] [FloorRing α]

/-- The matrix `output.points` after `resize (rows, cols)`: one array of `cols`
coefficients per row.  The call does not initialise the coefficients; `old`
stands for the values they happen to have. -/
def resizeMatrix (rows cols : Nat) (old : Nat → Nat → α) : PointCloudOut α :=
  (List.range rows).map (fun i => (List.range cols).map (old i))

/-- The function `computeFeature` of the specialisation of `SpinImageEstimation`
for `Eigen::MatrixXf` (lines 321-338): the output is resized to
`indices_->size ()` rows of 153 columns, and the loop is the one of the general
`computeFeature`, the row `i_input` of the matrix standing for
`output.points[i_input].histogram`. -/
def computeFeatureMatrix (s : SpinImageEstimation α) (e : Env α) (old : Nat → Nat → α) :
    FeatureRun α :=
  computeFeatureFrom s e 0 s.indices (resizeMatrix s.indices.length 153 old)

end MatrixOutput

section Iterations

variable {α : Type} [LinearOrderedField α] [FloorRing α]

/-- The iteration of the loop for the neighbour `nn` ends without an error when
the arrays have `rows` rows and `cols` columns: the neighbour is skipped, or it
is interpolated and its four cells lie inside the arrays. -/
def IterationSucceeds (s : SpinImageEstimation α) (e : Env α) (origin_point : Vector3f α)
    (origin_normal rotation_axis : Option (Vector3f α)) (rows cols : Nat) (nn : Nat) : Prop :=
  match neighborSplat s e origin_point origin_normal rotation_axis nn with
  | Except.error _ => False
  | Except.ok none => True
  | Except.ok (some contribution) =>
    ∀ cell ∈ bilinearCells contribution.2,
      0 ≤ cell.1.1 ∧ cell.1.1 < (rows : Int) ∧ 0 ≤ cell.1.2 ∧ cell.1.2 < (cols : Int)

/-- The weight that the iteration for the neighbour `nn` adds to the coefficient
`(r, c)` of `m_matrix`. -/
def neighbourWeight (s : SpinImageEstimation α) (e : Env α) (origin_point : Vector3f α)
    (origin_normal rotation_axis : Option (Vector3f α)) (r c : Nat) (nn : Nat) : α :=
  match neighborSplat s e origin_point origin_normal rotation_axis nn with
  | Except.ok (some contribution) => cellWeight (bilinearCells contribution.2) r c
  | _ => 0

/-- The weighted angle that the iteration for the neighbour `nn` adds to the
coefficient `(r, c)` of `m_averAngles`. -/
def neighbourAngle (s : SpinImageEstimation α) (e : Env α) (origin_point : Vector3f α)
    (origin_normal rotation_axis : Option (Vector3f α)) (r c : Nat) (nn : Nat) : α :=
  match neighborSplat s e origin_point origin_normal rotation_axis nn with
  | Except.ok (some contribution) =>
    if s.is_angular then cellWeight (bilinearCells contribution.2) r c * e.acos contribution.1
    else 0
  | _ => 0

end Iterations

section LongAxisFixture

variable {α : Type} [LinearOrderedField α] [FloorRing α]

/-- The scene `mirrorScene` with the fixed rotation axis `(0, 0, 2)`, a vector
of length 2. -/
def longAxisScene (radius : α) : SpinImageEstimation α :=
  { mirrorScene radius with use_custom_axis := true, rotation_axis := ⟨0, 0, 2⟩ }

end LongAxisFixture

section Binary64

variable {α : Type} [LinearOrderedField α] [FloorRing α]

/-- The integer nearest to `x`, and half way between two integers the even one:
the rounding "to nearest, ties to even" of IEEE 754 arithmetic. -/
def roundHalfEven (x : α) : Int :=
  if x - (⌊x⌋ : α) < 1 / 2 then ⌊x⌋
  else if 1 / 2 < x - (⌊x⌋ : α) then ⌊x⌋ + 1
  else if ⌊x⌋ % 2 = 0 then ⌊x⌋
  else ⌊x⌋ + 1

/-- The spacing of the `double`s around `x`: `2 ^ (e - 52)` for
`2 ^ e ≤ |x| < 2 ^ (e + 1)` (53 significant bits), and `2 ^ (-1074)` below the
normal range, which starts at `2 ^ (-1022)`. -/
def ulpDouble (x : α) : α :=
  (2 : α) ^ (max (Int.log 2 |x|) (-1022) - 52)

/-- The `double` (IEEE 754 binary64) nearest to `x`, ties to even. -/
def roundDouble (x : α) : α :=
  ((roundHalfEven (x / ulpDouble x) : Int) : α) * ulpDouble x

/-- The result of an operation on `double`s whose exact value is `x`: the
nearest `double`.  From `2 ^ 1024` on the IEEE result is an infinity. -/
def toDouble (x : α) : Except SiError α :=
  if |roundDouble x| < 2 ^ 1024 then pure (roundDouble x) else throw SiError.notFinite

/-- The sum `x + y` of two `double`s. -/
def addDouble (x y : α) : Except SiError α := toDouble (x + y)

/-- The difference `x - y` of two `double`s. -/
def subDouble (x y : α) : Except SiError α := toDouble (x - y)

/-- The product `x * y` of two `double`s. -/
def mulDouble (x y : α) : Except SiError α := toDouble (x * y)

/-- The quotient `x / y` of two `double`s; a zero divisor gives an infinity or a
NaN. -/
def divDouble (x y : α) : Except SiError α :=
  if y = 0 then throw SiError.notFinite else toDouble (x / y)

/-- The macro `assert (cond)` for a condition computed in `double`s; with
`NDEBUG` the condition is not evaluated. -/
def cassertDouble (e : Env α) (cond : Except SiError Bool) : Except SiError Unit :=
  if e.ndebug then pure ()
  else do
    let c ← cond
    if c then pure () else throw SiError.assertionFailed

/-- Lines 97-105 in `double` arithmetic: the bin size. -/
def binSizeDouble (s : SpinImageEstimation α) (e : Env α) : Except SiError α :=
  if s.is_radial then
    divDouble s.search_radius (s.image_width : α)
  else do
    let q ← divDouble s.search_radius (s.image_width : α)
    divDouble q (e.sqrt 2)

/-- Lines 166-182 in `double` arithmetic: the coordinates `(alpha, beta)` of a
neighbour; `none` is the `continue` of line 180. -/
def coordinatesDouble (s : SpinImageEstimation α) (e : Env α) (bin_size direction_norm
    cos_dir_axis : α) : Except SiError (Option (α × α)) :=
  if s.is_radial then
    pure (some (direction_norm, e.asin cos_dir_axis))
  else do
    let beta ← mulDouble direction_norm cos_dir_axis
    let square ← mulDouble cos_dir_axis cos_dir_axis
    let rest ← subDouble 1 square
    let alpha ← mulDouble direction_norm (e.sqrt rest)
    let edge ← mulDouble bin_size (s.image_width : α)
    if |beta| ≥ edge ∨ alpha ≥ edge then pure none
    else pure (some (alpha, beta))

/-- Line 189 in `double` arithmetic: the size of a bin along `beta`. -/
def betaBinSizeDouble (s : SpinImageEstimation α) (e : Env α) (bin_size : α) :
    Except SiError α :=
  if s.is_radial then do
    let h ← divDouble e.PI 2
    divDouble h (s.image_width : α)
  else pure bin_size

/-- Lines 195-200 in `double` arithmetic: the adjustment of a point on the outer
border in `alpha`; the result is the pair of `alpha_bin` and `alpha`. -/
def alphaBorderDouble (s : SpinImageEstimation α) (bin_size : α) (alpha_bin : Int) (alpha : α) :
    Except SiError (Int × α) :=
  if alpha_bin = (s.image_width : Int) then do
    let edge ← mulDouble bin_size (((alpha_bin - 1 + 1 : Int)) : α)
    let alpha1 ← subDouble edge epsDouble
    pure (alpha_bin - 1, alpha1)
  else pure (alpha_bin, alpha)

/-- Lines 201-206 in `double` arithmetic: the adjustment of a point on the outer
border in `beta`; the result is the pair of `beta_bin` and `beta`. -/
def betaBorderDouble (s : SpinImageEstimation α) (beta_bin_size : α) (beta_bin : Int)
    (beta : α) : Except SiError (Int × α) :=
  if beta_bin = 2 * (s.image_width : Int) then do
    let edge ← mulDouble beta_bin_size (((beta_bin - 1 - (s.image_width : Int) + 1 : Int)) : α)
    let beta1 ← subDouble edge epsDouble
    pure (beta_bin - 1, beta1)
  else pure (beta_bin, beta)

/-- Lines 184-212 in `double` arithmetic: the bilinear interpolation of the
coordinates `(alpha, beta)`, every operation rounded to the nearest `double`. -/
def interpolateDouble (s : SpinImageEstimation α) (e : Env α) (bin_size alpha beta : α) :
    Except SiError (Splat α) := do
  cassert e (decide (alpha ≥ 0))
  cassertDouble e (do
    let edge ← mulDouble bin_size (s.image_width : α)
    let bound ← addDouble edge (20 * epsFloat)
    pure (decide (alpha ≤ bound)))
  let beta_bin_size ← betaBinSizeDouble s e bin_size
  let beta_q ← divDouble beta beta_bin_size
  let beta_bin : Int := ⌊beta_q⌋ + (s.image_width : Int)
  cassert e (decide (0 ≤ beta_bin ∧ beta_bin < 2 * (s.image_width : Int) + 1))
  let alpha_q ← divDouble alpha bin_size
  let alpha_bin : Int := ⌊alpha_q⌋
  cassert e (decide (0 ≤ alpha_bin ∧ alpha_bin < (s.image_width : Int) + 1))
  let border_a ← alphaBorderDouble s bin_size alpha_bin alpha
  let border_b ← betaBorderDouble s beta_bin_size beta_bin beta
  let a_q ← divDouble border_a.2 bin_size
  let a ← subDouble a_q ((border_a.1 : Int) : α)
  let b_q ← divDouble border_b.2 beta_bin_size
  let b ← subDouble b_q (((border_b.1 - (s.image_width : Int) : Int)) : α)
  cassert e (decide (0 ≤ a ∧ a ≤ 1))
  cassert e (decide (0 ≤ b ∧ b ≤ 1))
  pure ⟨border_a.1, border_b.1, a, b⟩

end Binary64

section RoundedLibrary

variable {α : Type} [LinearOrderedField α] [FloorRing α]

/-- An environment like `plainEnv` whose math library returns the `double`
nearest to the exact value of each of the functions `sqrt`, `asin` and `acos`,
and whose constant `PI` is the `double` nearest to the number `pi`, which is
what `4.0 * atan2 (1.0, 1.0)` gives. -/
def roundedEnv (sqrt asin acos : α → α) (pi : α) (ndebug : Bool) (nn : List Nat) : Env α :=
  plainEnv (fun x => roundDouble (sqrt x)) (fun x => roundDouble (asin x))
    (fun x => roundDouble (acos x)) (roundDouble pi) ndebug nn

end RoundedLibrary

section WideFixture

variable {α : Type} [LinearOrderedField α] [FloorRing α]

/-- A scene in self-comparison mode, in radial mode with the image width 61 and
the search radius 2: the query point 0 at the origin with the normal
`(0, 0, 1)`, the point 1 at distance 1 straight below it, at `(0, 0, -1)`, and
the point 2 at the distance of the search radius beside it, at `(2, 0, 0)`. -/
def wideScene : SpinImageEstimation α :=
  { is_angular := false, use_custom_axis := false, use_custom_axes_cloud := false,
    is_radial := true, image_width := 61, support_angle_cos := 0,
    min_pts_neighb := 0, search_radius := 2,
    input := some [⟨0, 0, 0⟩, ⟨0, 0, -1⟩, ⟨2, 0, 0⟩],
    input_normals := some [⟨0, 0, 1⟩, ⟨0, 0, 1⟩, ⟨0, 0, 1⟩],
    surface := some [⟨0, 0, 0⟩, ⟨0, 0, -1⟩, ⟨2, 0, 0⟩],
    normals := some [⟨0, 0, 1⟩, ⟨0, 0, 1⟩, ⟨0, 0, 1⟩],
    fake_surface := true, rotation_axis := ⟨0, 0, 1⟩, rotation_axes_cloud := none,
    indices := [0] }

end WideFixture

/-! ## Properties -/

section Outcome

variable {α : Type} [LinearOrderedField α] [FloorRing α]

theorem bind_ok_eq {ε β γ : Type} (a : β) (f : β → Except ε γ) :
    (Except.ok a >>= f) = f a := rfl

theorem bind_error_eq {ε β γ : Type} (err : ε) (f : β → Except ε γ) :
    (Except.error err >>= f) = Except.error err := rfl

theorem pure_eq_ok {ε β : Type} (a : β) : (pure a : Except ε β) = Except.ok a := rfl

theorem throw_eq_error {ε β : Type} (err : ε) : (throw err : Except ε β) = Except.error err := rfl

theorem bind_eq_error_iff {ε β γ : Type} (x : Except ε β) (f : β → Except ε γ) (err : ε) :
    (x >>= f) = Except.error err ↔
      x = Except.error err ∨ ∃ a, x = Except.ok a ∧ f a = Except.error err := by
  cases x with
  | error e0 => simp [bind_error_eq]
  | ok a => simp [bind_ok_eq]

theorem bind_eq_ok_iff {ε β γ : Type} (x : Except ε β) (f : β → Except ε γ) (c : γ) :
    (x >>= f) = Except.ok c ↔ ∃ a, x = Except.ok a ∧ f a = Except.ok c := by
  cases x with
  | error e0 => simp [bind_error_eq]
  | ok a => simp [bind_ok_eq]

end Outcome

section ErrorKinds

variable {α : Type} [LinearOrderedField α] [FloorRing α]

theorem notTooFew_pure {β : Type} (a : β) : NotTooFew (pure a : Except SiError β) := by
  intro h; cases h

theorem notTooFew_ok {β : Type} (a : β) : NotTooFew (Except.ok a : Except SiError β) := by
  intro h; cases h

theorem notTooFew_throw {β : Type} (err : SiError) (h : err ≠ SiError.tooFewPoints) :
    NotTooFew (throw err : Except SiError β) := by
  intro h1; cases h1; exact h rfl

theorem notTooFew_bind {β γ : Type} {x : Except SiError β} {f : β → Except SiError γ}
    (hx : NotTooFew x) (hf : ∀ a, NotTooFew (f a)) : NotTooFew (x >>= f) := by
  cases x with
  | error err => intro h; rw [bind_error_eq] at h; cases h; exact hx rfl
  | ok a => intro h; rw [bind_ok_eq] at h; exact hf a h

theorem notTooFew_cassert (e : Env α) (c : Bool) : NotTooFew (cassert e c) := by
  unfold cassert; split
  · exact notTooFew_pure _
  · exact notTooFew_throw _ (by decide)

theorem notTooFew_fdiv (x y : α) : NotTooFew (fdiv x y) := by
  unfold fdiv; split
  · exact notTooFew_throw _ (by decide)
  · exact notTooFew_pure _

theorem notTooFew_pointAt (c : Cloud α) (i : Nat) : NotTooFew (pointAt c i) := by
  unfold pointAt
  split
  · exact notTooFew_throw _ (by decide)
  · split
    · exact notTooFew_throw _ (by decide)
    · exact notTooFew_pure _

theorem notTooFew_initialized (v : Option (Vector3f α)) : NotTooFew (initialized v) := by
  unfold initialized
  split
  · exact notTooFew_throw _ (by decide)
  · exact notTooFew_pure _

theorem notTooFew_originOf (s : SpinImageEstimation α) (i : Nat) : NotTooFew (originOf s i) := by
  unfold originOf
  refine notTooFew_bind (notTooFew_pointAt _ _) (fun q => ?_)
  split
  · exact notTooFew_bind (notTooFew_pointAt _ _) (fun _ => notTooFew_pure _)
  · exact notTooFew_pure _

theorem notTooFew_rotationAxisOf (s : SpinImageEstimation α) (i : Nat)
    (n : Option (Vector3f α)) : NotTooFew (rotationAxisOf s i n) := by
  unfold rotationAxisOf
  split
  · exact notTooFew_pure _
  · split
    · exact notTooFew_bind (notTooFew_pointAt _ _) (fun _ => notTooFew_pure _)
    · exact notTooFew_pure _

theorem notTooFew_binSize (s : SpinImageEstimation α) (e : Env α) : NotTooFew (binSize s e) := by
  unfold binSize
  split
  · exact notTooFew_fdiv _ _
  · exact notTooFew_bind (notTooFew_fdiv _ _) (fun _ => notTooFew_fdiv _ _)

theorem notTooFew_betaBinSize (s : SpinImageEstimation α) (e : Env α) (b : α) :
    NotTooFew (betaBinSize s e b) := by
  unfold betaBinSize
  split
  · exact notTooFew_bind (notTooFew_fdiv _ _) (fun _ => notTooFew_fdiv _ _)
  · exact notTooFew_pure _

theorem notTooFew_normalFilter (s : SpinImageEstimation α) (n : Option (Vector3f α)) (nn : Nat) :
    NotTooFew (normalFilter s n nn) := by
  unfold normalFilter
  split
  · refine notTooFew_bind (notTooFew_initialized _) (fun _ => ?_)
    refine notTooFew_bind (notTooFew_pointAt _ _) (fun _ => ?_)
    dsimp only
    split
    · exact notTooFew_throw _ (by decide)
    · split
      · exact notTooFew_pure _
      · split <;> exact notTooFew_pure _
  · exact notTooFew_pure _

theorem notTooFew_interpolate (s : SpinImageEstimation α) (e : Env α) (bs al be : α) :
    NotTooFew (interpolate s e bs al be) := by
  unfold interpolate
  refine notTooFew_bind (notTooFew_cassert _ _) (fun _ => ?_)
  refine notTooFew_bind (notTooFew_cassert _ _) (fun _ => ?_)
  refine notTooFew_bind (notTooFew_betaBinSize _ _ _) (fun _ => ?_)
  refine notTooFew_bind (notTooFew_fdiv _ _) (fun _ => ?_)
  refine notTooFew_bind (notTooFew_cassert _ _) (fun _ => ?_)
  refine notTooFew_bind (notTooFew_fdiv _ _) (fun _ => ?_)
  refine notTooFew_bind (notTooFew_cassert _ _) (fun _ => ?_)
  refine notTooFew_bind (notTooFew_cassert _ _) (fun _ => ?_)
  refine notTooFew_bind (notTooFew_cassert _ _) (fun _ => ?_)
  exact notTooFew_pure _

theorem notTooFew_neighborSplat (s : SpinImageEstimation α) (e : Env α) (q : Vector3f α)
    (n ax : Option (Vector3f α)) (nn : Nat) : NotTooFew (neighborSplat s e q n ax nn) := by
  unfold neighborSplat
  refine notTooFew_bind (notTooFew_normalFilter _ _ _) (fun r => ?_)
  split
  · exact notTooFew_pure _
  · refine notTooFew_bind (notTooFew_pointAt _ _) (fun _ => ?_)
    dsimp only
    split
    · exact notTooFew_pure _
    · refine notTooFew_bind (notTooFew_cassert _ _) (fun _ => ?_)
      refine notTooFew_bind (notTooFew_initialized _) (fun _ => ?_)
      dsimp only
      split
      · exact notTooFew_throw _ (by decide)
      · refine notTooFew_bind (notTooFew_binSize _ _) (fun _ => ?_)
        split
        · exact notTooFew_pure _
        · exact notTooFew_bind (notTooFew_interpolate _ _ _ _ _) (fun _ => notTooFew_pure _)

end ErrorKinds

section SparseNeighbourhoods

variable {α : Type} [LinearOrderedField α] [FloorRing α]

theorem notTooFew_gridAdd (g : Grid α) (r c : Int) (w : α) : NotTooFew (gridAdd g r c w) := by
  unfold gridAdd
  split
  · split
    · exact notTooFew_throw _ (by decide)
    · split
      · exact notTooFew_pure _
      · exact notTooFew_throw _ (by decide)
  · exact notTooFew_throw _ (by decide)

theorem notTooFew_gridAddCells (cells : List ((Int × Int) × α)) (g : Grid α) :
    NotTooFew (gridAddCells g cells) := by
  induction cells generalizing g with
  | nil => exact notTooFew_pure _
  | cons cell cells ih =>
    unfold gridAddCells
    exact notTooFew_bind (notTooFew_gridAdd _ _ _ _) (fun g1 => ih g1)

theorem notTooFew_accumulateOne (s : SpinImageEstimation α) (e : Env α) (acc : Grid α × Grid α)
    (c : α × Splat α) : NotTooFew (accumulateOne s e acc c) := by
  unfold accumulateOne
  refine notTooFew_bind (notTooFew_gridAddCells _ _) (fun _ => ?_)
  split
  · exact notTooFew_bind (notTooFew_gridAddCells _ _) (fun _ => notTooFew_pure _)
  · exact notTooFew_pure _

theorem notTooFew_accumulate (s : SpinImageEstimation α) (e : Env α) (q : Vector3f α)
    (n ax : Option (Vector3f α)) (l : List Nat) (acc : Grid α × Grid α) :
    NotTooFew (accumulate s e q n ax l acc) := by
  induction l generalizing acc with
  | nil => exact notTooFew_pure _
  | cons nn rest ih =>
    unfold accumulate
    refine notTooFew_bind (notTooFew_neighborSplat _ _ _ _ _ _) (fun r => ?_)
    split
    · exact ih acc
    · exact notTooFew_bind (notTooFew_accumulateOne _ _ _ _) (fun acc1 => ih acc1)

theorem notTooFew_rowDiv (xs ys : List α) : NotTooFew (rowDiv xs ys) := by
  induction xs generalizing ys with
  | nil => unfold rowDiv; exact notTooFew_pure _
  | cons x xs ih =>
    cases ys with
    | nil => unfold rowDiv; exact notTooFew_pure _
    | cons y ys =>
      unfold rowDiv
      refine notTooFew_bind (notTooFew_fdiv _ _) (fun _ => ?_)
      exact notTooFew_bind (ih ys) (fun _ => notTooFew_pure _)

theorem notTooFew_gridDiv (xs ys : Grid α) : NotTooFew (gridDiv xs ys) := by
  induction xs generalizing ys with
  | nil => unfold gridDiv; exact notTooFew_pure _
  | cons x xs ih =>
    cases ys with
    | nil => unfold gridDiv; exact notTooFew_pure _
    | cons y ys =>
      unfold gridDiv
      refine notTooFew_bind (notTooFew_rowDiv _ _) (fun _ => ?_)
      exact notTooFew_bind (ih ys) (fun _ => notTooFew_pure _)

theorem notTooFew_normalize (s : SpinImageEstimation α) (cnt : Int) (acc : Grid α × Grid α) :
    NotTooFew (normalize s cnt acc) := by
  unfold normalize
  split
  · exact notTooFew_gridDiv _ _
  · split
    · unfold gridDivScalar
      split
      · exact notTooFew_throw _ (by decide)
      · exact notTooFew_pure _
    · exact notTooFew_pure _

theorem toInt32_le (u : Nat) : toInt32 u ≤ (u : Int) := by
  unfold toInt32
  have h : u % 2 ^ 32 ≤ u := Nat.mod_le _ _
  split <;> omega

theorem toInt32_of_lt (u : Nat) (h : u < 2 ^ 31) : toInt32 u = (u : Int) := by
  unfold toInt32
  have h1 : u % 2 ^ 32 = u := Nat.mod_eq_of_lt (by omega)
  rw [h1, if_pos h]

/-- The test of line 110 where the conversion to `int` keeps the minimum: for a
minimum below `2 ^ 31` and a query that passes the initial assertions and reads, `computeSiForPoint` fails with the "too few points"
exception if and only if the search returns fewer neighbours than
`min_pts_neighb`; and whatever the minimum, the exception is never raised when
the number of neighbours is at least the minimum. -/
theorem too_few_points_iff (s : SpinImageEstimation α) (e : Env α) (index : Nat) :
    ((e.searchForNeighbors index s.search_radius).length ≥ s.min_pts_neighb →
        computeSiForPoint s e index ≠ Except.error SiError.tooFewPoints) ∧
      (s.min_pts_neighb < 2 ^ 31 →
        (e.ndebug = true ∨ (s.image_width > 0 ∧ s.support_angle_cos ≤ 1 ∧ s.support_angle_cos ≥ 0)) →
        (∃ origin axis, originOf s index = Except.ok origin ∧
          rotationAxisOf s index origin.2 = Except.ok axis) →
        (computeSiForPoint s e index = Except.error SiError.tooFewPoints ↔
          (e.searchForNeighbors index s.search_radius).length < s.min_pts_neighb)) := by
  have key : ∀ (h : ¬ ((e.searchForNeighbors index s.search_radius).length : Int)
      < toInt32 s.min_pts_neighb), NotTooFew (computeSiForPoint s e index) := by
    intro h
    unfold computeSiForPoint
    refine notTooFew_bind (notTooFew_cassert _ _) (fun _ => ?_)
    refine notTooFew_bind (notTooFew_cassert _ _) (fun _ => ?_)
    refine notTooFew_bind (notTooFew_originOf _ _) (fun _ => ?_)
    refine notTooFew_bind (notTooFew_rotationAxisOf _ _ _) (fun _ => ?_)
    dsimp only
    rw [if_neg h]
    exact notTooFew_bind (notTooFew_accumulate _ _ _ _ _ _ _) (fun _ => notTooFew_normalize _ _ _)
  refine ⟨fun hge => key ?_, fun hmin hassert hpre => ?_⟩
  · have := toInt32_le s.min_pts_neighb
    omega
  · obtain ⟨origin, axis, ho, hax⟩ := hpre
    constructor
    · intro h
      by_contra hlt
      have hlt2 : ¬ ((e.searchForNeighbors index s.search_radius).length : Int)
          < toInt32 s.min_pts_neighb := by
        rw [toInt32_of_lt _ hmin]; omega
      exact key hlt2 h
    · intro hlt
      have hlt2 : ((e.searchForNeighbors index s.search_radius).length : Int)
          < toInt32 s.min_pts_neighb := by
        rw [toInt32_of_lt _ hmin]; omega
      have hc1 : cassert e (decide (s.image_width > 0)) = Except.ok () := by
        unfold cassert
        rcases hassert with h | h
        · simp [h, pure_eq_ok]
        · simp [h.1, pure_eq_ok]
      have hc2 : cassert e (decide (s.support_angle_cos ≤ 1 ∧ s.support_angle_cos ≥ 0))
          = Except.ok () := by
        unfold cassert
        rcases hassert with h | h
        · simp [h, pure_eq_ok]
        · simp [h.2.1, h.2.2, pure_eq_ok]
      unfold computeSiForPoint
      rw [hc1, bind_ok_eq, hc2, bind_ok_eq, ho, bind_ok_eq, hax, bind_ok_eq]
      dsimp only
      rw [if_pos hlt2]
      rfl

end SparseNeighbourhoods

section GridSums

variable {α : Type} [LinearOrderedField α] [FloorRing α]

theorem bilinearCells_sum (sp : Splat α) : ((bilinearCells sp).map Prod.snd).sum = 1 := by
  simp only [bilinearCells, List.map_cons, List.map_nil, List.sum_cons, List.sum_nil]
  ring

theorem rowAdd_sum (row : List α) (c : Nat) (w : α) (h : c < row.length) :
    (rowAdd row c w).sum = row.sum + w := by
  induction row generalizing c with
  | nil => simp at h
  | cons x xs ih =>
    cases c with
    | zero => simp [rowAdd]; ring
    | succ c =>
      simp only [List.length_cons, Nat.succ_lt_succ_iff] at h
      simp [rowAdd, ih c h]; ring

theorem rowAdd_length (row : List α) (c : Nat) (w : α) : (rowAdd row c w).length = row.length := by
  induction row generalizing c with
  | nil => rfl
  | cons x xs ih =>
    cases c with
    | zero => rfl
    | succ c => simp [rowAdd, ih c]

theorem gridSum_set (g : Grid α) (r : Nat) (row row1 : List α) (h : g.get? r = some row) :
    gridSum (g.set r row1) = gridSum g - row.sum + row1.sum := by
  induction g generalizing r with
  | nil => simp at h
  | cons x xs ih =>
    cases r with
    | zero =>
      simp only [List.get?_cons_zero, Option.some.injEq] at h
      subst h
      simp only [gridSum, List.set_cons_zero, List.map_cons, List.sum_cons]
      ring
    | succ r =>
      simp only [List.get?_cons_succ] at h
      have := ih r h
      simp only [gridSum, List.set_cons_succ, List.map_cons, List.sum_cons] at this ⊢
      rw [this]; ring

theorem gridAdd_sum (g g1 : Grid α) (r c : Int) (w : α) (h : gridAdd g r c w = Except.ok g1) :
    gridSum g1 = gridSum g + w := by
  unfold gridAdd at h
  split at h
  · split at h
    · cases h
    · rename_i row hrow
      split at h
      · rename_i hc
        cases h
        rw [gridSum_set g _ row _ hrow, rowAdd_sum row _ w hc]; ring
      · cases h
  · cases h

theorem gridAddCells_sum (cells : List ((Int × Int) × α)) (g g1 : Grid α)
    (h : gridAddCells g cells = Except.ok g1) :
    gridSum g1 = gridSum g + (cells.map Prod.snd).sum := by
  induction cells generalizing g with
  | nil =>
    cases h
    simp
  | cons cell cells ih =>
    unfold gridAddCells at h
    rw [bind_eq_ok_iff] at h
    obtain ⟨g2, h2, h3⟩ := h
    rw [ih g2 h3, gridAdd_sum g g2 _ _ _ h2]
    simp only [List.map_cons, List.sum_cons]; ring

theorem accumulateOne_sum (s : SpinImageEstimation α) (e : Env α) (acc acc1 : Grid α × Grid α)
    (c : α × Splat α) (h : accumulateOne s e acc c = Except.ok acc1) :
    gridSum acc1.1 = gridSum acc.1 + 1 := by
  unfold accumulateOne at h
  rw [bind_eq_ok_iff] at h
  obtain ⟨m, hm, h⟩ := h
  have hs := gridAddCells_sum _ _ _ hm
  rw [bilinearCells_sum c.2] at hs
  split at h
  · rw [bind_eq_ok_iff] at h
    obtain ⟨m2, _, h⟩ := h
    cases h
    exact hs
  · cases h
    exact hs

end GridSums

section ShapeOfTheGrid

variable {α : Type} [LinearOrderedField α] [FloorRing α]

theorem gridShape_zero (rows cols : Nat) : GridShape (gridZero rows cols : Grid α) rows cols := by
  unfold GridShape gridZero
  refine ⟨List.length_replicate _ _, fun row hrow => ?_⟩
  rw [List.eq_of_mem_replicate hrow, List.length_replicate]

theorem gridShape_gridAdd (g g1 : Grid α) (r c : Int) (w : α) (rows cols : Nat)
    (hs : GridShape g rows cols) (h : gridAdd g r c w = Except.ok g1) : GridShape g1 rows cols := by
  unfold gridAdd at h
  split at h
  · split at h
    · cases h
    · rename_i row hrow
      split at h
      · cases h
        refine ⟨by rw [List.length_set]; exact hs.1, fun x hx => ?_⟩
        rcases List.mem_or_eq_of_mem_set hx with hx1 | hx1
        · exact hs.2 x hx1
        · rw [hx1, rowAdd_length]
          exact hs.2 row (List.get?_mem hrow)
      · cases h
  · cases h

theorem gridShape_gridAddCells (cells : List ((Int × Int) × α)) (g g1 : Grid α) (rows cols : Nat)
    (hs : GridShape g rows cols) (h : gridAddCells g cells = Except.ok g1) :
    GridShape g1 rows cols := by
  induction cells generalizing g with
  | nil => cases h; exact hs
  | cons cell cells ih =>
    unfold gridAddCells at h
    rw [bind_eq_ok_iff] at h
    obtain ⟨g2, h2, h3⟩ := h
    exact ih g2 (gridShape_gridAdd g g2 _ _ _ rows cols hs h2) h3

theorem gridShape_accumulateOne (s : SpinImageEstimation α) (e : Env α)
    (acc acc1 : Grid α × Grid α) (c : α × Splat α) (rows cols : Nat)
    (hs : GridShape acc.1 rows cols) (h : accumulateOne s e acc c = Except.ok acc1) :
    GridShape acc1.1 rows cols := by
  unfold accumulateOne at h
  rw [bind_eq_ok_iff] at h
  obtain ⟨m, hm, h⟩ := h
  have hm1 := gridShape_gridAddCells _ _ _ rows cols hs hm
  split at h
  · rw [bind_eq_ok_iff] at h
    obtain ⟨m2, _, h⟩ := h
    cases h
    exact hm1
  · cases h
    exact hm1

theorem gridShape_accumulate (s : SpinImageEstimation α) (e : Env α) (q : Vector3f α)
    (n ax : Option (Vector3f α)) (l : List Nat) (acc acc1 : Grid α × Grid α) (rows cols : Nat)
    (hs : GridShape acc.1 rows cols) (h : accumulate s e q n ax l acc = Except.ok acc1) :
    GridShape acc1.1 rows cols := by
  induction l generalizing acc with
  | nil => cases h; exact hs
  | cons nn rest ih =>
    unfold accumulate at h
    rw [bind_eq_ok_iff] at h
    obtain ⟨r, hr, h⟩ := h
    cases r with
    | none => exact ih acc hs h
    | some c =>
      simp only at h
      rw [bind_eq_ok_iff] at h
      obtain ⟨acc2, h2, h⟩ := h
      exact ih acc2 (gridShape_accumulateOne s e acc acc2 c rows cols hs h2) h

theorem gridShape_map (g : Grid α) (f : α → α) (rows cols : Nat) (hs : GridShape g rows cols) :
    GridShape (g.map (fun row => row.map f)) rows cols := by
  refine ⟨by rw [List.length_map]; exact hs.1, fun x hx => ?_⟩
  obtain ⟨row, hrow, rfl⟩ := List.mem_map.1 hx
  rw [List.length_map]
  exact hs.2 row hrow

end ShapeOfTheGrid

section BilinearWeights

variable {α : Type} [LinearOrderedField α] [FloorRing α]

/-- C3. The four weights a neighbour adds to the cells `(alpha_bin, beta_bin)`,
`(alpha_bin + 1, beta_bin)`, `(alpha_bin, beta_bin + 1)` and
`(alpha_bin + 1, beta_bin + 1)` are `(1-a)(1-b)`, `a(1-b)`, `(1-a)b` and `ab`, and
they add up to exactly 1 whatever the offsets `a` and `b` are. -/
theorem bilinear_weight_conservation (sp : Splat α) :
    bilinearCells sp =
        [((sp.alpha_bin, sp.beta_bin), (1 - sp.a) * (1 - sp.b)),
         ((sp.alpha_bin + 1, sp.beta_bin), sp.a * (1 - sp.b)),
         ((sp.alpha_bin, sp.beta_bin + 1), (1 - sp.a) * sp.b),
         ((sp.alpha_bin + 1, sp.beta_bin + 1), sp.a * sp.b)] ∧
      ((bilinearCells sp).map Prod.snd).sum = 1 := by
  exact ⟨rfl, bilinearCells_sum sp⟩

end BilinearWeights

section Normalization

variable {α : Type} [LinearOrderedField α] [FloorRing α]

theorem accumulate_sum (s : SpinImageEstimation α) (e : Env α) (q : Vector3f α)
    (n ax : Option (Vector3f α)) (l : List Nat) (acc acc1 : Grid α × Grid α)
    (h : accumulate s e q n ax l acc = Except.ok acc1) :
    gridSum acc1.1 = gridSum acc.1 + ((l.filter (contributes s e q n ax)).length : α) := by
  induction l generalizing acc with
  | nil =>
    cases h
    simp
  | cons nn rest ih =>
    unfold accumulate at h
    rw [bind_eq_ok_iff] at h
    obtain ⟨r, hr, h⟩ := h
    cases r with
    | none =>
      have hc : contributes s e q n ax nn = false := by simp [contributes, hr]
      rw [ih acc h, List.filter_cons_of_neg (by simp [hc])]
    | some c =>
      have hc : contributes s e q n ax nn = true := by simp [contributes, hr]
      simp only at h
      rw [bind_eq_ok_iff] at h
      obtain ⟨acc2, h2, h⟩ := h
      rw [ih acc2 h, accumulateOne_sum s e acc acc2 c h2, List.filter_cons_of_pos hc]
      simp only [List.length_cons]
      push_cast
      ring

theorem gridSum_zero (rows cols : Nat) : gridSum (gridZero rows cols : Grid α) = 0 := by
  unfold gridSum gridZero
  induction rows with
  | zero => simp
  | succ k ih => simp [List.replicate_succ, ih]

theorem row_sum_div (row : List α) (c : α) : (row.map (fun x => x / c)).sum = row.sum / c := by
  induction row with
  | nil => simp
  | cons x xs ih => simp [ih, add_div]

theorem gridSum_div (g : Grid α) (c : α) :
    gridSum (g.map (fun row => row.map (fun x => x / c))) = gridSum g / c := by
  unfold gridSum
  induction g with
  | nil => simp
  | cons r rs ih =>
    simp only [List.map_cons, List.sum_cons] at ih ⊢
    rw [ih, row_sum_div, add_div]

/-- C1. In non-angular mode, whenever `computeSiForPoint` returns a grid for a
query point with at least two contributing neighbours, that grid has `W + 1` rows
of `2W + 1` entries and its entries add up to 1 (for every image width and search
radius). -/
theorem normalization (s : SpinImageEstimation α) (e : Env α) (index : Nat) (g : Grid α)
    (hangular : s.is_angular = false)
    (hg : computeSiForPoint s e index = Except.ok g)
    (hcontrib : 2 ≤ (contributors s e index).length) :
    GridShape g (s.image_width + 1) (2 * s.image_width + 1) ∧ gridSum g = 1 := by
  unfold computeSiForPoint at hg
  rw [bind_eq_ok_iff] at hg
  obtain ⟨_, _, hg⟩ := hg
  rw [bind_eq_ok_iff] at hg
  obtain ⟨_, _, hg⟩ := hg
  rw [bind_eq_ok_iff] at hg
  obtain ⟨origin, ho, hg⟩ := hg
  rw [bind_eq_ok_iff] at hg
  obtain ⟨axis, hax, hg⟩ := hg
  dsimp only at hg
  split at hg
  · cases hg
  · rw [bind_eq_ok_iff] at hg
    obtain ⟨acc, hacc, hg⟩ := hg
    have hsum := accumulate_sum s e origin.1 origin.2 axis _ _ _ hacc
    simp only [gridSum_zero, zero_add] at hsum
    unfold contributors at hcontrib
    simp only [ho, hax] at hcontrib
    have hle : (List.filter (contributes s e origin.1 origin.2 axis)
        (e.searchForNeighbors index s.search_radius)).length
          ≤ (e.searchForNeighbors index s.search_radius).length := List.length_filter_le _ _
    have hpos : (2 : α) ≤ gridSum acc.1 := by
      rw [hsum]; exact_mod_cast hcontrib
    have hne : gridSum acc.1 ≠ 0 := by
      intro h0; rw [h0] at hpos; linarith
    unfold normalize at hg
    simp only [hangular] at hg
    have hcnt : ((e.searchForNeighbors index s.search_radius).length : Int) > 1 := by omega
    simp only [Bool.false_eq_true, if_false, hcnt, if_true] at hg
    unfold gridDivScalar at hg
    rw [if_neg hne] at hg
    cases hg
    have hshape := gridShape_accumulate s e origin.1 origin.2 axis _ _ _
      (s.image_width + 1) (2 * s.image_width + 1) (gridShape_zero _ _) hacc
    exact ⟨gridShape_map _ _ _ _ hshape, by rw [gridSum_div, div_self hne]⟩

end Normalization

section RotationOfTheFilter

variable {α : Type} [LinearOrderedField α] [FloorRing α]

theorem pointAt_map (f : Vector3f α → Vector3f α) (c : Cloud α) (i : Nat) :
    pointAt (c.map (List.map f)) i = (pointAt c i).map f := by
  cases c with
  | none => rfl
  | some pts =>
    simp only [pointAt, Option.map_some', List.get?_eq_getElem?, List.getElem?_map]
    cases pts[i]? <;> rfl

theorem map_ok_eq {ε β γ : Type} (f : β → γ) (a : β) :
    (Except.ok a : Except ε β).map f = Except.ok (f a) := rfl

theorem map_error_eq {ε β γ : Type} (f : β → γ) (err : ε) :
    (Except.error err : Except ε β).map f = Except.error err := rfl

theorem rotateAbout_sub (R : Vector3f α → Vector3f α) (q p : Vector3f α) :
    (rotateAbout R q p).sub q = R (p.sub q) := by
  simp [rotateAbout, Vector3f.sub, Vector3f.add]

theorem dot_self_eq_zero (v : Vector3f α) (h : v.dot v = 0) : v = ⟨0, 0, 0⟩ := by
  unfold Vector3f.dot at h
  have hx : v.x = 0 := by nlinarith [mul_self_nonneg v.x, mul_self_nonneg v.y, mul_self_nonneg v.z]
  have hy : v.y = 0 := by nlinarith [mul_self_nonneg v.x, mul_self_nonneg v.y, mul_self_nonneg v.z]
  have hz : v.z = 0 := by nlinarith [mul_self_nonneg v.x, mul_self_nonneg v.y, mul_self_nonneg v.z]
  cases v
  simp_all

theorem rotateAbout_self (R : Vector3f α → Vector3f α)
    (hR : ∀ u v, (R u).dot (R v) = u.dot v) (q : Vector3f α) : rotateAbout R q q = q := by
  have h0 : R ⟨0, 0, 0⟩ = ⟨0, 0, 0⟩ := by
    apply dot_self_eq_zero
    rw [hR]
    simp [Vector3f.dot]
  simp [rotateAbout, Vector3f.sub, Vector3f.add, h0]

theorem normalFilter_rotate (R : Vector3f α → Vector3f α)
    (hR : ∀ u v, (R u).dot (R v) = u.dot v) (q : Vector3f α) (s : SpinImageEstimation α)
    (inp : Cloud α) (n : Option (Vector3f α)) (nn : Nat) :
    normalFilter { rotateScene R q s with input := inp } (n.map R) nn = normalFilter s n nn := by
  unfold normalFilter
  simp only [rotateScene, pointAt_map]
  split
  · cases n with
    | none => rfl
    | some n0 =>
      simp only [Option.map_some', initialized, pure_eq_ok, bind_ok_eq]
      cases pointAt s.normals nn with
      | error err => rfl
      | ok nj => simp only [map_ok_eq, bind_ok_eq, hR]
  · rfl

end RotationOfTheFilter

section RotationOfTheLoop

variable {α : Type} [LinearOrderedField α] [FloorRing α]

theorem binSize_rotate (R : Vector3f α → Vector3f α) (q : Vector3f α)
    (s : SpinImageEstimation α) (inp : Cloud α) (e : Env α) :
    binSize { rotateScene R q s with input := inp } e = binSize s e := rfl

theorem coordinates_rotate (R : Vector3f α → Vector3f α) (q : Vector3f α)
    (s : SpinImageEstimation α) (inp : Cloud α) (e : Env α) (bs d c : α) :
    coordinates { rotateScene R q s with input := inp } e bs d c = coordinates s e bs d c := rfl

theorem interpolate_rotate (R : Vector3f α → Vector3f α) (q : Vector3f α)
    (s : SpinImageEstimation α) (inp : Cloud α) (e : Env α) (bs al be : α) :
    interpolate { rotateScene R q s with input := inp } e bs al be = interpolate s e bs al be := rfl

theorem accumulateOne_rotate (R : Vector3f α → Vector3f α) (q : Vector3f α)
    (s : SpinImageEstimation α) (inp : Cloud α) (e : Env α) (acc : Grid α × Grid α)
    (c : α × Splat α) :
    accumulateOne { rotateScene R q s with input := inp } e acc c = accumulateOne s e acc c := rfl

theorem normalize_rotate (R : Vector3f α → Vector3f α) (q : Vector3f α)
    (s : SpinImageEstimation α) (inp : Cloud α) (cnt : Int) (acc : Grid α × Grid α) :
    normalize { rotateScene R q s with input := inp } cnt acc = normalize s cnt acc := rfl

theorem norm_rotate (R : Vector3f α → Vector3f α)
    (hR : ∀ u v, (R u).dot (R v) = u.dot v) (e : Env α) (d : Vector3f α) :
    norm e (R d) = norm e d := by
  unfold norm
  rw [hR]

theorem neighborSplat_rotate (R : Vector3f α → Vector3f α)
    (hR : ∀ u v, (R u).dot (R v) = u.dot v) (q : Vector3f α) (s : SpinImageEstimation α)
    (inp : Cloud α) (e : Env α) (n ax : Option (Vector3f α))
    (hax : ∀ a, ax = some a → R a = a) (nn : Nat) :
    neighborSplat { rotateScene R q s with input := inp } e q (n.map R) ax nn
      = neighborSplat s e q n ax nn := by
  unfold neighborSplat
  rw [normalFilter_rotate R hR]
  cases normalFilter s n nn with
  | error err => rfl
  | ok r =>
    simp only [bind_ok_eq]
    cases r with
    | none => rfl
    | some c =>
      simp only []
      have hs : pointAt ({ rotateScene R q s with input := inp } : SpinImageEstimation α).surface nn
          = (pointAt s.surface nn).map (rotateAbout R q) := pointAt_map _ _ _
      rw [hs]
      cases pointAt s.surface nn with
      | error err => rfl
      | ok p =>
        simp only [map_ok_eq, bind_ok_eq, rotateAbout_sub, norm_rotate R hR]
        split
        · rfl
        · cases hc : cassert e (decide (norm e (p.sub q) > 0)) with
          | error err => rfl
          | ok u =>
            simp only [bind_ok_eq]
            cases ax with
            | none => rfl
            | some a =>
              have ha : (R (p.sub q)).dot a = (p.sub q).dot a := by
                conv_lhs => rw [← hax a rfl]
                exact hR _ _
              simp only [initialized, pure_eq_ok, bind_ok_eq, ha, binSize_rotate,
                coordinates_rotate, interpolate_rotate]

theorem accumulate_rotate (R : Vector3f α → Vector3f α)
    (hR : ∀ u v, (R u).dot (R v) = u.dot v) (q : Vector3f α) (s : SpinImageEstimation α)
    (inp : Cloud α) (e : Env α) (n ax : Option (Vector3f α))
    (hax : ∀ a, ax = some a → R a = a) (l : List Nat) (acc : Grid α × Grid α) :
    accumulate { rotateScene R q s with input := inp } e q (n.map R) ax l acc
      = accumulate s e q n ax l acc := by
  induction l generalizing acc with
  | nil => rfl
  | cons nn rest ih =>
    unfold accumulate
    rw [neighborSplat_rotate R hR q s inp e n ax hax nn]
    cases neighborSplat s e q n ax nn with
    | error err => rfl
    | ok r =>
      simp only [bind_ok_eq]
      cases r with
      | none => exact ih acc
      | some c =>
        simp only [accumulateOne_rotate]
        cases accumulateOne s e acc c with
        | error err => rfl
        | ok acc1 => simp only [bind_ok_eq]; exact ih acc1

end RotationOfTheLoop

section RotationOfThePoint

variable {α : Type} [LinearOrderedField α] [FloorRing α]

theorem computeSiForPoint_rotate (R : Vector3f α → Vector3f α)
    (hR : ∀ u v, (R u).dot (R v) = u.dot v) (q : Vector3f α) (s : SpinImageEstimation α)
    (inp : Cloud α) (e : Env α) (index : Nat)
    (hq : pointAt s.input index = Except.ok q) (hinp : pointAt inp index = Except.ok q)
    (haxis : ∀ origin ax, originOf s index = Except.ok origin →
      rotationAxisOf s index origin.2 = Except.ok (some ax) → R ax = ax) :
    computeSiForPoint { rotateScene R q s with input := inp } e index
      = computeSiForPoint s e index := by
  unfold computeSiForPoint
  cases hc1 : cassert e (decide (s.image_width > 0)) with
  | error err => simp only [rotateScene, hc1, bind_error_eq]
  | ok u1 =>
    cases hc2 : cassert e (decide (s.support_angle_cos ≤ 1 ∧ s.support_angle_cos ≥ 0)) with
    | error err => simp only [rotateScene, hc1, hc2, bind_ok_eq, bind_error_eq]
    | ok u2 =>
      have e1 : cassert e (decide (({ rotateScene R q s with input := inp } :
          SpinImageEstimation α).image_width > 0)) = Except.ok u1 := hc1
      have e2 : cassert e (decide (({ rotateScene R q s with input := inp } :
          SpinImageEstimation α).support_angle_cos ≤ 1 ∧ ({ rotateScene R q s with input := inp } :
          SpinImageEstimation α).support_angle_cos ≥ 0)) = Except.ok u2 := hc2
      rw [e1, e2]
      simp only [bind_ok_eq]
      -- the query point and its normal
      have ho : originOf { rotateScene R q s with input := inp } index
          = (originOf s index).map (fun o => (o.1, o.2.map R)) := by
        unfold originOf
        simp only [hq, hinp, bind_ok_eq, rotateScene]
        cases hn : s.input_normals with
        | none => rfl
        | some pts =>
          simp only [Option.map_some']
          have := pointAt_map R (some pts) index
          simp only [Option.map_some'] at this
          rw [this]
          cases pointAt (some pts) index with
          | error err => rfl
          | ok n0 => rfl
      rw [ho]
      cases hos : originOf s index with
      | error err => rfl
      | ok origin =>
        simp only [map_ok_eq, bind_ok_eq]
        have hq1 : origin.1 = q := by
          unfold originOf at hos
          rw [hq, bind_ok_eq] at hos
          split at hos
          · rw [bind_eq_ok_iff] at hos
            obtain ⟨n0, _, h⟩ := hos
            cases h; rfl
          · cases h : hos; rfl
        have hax : rotationAxisOf { rotateScene R q s with input := inp } index (origin.2.map R)
            = rotationAxisOf s index origin.2 := by
          unfold rotationAxisOf
          simp only [rotateScene]
          split
          · rfl
          · split
            · rfl
            · rename_i h1 h2
              cases hn : origin.2 with
              | none => rfl
              | some n0 =>
                have hfix : R n0 = n0 := by
                  apply haxis origin n0 hos
                  unfold rotationAxisOf
                  rw [if_neg h1, if_neg h2, hn]; rfl
                simp only [Option.map_some', hfix]
        rw [hax]
        cases haxs : rotationAxisOf s index origin.2 with
        | error err => rfl
        | ok axis =>
          simp only [bind_ok_eq]
          have hfix : ∀ a, axis = some a → R a = a := by
            intro a ha
            exact haxis origin a hos (by rw [haxs, ha])
          rw [hq1]
          have hacc := accumulate_rotate R hR q s inp e origin.2 axis hfix
          simp only [rotateScene] at hacc ⊢
          simp only [hacc]
          rfl

end RotationOfThePoint

section Arithmetic

variable {α : Type} [LinearOrderedField α] [FloorRing α]

theorem epsDouble_pos : (0 : α) < epsDouble := by
  unfold epsDouble; positivity

theorem epsFloat_pos : (0 : α) < epsFloat := by
  unfold epsFloat; positivity

theorem cassert_of_true (e : Env α) (c : Bool) (h : c = true) : cassert e c = Except.ok () := by
  unfold cassert; simp [h, pure_eq_ok]

theorem fdiv_of_ne (x y : α) (h : y ≠ 0) : fdiv x y = Except.ok (x / y) := by
  unfold fdiv; rw [if_neg h]; rfl

theorem cassert_ndebug (e : Env α) (c : Bool) (hnd : e.ndebug = true) :
    cassert e c = Except.ok () := by
  unfold cassert
  simp [hnd, pure_eq_ok]

end Arithmetic

section BorderBins

variable {α : Type} [LinearOrderedField α] [FloorRing α]

theorem alphaBorder_spec (s : SpinImageEstimation α) (bs alpha : α)
    (hW : 1 ≤ s.image_width) (hbs : epsDouble ≤ bs)
    (ha0 : 0 ≤ alpha) (ha1 : alpha ≤ bs * (s.image_width : α)) :
    0 ≤ (alphaBorder s bs ⌊alpha / bs⌋ alpha).1 ∧
      (alphaBorder s bs ⌊alpha / bs⌋ alpha).1 ≤ (s.image_width : Int) - 1 ∧
      0 ≤ (alphaBorder s bs ⌊alpha / bs⌋ alpha).2 / bs
            - (((alphaBorder s bs ⌊alpha / bs⌋ alpha).1 : Int) : α) ∧
      (alphaBorder s bs ⌊alpha / bs⌋ alpha).2 / bs
            - (((alphaBorder s bs ⌊alpha / bs⌋ alpha).1 : Int) : α) ≤ 1 ∧
      (alpha = bs * (s.image_width : α) →
        (alphaBorder s bs ⌊alpha / bs⌋ alpha).1 = (s.image_width : Int) - 1) := by
  have heps : (0 : α) < epsDouble := epsDouble_pos
  have hbs0 : 0 < bs := lt_of_lt_of_le heps hbs
  have hqa0 : 0 ≤ alpha / bs := div_nonneg ha0 hbs0.le
  have hqa1 : alpha / bs ≤ (s.image_width : α) := by
    rw [div_le_iff₀ hbs0]; linarith [mul_comm bs (s.image_width : α)]
  have hfa0 : 0 ≤ ⌊alpha / bs⌋ := Int.floor_nonneg.2 hqa0
  have hfa1 : ⌊alpha / bs⌋ ≤ (s.image_width : Int) := by
    have := Int.floor_mono hqa1
    simpa using this
  have hWi : (1 : Int) ≤ (s.image_width : Int) := by exact_mod_cast hW
  have hedge : alpha = bs * (s.image_width : α) → ⌊alpha / bs⌋ = (s.image_width : Int) := by
    intro h
    rw [h, mul_div_cancel_left₀ _ hbs0.ne']
    exact Int.floor_natCast _
  unfold alphaBorder
  by_cases h : ⌊alpha / bs⌋ = (s.image_width : Int)
  · simp only [if_pos h]
    have hq : (bs * (((⌊alpha / bs⌋ - 1 + 1 : Int)) : α) - epsDouble) / bs
        - (((⌊alpha / bs⌋ - 1 : Int)) : α) = 1 - epsDouble / bs := by
      push_cast
      field_simp
      ring
    rw [hq]
    have h1 : epsDouble / bs ≤ 1 := (div_le_one hbs0).2 hbs
    have h2 : 0 < epsDouble / bs := div_pos heps hbs0
    refine ⟨by omega, by omega, by linarith, by linarith, fun _ => by omega⟩
  · simp only [if_neg h]
    have h1 := Int.floor_le (alpha / bs)
    have h2 := Int.lt_floor_add_one (alpha / bs)
    refine ⟨hfa0, by omega, by linarith, by linarith, fun he => absurd (hedge he) h⟩

theorem betaBorder_spec (s : SpinImageEstimation α) (bbs beta : α)
    (hW : 1 ≤ s.image_width) (hbbs : epsDouble ≤ bbs)
    (hb0 : -(bbs * (s.image_width : α)) ≤ beta) (hb1 : beta ≤ bbs * (s.image_width : α)) :
    0 ≤ (betaBorder s bbs (⌊beta / bbs⌋ + (s.image_width : Int)) beta).1 ∧
      (betaBorder s bbs (⌊beta / bbs⌋ + (s.image_width : Int)) beta).1
        ≤ 2 * (s.image_width : Int) - 1 ∧
      0 ≤ (betaBorder s bbs (⌊beta / bbs⌋ + (s.image_width : Int)) beta).2 / bbs
            - ((((betaBorder s bbs (⌊beta / bbs⌋ + (s.image_width : Int)) beta).1
                - (s.image_width : Int) : Int)) : α) ∧
      (betaBorder s bbs (⌊beta / bbs⌋ + (s.image_width : Int)) beta).2 / bbs
            - ((((betaBorder s bbs (⌊beta / bbs⌋ + (s.image_width : Int)) beta).1
                - (s.image_width : Int) : Int)) : α) ≤ 1 ∧
      (beta = bbs * (s.image_width : α) →
        (betaBorder s bbs (⌊beta / bbs⌋ + (s.image_width : Int)) beta).1
          = 2 * (s.image_width : Int) - 1) := by
  have heps : (0 : α) < epsDouble := epsDouble_pos
  have hbbs0 : 0 < bbs := lt_of_lt_of_le heps hbbs
  have hqb0 : -(s.image_width : α) ≤ beta / bbs := by
    rw [le_div_iff₀ hbbs0]; linarith [mul_comm bbs (s.image_width : α)]
  have hqb1 : beta / bbs ≤ (s.image_width : α) := by
    rw [div_le_iff₀ hbbs0]; linarith [mul_comm bbs (s.image_width : α)]
  have hfb0 : -(s.image_width : Int) ≤ ⌊beta / bbs⌋ := by
    rw [Int.le_floor]; push_cast; exact hqb0
  have hfb1 : ⌊beta / bbs⌋ ≤ (s.image_width : Int) := by
    have := Int.floor_mono hqb1
    simpa using this
  have hWi : (1 : Int) ≤ (s.image_width : Int) := by exact_mod_cast hW
  have hedge : beta = bbs * (s.image_width : α) → ⌊beta / bbs⌋ = (s.image_width : Int) := by
    intro h
    rw [h, mul_div_cancel_left₀ _ hbbs0.ne']
    exact Int.floor_natCast _
  unfold betaBorder
  by_cases h : ⌊beta / bbs⌋ + (s.image_width : Int) = 2 * (s.image_width : Int)
  · simp only [if_pos h]
    have hf : ⌊beta / bbs⌋ = (s.image_width : Int) := by omega
    have hq : (bbs * (((⌊beta / bbs⌋ + (s.image_width : Int) - 1 - (s.image_width : Int) + 1 : Int)) : α)
        - epsDouble) / bbs
        - (((⌊beta / bbs⌋ + (s.image_width : Int) - 1 - (s.image_width : Int) : Int)) : α)
          = 1 - epsDouble / bbs := by
      push_cast
      field_simp
      ring
    rw [hq]
    have h1 : epsDouble / bbs ≤ 1 := (div_le_one hbbs0).2 hbbs
    have h2 : 0 < epsDouble / bbs := div_pos heps hbbs0
    refine ⟨by omega, by omega, by linarith, by linarith, fun _ => by omega⟩
  · simp only [if_neg h]
    have h1 := Int.floor_le (beta / bbs)
    have h2 := Int.lt_floor_add_one (beta / bbs)
    have hc : (((⌊beta / bbs⌋ + (s.image_width : Int) - (s.image_width : Int) : Int)) : α)
        = ((⌊beta / bbs⌋ : Int) : α) := by
      congr 1; omega
    rw [hc]
    refine ⟨by omega, by omega, by linarith, by linarith, fun he => ?_⟩
    have := hedge he
    omega

end BorderBins

section BoundaryClamping

variable {α : Type} [LinearOrderedField α] [FloorRing α]

theorem interpolate_in_range (s : SpinImageEstimation α) (e : Env α) (bs bbs alpha beta : α)
    (hW : 1 ≤ s.image_width) (hbs : epsDouble ≤ bs)
    (hbbs : betaBinSize s e bs = Except.ok bbs) (hbbs2 : epsDouble ≤ bbs)
    (ha0 : 0 ≤ alpha) (ha1 : alpha ≤ bs * (s.image_width : α))
    (hb0 : -(bbs * (s.image_width : α)) ≤ beta) (hb1 : beta ≤ bbs * (s.image_width : α)) :
    ∃ sp, interpolate s e bs alpha beta = Except.ok sp ∧
      0 ≤ sp.alpha_bin ∧ sp.alpha_bin ≤ (s.image_width : Int) - 1 ∧
      0 ≤ sp.beta_bin ∧ sp.beta_bin ≤ 2 * (s.image_width : Int) - 1 ∧
      0 ≤ sp.a ∧ sp.a ≤ 1 ∧ 0 ≤ sp.b ∧ sp.b ≤ 1 ∧
      (alpha = bs * (s.image_width : α) → sp.alpha_bin = (s.image_width : Int) - 1) ∧
      (beta = bbs * (s.image_width : α) → sp.beta_bin = 2 * (s.image_width : Int) - 1) := by
  have heps : (0 : α) < epsDouble := epsDouble_pos
  have hbs0 : 0 < bs := lt_of_lt_of_le heps hbs
  have hbbs0 : 0 < bbs := lt_of_lt_of_le heps hbbs2
  obtain ⟨A1, A2, A3, A4, A5⟩ := alphaBorder_spec s bs alpha hW hbs ha0 ha1
  obtain ⟨B1, B2, B3, B4, B5⟩ := betaBorder_spec s bbs beta hW hbbs2 hb0 hb1
  have hqa0 : 0 ≤ alpha / bs := div_nonneg ha0 hbs0.le
  have hqa1 : alpha / bs ≤ (s.image_width : α) := by
    rw [div_le_iff₀ hbs0]; linarith [mul_comm bs (s.image_width : α)]
  have hqb0 : -(s.image_width : α) ≤ beta / bbs := by
    rw [le_div_iff₀ hbbs0]; linarith [mul_comm bbs (s.image_width : α)]
  have hqb1 : beta / bbs ≤ (s.image_width : α) := by
    rw [div_le_iff₀ hbbs0]; linarith [mul_comm bbs (s.image_width : α)]
  have hfa0 : 0 ≤ ⌊alpha / bs⌋ := Int.floor_nonneg.2 hqa0
  have hfa1 : ⌊alpha / bs⌋ ≤ (s.image_width : Int) := by
    have := Int.floor_mono hqa1
    simpa using this
  have hfb0 : -(s.image_width : Int) ≤ ⌊beta / bbs⌋ := by
    rw [Int.le_floor]; push_cast; exact hqb0
  have hfb1 : ⌊beta / bbs⌋ ≤ (s.image_width : Int) := by
    have := Int.floor_mono hqb1
    simpa using this
  have c1 : cassert e (decide (alpha ≥ 0)) = Except.ok () :=
    cassert_of_true _ _ (decide_eq_true ha0)
  have c2 : cassert e (decide (alpha ≤ bs * (s.image_width : α) + 20 * epsFloat)) = Except.ok () :=
    cassert_of_true _ _ (decide_eq_true (by linarith [epsFloat_pos (α := α)]))
  have c3 : cassert e (decide (0 ≤ ⌊beta / bbs⌋ + (s.image_width : Int) ∧
      ⌊beta / bbs⌋ + (s.image_width : Int) < 2 * (s.image_width : Int) + 1)) = Except.ok () :=
    cassert_of_true _ _ (decide_eq_true ⟨by omega, by omega⟩)
  have c4 : cassert e (decide (0 ≤ ⌊alpha / bs⌋ ∧ ⌊alpha / bs⌋ < (s.image_width : Int) + 1))
      = Except.ok () :=
    cassert_of_true _ _ (decide_eq_true ⟨hfa0, by omega⟩)
  have c5 := cassert_of_true e _ (decide_eq_true (And.intro A3 A4))
  have c6 := cassert_of_true e _ (decide_eq_true (And.intro B3 B4))
  unfold interpolate
  simp only [c1, c2, hbbs, fdiv_of_ne _ _ hbs0.ne', fdiv_of_ne _ _ hbbs0.ne', bind_ok_eq, c3, c4,
    c5, c6, pure_eq_ok]
  exact ⟨_, rfl, A1, A2, B1, B2, A3, A4, B3, B4, A5, B5⟩

end BoundaryClamping

section BadNormals

variable {α : Type} [LinearOrderedField α] [FloorRing α]

theorem normalFilter_not_normalized (s : SpinImageEstimation α) (query_normal n : Vector3f α)
    (nn : Nat) (hfilter : 0 < s.support_angle_cos ∨ s.is_angular = true)
    (hn : pointAt s.normals nn = Except.ok n)
    (hdot : |query_normal.dot n| > 1 + 10 * epsFloat) :
    normalFilter s (some query_normal) nn = Except.error SiError.normalsNotNormalized := by
  unfold normalFilter
  rw [if_pos hfilter, hn]
  simp only [initialized, pure_eq_ok, bind_ok_eq]
  rw [if_pos hdot]
  rfl

theorem neighborSplat_not_normalized (s : SpinImageEstimation α) (e : Env α)
    (q query_normal n : Vector3f α) (axis : Option (Vector3f α))
    (nn : Nat) (hfilter : 0 < s.support_angle_cos ∨ s.is_angular = true)
    (hn : pointAt s.normals nn = Except.ok n)
    (hdot : |query_normal.dot n| > 1 + 10 * epsFloat) :
    neighborSplat s e q (some query_normal) axis nn
      = Except.error SiError.normalsNotNormalized := by
  unfold neighborSplat
  rw [normalFilter_not_normalized s query_normal n nn hfilter hn hdot]
  rfl

theorem accumulate_error_of_mem (s : SpinImageEstimation α) (e : Env α) (q : Vector3f α)
    (n ax : Option (Vector3f α)) (l : List Nat) (acc : Grid α × Grid α) (nn : Nat)
    (err0 : SiError) (hmem : nn ∈ l) (hnn : neighborSplat s e q n ax nn = Except.error err0) :
    ∃ err, accumulate s e q n ax l acc = Except.error err := by
  induction l generalizing acc with
  | nil => simp at hmem
  | cons x rest ih =>
    unfold accumulate
    cases hx : neighborSplat s e q n ax x with
    | error err => exact ⟨err, rfl⟩
    | ok r =>
      have hne : x ≠ nn := by
        intro h; rw [h, hnn] at hx; cases hx
      have hmem1 : nn ∈ rest := by
        rcases List.mem_cons.1 hmem with h | h
        · exact absurd h.symm hne
        · exact h
      simp only [bind_ok_eq]
      cases r with
      | none => exact ih acc hmem1
      | some c =>
        simp only []
        cases accumulateOne s e acc c with
        | error err => exact ⟨err, rfl⟩
        | ok acc1 => simp only [bind_ok_eq]; exact ih acc1 hmem1

/-- C6 (amended). With the filter on the normals active, for a query that passes
the initial assertions and reads and whose neighbour count meets the minimum: if
one of the neighbours returned has a normal `n` with
`|dot (query normal, n)| > 1 + 10 * epsilon` (as the query point itself does in
self-comparison mode when its normal has magnitude 2), `computeSiForPoint` returns
no grid but fails, with another exception than "too few points"; and it fails
with "Some normals are not normalized" when that neighbour is the first one
returned by the search. -/
theorem bad_normals_fail (s : SpinImageEstimation α) (e : Env α) (index nn : Nat)
    (origin_point query_normal n : Vector3f α) (axis : Option (Vector3f α))
    (hfilter : 0 < s.support_angle_cos ∨ s.is_angular = true)
    (hassert : e.ndebug = true ∨
      (s.image_width > 0 ∧ s.support_angle_cos ≤ 1 ∧ s.support_angle_cos ≥ 0))
    (horigin : originOf s index = Except.ok (origin_point, some query_normal))
    (haxis : rotationAxisOf s index (some query_normal) = Except.ok axis)
    (hcount : ¬ ((e.searchForNeighbors index s.search_radius).length : Int)
      < toInt32 s.min_pts_neighb)
    (hnn : nn ∈ e.searchForNeighbors index s.search_radius)
    (hn : pointAt s.normals nn = Except.ok n)
    (hdot : |query_normal.dot n| > 1 + 10 * epsFloat) :
    (∃ err, computeSiForPoint s e index = Except.error err ∧ err ≠ SiError.tooFewPoints) ∧
      ((e.searchForNeighbors index s.search_radius).head? = some nn →
        computeSiForPoint s e index = Except.error SiError.normalsNotNormalized) := by
  have hc1 : cassert e (decide (s.image_width > 0)) = Except.ok () := by
    unfold cassert
    rcases hassert with h | h
    · simp [h, pure_eq_ok]
    · simp [h.1, pure_eq_ok]
  have hc2 : cassert e (decide (s.support_angle_cos ≤ 1 ∧ s.support_angle_cos ≥ 0))
      = Except.ok () := by
    unfold cassert
    rcases hassert with h | h
    · simp [h, pure_eq_ok]
    · simp [h.2.1, h.2.2, pure_eq_ok]
  have hsplat := neighborSplat_not_normalized s e origin_point query_normal n axis nn
    hfilter hn hdot
  have hred : computeSiForPoint s e index
      = (accumulate s e origin_point (some query_normal) axis
          (e.searchForNeighbors index s.search_radius)
          (gridZero (s.image_width + 1) (2 * s.image_width + 1),
            gridZero (s.image_width + 1) (2 * s.image_width + 1))
        >>= fun acc =>
          normalize s ((e.searchForNeighbors index s.search_radius).length : Int) acc) := by
    unfold computeSiForPoint
    rw [hc1, hc2, bind_ok_eq, bind_ok_eq, horigin, bind_ok_eq, haxis, bind_ok_eq]
    simp only [if_neg hcount]
  constructor
  · obtain ⟨err, herr⟩ := accumulate_error_of_mem s e origin_point (some query_normal) axis
      (e.searchForNeighbors index s.search_radius)
      (gridZero (s.image_width + 1) (2 * s.image_width + 1),
        gridZero (s.image_width + 1) (2 * s.image_width + 1)) nn _ hnn hsplat
    refine ⟨err, ?_, ?_⟩
    · rw [hred, herr]; rfl
    · intro h
      have := notTooFew_accumulate s e origin_point (some query_normal) axis
        (e.searchForNeighbors index s.search_radius)
        (gridZero (s.image_width + 1) (2 * s.image_width + 1),
          gridZero (s.image_width + 1) (2 * s.image_width + 1))
      rw [herr, h] at this
      exact this rfl
  · intro hhead
    rw [hred]
    cases hl : e.searchForNeighbors index s.search_radius with
    | nil => rw [hl] at hhead; cases hhead
    | cons x rest =>
      rw [hl] at hhead
      simp only [List.head?_cons, Option.some.injEq] at hhead
      subst hhead
      unfold accumulate
      rw [hsplat]
      rfl

end BadNormals

section Validation

variable {α : Type} [LinearOrderedField α] [FloorRing α]

/-- C7. With an axis cloud of one axis for a query cloud of two points (and
everything else in order) `initCompute` returns `true` and writes no message:
the mismatch of the sizes is not rejected. -/
theorem initCompute_accepts_mismatched_axes :
    initCompute
        (initScene false true (some [⟨0, 0, 1⟩, ⟨0, 0, 1⟩]) [⟨0, 0, 1⟩] : SpinImageEstimation ℚ)
        (plainEnv id id id 3 false []) =
      Except.ok ⟨true, none,
        aliasSurface (initScene false true (some [⟨0, 0, 1⟩, ⟨0, 0, 1⟩]) [⟨0, 0, 1⟩])⟩ := by
  simp [initCompute, initScene, plainEnv, aliasSurface, aliasInputNormals, cassert, cloudSize,
    bind_ok_eq, pure_eq_ok]

/-- C8. With one axis per query point (two axes for two points), input normals
present and the axis cloud as the only axis source, `initCompute` returns `false`
with the message "Rotation axis cloud have different size from input!": a valid
setup is rejected. -/
theorem initCompute_rejects_matching_axes :
    initCompute
        (initScene false true (some [⟨0, 0, 1⟩, ⟨0, 0, 1⟩]) [⟨0, 0, 1⟩, ⟨0, 0, 1⟩] :
          SpinImageEstimation ℚ)
        (plainEnv id id id 3 false []) =
      Except.ok ⟨false, some InitMessage.axesCloudSize,
        aliasSurface
          (initScene false true (some [⟨0, 0, 1⟩, ⟨0, 0, 1⟩]) [⟨0, 0, 1⟩, ⟨0, 0, 1⟩])⟩ := by
  simp [initCompute, initScene, plainEnv, aliasSurface, aliasInputNormals, cassert, cloudSize,
    bind_ok_eq, pure_eq_ok]

/-- Without assertions line 268 is compiled out and the two flags are not
compared: with both a fixed axis and an axis cloud configured, and an axis cloud
of one axis for two query points, `initCompute` returns `true`; the cloud of
the wrong size passes the test of line 289 as it does without the fixed axis. -/
theorem conflicting_axes_accepted_ndebug :
    initCompute
        (initScene true true (some [⟨0, 0, 1⟩, ⟨0, 0, 1⟩]) [⟨0, 0, 1⟩] : SpinImageEstimation ℚ)
        (plainEnv id id id 3 true []) =
      Except.ok ⟨true, none,
        aliasSurface (initScene true true (some [⟨0, 0, 1⟩, ⟨0, 0, 1⟩]) [⟨0, 0, 1⟩])⟩ := by
  simp [initCompute, initScene, plainEnv, aliasSurface, aliasInputNormals, cassert, cloudSize,
    bind_ok_eq, pure_eq_ok]

theorem aliasSurface_flags (s : SpinImageEstimation α) :
    (aliasSurface s).use_custom_axis = s.use_custom_axis ∧
      (aliasSurface s).use_custom_axes_cloud = s.use_custom_axes_cloud ∧
      (aliasSurface s).is_angular = s.is_angular ∧
      (aliasSurface s).support_angle_cos = s.support_angle_cos := by
  unfold aliasSurface
  split <;> exact ⟨rfl, rfl, rfl, rfl⟩

theorem aliasInputNormals_flags (s : SpinImageEstimation α) :
    (aliasInputNormals s).use_custom_axis = s.use_custom_axis ∧
      (aliasInputNormals s).use_custom_axes_cloud = s.use_custom_axes_cloud ∧
      (aliasInputNormals s).is_angular = s.is_angular ∧
      (aliasInputNormals s).support_angle_cos = s.support_angle_cos := by
  unfold aliasInputNormals
  split <;> exact ⟨rfl, rfl, rfl, rfl⟩

theorem aliased_flags (s : SpinImageEstimation α) :
    (aliasInputNormals (aliasSurface s)).use_custom_axis = s.use_custom_axis ∧
      (aliasInputNormals (aliasSurface s)).use_custom_axes_cloud = s.use_custom_axes_cloud ∧
      (aliasInputNormals (aliasSurface s)).is_angular = s.is_angular ∧
      (aliasInputNormals (aliasSurface s)).support_angle_cos = s.support_angle_cos := by
  obtain ⟨a1, a2, a3, a4⟩ := aliasSurface_flags s
  obtain ⟨b1, b2, b3, b4⟩ := aliasInputNormals_flags (aliasSurface s)
  exact ⟨b1.trans a1, b2.trans a2, b3.trans a3, b4.trans a4⟩

/-- C10. When the input normals are absent after the aliasing step and no axis
source is configured, or `is_angular` is set, or `support_angle_cos > 0`,
`initCompute` does not succeed: it returns `false` (with "Init failed." if the
base class fails, with "No normals for input cloud were given!" otherwise), except
that a build with assertions stops at the assertion of line 268 when both axis
sources are configured.  With an explicit axis, `is_angular` false and
`support_angle_cos ≤ 0`, absent input normals never make `initCompute` fail with
the message about normals, and with a fixed axis alone it returns `true`. -/
theorem initCompute_requires_normals (s : SpinImageEstimation α) (e : Env α)
    (hnone : (aliasInputNormals (aliasSurface s)).input_normals = none) :
    (((s.use_custom_axis = false ∧ s.use_custom_axes_cloud = false) ∨ s.is_angular = true
          ∨ s.support_angle_cos > 0) →
        initCompute s e =
          if e.baseInitCompute (aliasSurface s) = true then
            if e.ndebug = false ∧ s.use_custom_axis = true ∧ s.use_custom_axes_cloud = true then
              Except.error SiError.assertionFailed
            else
              Except.ok ⟨false, some InitMessage.noNormals,
                e.baseDeinitCompute (aliasInputNormals (aliasSurface s))⟩
          else Except.ok ⟨false, some InitMessage.initFailed, aliasSurface s⟩) ∧
      ((s.use_custom_axis = true ∨ s.use_custom_axes_cloud = true) → s.is_angular = false →
        s.support_angle_cos ≤ 0 →
        (∀ r, initCompute s e = Except.ok r → r.message ≠ some InitMessage.noNormals) ∧
        (e.baseInitCompute (aliasSurface s) = true → s.use_custom_axes_cloud = false →
          initCompute s e = Except.ok ⟨true, none, aliasInputNormals (aliasSurface s)⟩)) := by
  obtain ⟨f1, f2, f3, f4⟩ := aliased_flags s
  constructor
  · intro hcase
    unfold initCompute
    by_cases hb : e.baseInitCompute (aliasSurface s) = true
    · simp only [hb, Bool.not_true, Bool.false_eq_true, if_false, if_true, f1, f2, f3, f4, hnone,
        Option.isNone_none, Bool.and_true]
      by_cases hconf : e.ndebug = false ∧ s.use_custom_axis = true ∧ s.use_custom_axes_cloud = true
      · obtain ⟨c1, c2, c3⟩ := hconf
        simp [cassert, c1, c2, c3, throw_eq_error, bind_error_eq]
      · rw [if_neg hconf]
        have hc : cassert e (!(s.use_custom_axis && s.use_custom_axes_cloud)) = Except.ok () := by
          unfold cassert
          cases hnd : e.ndebug <;> cases hca : s.use_custom_axis <;>
            cases hcc : s.use_custom_axes_cloud <;> simp_all [pure_eq_ok]
        rw [hc, bind_ok_eq]
        rcases hcase with h | h | h
        · simp [h.1, h.2, pure_eq_ok]
        · simp [h, pure_eq_ok]
        · have hd : decide (s.support_angle_cos > 0) = true := decide_eq_true h
          simp [hd, pure_eq_ok]
    · simp only [Bool.not_eq_true] at hb
      simp [hb, pure_eq_ok]
  · intro haxis hang hcos
    have hd : decide (s.support_angle_cos > 0) = false := decide_eq_false (not_lt.2 hcos)
    constructor
    · intro r hr
      unfold initCompute at hr
      by_cases hb : e.baseInitCompute (aliasSurface s) = true
      · simp only [hb, Bool.not_true, Bool.false_eq_true, if_false, f1, f2, f3, f4, hnone,
          Option.isNone_none, Bool.and_true, hang, hd, Bool.or_self] at hr
        rw [bind_eq_ok_iff] at hr
        obtain ⟨_, _, hr⟩ := hr
        have hnot : (!s.use_custom_axis && !s.use_custom_axes_cloud) = false := by
          rcases haxis with h | h <;> simp [h]
        simp only [hnot, Bool.false_eq_true, if_false] at hr
        split at hr
        · rw [bind_eq_ok_iff] at hr
          obtain ⟨_, _, hr⟩ := hr
          rw [bind_eq_ok_iff] at hr
          obtain ⟨_, _, hr⟩ := hr
          split at hr <;> cases hr <;> simp
        · cases hr; simp
      · simp only [Bool.not_eq_true] at hb
        simp only [hb, Bool.not_false, if_true, pure_eq_ok] at hr
        cases hr; simp
    · intro hb hcc
      have hca : s.use_custom_axis = true := by
        rcases haxis with h | h
        · exact h
        · rw [hcc] at h; cases h
      unfold initCompute
      simp [hb, f1, f2, f3, f4, hnone, hang, hd, hca, hcc, cassert, pure_eq_ok, bind_ok_eq]

end Validation

section DemoNeighbours

theorem demo_filter (n0 n : Vector3f ℝ) (c : ℝ) (nn : Nat)
    (hn : pointAt (demoScene true (1 / 8) 2 0 n0 : SpinImageEstimation ℝ).normals nn = Except.ok n)
    (hc : n0.dot n = c) (h1 : 1 / 8 ≤ c) (h2 : c ≤ 1) :
    normalFilter (demoScene true (1 / 8) 2 0 n0 : SpinImageEstimation ℝ) (some n0) nn
      = Except.ok (some c) := by
  have habs : |c| = c := abs_of_nonneg (by linarith)
  have hmin : min 1 c = c := min_eq_right h2
  have hmax : max (-1) c = c := max_eq_right (by linarith)
  have hs : (demoScene true (1 / 8) 2 0 n0 : SpinImageEstimation ℝ).support_angle_cos = 1 / 8 := rfl
  unfold normalFilter
  rw [hn, hs]
  simp only [initialized, pure_eq_ok, bind_ok_eq, hc, hmin, hmax, habs]
  rw [if_pos (Or.inl (by norm_num)), if_neg, if_neg (by linarith), if_neg (by linarith)]
  have := epsFloat_pos (α := ℝ)
  linarith

theorem demo_splat_self (n0 : Vector3f ℝ) (h1 : 1 / 8 ≤ n0.dot n0) (h2 : n0.dot n0 ≤ 1) :
    neighborSplat (demoScene true (1 / 8) 2 0 n0 : SpinImageEstimation ℝ)
      (plainEnv Real.sqrt Real.arcsin Real.arccos Real.pi false [0, 1, 2]) ⟨0, 0, 0⟩
      (some n0) (some n0) 0 = Except.ok none := by
  unfold neighborSplat
  rw [demo_filter n0 n0 _ 0 rfl rfl h1 h2]
  simp only [bind_ok_eq, demoScene, pointAt, List.get?, pure_eq_ok, Vector3f.sub, norm,
    Vector3f.dot, plainEnv]
  norm_num [epsDouble]

theorem demo_splat_side (n0 p : Vector3f ℝ) (nn : Nat)
    (hn : pointAt (demoScene true (1 / 8) 2 0 n0 : SpinImageEstimation ℝ).normals nn
      = Except.ok ⟨0, 0, 1⟩)
    (hp : pointAt (demoScene true (1 / 8) 2 0 n0 : SpinImageEstimation ℝ).surface nn
      = Except.ok p)
    (hz : p.z = 0) (hnorm : p.x * p.x + p.y * p.y = 1)
    (hx : n0.x = 0) (hy : n0.y = 0) (h1 : 1 / 8 ≤ n0.z) (h2 : n0.z ≤ 1) :
    neighborSplat (demoScene true (1 / 8) 2 0 n0 : SpinImageEstimation ℝ)
      (plainEnv Real.sqrt Real.arcsin Real.arccos Real.pi false [0, 1, 2]) ⟨0, 0, 0⟩
      (some n0) (some n0) nn = Except.ok (some (n0.z, ⟨0, 1, 1 / 2, 0⟩)) := by
  have hd : n0.dot ⟨0, 0, 1⟩ = n0.z := by simp [Vector3f.dot]
  have hdir : (p.sub ⟨0, 0, 0⟩) = p := by cases p; simp [Vector3f.sub]
  have hpp : p.dot p = 1 := by simp only [Vector3f.dot, hz]; linarith
  have hpn : p.dot n0 = 0 := by simp [Vector3f.dot, hx, hy, hz]
  have hpi : (Real.pi : ℝ) ≠ 0 := Real.pi_ne_zero
  have hf : ⌊(2 : ℝ)⁻¹⌋ = 0 := by rw [Int.floor_eq_iff]; norm_num
  unfold neighborSplat
  rw [demo_filter n0 ⟨0, 0, 1⟩ _ nn hn hd h1 h2]
  simp only [bind_ok_eq, hp, hdir, norm, plainEnv, hpp, Real.sqrt_one, hpn]
  simp only [cassert, initialized, pure_eq_ok, bind_ok_eq, binSize, demoScene, fdiv, coordinates,
    interpolate, betaBinSize, alphaBorder, betaBorder, epsFloat, epsDouble, hpn]
  norm_num [hpi, hf, bind_ok_eq, pure_eq_ok]

end DemoNeighbours

section DemoGrid

theorem demo_accumulateOne (n0 : Vector3f ℝ) (e : Env ℝ) (c x y : ℝ) :
    accumulateOne (demoScene true (1 / 8) 2 0 n0 : SpinImageEstimation ℝ) e
      ([[0, x, 0], [0, y, 0]], gridZero 2 3) (c, ⟨0, 1, 1 / 2, 0⟩)
      = Except.ok ([[0, x + 1 / 2, 0], [0, y + 1 / 2, 0]], gridZero 2 3) := by
  simp only [accumulateOne, bilinearCells, gridAddCells, gridAdd, demoScene, bind_ok_eq,
    pure_eq_ok]
  norm_num [rowAdd, bind_ok_eq, pure_eq_ok]

theorem demo_accumulate (n0 : Vector3f ℝ)
    (hx : n0.x = 0) (hy : n0.y = 0) (h1 : 1 / 2 ≤ n0.z) (h2 : n0.z ≤ 1) :
    accumulate (demoScene true (1 / 8) 2 0 n0 : SpinImageEstimation ℝ)
      (plainEnv Real.sqrt Real.arcsin Real.arccos Real.pi false [0, 1, 2]) ⟨0, 0, 0⟩
      (some n0) (some n0) [0, 1, 2] (gridZero 2 3, gridZero 2 3)
      = Except.ok ([[0, 1, 0], [0, 1, 0]], gridZero 2 3) := by
  have hdot : n0.dot n0 = n0.z * n0.z := by simp [Vector3f.dot, hx, hy]
  have hs := demo_splat_self n0 (by rw [hdot]; nlinarith) (by rw [hdot]; nlinarith)
  have h1s := demo_splat_side n0 ⟨1, 0, 0⟩ 1 rfl rfl rfl (by norm_num) hx hy (by linarith) h2
  have h2s := demo_splat_side n0 ⟨0, 1, 0⟩ 2 rfl rfl rfl (by norm_num) hx hy (by linarith) h2
  have hz : (gridZero 2 3 : Grid ℝ) = [[0, 0, 0], [0, 0, 0]] := rfl
  have a1 := demo_accumulateOne n0
    (plainEnv Real.sqrt Real.arcsin Real.arccos Real.pi false [0, 1, 2]) n0.z 0 0
  have a2 := demo_accumulateOne n0
    (plainEnv Real.sqrt Real.arcsin Real.arccos Real.pi false [0, 1, 2]) n0.z (0 + 1 / 2) (0 + 1 / 2)
  rw [← hz] at a1
  simp only [accumulate, hs, h1s, h2s, bind_ok_eq, a1, a2, pure_eq_ok]
  norm_num

theorem demo_eval (n0 : Vector3f ℝ)
    (hx : n0.x = 0) (hy : n0.y = 0) (h1 : 1 / 2 ≤ n0.z) (h2 : n0.z ≤ 1) :
    computeSiForPoint (demoScene true (1 / 8) 2 0 n0 : SpinImageEstimation ℝ)
      (plainEnv Real.sqrt Real.arcsin Real.arccos Real.pi false [0, 1, 2]) 0
      = Except.ok [[0, 1 / 2, 0], [0, 1 / 2, 0]] := by
  have hacc := demo_accumulate n0 hx hy h1 h2
  have ho : originOf (demoScene true (1 / 8) 2 0 n0 : SpinImageEstimation ℝ) 0
      = Except.ok (⟨0, 0, 0⟩, some n0) := rfl
  have hax : rotationAxisOf (demoScene true (1 / 8) 2 0 n0 : SpinImageEstimation ℝ) 0 (some n0)
      = Except.ok (some n0) := rfl
  have hc1 : cassert (plainEnv Real.sqrt Real.arcsin Real.arccos Real.pi false [0, 1, 2])
      (decide ((demoScene true (1 / 8) 2 0 n0 : SpinImageEstimation ℝ).image_width > 0))
      = Except.ok () := rfl
  have hc2 : cassert (plainEnv Real.sqrt Real.arcsin Real.arccos Real.pi false [0, 1, 2])
      (decide ((demoScene true (1 / 8) 2 0 n0 : SpinImageEstimation ℝ).support_angle_cos ≤ 1 ∧
        (demoScene true (1 / 8) 2 0 n0 : SpinImageEstimation ℝ).support_angle_cos ≥ 0))
      = Except.ok () := by
    apply cassert_of_true
    simp only [demoScene]
    norm_num
  unfold computeSiForPoint
  rw [hc1, hc2, bind_ok_eq, bind_ok_eq, ho, bind_ok_eq, hax, bind_ok_eq]
  have hs : (plainEnv Real.sqrt Real.arcsin Real.arccos Real.pi false [0, 1, 2]).searchForNeighbors 0
      (demoScene true (1 / 8) 2 0 n0 : SpinImageEstimation ℝ).search_radius = [0, 1, 2] := rfl
  have hw : (demoScene true (1 / 8) 2 0 n0 : SpinImageEstimation ℝ).image_width = 1 := rfl
  have hm : (demoScene true (1 / 8) 2 0 n0 : SpinImageEstimation ℝ).min_pts_neighb = 0 := rfl
  simp only [hs, hw, hm, hacc, bind_ok_eq]
  norm_num [toInt32, normalize, demoScene, gridDivScalar, gridSum, pure_eq_ok]

end DemoGrid

section RotationInvariance

variable {α : Type} [LinearOrderedField α] [FloorRing α]

/-- C2. Let `R` preserve the dot product and fix the rotation axis of the query
point `q`.  Replacing every surface point `p` by `q + R (p - q)` and every normal
(of the surface and of the query cloud) by its image under `R`, with the search
returning the same neighbours, leaves the outcome of `computeSiForPoint`
unchanged, in every mode; this holds when the query cloud is left as it is and
when it is moved with the surface (self-comparison). -/
theorem rotation_invariance (s : SpinImageEstimation α) (e : Env α) (index : Nat)
    (R : Vector3f α → Vector3f α) (q : Vector3f α)
    (hR : ∀ u v, (R u).dot (R v) = u.dot v)
    (hq : pointAt s.input index = Except.ok q)
    (haxis : ∀ origin ax, originOf s index = Except.ok origin →
      rotationAxisOf s index origin.2 = Except.ok (some ax) → R ax = ax) :
    computeSiForPoint (rotateScene R q s) e index = computeSiForPoint s e index ∧
      computeSiForPoint
          { rotateScene R q s with input := s.input.map (List.map (rotateAbout R q)) } e index
        = computeSiForPoint s e index := by
  constructor
  · exact computeSiForPoint_rotate R hR q s s.input e index hq hq haxis
  · refine computeSiForPoint_rotate R hR q s _ e index hq ?_ haxis
    rw [pointAt_map, hq, map_ok_eq, rotateAbout_self R hR]

end RotationInvariance

section DemoExamples

theorem demo_contributors (n0 : Vector3f ℝ)
    (hx : n0.x = 0) (hy : n0.y = 0) (h1 : 1 / 2 ≤ n0.z) (h2 : n0.z ≤ 1) :
    contributors (demoScene true (1 / 8) 2 0 n0 : SpinImageEstimation ℝ)
      (plainEnv Real.sqrt Real.arcsin Real.arccos Real.pi false [0, 1, 2]) 0 = [1, 2] := by
  have hdot : n0.dot n0 = n0.z * n0.z := by simp [Vector3f.dot, hx, hy]
  have hs := demo_splat_self n0 (by rw [hdot]; nlinarith) (by rw [hdot]; nlinarith)
  have h1s := demo_splat_side n0 ⟨1, 0, 0⟩ 1 rfl rfl rfl (by norm_num) hx hy (by linarith) h2
  have h2s := demo_splat_side n0 ⟨0, 1, 0⟩ 2 rfl rfl rfl (by norm_num) hx hy (by linarith) h2
  have ho : originOf (demoScene true (1 / 8) 2 0 n0 : SpinImageEstimation ℝ) 0
      = Except.ok (⟨0, 0, 0⟩, some n0) := rfl
  have hax : rotationAxisOf (demoScene true (1 / 8) 2 0 n0 : SpinImageEstimation ℝ) 0 (some n0)
      = Except.ok (some n0) := rfl
  have hl : (plainEnv Real.sqrt Real.arcsin Real.arccos Real.pi false [0, 1, 2]).searchForNeighbors 0
      (demoScene true (1 / 8) 2 0 n0 : SpinImageEstimation ℝ).search_radius = [0, 1, 2] := rfl
  unfold contributors
  simp only [ho, hax, hl]
  simp only [List.filter, contributes, hs, h1s, h2s]

/-- Witness of C1: the query point of the demonstration scene has the two
contributing neighbours 1 and 2, and its grid sums to 1. -/
theorem normalization_witness :
    computeSiForPoint (demoScene true (1 / 8) 2 0 ⟨0, 0, 1⟩ : SpinImageEstimation ℝ)
        (plainEnv Real.sqrt Real.arcsin Real.arccos Real.pi false [0, 1, 2]) 0
        = Except.ok [[0, 1 / 2, 0], [0, 1 / 2, 0]] ∧
      gridSum ([[0, 1 / 2, 0], [0, 1 / 2, 0]] : Grid ℝ) = 1 :=
  ⟨demo_eval ⟨0, 0, 1⟩ rfl rfl (by norm_num) (by norm_num),
    (normalization (demoScene true (1 / 8) 2 0 ⟨0, 0, 1⟩ : SpinImageEstimation ℝ)
      (plainEnv Real.sqrt Real.arcsin Real.arccos Real.pi false [0, 1, 2]) 0 _ rfl
      (demo_eval ⟨0, 0, 1⟩ rfl rfl (by norm_num) (by norm_num))
      (by rw [demo_contributors ⟨0, 0, 1⟩ rfl rfl (by norm_num) (by norm_num)]; decide)).2⟩

theorem quarterTurn_dot (u v : Vector3f ℝ) : (quarterTurn u).dot (quarterTurn v) = u.dot v := by
  simp only [quarterTurn, Vector3f.dot]
  ring

/-- Witness of C2: the demonstration scene turned by a quarter turn about the
normal of the query point. -/
theorem rotation_invariance_witness :
    computeSiForPoint
        (rotateScene quarterTurn ⟨0, 0, 0⟩
          (demoScene true (1 / 8) 2 0 ⟨0, 0, 1⟩ : SpinImageEstimation ℝ))
        (plainEnv Real.sqrt Real.arcsin Real.arccos Real.pi false [0, 1, 2]) 0
      = computeSiForPoint (demoScene true (1 / 8) 2 0 ⟨0, 0, 1⟩ : SpinImageEstimation ℝ)
        (plainEnv Real.sqrt Real.arcsin Real.arccos Real.pi false [0, 1, 2]) 0 :=
  (rotation_invariance (demoScene true (1 / 8) 2 0 ⟨0, 0, 1⟩ : SpinImageEstimation ℝ)
    (plainEnv Real.sqrt Real.arcsin Real.arccos Real.pi false [0, 1, 2]) 0 quarterTurn ⟨0, 0, 0⟩
    quarterTurn_dot rfl
    (by
      intro origin ax ho hax
      have ho2 : originOf (demoScene true (1 / 8) 2 0 ⟨0, 0, 1⟩ : SpinImageEstimation ℝ) 0
          = Except.ok (⟨0, 0, 0⟩, some ⟨0, 0, 1⟩) := rfl
      rw [ho2] at ho
      cases ho
      have hax2 : rotationAxisOf (demoScene true (1 / 8) 2 0 ⟨0, 0, 1⟩ : SpinImageEstimation ℝ) 0
          (some ⟨0, 0, 1⟩) = Except.ok (some ⟨0, 0, 1⟩) := rfl
      rw [hax2] at hax
      cases hax
      simp [quarterTurn])).1

end DemoExamples

section FailureExamples

/-- Example for the test of line 110: with three neighbours returned, a minimum of 0 does not
raise the exception and a minimum of 5 does. -/
theorem too_few_points_iff_witness :
    computeSiForPoint (demoScene true (1 / 8) 2 0 ⟨0, 0, 1⟩ : SpinImageEstimation ℝ)
          (plainEnv Real.sqrt Real.arcsin Real.arccos Real.pi false [0, 1, 2]) 0
        ≠ Except.error SiError.tooFewPoints ∧
      computeSiForPoint (demoScene true (1 / 8) 2 5 ⟨0, 0, 1⟩ : SpinImageEstimation ℝ)
          (plainEnv Real.sqrt Real.arcsin Real.arccos Real.pi false [0, 1, 2]) 0
        = Except.error SiError.tooFewPoints :=
  ⟨(too_few_points_iff (demoScene true (1 / 8) 2 0 ⟨0, 0, 1⟩ : SpinImageEstimation ℝ)
      (plainEnv Real.sqrt Real.arcsin Real.arccos Real.pi false [0, 1, 2]) 0).1
      (by simp [demoScene]),
    ((too_few_points_iff (demoScene true (1 / 8) 2 5 ⟨0, 0, 1⟩ : SpinImageEstimation ℝ)
      (plainEnv Real.sqrt Real.arcsin Real.arccos Real.pi false [0, 1, 2]) 0).2
      (by simp [demoScene])
      (Or.inr (by simp only [demoScene]; norm_num))
      ⟨(⟨0, 0, 0⟩, some ⟨0, 0, 1⟩), some ⟨0, 0, 1⟩, rfl, rfl⟩).2
      (by simp [demoScene, plainEnv])⟩

/-- C6 (as stated, refuted). The filter on the normals is active
(`support_angle_cos = 1/8`), the three neighbours meet the minimum of 0, and the
normal `(0, 0, 1/2)` of the query point is not of unit length; still
`computeSiForPoint` returns a grid. -/
theorem bad_normals_counterexample :
    (⟨0, 0, 1 / 2⟩ : Vector3f ℝ).dot ⟨0, 0, 1 / 2⟩ ≠ 1 ∧
      0 < (demoScene true (1 / 8) 2 0 ⟨0, 0, 1 / 2⟩ : SpinImageEstimation ℝ).support_angle_cos ∧
      computeSiForPoint (demoScene true (1 / 8) 2 0 ⟨0, 0, 1 / 2⟩ : SpinImageEstimation ℝ)
          (plainEnv Real.sqrt Real.arcsin Real.arccos Real.pi false [0, 1, 2]) 0
        = Except.ok [[0, 1 / 2, 0], [0, 1 / 2, 0]] := by
  refine ⟨?_, ?_, demo_eval ⟨0, 0, 1 / 2⟩ rfl rfl (by norm_num) (by norm_num)⟩
  · simp only [Vector3f.dot]; norm_num
  · simp only [demoScene]; norm_num

/-- Witness of C6: in self-comparison mode the query point, whose normal
`(0, 0, 2)` has magnitude 2, is the first of its own neighbours, and the
computation fails with "Some normals are not normalized". -/
theorem bad_normals_fail_witness :
    computeSiForPoint (demoScene true (1 / 8) 2 0 ⟨0, 0, 2⟩ : SpinImageEstimation ℝ)
        (plainEnv Real.sqrt Real.arcsin Real.arccos Real.pi false [0, 1, 2]) 0
      = Except.error SiError.normalsNotNormalized :=
  (bad_normals_fail (demoScene true (1 / 8) 2 0 ⟨0, 0, 2⟩ : SpinImageEstimation ℝ)
    (plainEnv Real.sqrt Real.arcsin Real.arccos Real.pi false [0, 1, 2]) 0 0
    ⟨0, 0, 0⟩ ⟨0, 0, 2⟩ ⟨0, 0, 2⟩ (some ⟨0, 0, 2⟩)
    (Or.inl (by simp only [demoScene]; norm_num))
    (Or.inr (by simp only [demoScene]; norm_num))
    rfl rfl
    (by simp [demoScene, plainEnv, toInt32])
    (by simp [plainEnv])
    rfl
    (by simp only [Vector3f.dot, epsFloat]; norm_num [abs_of_pos])).2 rfl

end FailureExamples

section BoundaryAndValidationExamples

theorem rect_binSize :
    binSize (demoScene false 0 (Real.sqrt 2) 0 ⟨0, 0, 1⟩ : SpinImageEstimation ℝ)
      (plainEnv Real.sqrt Real.arcsin Real.arccos Real.pi false [1]) = Except.ok 1 := by
  have h2 : Real.sqrt 2 ≠ 0 := by
    rw [Ne, Real.sqrt_eq_zero']; norm_num
  simp only [binSize, demoScene, plainEnv, fdiv, bind_ok_eq, pure_eq_ok]
  norm_num [h2, bind_ok_eq]

theorem rect_splat_edge :
    neighborSplat (demoScene false 0 (Real.sqrt 2) 0 ⟨0, 0, 1⟩ : SpinImageEstimation ℝ)
      (plainEnv Real.sqrt Real.arcsin Real.arccos Real.pi false [1]) ⟨0, 0, 0⟩
      (some ⟨0, 0, 1⟩) (some ⟨0, 0, 1⟩) 1 = Except.ok none := by
  have hf : normalFilter (demoScene false 0 (Real.sqrt 2) 0 ⟨0, 0, 1⟩ : SpinImageEstimation ℝ)
      (some ⟨0, 0, 1⟩) 1 = Except.ok (some (-2)) := by
    simp [normalFilter, demoScene, pure_eq_ok]
  have hp : pointAt (demoScene false 0 (Real.sqrt 2) 0 ⟨0, 0, 1⟩ : SpinImageEstimation ℝ).surface 1
      = Except.ok ⟨1, 0, 0⟩ := rfl
  have hn : norm (plainEnv Real.sqrt Real.arcsin Real.arccos Real.pi false [1])
      ((⟨1, 0, 0⟩ : Vector3f ℝ).sub ⟨0, 0, 0⟩) = 1 := by
    simp [norm, plainEnv, Vector3f.sub, Vector3f.dot]
  have hd : ((⟨1, 0, 0⟩ : Vector3f ℝ).sub ⟨0, 0, 0⟩).dot ⟨0, 0, 1⟩ = 0 := by
    simp [Vector3f.sub, Vector3f.dot]
  have hc : coordinates (demoScene false 0 (Real.sqrt 2) 0 ⟨0, 0, 1⟩ : SpinImageEstimation ℝ)
      (plainEnv Real.sqrt Real.arcsin Real.arccos Real.pi false [1]) 1 1 0 = none := by
    simp [coordinates, demoScene, plainEnv]
  unfold neighborSplat
  rw [hf]
  simp only [bind_ok_eq, hp, hn, hd, rect_binSize, initialized, pure_eq_ok, cassert, epsDouble,
    epsFloat]
  norm_num [bind_ok_eq, hc]

/-- C4 (as stated, refuted). Rectangular mode, `W = 1`, search radius `sqrt 2`, so
that `bin_size = 1`: the neighbour `(1, 0, 0)` of the query point `(0, 0, 0)`, at
distance 1 at right angles to the axis `(0, 0, 1)`, has `alpha = 1 = W * bin_size`
and `beta = 0`.  It is skipped by the cylinder test instead of being put into the
last bin: the query point has no contributing neighbour and its grid stays zero. -/
theorem boundary_clamping_counterexample :
    binSize (demoScene false 0 (Real.sqrt 2) 0 ⟨0, 0, 1⟩ : SpinImageEstimation ℝ)
        (plainEnv Real.sqrt Real.arcsin Real.arccos Real.pi false [1]) = Except.ok 1 ∧
      coordinates (demoScene false 0 (Real.sqrt 2) 0 ⟨0, 0, 1⟩ : SpinImageEstimation ℝ)
        (plainEnv Real.sqrt Real.arcsin Real.arccos Real.pi false [1]) 1 1 0 = none ∧
      contributors (demoScene false 0 (Real.sqrt 2) 0 ⟨0, 0, 1⟩ : SpinImageEstimation ℝ)
        (plainEnv Real.sqrt Real.arcsin Real.arccos Real.pi false [1]) 0 = [] ∧
      computeSiForPoint (demoScene false 0 (Real.sqrt 2) 0 ⟨0, 0, 1⟩ : SpinImageEstimation ℝ)
        (plainEnv Real.sqrt Real.arcsin Real.arccos Real.pi false [1]) 0
        = Except.ok [[0, 0, 0], [0, 0, 0]] := by
  have ho : originOf (demoScene false 0 (Real.sqrt 2) 0 ⟨0, 0, 1⟩ : SpinImageEstimation ℝ) 0
      = Except.ok (⟨0, 0, 0⟩, some ⟨0, 0, 1⟩) := rfl
  have hax : rotationAxisOf (demoScene false 0 (Real.sqrt 2) 0 ⟨0, 0, 1⟩ : SpinImageEstimation ℝ)
      0 (some ⟨0, 0, 1⟩) = Except.ok (some ⟨0, 0, 1⟩) := rfl
  have hl : (plainEnv Real.sqrt Real.arcsin Real.arccos Real.pi false [1]).searchForNeighbors 0
      (demoScene false 0 (Real.sqrt 2) 0 ⟨0, 0, 1⟩ : SpinImageEstimation ℝ).search_radius = [1] :=
    rfl
  refine ⟨rect_binSize, ?_, ?_, ?_⟩
  · simp [coordinates, demoScene, plainEnv]
  · unfold contributors
    simp only [ho, hax, hl]
    simp only [List.filter, contributes, rect_splat_edge]
  · have hc1 : cassert (plainEnv Real.sqrt Real.arcsin Real.arccos Real.pi false [1])
        (decide ((demoScene false 0 (Real.sqrt 2) 0 ⟨0, 0, 1⟩ :
          SpinImageEstimation ℝ).image_width > 0)) = Except.ok () := rfl
    have hc2 : cassert (plainEnv Real.sqrt Real.arcsin Real.arccos Real.pi false [1])
        (decide ((demoScene false 0 (Real.sqrt 2) 0 ⟨0, 0, 1⟩ :
            SpinImageEstimation ℝ).support_angle_cos ≤ 1 ∧
          (demoScene false 0 (Real.sqrt 2) 0 ⟨0, 0, 1⟩ :
            SpinImageEstimation ℝ).support_angle_cos ≥ 0)) = Except.ok () := by
      apply cassert_of_true
      simp only [demoScene]
      norm_num
    have hm : (demoScene false 0 (Real.sqrt 2) 0 ⟨0, 0, 1⟩ :
        SpinImageEstimation ℝ).min_pts_neighb = 0 := rfl
    unfold computeSiForPoint
    rw [hc1, hc2, bind_ok_eq, bind_ok_eq, ho, bind_ok_eq, hax, bind_ok_eq]
    simp only [hl, hm, accumulate, rect_splat_edge, bind_ok_eq, pure_eq_ok]
    norm_num [toInt32, normalize, demoScene, gridZero]
    rfl

/-- Witness of C10: without input normals and without an axis source
`initCompute` returns `false` with the message about the normals; with a fixed
axis, no angular mode and `support_angle_cos = 0` it returns `true`. -/
theorem initCompute_requires_normals_witness :
    initCompute (initScene false false none [] : SpinImageEstimation ℚ)
        (plainEnv id id id 3 false []) =
        Except.ok ⟨false, some InitMessage.noNormals,
          aliasInputNormals (aliasSurface (initScene false false none []))⟩ ∧
      initCompute (initScene true false none [] : SpinImageEstimation ℚ)
        (plainEnv id id id 3 false []) =
        Except.ok ⟨true, none, aliasInputNormals (aliasSurface (initScene true false none []))⟩ :=
  ⟨((initCompute_requires_normals (initScene false false none [] : SpinImageEstimation ℚ)
      (plainEnv id id id 3 false []) rfl).1 (Or.inl ⟨rfl, rfl⟩)).trans
      (by simp [plainEnv, initScene]),
    ((initCompute_requires_normals (initScene true false none [] : SpinImageEstimation ℚ)
      (plainEnv id id id 3 false []) rfl).2 (Or.inl rfl) rfl (le_refl _)).2 rfl rfl⟩

end BoundaryAndValidationExamples

section AxisSelection

variable {α : Type} [LinearOrderedField α] [FloorRing α]

theorem originOf_normal (s : SpinImageEstimation α) (index : Nat)
    (origin : Vector3f α × Option (Vector3f α))
    (horigin : originOf s index = Except.ok origin) :
    pointAt s.input index = Except.ok origin.1 ∧
      (s.input_normals = none → origin.2 = none) ∧
      (∀ normals, s.input_normals = some normals →
        ∃ query_normal, normals.get? index = some query_normal ∧
          origin.2 = some query_normal) := by
  unfold originOf at horigin
  rw [bind_eq_ok_iff] at horigin
  obtain ⟨p, hp, h⟩ := horigin
  cases hn : s.input_normals with
  | none =>
    rw [hn] at h
    cases h
    exact ⟨hp, fun _ => rfl, fun normals hc => by cases hc⟩
  | some normals =>
    rw [hn] at h
    simp only at h
    rw [bind_eq_ok_iff] at h
    obtain ⟨n, hnn, h⟩ := h
    cases h
    refine ⟨hp, fun hc => Option.noConfusion hc, fun normals2 hc => ?_⟩
    cases hc
    refine ⟨n, ?_, rfl⟩
    unfold pointAt at hnn
    simp only at hnn
    cases hg : normals.get? index with
    | none => rw [hg] at hnn; cases hnn
    | some v => rw [hg] at hnn; cases hnn; rfl

/-- C13. For every query index whose point (and normal, when input normals are
given) can be read, the rotation axis that `computeSiForPoint` hands to its
loop is the fixed axis `rotation_axis_` if `use_custom_axis_` is set; otherwise
the entry `index` of the axis cloud if `use_custom_axes_cloud_` is set;
otherwise the normal `input_normals_->points[index]` of the query point (the
placeholder of line 81 when there are no input normals).  With an explicit
axis the input normals need not exist.  The vector is taken as it is stored,
without being normalised. -/
theorem axis_selection (s : SpinImageEstimation α) (e : Env α) (index : Nat)
    (origin : Vector3f α × Option (Vector3f α))
    (horigin : originOf s index = Except.ok origin) :
    (s.use_custom_axis = true →
        rotationAxisOf s index origin.2 = Except.ok (some s.rotation_axis)) ∧
      (s.use_custom_axis = false → s.use_custom_axes_cloud = true →
        ∀ axes axis, s.rotation_axes_cloud = some axes → axes.get? index = some axis →
          rotationAxisOf s index origin.2 = Except.ok (some axis)) ∧
      (s.use_custom_axis = false → s.use_custom_axes_cloud = false →
        rotationAxisOf s index origin.2 = Except.ok origin.2 ∧
          (s.input_normals = none → origin.2 = none) ∧
          ∀ normals, s.input_normals = some normals →
            ∃ query_normal, normals.get? index = some query_normal ∧
              origin.2 = some query_normal) ∧
      ∀ axis, rotationAxisOf s index origin.2 = Except.ok axis →
        computeSiForPoint s e index =
          (cassert e (decide (s.image_width > 0)) >>= fun _ =>
            cassert e (decide (s.support_angle_cos ≤ 1 ∧ s.support_angle_cos ≥ 0)) >>= fun _ =>
              if ((e.searchForNeighbors index s.search_radius).length : Int)
                  < toInt32 s.min_pts_neighb then
                throw SiError.tooFewPoints
              else
                accumulate s e origin.1 origin.2 axis
                    (e.searchForNeighbors index s.search_radius)
                    (gridZero (s.image_width + 1) (2 * s.image_width + 1),
                      gridZero (s.image_width + 1) (2 * s.image_width + 1)) >>= fun acc =>
                  normalize s ((e.searchForNeighbors index s.search_radius).length : Int) acc) := by
  obtain ⟨_, hnone, hsome⟩ := originOf_normal s index origin horigin
  refine ⟨?_, ?_, ?_, ?_⟩
  · intro h
    unfold rotationAxisOf
    rw [if_pos h]; rfl
  · intro h1 h2 axes axis haxes haxis
    unfold rotationAxisOf
    simp only [h1, h2, Bool.false_eq_true, if_false, if_true, haxes, pointAt, haxis, pure_eq_ok,
      bind_ok_eq]
  · intro h1 h2
    refine ⟨?_, hnone, hsome⟩
    unfold rotationAxisOf
    simp only [h1, h2, Bool.false_eq_true, if_false, pure_eq_ok]
  · intro axis hax
    unfold computeSiForPoint
    cases cassert e (decide (s.image_width > 0)) with
    | error err => rfl
    | ok u1 =>
      simp only [bind_ok_eq]
      cases cassert e (decide (s.support_angle_cos ≤ 1 ∧ s.support_angle_cos ≥ 0)) with
      | error err => rfl
      | ok u2 =>
        simp only [bind_ok_eq, horigin, hax]

end AxisSelection

section Aliasing

variable {α : Type} [LinearOrderedField α] [FloorRing α]

theorem initCompute_success_state (s : SpinImageEstimation α) (e : Env α) (r : InitResult α)
    (h : initCompute s e = Except.ok r) (hv : r.value = true) :
    r.state = aliasInputNormals (aliasSurface s) := by
  unfold initCompute at h
  simp only at h
  split at h
  · cases h; cases hv
  · rw [bind_eq_ok_iff] at h
    obtain ⟨_, _, h⟩ := h
    split at h
    · cases h; cases hv
    · split at h
      · cases h; cases hv
      · split at h
        · rw [bind_eq_ok_iff] at h
          obtain ⟨_, _, h⟩ := h
          rw [bind_eq_ok_iff] at h
          obtain ⟨_, _, h⟩ := h
          split at h
          · cases h; cases hv
          · cases h; rfl
        · cases h; rfl

theorem aliasInputNormals_surface (s : SpinImageEstimation α) :
    (aliasInputNormals s).surface = s.surface ∧ (aliasInputNormals s).normals = s.normals ∧
      (aliasInputNormals s).input = s.input ∧
      (aliasInputNormals s).fake_surface = s.fake_surface := by
  unfold aliasInputNormals
  split <;> exact ⟨rfl, rfl, rfl, rfl⟩

/-- C17. When `initCompute` is entered without a surface cloud and returns
`true`, the state it leaves has the query cloud as surface cloud and the input
normals as surface normals (and `fake_surface_` set), so that
`computeSiForPoint` reads the neighbours and their normals from the query cloud
and its normals; when a surface cloud was set, the surface cloud and the surface
normals of the state it leaves are the ones it found. -/
theorem self_comparison_aliasing (s : SpinImageEstimation α) (e : Env α) (r : InitResult α)
    (h : initCompute s e = Except.ok r) (hv : r.value = true) :
    (s.surface = none →
        r.state.surface = s.input ∧ r.state.normals = s.input_normals ∧
          r.state.fake_surface = true ∧ r.state.input = s.input ∧
          ∀ nn, pointAt r.state.surface nn = pointAt s.input nn ∧
            pointAt r.state.normals nn = pointAt s.input_normals nn) ∧
      (s.surface ≠ none →
        r.state.surface = s.surface ∧ r.state.normals = s.normals ∧
          r.state.fake_surface = s.fake_surface) := by
  have hs := initCompute_success_state s e r h hv
  obtain ⟨a1, a2, a3, a4⟩ := aliasInputNormals_surface (aliasSurface s)
  rw [hs, a1, a2, a3, a4]
  constructor
  · intro hnone
    have h1 : aliasSurface s
        = { s with surface := s.input, normals := s.input_normals, fake_surface := true } := by
      unfold aliasSurface
      rw [hnone]; rfl
    rw [h1]
    exact ⟨rfl, rfl, rfl, rfl, fun _ => ⟨rfl, rfl⟩⟩
  · intro hsome
    have h1 : aliasSurface s = s := by
      unfold aliasSurface
      cases hsf : s.surface with
      | none => exact absurd hsf hsome
      | some pts => rfl
    rw [h1]
    exact ⟨rfl, rfl, rfl⟩

end Aliasing

section Degenerate

variable {α : Type} [LinearOrderedField α] [FloorRing α]

theorem grid_map_div_one (g : Grid α) : g.map (fun row => row.map (fun x => x / 1)) = g := by
  simp only [div_one, List.map_id_fun', id_eq]

theorem computeSiForPoint_unfold (s : SpinImageEstimation α) (e : Env α) (index : Nat)
    (g : Grid α) (h : computeSiForPoint s e index = Except.ok g) :
    ∃ origin axis acc, originOf s index = Except.ok origin ∧
      rotationAxisOf s index origin.2 = Except.ok axis ∧
      accumulate s e origin.1 origin.2 axis (e.searchForNeighbors index s.search_radius)
        (gridZero (s.image_width + 1) (2 * s.image_width + 1),
          gridZero (s.image_width + 1) (2 * s.image_width + 1)) = Except.ok acc ∧
      normalize s ((e.searchForNeighbors index s.search_radius).length : Int) acc
        = Except.ok g := by
  unfold computeSiForPoint at h
  rw [bind_eq_ok_iff] at h
  obtain ⟨_, _, h⟩ := h
  rw [bind_eq_ok_iff] at h
  obtain ⟨_, _, h⟩ := h
  rw [bind_eq_ok_iff] at h
  obtain ⟨origin, ho, h⟩ := h
  rw [bind_eq_ok_iff] at h
  obtain ⟨axis, hax, h⟩ := h
  dsimp only at h
  split at h
  · cases h
  · rw [bind_eq_ok_iff] at h
    obtain ⟨acc, hacc, h⟩ := h
    exact ⟨origin, axis, acc, ho, hax, hacc, h⟩

/-- C16 (amended). In non-angular mode, the grid returned for a query point
with exactly one contributing neighbour is the raw accumulated grid, which holds
the four bilinear weights of that neighbour: its entries add up to 1, and it is
not the all-zero grid. -/
theorem single_contributor_grid (s : SpinImageEstimation α) (e : Env α) (index : Nat)
    (g : Grid α) (hangular : s.is_angular = false)
    (hg : computeSiForPoint s e index = Except.ok g)
    (hone : (contributors s e index).length = 1) :
    gridSum g = 1 ∧ g ≠ gridZero (s.image_width + 1) (2 * s.image_width + 1) ∧
      ∃ origin axis acc, originOf s index = Except.ok origin ∧
        rotationAxisOf s index origin.2 = Except.ok axis ∧
        accumulate s e origin.1 origin.2 axis (e.searchForNeighbors index s.search_radius)
          (gridZero (s.image_width + 1) (2 * s.image_width + 1),
            gridZero (s.image_width + 1) (2 * s.image_width + 1)) = Except.ok acc ∧
        g = acc.1 := by
  obtain ⟨origin, axis, acc, ho, hax, hacc, hn⟩ := computeSiForPoint_unfold s e index g hg
  have hsum := accumulate_sum s e origin.1 origin.2 axis _ _ _ hacc
  simp only [gridSum_zero, zero_add] at hsum
  unfold contributors at hone
  simp only [ho, hax] at hone
  rw [hone] at hsum
  simp only [Nat.cast_one] at hsum
  have hgacc : g = acc.1 := by
    unfold normalize at hn
    simp only [hangular, Bool.false_eq_true, if_false] at hn
    split at hn
    · unfold gridDivScalar at hn
      rw [hsum, if_neg one_ne_zero] at hn
      cases hn
      exact grid_map_div_one acc.1
    · cases hn; rfl
  have hs1 : gridSum g = 1 := by rw [hgacc]; exact hsum
  refine ⟨hs1, ?_, origin, axis, acc, ho, hax, hacc, hgacc⟩
  intro hz
  rw [hz, gridSum_zero] at hs1
  exact zero_ne_one hs1

end Degenerate

section SearchIrrelevance

variable {α : Type} [LinearOrderedField α] [FloorRing α]

theorem neighborSplat_search (s : SpinImageEstimation α) (sqrt asin acos : α → α) (PI : α)
    (nd : Bool) (l l1 : List Nat) (q : Vector3f α) (n ax : Option (Vector3f α)) (nn : Nat) :
    neighborSplat s (plainEnv sqrt asin acos PI nd l) q n ax nn
      = neighborSplat s (plainEnv sqrt asin acos PI nd l1) q n ax nn := rfl

theorem accumulateOne_search (s : SpinImageEstimation α) (sqrt asin acos : α → α) (PI : α)
    (nd : Bool) (l l1 : List Nat) (acc : Grid α × Grid α) (c : α × Splat α) :
    accumulateOne s (plainEnv sqrt asin acos PI nd l) acc c
      = accumulateOne s (plainEnv sqrt asin acos PI nd l1) acc c := rfl

end SearchIrrelevance

section DegenerateExamples

theorem demo_single :
    contributors (demoScene true (1 / 8) 2 0 ⟨0, 0, 1⟩ : SpinImageEstimation ℝ)
        (plainEnv Real.sqrt Real.arcsin Real.arccos Real.pi false [0, 1]) 0 = [1] ∧
      computeSiForPoint (demoScene true (1 / 8) 2 0 ⟨0, 0, 1⟩ : SpinImageEstimation ℝ)
        (plainEnv Real.sqrt Real.arcsin Real.arccos Real.pi false [0, 1]) 0
        = Except.ok [[0, 1 / 2, 0], [0, 1 / 2, 0]] ∧
      ([[0, 1 / 2, 0], [0, 1 / 2, 0]] : Grid ℝ) ≠ gridZero 2 3 := by
  have hs := demo_splat_self ⟨0, 0, 1⟩ (by simp only [Vector3f.dot]; norm_num)
    (by simp only [Vector3f.dot]; norm_num)
  have h1s := demo_splat_side ⟨0, 0, 1⟩ ⟨1, 0, 0⟩ 1 rfl rfl rfl (by norm_num) rfl rfl
    (by norm_num) (by norm_num)
  rw [neighborSplat_search _ _ _ _ _ _ _ [0, 1]] at hs h1s
  have ho : originOf (demoScene true (1 / 8) 2 0 ⟨0, 0, 1⟩ : SpinImageEstimation ℝ) 0
      = Except.ok (⟨0, 0, 0⟩, some ⟨0, 0, 1⟩) := rfl
  have hax : rotationAxisOf (demoScene true (1 / 8) 2 0 ⟨0, 0, 1⟩ : SpinImageEstimation ℝ) 0
      (some ⟨0, 0, 1⟩) = Except.ok (some ⟨0, 0, 1⟩) := rfl
  have hl : (plainEnv Real.sqrt Real.arcsin Real.arccos Real.pi false [0, 1]).searchForNeighbors 0
      (demoScene true (1 / 8) 2 0 ⟨0, 0, 1⟩ : SpinImageEstimation ℝ).search_radius = [0, 1] := rfl
  have hz : (gridZero 2 3 : Grid ℝ) = [[0, 0, 0], [0, 0, 0]] := rfl
  have a1 := demo_accumulateOne ⟨0, 0, 1⟩
    (plainEnv Real.sqrt Real.arcsin Real.arccos Real.pi false [0, 1]) 1 0 0
  rw [← hz] at a1
  refine ⟨?_, ?_, ?_⟩
  · unfold contributors
    simp only [ho, hax, hl]
    simp only [List.filter, contributes, hs, h1s]
  · have hc1 : cassert (plainEnv Real.sqrt Real.arcsin Real.arccos Real.pi false [0, 1])
        (decide ((demoScene true (1 / 8) 2 0 ⟨0, 0, 1⟩ : SpinImageEstimation ℝ).image_width > 0))
        = Except.ok () := rfl
    have hc2 : cassert (plainEnv Real.sqrt Real.arcsin Real.arccos Real.pi false [0, 1])
        (decide ((demoScene true (1 / 8) 2 0 ⟨0, 0, 1⟩ : SpinImageEstimation ℝ).support_angle_cos ≤ 1 ∧
          (demoScene true (1 / 8) 2 0 ⟨0, 0, 1⟩ : SpinImageEstimation ℝ).support_angle_cos ≥ 0))
        = Except.ok () := by
      apply cassert_of_true
      simp only [demoScene]
      norm_num
    have hw : (demoScene true (1 / 8) 2 0 ⟨0, 0, 1⟩ : SpinImageEstimation ℝ).image_width = 1 := rfl
    have hm : (demoScene true (1 / 8) 2 0 ⟨0, 0, 1⟩ : SpinImageEstimation ℝ).min_pts_neighb = 0 :=
      rfl
    unfold computeSiForPoint
    rw [hc1, hc2, bind_ok_eq, bind_ok_eq, ho, bind_ok_eq, hax, bind_ok_eq]
    simp only [hl, hw, hm, accumulate, hs, h1s, bind_ok_eq, a1, pure_eq_ok]
    norm_num [toInt32, normalize, demoScene, gridDivScalar, gridSum, pure_eq_ok]
  · rw [hz]
    intro h
    have := congrArg (fun g => gridSum g) h
    simp [gridSum] at this

/-- C16 (as stated, refuted). Radial, non-angular mode; the search returns the
query point itself, which is skipped, and the point `(1, 0, 0)`, the only
contributing neighbour.  The returned grid holds the two weights `1/2` of that
neighbour; it is not the all-zero grid. -/
theorem single_contributor_counterexample :
    contributors (demoScene true (1 / 8) 2 0 ⟨0, 0, 1⟩ : SpinImageEstimation ℝ)
        (plainEnv Real.sqrt Real.arcsin Real.arccos Real.pi false [0, 1]) 0 = [1] ∧
      computeSiForPoint (demoScene true (1 / 8) 2 0 ⟨0, 0, 1⟩ : SpinImageEstimation ℝ)
        (plainEnv Real.sqrt Real.arcsin Real.arccos Real.pi false [0, 1]) 0
        = Except.ok [[0, 1 / 2, 0], [0, 1 / 2, 0]] ∧
      ([[0, 1 / 2, 0], [0, 1 / 2, 0]] : Grid ℝ) ≠ gridZero 2 3 :=
  demo_single

/-- Witness of C16: the grid of the query point with the single contributing
neighbour `(1, 0, 0)` sums to 1. -/
theorem single_contributor_grid_witness :
    gridSum ([[0, 1 / 2, 0], [0, 1 / 2, 0]] : Grid ℝ) = 1 ∧
      ([[0, 1 / 2, 0], [0, 1 / 2, 0]] : Grid ℝ) ≠ gridZero 2 3 :=
  have h := single_contributor_grid
    (demoScene true (1 / 8) 2 0 ⟨0, 0, 1⟩ : SpinImageEstimation ℝ)
    (plainEnv Real.sqrt Real.arcsin Real.arccos Real.pi false [0, 1]) 0
    [[0, 1 / 2, 0], [0, 1 / 2, 0]] rfl demo_single.2.1
    (by rw [demo_single.1]; rfl)
  ⟨h.1, h.2.1⟩

end DegenerateExamples


section ZeroSum

theorem rect_splat_self (l : List Nat) :
    neighborSplat (demoScene false 0 (Real.sqrt 2) 0 ⟨0, 0, 1⟩ : SpinImageEstimation ℝ)
      (plainEnv Real.sqrt Real.arcsin Real.arccos Real.pi false l) ⟨0, 0, 0⟩
      (some ⟨0, 0, 1⟩) (some ⟨0, 0, 1⟩) 0 = Except.ok none := by
  have hf : normalFilter (demoScene false 0 (Real.sqrt 2) 0 ⟨0, 0, 1⟩ : SpinImageEstimation ℝ)
      (some ⟨0, 0, 1⟩) 0 = Except.ok (some (-2)) := by
    simp [normalFilter, demoScene, pure_eq_ok]
  have hp : pointAt (demoScene false 0 (Real.sqrt 2) 0 ⟨0, 0, 1⟩ : SpinImageEstimation ℝ).surface 0
      = Except.ok ⟨0, 0, 0⟩ := rfl
  have hn : norm (plainEnv Real.sqrt Real.arcsin Real.arccos Real.pi false l)
      ((⟨0, 0, 0⟩ : Vector3f ℝ).sub ⟨0, 0, 0⟩) = 0 := by
    simp [norm, plainEnv, Vector3f.sub, Vector3f.dot]
  unfold neighborSplat
  rw [hf]
  simp only [bind_ok_eq, hp, hn, epsDouble]
  norm_num [pure_eq_ok]

theorem rect_splat_side (l : List Nat) (p : Vector3f ℝ) (nn : Nat)
    (hp : pointAt (demoScene false 0 (Real.sqrt 2) 0 ⟨0, 0, 1⟩ : SpinImageEstimation ℝ).surface nn
      = Except.ok p)
    (hz : p.z = 0) (hnorm : p.x * p.x + p.y * p.y = 1) :
    neighborSplat (demoScene false 0 (Real.sqrt 2) 0 ⟨0, 0, 1⟩ : SpinImageEstimation ℝ)
      (plainEnv Real.sqrt Real.arcsin Real.arccos Real.pi false l) ⟨0, 0, 0⟩
      (some ⟨0, 0, 1⟩) (some ⟨0, 0, 1⟩) nn = Except.ok none := by
  have hf : normalFilter (demoScene false 0 (Real.sqrt 2) 0 ⟨0, 0, 1⟩ : SpinImageEstimation ℝ)
      (some ⟨0, 0, 1⟩) nn = Except.ok (some (-2)) := by
    simp [normalFilter, demoScene, pure_eq_ok]
  have hdir : (p.sub ⟨0, 0, 0⟩) = p := by cases p; simp [Vector3f.sub]
  have hpp : p.dot p = 1 := by simp only [Vector3f.dot, hz]; linarith
  have hpn : p.dot ⟨0, 0, 1⟩ = 0 := by simp [Vector3f.dot, hz]
  have h2 : Real.sqrt 2 ≠ 0 := by
    rw [Ne, Real.sqrt_eq_zero']; norm_num
  have hb : binSize (demoScene false 0 (Real.sqrt 2) 0 ⟨0, 0, 1⟩ : SpinImageEstimation ℝ)
      (plainEnv Real.sqrt Real.arcsin Real.arccos Real.pi false l) = Except.ok 1 := by
    simp only [binSize, demoScene, plainEnv, fdiv, bind_ok_eq, pure_eq_ok]
    norm_num [h2, bind_ok_eq]
  have hc : coordinates (demoScene false 0 (Real.sqrt 2) 0 ⟨0, 0, 1⟩ : SpinImageEstimation ℝ)
      (plainEnv Real.sqrt Real.arcsin Real.arccos Real.pi false l) 1 1 0 = none := by
    simp [coordinates, demoScene, plainEnv]
  unfold neighborSplat
  rw [hf]
  simp only [bind_ok_eq, hp, hdir, norm, plainEnv, hpp, Real.sqrt_one, hpn]
  simp only [plainEnv] at hb hc
  simp only [hb, initialized, pure_eq_ok, cassert, epsDouble, epsFloat, bind_ok_eq, hpn]
  norm_num [bind_ok_eq, hc]

/-- C15. Rectangular, non-angular mode, `W = 1`, search radius `sqrt 2`
(`bin_size = 1`): the search returns the query point `(0, 0, 0)` itself and the
points `(1, 0, 0)` and `(0, 1, 0)`.  None of them contributes (the first is
coincident with the query point, the others have `alpha = 1 = W * bin_size`), the
grid stays zero, and since `neighb_cnt = 3 > 1` the grid is divided by its sum
0: the outcome is the division by zero (a grid of NaN in IEEE arithmetic), not
the all-zero grid. -/
theorem zero_sum_division :
    contributors (demoScene false 0 (Real.sqrt 2) 0 ⟨0, 0, 1⟩ : SpinImageEstimation ℝ)
        (plainEnv Real.sqrt Real.arcsin Real.arccos Real.pi false [0, 1, 2]) 0 = [] ∧
      computeSiForPoint (demoScene false 0 (Real.sqrt 2) 0 ⟨0, 0, 1⟩ : SpinImageEstimation ℝ)
        (plainEnv Real.sqrt Real.arcsin Real.arccos Real.pi false [0, 1, 2]) 0
        = Except.error SiError.notFinite := by
  have h0 := rect_splat_self [0, 1, 2]
  have h1 := rect_splat_side [0, 1, 2] ⟨1, 0, 0⟩ 1 rfl rfl (by norm_num)
  have h2 := rect_splat_side [0, 1, 2] ⟨0, 1, 0⟩ 2 rfl rfl (by norm_num)
  have ho : originOf (demoScene false 0 (Real.sqrt 2) 0 ⟨0, 0, 1⟩ : SpinImageEstimation ℝ) 0
      = Except.ok (⟨0, 0, 0⟩, some ⟨0, 0, 1⟩) := rfl
  have hax : rotationAxisOf (demoScene false 0 (Real.sqrt 2) 0 ⟨0, 0, 1⟩ : SpinImageEstimation ℝ)
      0 (some ⟨0, 0, 1⟩) = Except.ok (some ⟨0, 0, 1⟩) := rfl
  have hl : (plainEnv Real.sqrt Real.arcsin Real.arccos Real.pi false
      [0, 1, 2]).searchForNeighbors 0
      (demoScene false 0 (Real.sqrt 2) 0 ⟨0, 0, 1⟩ : SpinImageEstimation ℝ).search_radius
        = [0, 1, 2] := rfl
  constructor
  · unfold contributors
    simp only [ho, hax, hl]
    simp only [List.filter, contributes, h0, h1, h2]
  · have hc1 : cassert (plainEnv Real.sqrt Real.arcsin Real.arccos Real.pi false [0, 1, 2])
        (decide ((demoScene false 0 (Real.sqrt 2) 0 ⟨0, 0, 1⟩ :
          SpinImageEstimation ℝ).image_width > 0)) = Except.ok () := rfl
    have hc2 : cassert (plainEnv Real.sqrt Real.arcsin Real.arccos Real.pi false [0, 1, 2])
        (decide ((demoScene false 0 (Real.sqrt 2) 0 ⟨0, 0, 1⟩ :
            SpinImageEstimation ℝ).support_angle_cos ≤ 1 ∧
          (demoScene false 0 (Real.sqrt 2) 0 ⟨0, 0, 1⟩ :
            SpinImageEstimation ℝ).support_angle_cos ≥ 0)) = Except.ok () := by
      apply cassert_of_true
      simp only [demoScene]
      norm_num
    have hm : (demoScene false 0 (Real.sqrt 2) 0 ⟨0, 0, 1⟩ :
        SpinImageEstimation ℝ).min_pts_neighb = 0 := rfl
    unfold computeSiForPoint
    rw [hc1, hc2, bind_ok_eq, bind_ok_eq, ho, bind_ok_eq, hax, bind_ok_eq]
    simp only [hl, hm, accumulate, h0, h1, h2, bind_ok_eq, pure_eq_ok]
    norm_num [toInt32, normalize, demoScene, gridDivScalar, gridSum_zero, throw_eq_error]

end ZeroSum

section IndexSafety

variable {α : Type} [LinearOrderedField α] [FloorRing α]

theorem cassert_ok_iff (e : Env α) (c : Bool) :
    cassert e c = Except.ok () ↔ (e.ndebug = true ∨ c = true) := by
  unfold cassert
  cases e.ndebug <;> cases c <;> simp [pure_eq_ok, throw_eq_error]

theorem cassert_eq_ok (e : Env α) (c : Bool) (u : Unit) (h : cassert e c = Except.ok u) :
    e.ndebug = true ∨ c = true :=
  (cassert_ok_iff e c).1 h

theorem fdiv_eq_ok (x y q : α) (h : fdiv x y = Except.ok q) : y ≠ 0 ∧ q = x / y := by
  unfold fdiv at h
  split at h
  · cases h
  · rename_i hy
    cases h
    exact ⟨hy, rfl⟩

theorem interpolate_ok_spec (s : SpinImageEstimation α) (e : Env α) (bs alpha beta : α)
    (sp : Splat α) (h : interpolate s e bs alpha beta = Except.ok sp) :
    ∃ bbs, betaBinSize s e bs = Except.ok bbs ∧ bbs ≠ 0 ∧ bs ≠ 0 ∧
      sp.alpha_bin = (alphaBorder s bs ⌊alpha / bs⌋ alpha).1 ∧
      sp.beta_bin = (betaBorder s bbs (⌊beta / bbs⌋ + (s.image_width : Int)) beta).1 ∧
      sp.a = (alphaBorder s bs ⌊alpha / bs⌋ alpha).2 / bs
        - (((alphaBorder s bs ⌊alpha / bs⌋ alpha).1 : Int) : α) ∧
      sp.b = (betaBorder s bbs (⌊beta / bbs⌋ + (s.image_width : Int)) beta).2 / bbs
        - ((((betaBorder s bbs (⌊beta / bbs⌋ + (s.image_width : Int)) beta).1
            - (s.image_width : Int) : Int)) : α) ∧
      (e.ndebug = false → 0 ≤ sp.a ∧ sp.a ≤ 1 ∧ 0 ≤ sp.b ∧ sp.b ≤ 1) := by
  unfold interpolate at h
  rw [bind_eq_ok_iff] at h
  obtain ⟨_, _, h⟩ := h
  rw [bind_eq_ok_iff] at h
  obtain ⟨_, _, h⟩ := h
  rw [bind_eq_ok_iff] at h
  obtain ⟨bbs, hbbs, h⟩ := h
  rw [bind_eq_ok_iff] at h
  obtain ⟨qb, hqb, h⟩ := h
  rw [bind_eq_ok_iff] at h
  obtain ⟨_, _, h⟩ := h
  rw [bind_eq_ok_iff] at h
  obtain ⟨qa, hqa, h⟩ := h
  rw [bind_eq_ok_iff] at h
  obtain ⟨_, _, h⟩ := h
  rw [bind_eq_ok_iff] at h
  obtain ⟨_, hca, h⟩ := h
  rw [bind_eq_ok_iff] at h
  obtain ⟨_, hcb, h⟩ := h
  obtain ⟨hb0, hqb2⟩ := fdiv_eq_ok _ _ _ hqb
  obtain ⟨ha0, hqa2⟩ := fdiv_eq_ok _ _ _ hqa
  subst hqb2 hqa2
  cases h
  refine ⟨bbs, hbbs, hb0, ha0, rfl, rfl, rfl, rfl, fun hnd => ?_⟩
  have h1 := cassert_eq_ok _ _ _ hca
  have h2 := cassert_eq_ok _ _ _ hcb
  rw [hnd] at h1 h2
  simp only [Bool.false_eq_true, false_or, decide_eq_true_eq] at h1 h2
  exact ⟨h1.1, h1.2, h2.1, h2.2⟩

theorem neighborSplat_ok_spec (s : SpinImageEstimation α) (e : Env α) (q : Vector3f α)
    (n ax : Option (Vector3f α)) (nn : Nat) (c : α) (sp : Splat α)
    (h : neighborSplat s e q n ax nn = Except.ok (some (c, sp))) :
    ∃ p axis bs alpha beta, normalFilter s n nn = Except.ok (some c) ∧
      pointAt s.surface nn = Except.ok p ∧ ax = some axis ∧
      ¬ |norm e (p.sub q)| < 10 * epsDouble ∧
      binSize s e = Except.ok bs ∧
      coordinates s e bs (norm e (p.sub q))
        (max (-1) (min 1 ((p.sub q).dot axis / norm e (p.sub q)))) = some (alpha, beta) ∧
      interpolate s e bs alpha beta = Except.ok sp := by
  unfold neighborSplat at h
  rw [bind_eq_ok_iff] at h
  obtain ⟨r, hr, h⟩ := h
  cases r with
  | none => cases h
  | some c0 =>
    simp only at h
    rw [bind_eq_ok_iff] at h
    obtain ⟨p, hp, h⟩ := h
    try dsimp only at h
    split at h
    · cases h
    · rename_i hnc
      rw [bind_eq_ok_iff] at h
      obtain ⟨_, _, h⟩ := h
      rw [bind_eq_ok_iff] at h
      obtain ⟨axis, haxis, h⟩ := h
      try dsimp only at h
      split at h
      · cases h
      · rw [bind_eq_ok_iff] at h
        obtain ⟨bs, hbs, h⟩ := h
        cases hco : coordinates s e bs (norm e (p.sub q))
            (max (-1) (min 1 ((p.sub q).dot axis / norm e (p.sub q)))) with
        | none => rw [hco] at h; cases h
        | some ab =>
          rw [hco] at h
          obtain ⟨alpha, beta⟩ := ab
          simp only at h
          rw [bind_eq_ok_iff] at h
          obtain ⟨sp0, hsp, h⟩ := h
          cases h
          have hax : ax = some axis := by
            cases ax with
            | none => cases haxis
            | some a => cases haxis; rfl
          exact ⟨p, axis, bs, alpha, beta, hr, hp, hax, hnc, hbs, hco, hsp⟩

theorem alphaBorder_bin (s : SpinImageEstimation α) (bs alpha : α)
    (hW : 1 ≤ s.image_width) (hbs : 0 < bs)
    (ha0 : 0 ≤ alpha) (ha1 : alpha ≤ bs * (s.image_width : α)) :
    0 ≤ ⌊alpha / bs⌋ ∧ ⌊alpha / bs⌋ < (s.image_width : Int) + 1 ∧
      0 ≤ (alphaBorder s bs ⌊alpha / bs⌋ alpha).1 ∧
      (alphaBorder s bs ⌊alpha / bs⌋ alpha).1 ≤ (s.image_width : Int) - 1 := by
  have hqa0 : 0 ≤ alpha / bs := div_nonneg ha0 hbs.le
  have hqa1 : alpha / bs ≤ (s.image_width : α) := by
    rw [div_le_iff₀ hbs]; linarith [mul_comm bs (s.image_width : α)]
  have hfa0 : 0 ≤ ⌊alpha / bs⌋ := Int.floor_nonneg.2 hqa0
  have hfa1 : ⌊alpha / bs⌋ ≤ (s.image_width : Int) := by
    have := Int.floor_mono hqa1
    simpa using this
  have hWi : (1 : Int) ≤ (s.image_width : Int) := by exact_mod_cast hW
  unfold alphaBorder
  by_cases h : ⌊alpha / bs⌋ = (s.image_width : Int)
  · simp only [if_pos h]
    exact ⟨hfa0, by omega, by omega, by omega⟩
  · simp only [if_neg h]
    exact ⟨hfa0, by omega, hfa0, by omega⟩

theorem betaBorder_bin (s : SpinImageEstimation α) (bbs beta : α)
    (hW : 1 ≤ s.image_width) (hbbs : 0 < bbs)
    (hb0 : -(bbs * (s.image_width : α)) ≤ beta) (hb1 : beta ≤ bbs * (s.image_width : α)) :
    0 ≤ ⌊beta / bbs⌋ + (s.image_width : Int) ∧
      ⌊beta / bbs⌋ + (s.image_width : Int) < 2 * (s.image_width : Int) + 1 ∧
      0 ≤ (betaBorder s bbs (⌊beta / bbs⌋ + (s.image_width : Int)) beta).1 ∧
      (betaBorder s bbs (⌊beta / bbs⌋ + (s.image_width : Int)) beta).1
        ≤ 2 * (s.image_width : Int) - 1 := by
  have hqb0 : -(s.image_width : α) ≤ beta / bbs := by
    rw [le_div_iff₀ hbbs]; linarith [mul_comm bbs (s.image_width : α)]
  have hqb1 : beta / bbs ≤ (s.image_width : α) := by
    rw [div_le_iff₀ hbbs]; linarith [mul_comm bbs (s.image_width : α)]
  have hfb0 : -(s.image_width : Int) ≤ ⌊beta / bbs⌋ := by
    rw [Int.le_floor]; push_cast; exact hqb0
  have hfb1 : ⌊beta / bbs⌋ ≤ (s.image_width : Int) := by
    have := Int.floor_mono hqb1
    simpa using this
  have hWi : (1 : Int) ≤ (s.image_width : Int) := by exact_mod_cast hW
  unfold betaBorder
  by_cases h : ⌊beta / bbs⌋ + (s.image_width : Int) = 2 * (s.image_width : Int)
  · simp only [if_pos h]
    exact ⟨by omega, by omega, by omega, by omega⟩
  · simp only [if_neg h]
    exact ⟨by omega, by omega, by omega, by omega⟩

theorem gridAdd_ok_of_shape (g : Grid α) (rows cols : Nat) (r c : Int) (w : α)
    (hs : GridShape g rows cols) (hr0 : 0 ≤ r) (hr1 : r < rows) (hc0 : 0 ≤ c) (hc1 : c < cols) :
    ∃ g1, gridAdd g r c w = Except.ok g1 ∧ GridShape g1 rows cols := by
  have hlen : r.toNat < g.length := by rw [hs.1]; omega
  obtain ⟨row, hrow⟩ : ∃ row, g.get? r.toNat = some row :=
    ⟨g.get ⟨r.toNat, hlen⟩, List.get?_eq_get hlen⟩
  have hrl : c.toNat < row.length := by
    rw [hs.2 row (List.get?_mem hrow)]; omega
  have h : gridAdd g r c w = Except.ok (g.set r.toNat (rowAdd row c.toNat w)) := by
    unfold gridAdd
    rw [if_pos ⟨hr0, hc0⟩, hrow]
    simp only [hrl, if_true, pure_eq_ok]
  exact ⟨_, h, gridShape_gridAdd g _ r c w rows cols hs h⟩

theorem gridAddCells_ok_of_shape (cells : List ((Int × Int) × α)) (g : Grid α) (rows cols : Nat)
    (hs : GridShape g rows cols)
    (hcells : ∀ cell ∈ cells, 0 ≤ cell.1.1 ∧ cell.1.1 < rows ∧ 0 ≤ cell.1.2 ∧ cell.1.2 < cols) :
    ∃ g1, gridAddCells g cells = Except.ok g1 ∧ GridShape g1 rows cols := by
  induction cells generalizing g with
  | nil => exact ⟨g, rfl, hs⟩
  | cons cell cells ih =>
    obtain ⟨h1, h2, h3, h4⟩ := hcells cell (List.mem_cons_self _ _)
    obtain ⟨g1, hg1, hs1⟩ := gridAdd_ok_of_shape g rows cols cell.1.1 cell.1.2 cell.2 hs h1 h2 h3 h4
    obtain ⟨g2, hg2, hs2⟩ := ih g1 hs1 (fun c hc => hcells c (List.mem_cons_of_mem _ hc))
    refine ⟨g2, ?_, hs2⟩
    unfold gridAddCells
    rw [hg1, bind_ok_eq]
    exact hg2

theorem bilinearCells_in_grid (sp : Splat α) (W : Nat)
    (h1 : 0 ≤ sp.alpha_bin) (h2 : sp.alpha_bin ≤ (W : Int) - 1)
    (h3 : 0 ≤ sp.beta_bin) (h4 : sp.beta_bin ≤ 2 * (W : Int) - 1) :
    ∀ cell ∈ bilinearCells sp, 0 ≤ cell.1.1 ∧ cell.1.1 < ((W + 1 : Nat) : Int) ∧
      0 ≤ cell.1.2 ∧ cell.1.2 < ((2 * W + 1 : Nat) : Int) := by
  intro cell hcell
  simp only [bilinearCells, List.mem_cons, List.mem_singleton, List.not_mem_nil, or_false] at hcell
  push_cast
  rcases hcell with h | h | h | h <;> subst h <;> simp only <;> omega

end IndexSafety

section IndexSafetyMain

variable {α : Type} [LinearOrderedField α] [FloorRing α]

theorem clamp_range (x : α) : -1 ≤ max (-1) (min 1 x) ∧ max (-1) (min 1 x) ≤ 1 :=
  ⟨le_max_left _ _, max_le (by norm_num) (min_le_left _ _)⟩

/-- The coordinates of a neighbour within the search radius lie in the range of
the grid: `0 ≤ alpha ≤ W * bin_size` and `|beta| ≤ W * beta_bin_size`, with
positive bin sizes. -/
theorem coordinates_in_range (s : SpinImageEstimation α) (e : Env α) (bs d c alpha beta : α)
    (hW : 1 ≤ s.image_width) (hr : 0 < s.search_radius)
    (hsqrt : ∀ x, 0 ≤ e.sqrt x)
    (hasin : ∀ x, -1 ≤ x → x ≤ 1 → |e.asin x| ≤ e.PI / 2) (hPI : 0 < e.PI)
    (hd0 : 0 ≤ d) (hd : d ≤ s.search_radius) (hc : -1 ≤ c ∧ c ≤ 1)
    (hbs : binSize s e = Except.ok bs)
    (hco : coordinates s e bs d c = some (alpha, beta)) :
    ∃ bbs, betaBinSize s e bs = Except.ok bbs ∧ 0 < bs ∧ 0 < bbs ∧
      0 ≤ alpha ∧ alpha ≤ bs * (s.image_width : α) ∧
      -(bbs * (s.image_width : α)) ≤ beta ∧ beta ≤ bbs * (s.image_width : α) := by
  have hWα : (0 : α) < (s.image_width : α) := by exact_mod_cast hW
  unfold coordinates at hco
  unfold binSize at hbs
  unfold betaBinSize
  by_cases hrad : s.is_radial = true
  · simp only [hrad, if_true, Option.some.injEq, Prod.mk.injEq] at hco hbs ⊢
    obtain ⟨rfl, rfl⟩ := hco
    obtain ⟨_, rfl⟩ := fdiv_eq_ok _ _ _ hbs
    have h2 : (2 : α) ≠ 0 := two_ne_zero
    rw [fdiv_of_ne _ _ h2, bind_ok_eq, fdiv_of_ne _ _ hWα.ne']
    refine ⟨_, rfl, div_pos hr hWα, div_pos (div_pos hPI two_pos) hWα, hd0, ?_, ?_, ?_⟩
    · rw [div_mul_cancel₀ _ hWα.ne']; exact hd
    · rw [div_mul_cancel₀ _ hWα.ne']
      have := hasin c hc.1 hc.2
      linarith [neg_abs_le (e.asin c)]
    · rw [div_mul_cancel₀ _ hWα.ne']
      have := hasin c hc.1 hc.2
      linarith [le_abs_self (e.asin c)]
  · simp only [hrad, Bool.false_eq_true, if_false] at hco hbs ⊢
    split at hco
    · cases hco
    · rename_i hcyl
      simp only [Option.some.injEq, Prod.mk.injEq] at hco
      obtain ⟨rfl, rfl⟩ := hco
      rw [not_or, not_le, not_le] at hcyl
      have ha0 : 0 ≤ d * e.sqrt (1 - c * c) := mul_nonneg hd0 (hsqrt _)
      have hbsW : 0 < bs * (s.image_width : α) := lt_of_le_of_lt ha0 hcyl.2
      have hbs0 : 0 < bs := by
        by_contra hneg
        rw [not_lt] at hneg
        have := mul_nonpos_of_nonpos_of_nonneg hneg hWα.le
        linarith
      refine ⟨bs, rfl, hbs0, hbs0, ha0, hcyl.2.le, ?_, ?_⟩
      · linarith [neg_abs_le (d * c)]
      · linarith [le_abs_self (d * c)]

/-- Index safety in exact arithmetic (no rounding of the quotients of lines
190 and 192).  For `W ≥ 1` and a positive search radius, every neighbour within the
search radius whose iteration reaches the accumulation has, after the
adjustment of the border bins, `0 ≤ alpha_bin ≤ W - 1` and
`0 ≤ beta_bin ≤ 2W - 1`; the four cells it is added to lie inside every array of
`W + 1` rows and `2W + 1` columns; and the conditions of the assertions of lines
191 and 193 on the bins before the adjustment hold.  The math library is taken
to give `sqrt ≥ 0`, `|asin x| ≤ PI / 2` on `[-1, 1]` and `PI > 0`. -/
theorem grid_index_safety (s : SpinImageEstimation α) (e : Env α) (q p : Vector3f α)
    (n ax : Option (Vector3f α)) (nn : Nat) (c : α) (sp : Splat α)
    (hW : 1 ≤ s.image_width) (hr : 0 < s.search_radius)
    (hsqrt : ∀ x, 0 ≤ e.sqrt x)
    (hasin : ∀ x, -1 ≤ x → x ≤ 1 → |e.asin x| ≤ e.PI / 2) (hPI : 0 < e.PI)
    (hp : pointAt s.surface nn = Except.ok p)
    (hwithin : norm e (p.sub q) ≤ s.search_radius)
    (hsplat : neighborSplat s e q n ax nn = Except.ok (some (c, sp))) :
    (0 ≤ sp.alpha_bin ∧ sp.alpha_bin ≤ (s.image_width : Int) - 1 ∧
        0 ≤ sp.beta_bin ∧ sp.beta_bin ≤ 2 * (s.image_width : Int) - 1) ∧
      (∀ g : Grid α, GridShape g (s.image_width + 1) (2 * s.image_width + 1) →
        ∃ g1, gridAddCells g (bilinearCells sp) = Except.ok g1 ∧
          GridShape g1 (s.image_width + 1) (2 * s.image_width + 1)) ∧
      ∃ bs bbs alpha beta, binSize s e = Except.ok bs ∧ betaBinSize s e bs = Except.ok bbs ∧
        interpolate s e bs alpha beta = Except.ok sp ∧
        (0 ≤ ⌊beta / bbs⌋ + (s.image_width : Int) ∧
          ⌊beta / bbs⌋ + (s.image_width : Int) < 2 * (s.image_width : Int) + 1) ∧
        (0 ≤ ⌊alpha / bs⌋ ∧ ⌊alpha / bs⌋ < (s.image_width : Int) + 1) := by
  obtain ⟨p1, axis, bs, alpha, beta, _, hp1, _, _, hbs, hco, hint⟩ :=
    neighborSplat_ok_spec s e q n ax nn c sp hsplat
  rw [hp] at hp1
  cases hp1
  obtain ⟨bbs, hbbs, hbs0, hbbs0, ha0, ha1, hb0, hb1⟩ :=
    coordinates_in_range s e bs _ _ alpha beta hW hr hsqrt hasin hPI (hsqrt _) hwithin
      (clamp_range _) hbs hco
  obtain ⟨bbs1, hbbs1, _, _, hab, hbb, _, _, _⟩ := interpolate_ok_spec s e bs alpha beta sp hint
  rw [hbbs] at hbbs1
  cases hbbs1
  obtain ⟨A1, A2, A3, A4⟩ := alphaBorder_bin s bs alpha hW hbs0 ha0 ha1
  obtain ⟨B1, B2, B3, B4⟩ := betaBorder_bin s bbs beta hW hbbs0 hb0 hb1
  rw [← hab] at A3 A4
  rw [← hbb] at B3 B4
  refine ⟨⟨A3, A4, B3, B4⟩, fun g hg => ?_, bs, bbs, alpha, beta, hbs, hbbs, hint, ⟨B1, B2⟩,
    ⟨A1, A2⟩⟩
  exact gridAddCells_ok_of_shape _ g _ _ hg (bilinearCells_in_grid sp s.image_width A3 A4 B3 B4)

end IndexSafetyMain

section Nudge

theorem tiny_norm_one (nd : Bool) (l : List Nat) :
    norm (plainEnv Real.sqrt Real.arcsin Real.arccos Real.pi nd l)
      ((⟨12 * epsDouble, 0, 0⟩ : Vector3f ℝ).sub ⟨0, 0, 0⟩) = 12 * epsDouble := by
  have h : (0 : ℝ) ≤ 12 * epsDouble := by unfold epsDouble; norm_num
  simp only [norm, plainEnv, Vector3f.sub, Vector3f.dot, sub_zero, mul_zero, add_zero]
  exact Real.sqrt_mul_self h

theorem tiny_interpolate_one (angular nd : Bool) (l : List Nat) :
    interpolate (tinyScene angular : SpinImageEstimation ℝ)
      (plainEnv Real.sqrt Real.arcsin Real.arccos Real.pi nd l) (12 * epsDouble / 16)
      (12 * epsDouble) 0
      = if nd = true then Except.ok ⟨15, 16, -1 / 3, 0⟩
        else Except.error SiError.assertionFailed := by
  have hpi : (Real.pi : ℝ) ≠ 0 := Real.pi_ne_zero
  have hf : ⌊(16 : ℝ)⌋ = 16 := by
    rw [Int.floor_eq_iff]; norm_num
  cases nd
  · simp only [interpolate, cassert, betaBinSize, fdiv, tinyScene, plainEnv, alphaBorder,
      betaBorder, epsFloat, epsDouble, pure_eq_ok, bind_ok_eq]
    norm_num [hpi, hf, bind_ok_eq, pure_eq_ok, throw_eq_error, bind_error_eq]
  · simp only [interpolate, cassert, betaBinSize, fdiv, tinyScene, plainEnv, alphaBorder,
      betaBorder, epsFloat, epsDouble, pure_eq_ok, bind_ok_eq]
    norm_num [hpi, hf, bind_ok_eq, pure_eq_ok]


theorem tiny_filter_one (angular : Bool) :
    normalFilter (tinyScene angular : SpinImageEstimation ℝ) (some ⟨0, 0, 1⟩) 1
      = Except.ok (some (if angular = true then 0 else -2)) := by
  cases angular
  · simp [normalFilter, tinyScene, pure_eq_ok]
  · simp only [normalFilter, tinyScene, initialized, pointAt, List.get?, Vector3f.dot, epsFloat,
      pure_eq_ok, bind_ok_eq]
    norm_num

theorem tiny_binSize (angular nd : Bool) (l : List Nat) :
    binSize (tinyScene angular : SpinImageEstimation ℝ)
      (plainEnv Real.sqrt Real.arcsin Real.arccos Real.pi nd l)
      = Except.ok (12 * epsDouble / 16) := by
  simp only [binSize, tinyScene, fdiv, if_true]
  norm_num [pure_eq_ok]

theorem tiny_splat_one (angular nd : Bool) (l : List Nat) :
    neighborSplat (tinyScene angular : SpinImageEstimation ℝ)
      (plainEnv Real.sqrt Real.arcsin Real.arccos Real.pi nd l) ⟨0, 0, 0⟩
      (some ⟨0, 0, 1⟩) (some ⟨0, 0, 1⟩) 1
      = if nd = true then
          Except.ok (some (if angular = true then 0 else -2, ⟨15, 16, -1 / 3, 0⟩))
        else Except.error SiError.assertionFailed := by
  have hp : pointAt (tinyScene angular : SpinImageEstimation ℝ).surface 1
      = Except.ok ⟨12 * epsDouble, 0, 0⟩ := rfl
  have hd : ((⟨12 * epsDouble, 0, 0⟩ : Vector3f ℝ).sub ⟨0, 0, 0⟩).dot ⟨0, 0, 1⟩ = 0 := by
    simp [Vector3f.sub, Vector3f.dot]
  have hpos : (0 : ℝ) < epsDouble := epsDouble_pos
  have hnc : ¬ |12 * (epsDouble : ℝ)| < 10 * epsDouble := by
    rw [abs_of_pos (by linarith)]; linarith
  have hc : coordinates (tinyScene angular : SpinImageEstimation ℝ)
      (plainEnv Real.sqrt Real.arcsin Real.arccos Real.pi nd l) (12 * epsDouble / 16)
      (12 * epsDouble) 0 = some (12 * epsDouble, 0) := by
    simp [coordinates, tinyScene, plainEnv]
  have hassert : cassert (plainEnv Real.sqrt Real.arcsin Real.arccos Real.pi nd l)
      (decide (12 * (epsDouble : ℝ) > 0)) = Except.ok () :=
    cassert_of_true _ _ (decide_eq_true (by linarith))
  unfold neighborSplat
  rw [tiny_filter_one]
  simp only [bind_ok_eq, hp, tiny_norm_one, if_neg hnc, hassert, initialized, pure_eq_ok, hd,
    zero_div, tiny_binSize]
  have hcl : max (-1 : ℝ) (min 1 0) = 0 := by norm_num
  have habs : ¬ |(0 : ℝ)| > 1 + 10 * epsFloat := by
    rw [abs_zero]; have := epsFloat_pos (α := ℝ); linarith
  rw [if_neg habs]
  simp only [hcl, hc, tiny_interpolate_one]
  cases nd <;> rfl

/-- C20. Radial mode, `W = 16`, search radius `12 * epsilon` (double epsilon), so
that `bin_size = epsilon * 3/4`: the neighbour at the distance of the search
radius lies in the border bin `alpha_bin = 16`, and the adjustment of lines
195-200 gives it `alpha = bin_size * 16 - epsilon` and `a = -1/3`.  With
assertions the assertion `0 <= a && a <= 1` of line 211 fails; without them the
neighbour is added with the offset `a = -1/3`, that is with the negative weight
`a * (1 - b) = -1/3`. -/
theorem nudge_offset_out_of_range :
    norm (plainEnv Real.sqrt Real.arcsin Real.arccos Real.pi false [1])
        ((⟨12 * epsDouble, 0, 0⟩ : Vector3f ℝ).sub ⟨0, 0, 0⟩)
        = (tinyScene false : SpinImageEstimation ℝ).search_radius ∧
      computeSiForPoint (tinyScene false : SpinImageEstimation ℝ)
        (plainEnv Real.sqrt Real.arcsin Real.arccos Real.pi false [1]) 0
        = Except.error SiError.assertionFailed ∧
      neighborSplat (tinyScene false : SpinImageEstimation ℝ)
        (plainEnv Real.sqrt Real.arcsin Real.arccos Real.pi true [1]) ⟨0, 0, 0⟩
        (some ⟨0, 0, 1⟩) (some ⟨0, 0, 1⟩) 1
        = Except.ok (some (-2, ⟨15, 16, -1 / 3, 0⟩)) := by
  refine ⟨tiny_norm_one false [1], ?_, ?_⟩
  · have ho : originOf (tinyScene false : SpinImageEstimation ℝ) 0
        = Except.ok (⟨0, 0, 0⟩, some ⟨0, 0, 1⟩) := rfl
    have hax : rotationAxisOf (tinyScene false : SpinImageEstimation ℝ) 0 (some ⟨0, 0, 1⟩)
        = Except.ok (some ⟨0, 0, 1⟩) := rfl
    have hc1 : cassert (plainEnv Real.sqrt Real.arcsin Real.arccos Real.pi false [1])
        (decide ((tinyScene false : SpinImageEstimation ℝ).image_width > 0)) = Except.ok () := rfl
    have hc2 : cassert (plainEnv Real.sqrt Real.arcsin Real.arccos Real.pi false [1])
        (decide ((tinyScene false : SpinImageEstimation ℝ).support_angle_cos ≤ 1 ∧
          (tinyScene false : SpinImageEstimation ℝ).support_angle_cos ≥ 0)) = Except.ok () := by
      apply cassert_of_true
      simp only [tinyScene]
      norm_num
    have hl : (plainEnv Real.sqrt Real.arcsin Real.arccos Real.pi false [1]).searchForNeighbors 0
        (tinyScene false : SpinImageEstimation ℝ).search_radius = [1] := rfl
    have hm : (tinyScene false : SpinImageEstimation ℝ).min_pts_neighb = 0 := rfl
    have hs := tiny_splat_one false false [1]
    simp only [Bool.false_eq_true, if_false] at hs
    unfold computeSiForPoint
    rw [hc1, hc2, bind_ok_eq, bind_ok_eq, ho, bind_ok_eq, hax, bind_ok_eq]
    simp only [hl, hm, accumulate, hs, bind_error_eq]
    norm_num [toInt32, bind_error_eq]
  · have hs := tiny_splat_one false true [1]
    simpa using hs

end Nudge

section SpliceLemmas

variable {α : Type}

theorem splice_length (hist : List α) (k : Nat) (vs : List α) (h : k + vs.length ≤ hist.length) :
    (splice hist k vs).length = hist.length := by
  unfold splice
  simp only [List.length_append, List.length_take, List.length_drop]
  omega

theorem splice_nil (hist : List α) (k : Nat) : splice hist k [] = hist := by
  unfold splice
  simp

theorem set_eq_splice (hist : List α) (k : Nat) (v : α) (h : k < hist.length) :
    hist.set k v = splice hist k [v] := by
  unfold splice
  rw [List.set_eq_take_append_cons_drop, if_pos h]
  simp

theorem splice_splice (hist : List α) (k : Nat) (us vs : List α)
    (h : k + us.length ≤ hist.length) :
    splice (splice hist k us) (k + us.length) vs = splice hist k (us ++ vs) := by
  have hk : k ≤ hist.length := by omega
  have htake : (splice hist k us).take (k + us.length) = hist.take k ++ us := by
    unfold splice
    rw [List.take_append_eq_append_take]
    simp only [List.length_append, List.length_take, Nat.min_eq_left hk, Nat.sub_self,
      List.take_zero, List.append_nil]
    rw [List.take_of_length_le]
    simp only [List.length_append, List.length_take, Nat.min_eq_left hk]
    omega
  have hdrop : (splice hist k us).drop (k + us.length + vs.length)
      = hist.drop (k + us.length + vs.length) := by
    unfold splice
    rw [List.drop_append_eq_append_drop]
    have hl : (List.take k hist ++ us).length = k + us.length := by
      simp only [List.length_append, List.length_take, Nat.min_eq_left hk]
    rw [hl, List.drop_of_length_le (by rw [hl]; omega)]
    simp only [List.nil_append, List.drop_drop]
    congr 1
    omega
  have hgoal : splice (splice hist k us) (k + us.length) vs
      = (splice hist k us).take (k + us.length) ++ vs
        ++ (splice hist k us).drop (k + us.length + vs.length) := rfl
  rw [hgoal, htake, hdrop]
  unfold splice
  simp only [List.append_assoc, List.length_append, Nat.add_assoc]

end SpliceLemmas

section CopyLemmas

variable {α : Type} [LinearOrderedField α] [FloorRing α]

theorem copyRow_spec (vs : List α) (hist : List α) (base iCol : Nat)
    (h : base + iCol + vs.length ≤ hist.length) :
    copyRow hist base vs iCol = Except.ok (splice hist (base + iCol) vs) := by
  induction vs generalizing hist iCol with
  | nil => rw [splice_nil]; rfl
  | cons v vs ih =>
    simp only [List.length_cons] at h
    have hlt : base + iCol < hist.length := by omega
    unfold copyRow
    unfold histSet
    rw [if_pos hlt]
    simp only [pure_eq_ok, bind_ok_eq]
    rw [set_eq_splice hist _ v hlt]
    have hl := splice_length hist (base + iCol) [v] (by simp only [List.length_singleton]; omega)
    rw [ih (splice hist (base + iCol) [v]) (iCol + 1) (by rw [hl]; omega)]
    have := splice_splice hist (base + iCol) [v] vs
      (by simp only [List.length_singleton]; omega)
    simp only [List.length_singleton, List.singleton_append] at this
    rw [← this]
    rfl

theorem copyRows_spec (rows : Grid α) (hist : List α) (cols iRow : Nat)
    (hrows : ∀ row ∈ rows, row.length = cols)
    (h : iRow * cols + rows.length * cols ≤ hist.length) :
    copyRows hist cols rows iRow = Except.ok (splice hist (iRow * cols) rows.flatten) := by
  induction rows generalizing hist iRow with
  | nil =>
    simp only [List.flatten_nil, splice_nil]
    rfl
  | cons row rows ih =>
    have hrow : row.length = cols := hrows row (List.mem_cons_self _ _)
    simp only [List.length_cons, Nat.add_mul, Nat.one_mul] at h
    unfold copyRows
    rw [copyRow_spec row hist (iRow * cols) 0 (by rw [hrow]; omega)]
    simp only [bind_ok_eq, Nat.add_zero]
    have hl := splice_length hist (iRow * cols) row (by rw [hrow]; omega)
    rw [ih (splice hist (iRow * cols) row) (iRow + 1)
      (fun r hr => hrows r (List.mem_cons_of_mem _ hr))
      (by rw [hl, Nat.add_mul, Nat.one_mul]; omega)]
    have := splice_splice hist (iRow * cols) row rows.flatten (by rw [hrow]; omega)
    rw [hrow] at this
    rw [Nat.add_mul, Nat.one_mul, this]
    rfl

theorem flatten_length_of_shape (g : Grid α) (rows cols : Nat) (hs : GridShape g rows cols) :
    g.flatten.length = rows * cols := by
  obtain ⟨h1, h2⟩ := hs
  subst h1
  induction g with
  | nil => simp
  | cons row g ih =>
    simp only [List.flatten_cons, List.length_append, List.length_cons]
    rw [ih (fun r hr => h2 r (List.mem_cons_of_mem _ hr)), h2 row (List.mem_cons_self _ _)]
    ring

theorem gridCols_of_shape (g : Grid α) (rows cols : Nat) (hs : GridShape g (rows + 1) cols) :
    gridCols g = cols := by
  obtain ⟨h1, h2⟩ := hs
  cases g with
  | nil => simp at h1
  | cons row g => exact h2 row (List.mem_cons_self _ _)

theorem writeSlot_spec (output : PointCloudOut α) (i_input : Nat) (res : Grid α)
    (hist : List α) (rows cols : Nat) (hs : GridShape res (rows + 1) cols)
    (hslot : output.get? i_input = some hist) (hcap : (rows + 1) * cols ≤ hist.length) :
    writeSlot output i_input res
      = Except.ok (output.set i_input (rowMajor res ++ hist.drop ((rows + 1) * cols))) := by
  unfold writeSlot
  rw [hslot]
  simp only
  rw [gridCols_of_shape res rows cols hs, copyRows_spec res hist cols 0 hs.2
    (by rw [hs.1]; omega)]
  simp only [bind_ok_eq, pure_eq_ok, splice, Nat.zero_mul, List.take_zero, List.nil_append,
    Nat.zero_add, rowMajor, flatten_length_of_shape res _ _ hs]

end CopyLemmas

section ShapeOfTheResult

variable {α : Type} [LinearOrderedField α] [FloorRing α]

theorem gridShape_accumulateOne_snd (s : SpinImageEstimation α) (e : Env α)
    (acc acc1 : Grid α × Grid α) (c : α × Splat α) (rows cols : Nat)
    (hs : GridShape acc.2 rows cols) (h : accumulateOne s e acc c = Except.ok acc1) :
    GridShape acc1.2 rows cols := by
  unfold accumulateOne at h
  rw [bind_eq_ok_iff] at h
  obtain ⟨m, _, h⟩ := h
  split at h
  · rw [bind_eq_ok_iff] at h
    obtain ⟨m2, hm2, h⟩ := h
    cases h
    exact gridShape_gridAddCells _ _ _ rows cols hs hm2
  · cases h
    exact hs

theorem gridShape_accumulate_snd (s : SpinImageEstimation α) (e : Env α) (q : Vector3f α)
    (n ax : Option (Vector3f α)) (l : List Nat) (acc acc1 : Grid α × Grid α) (rows cols : Nat)
    (hs : GridShape acc.2 rows cols) (h : accumulate s e q n ax l acc = Except.ok acc1) :
    GridShape acc1.2 rows cols := by
  induction l generalizing acc with
  | nil => cases h; exact hs
  | cons nn rest ih =>
    unfold accumulate at h
    rw [bind_eq_ok_iff] at h
    obtain ⟨r, hr, h⟩ := h
    cases r with
    | none => exact ih acc hs h
    | some c =>
      simp only at h
      rw [bind_eq_ok_iff] at h
      obtain ⟨acc2, h2, h⟩ := h
      exact ih acc2 (gridShape_accumulateOne_snd s e acc acc2 c rows cols hs h2) h

theorem rowDiv_length (xs ys qs : List α) (hl : xs.length = ys.length)
    (h : rowDiv xs ys = Except.ok qs) : qs.length = xs.length := by
  induction xs generalizing ys qs with
  | nil =>
    unfold rowDiv at h
    cases h
    rfl
  | cons x xs ih =>
    cases ys with
    | nil => simp at hl
    | cons y ys =>
      unfold rowDiv at h
      rw [bind_eq_ok_iff] at h
      obtain ⟨q, _, h⟩ := h
      rw [bind_eq_ok_iff] at h
      obtain ⟨qs1, hqs1, h⟩ := h
      cases h
      simp only [List.length_cons] at hl ⊢
      rw [ih ys qs1 (by omega) hqs1]

theorem gridShape_gridDiv (num den g : Grid α) (rows cols : Nat)
    (hn : GridShape num rows cols) (hd : GridShape den rows cols)
    (h : gridDiv num den = Except.ok g) : GridShape g rows cols := by
  induction num generalizing den g rows with
  | nil =>
    unfold gridDiv at h
    cases h
    exact ⟨hn.1, fun _ hx => by cases hx⟩
  | cons r rs ih =>
    cases den with
    | nil =>
      have h1 := hn.1
      have h2 := hd.1
      simp only [List.length_cons, List.length_nil] at h1 h2
      omega
    | cons d ds =>
      unfold gridDiv at h
      rw [bind_eq_ok_iff] at h
      obtain ⟨q, hq, h⟩ := h
      rw [bind_eq_ok_iff] at h
      obtain ⟨qs, hqs, h⟩ := h
      cases h
      have hr : r.length = cols := hn.2 r (List.mem_cons_self _ _)
      have hdl : d.length = cols := hd.2 d (List.mem_cons_self _ _)
      have h1 := hn.1
      have h2 := hd.1
      simp only [List.length_cons] at h1 h2
      have hrec := ih ds qs (rows - 1)
        ⟨by omega, fun x hx => hn.2 x (List.mem_cons_of_mem _ hx)⟩
        ⟨by omega, fun x hx => hd.2 x (List.mem_cons_of_mem _ hx)⟩ hqs
      refine ⟨by simp only [List.length_cons]; rw [hrec.1]; omega, fun x hx => ?_⟩
      rcases List.mem_cons.1 hx with rfl | hx
      · rw [rowDiv_length r d x (by rw [hr, hdl]) hq, hr]
      · exact hrec.2 x hx

theorem gridShape_normalize (s : SpinImageEstimation α) (cnt : Int) (acc : Grid α × Grid α)
    (g : Grid α) (rows cols : Nat) (h1 : GridShape acc.1 rows cols)
    (h2 : GridShape acc.2 rows cols) (h : normalize s cnt acc = Except.ok g) :
    GridShape g rows cols := by
  unfold normalize at h
  split at h
  · exact gridShape_gridDiv _ _ g rows cols h2 (gridShape_map acc.1 _ rows cols h1) h
  · split at h
    · unfold gridDivScalar at h
      split at h
      · cases h
      · cases h
        exact gridShape_map acc.1 _ rows cols h1
    · cases h
      exact h1

/-- Every grid returned by `computeSiForPoint` has `image_width + 1` rows and
`2 * image_width + 1` columns. -/
theorem computeSiForPoint_shape (s : SpinImageEstimation α) (e : Env α) (index : Nat)
    (g : Grid α) (h : computeSiForPoint s e index = Except.ok g) :
    GridShape g (s.image_width + 1) (2 * s.image_width + 1) := by
  obtain ⟨origin, axis, acc, _, _, hacc, hn⟩ := computeSiForPoint_unfold s e index g h
  exact gridShape_normalize s _ acc g _ _
    (gridShape_accumulate s e _ _ _ _ _ acc _ _ (gridShape_zero _ _) hacc)
    (gridShape_accumulate_snd s e _ _ _ _ _ acc _ _ (gridShape_zero _ _) hacc) hn

end ShapeOfTheResult

section RowMajor

variable {α : Type} [LinearOrderedField α] [FloorRing α]

theorem rowMajor_length (g : Grid α) (rows cols : Nat) (hs : GridShape g rows cols) :
    (rowMajor g).length = rows * cols :=
  flatten_length_of_shape g rows cols hs

theorem rowMajor_get (g : Grid α) (rows cols : Nat) (hs : GridShape g rows cols)
    (row col : Nat) (hcol : col < cols) :
    (rowMajor g).get? (row * cols + col) = gridAt g row col := by
  induction g generalizing rows row with
  | nil => simp [rowMajor, gridAt]
  | cons r rs ih =>
    have hr : r.length = cols := hs.2 r (List.mem_cons_self _ _)
    have hrest : GridShape rs (rows - 1) cols :=
      ⟨by have := hs.1; simp only [List.length_cons] at this; omega,
        fun x hx => hs.2 x (List.mem_cons_of_mem _ hx)⟩
    cases row with
    | zero =>
      simp only [rowMajor, List.flatten_cons, Nat.zero_mul, Nat.zero_add, gridAt,
        List.get?_cons_zero, Option.some_bind]
      rw [List.get?_eq_getElem?, List.get?_eq_getElem?,
        List.getElem?_append_left (by rw [hr]; exact hcol)]
    | succ row =>
      have := ih (rows - 1) hrest row
      simp only [rowMajor, gridAt, List.get?_cons_succ] at this ⊢
      rw [← this, List.flatten_cons, List.get?_eq_getElem?, List.get?_eq_getElem?,
        List.getElem?_append_right (by rw [hr, Nat.add_mul]; omega)]
      congr 1
      rw [hr, Nat.add_mul]
      omega

theorem flat_index_unique (cols row col row1 col1 : Nat) (hc : col < cols) (hc1 : col1 < cols)
    (h : row * cols + col = row1 * cols + col1) : row = row1 ∧ col = col1 := by
  have hpos : 0 < cols := by omega
  have h1 : (row * cols + col) / cols = row := by
    rw [Nat.add_comm, Nat.add_mul_div_right _ _ hpos, Nat.div_eq_of_lt hc, Nat.zero_add]
  have h2 : (row1 * cols + col1) / cols = row1 := by
    rw [Nat.add_comm, Nat.add_mul_div_right _ _ hpos, Nat.div_eq_of_lt hc1, Nat.zero_add]
  have hrow : row = row1 := by rw [← h1, ← h2, h]
  subst hrow
  exact ⟨rfl, by omega⟩

theorem flat_index_exists (rows cols idx : Nat) (h : idx < rows * cols) :
    idx / cols < rows ∧ idx % cols < cols ∧ idx / cols * cols + idx % cols = idx := by
  have hpos : 0 < cols := by
    rcases Nat.eq_zero_or_pos cols with h0 | h0
    · rw [h0, Nat.mul_zero] at h
      omega
    · exact h0
  refine ⟨(Nat.div_lt_iff_lt_mul hpos).2 h, Nat.mod_lt _ hpos, ?_⟩
  rw [Nat.mul_comm]
  exact Nat.div_add_mod idx cols

end RowMajor

section BatchLoop

variable {α : Type} [LinearOrderedField α] [FloorRing α]

/-- The loop of `computeFeature` over a run `pre` of query indices for which
`computeSiForPoint` succeeds: the slots of these indices receive the grids in
row-major order, all the other slots are left as they were, and the loop goes on
with the remaining indices. -/
theorem computeFeatureFrom_succeed (s : SpinImageEstimation α) (e : Env α)
    (pre : List Nat) (i_input : Nat) (output : PointCloudOut α)
    (hpre : ∀ index ∈ pre, ∃ g, computeSiForPoint s e index = Except.ok g)
    (hlen : i_input + pre.length ≤ output.length)
    (hcap : ∀ hist ∈ output, (s.image_width + 1) * (2 * s.image_width + 1) ≤ hist.length) :
    ∃ output1 : PointCloudOut α,
      (∀ post, computeFeatureFrom s e i_input (pre ++ post) output
        = computeFeatureFrom s e (i_input + pre.length) post output1) ∧
      output1.length = output.length ∧
      (∀ hist ∈ output1, (s.image_width + 1) * (2 * s.image_width + 1) ≤ hist.length) ∧
      (∀ j, j < i_input ∨ i_input + pre.length ≤ j → output1.get? j = output.get? j) ∧
      ∀ k, k < pre.length → ∃ index g hist, pre.get? k = some index ∧
        computeSiForPoint s e index = Except.ok g ∧
        output.get? (i_input + k) = some hist ∧
        output1.get? (i_input + k) = some (rowMajor g ++
          hist.drop ((s.image_width + 1) * (2 * s.image_width + 1))) := by
  induction pre generalizing i_input output with
  | nil =>
    exact ⟨output, fun _ => rfl, rfl, hcap, fun _ _ => rfl, fun k hk => by cases hk⟩
  | cons index pre ih =>
    simp only [List.length_cons] at hlen
    obtain ⟨g, hg⟩ := hpre index (List.mem_cons_self _ _)
    have hshape := computeSiForPoint_shape s e index g hg
    have hlt : i_input < output.length := by omega
    obtain ⟨hist, hhist⟩ : ∃ hist, output.get? i_input = some hist :=
      ⟨output.get ⟨i_input, hlt⟩, List.get?_eq_get hlt⟩
    have hmem : hist ∈ output := List.get?_mem hhist
    have hw := writeSlot_spec output i_input g hist s.image_width (2 * s.image_width + 1)
      hshape hhist (hcap hist hmem)
    have hstep : ∀ post, computeFeatureFrom s e i_input (index :: pre ++ post) output
        = computeFeatureFrom s e (i_input + 1) (pre ++ post)
          (output.set i_input (rowMajor g ++
            hist.drop ((s.image_width + 1) * (2 * s.image_width + 1)))) := by
      intro post
      simp only [List.cons_append]
      rw [computeFeatureFrom]
      simp only [hg, hw]
    have hnewlen : (s.image_width + 1) * (2 * s.image_width + 1)
        ≤ (rowMajor g ++ hist.drop ((s.image_width + 1) * (2 * s.image_width + 1))).length := by
      rw [List.length_append, rowMajor_length g _ _ hshape]
      omega
    obtain ⟨output1, hrun, hl1, hcap1, hout, hin⟩ := ih (i_input + 1)
      (output.set i_input (rowMajor g ++
        hist.drop ((s.image_width + 1) * (2 * s.image_width + 1))))
      (fun i hi => hpre i (List.mem_cons_of_mem _ hi))
      (by rw [List.length_set]; omega)
      (fun h hh => by
        rcases List.mem_or_eq_of_mem_set hh with hh | hh
        · exact hcap h hh
        · rw [hh]; exact hnewlen)
    refine ⟨output1, ?_, ?_, hcap1, ?_, ?_⟩
    · intro post
      rw [hstep, hrun]
      congr 1
      simp only [List.length_cons]
      omega
    · rw [hl1, List.length_set]
    · intro j hj
      rw [hout j (by simp only [List.length_cons] at hj; omega)]
      simp only [List.get?_eq_getElem?]
      rw [List.getElem?_set_ne (by simp only [List.length_cons] at hj; omega)]
    · intro k hk
      cases k with
      | zero =>
        refine ⟨index, g, hist, rfl, hg, hhist, ?_⟩
        rw [Nat.add_zero, hout i_input (Or.inl (by omega))]
        simp only [List.get?_eq_getElem?]
        rw [List.getElem?_set_self hlt]
      | succ k =>
        simp only [List.length_cons] at hk
        obtain ⟨index1, g1, hist1, h1, h2, h3, h4⟩ := hin k (by omega)
        refine ⟨index1, g1, hist1, h1, h2, ?_, ?_⟩
        · rw [← h3]
          simp only [List.get?_eq_getElem?]
          rw [List.getElem?_set_ne (by omega)]
          congr 1
          omega
        · rw [← h4]
          congr 1
          omega

/-- The loop stops at an index for which `computeSiForPoint` fails. -/
theorem computeFeatureFrom_error (s : SpinImageEstimation α) (e : Env α) (index : Nat)
    (post : List Nat) (i_input : Nat) (output : PointCloudOut α) (err : SiError)
    (h : computeSiForPoint s e index = Except.error err) :
    computeFeatureFrom s e i_input (index :: post) output = ⟨output, some err⟩ := by
  rw [computeFeatureFrom]
  simp only [h]

end BatchLoop

section OutputLayout

variable {α : Type} [LinearOrderedField α] [FloorRing α]

theorem first_failure {β : Type} (P : β → Prop) (l : List β) (h : ¬ ∀ x ∈ l, P x) :
    ∃ pre x post, l = pre ++ x :: post ∧ (∀ y ∈ pre, P y) ∧ ¬ P x := by
  induction l with
  | nil => exact absurd (fun x hx => by cases hx) h
  | cons a l ih =>
    by_cases ha : P a
    · have hl : ¬ ∀ x ∈ l, P x := fun hall => h (fun x hx => by
        rcases List.mem_cons.1 hx with rfl | hx
        · exact ha
        · exact hall x hx)
      obtain ⟨pre, x, post, hsplit, hpre, hx⟩ := ih hl
      refine ⟨a :: pre, x, post, by rw [hsplit]; rfl, fun y hy => ?_, hx⟩
      rcases List.mem_cons.1 hy with rfl | hy
      · exact ha
      · exact hpre y hy
    · exact ⟨[], a, l, rfl, fun y hy => absurd hy (List.not_mem_nil y), ha⟩

/-- C11. Output layout.  Let the output cloud have a slot for every query
index, each with room for `(W + 1) * (2 * W + 1)` values, and let
`computeSiForPoint` succeed for every query index.  Then `computeFeature` ends
without a failure, and for every query position `k` the slot `k` holds the grid
`g` of `indices[k]` in row-major order, followed by what the slot held beyond
these `(W + 1) * (2 * W + 1)` values (nothing, for a slot of exactly that
length): the value at the flat index `row * (2 * W + 1) + col` is the entry
`(row, col)` of `g` for `row ≤ W` and `col ≤ 2 * W`, and `(row, col) ↦
row * (2 * W + 1) + col` is a bijection onto the flat indices below
`(W + 1) * (2 * W + 1)`. -/
theorem output_layout (s : SpinImageEstimation α) (e : Env α) (output : PointCloudOut α)
    (k : Nat)
    (hall : ∀ index ∈ s.indices, ∃ g, computeSiForPoint s e index = Except.ok g)
    (hlen : s.indices.length ≤ output.length)
    (hcap : ∀ hist ∈ output, (s.image_width + 1) * (2 * s.image_width + 1) ≤ hist.length)
    (hk : k < s.indices.length) :
    (computeFeature s e output).failure = none ∧
      ∃ index g hist slot, s.indices.get? k = some index ∧
        computeSiForPoint s e index = Except.ok g ∧
        output.get? k = some hist ∧
        (computeFeature s e output).output.get? k = some slot ∧
        slot = rowMajor g ++ hist.drop ((s.image_width + 1) * (2 * s.image_width + 1)) ∧
        (rowMajor g).length = (s.image_width + 1) * (2 * s.image_width + 1) ∧
        (hist.length = (s.image_width + 1) * (2 * s.image_width + 1) → slot = rowMajor g) ∧
        (∀ row col, row ≤ s.image_width → col ≤ 2 * s.image_width →
          row * (2 * s.image_width + 1) + col < (s.image_width + 1) * (2 * s.image_width + 1) ∧
          ∃ v, gridAt g row col = some v ∧
            slot.get? (row * (2 * s.image_width + 1) + col) = some v) ∧
        ∀ idx, idx < (s.image_width + 1) * (2 * s.image_width + 1) →
          ∃ row col, row ≤ s.image_width ∧ col ≤ 2 * s.image_width ∧
            row * (2 * s.image_width + 1) + col = idx ∧
            ∀ row1 col1, row1 ≤ s.image_width → col1 ≤ 2 * s.image_width →
              row1 * (2 * s.image_width + 1) + col1 = idx → row1 = row ∧ col1 = col := by
  obtain ⟨output1, hrun, _, _, _, hin⟩ :=
    computeFeatureFrom_succeed s e s.indices 0 output hall (by omega) hcap
  have hrun1 : computeFeature s e output = ⟨output1, none⟩ := by
    have := hrun []
    rw [List.append_nil] at this
    unfold computeFeature
    rw [this]
    rfl
  obtain ⟨index, g, hist, hidx, hg, hh, hslot⟩ := hin k hk
  rw [Nat.zero_add] at hh hslot
  have hshape := computeSiForPoint_shape s e index g hg
  have hlen1 := rowMajor_length g _ _ hshape
  have hinside : ∀ row col, row ≤ s.image_width → col ≤ 2 * s.image_width →
      row * (2 * s.image_width + 1) + col
        < (s.image_width + 1) * (2 * s.image_width + 1) := by
    intro row col hr hc
    calc row * (2 * s.image_width + 1) + col
        < row * (2 * s.image_width + 1) + (2 * s.image_width + 1) := by omega
      _ = (row + 1) * (2 * s.image_width + 1) := by rw [Nat.add_mul, Nat.one_mul]
      _ ≤ (s.image_width + 1) * (2 * s.image_width + 1) :=
        Nat.mul_le_mul_right _ (by omega)
  refine ⟨by rw [hrun1], index, g, hist, _, hidx, hg, hh, by rw [hrun1]; exact hslot, rfl,
    hlen1, ?_, ?_, ?_⟩
  · intro hl
    rw [List.drop_of_length_le (by omega), List.append_nil]
  · intro row col hr hc
    have hlt := hinside row col hr hc
    refine ⟨hlt, (rowMajor g).get ⟨_, by rw [hlen1]; exact hlt⟩, ?_, ?_⟩
    · rw [← rowMajor_get g _ _ hshape row col (by omega)]
      exact List.get?_eq_get _
    · rw [List.get?_eq_getElem?, List.getElem?_append_left (by rw [hlen1]; exact hlt),
        ← List.get?_eq_getElem?]
      exact List.get?_eq_get _
  · intro idx hidx1
    obtain ⟨h1, h2, h3⟩ := flat_index_exists _ _ idx hidx1
    refine ⟨idx / (2 * s.image_width + 1), idx % (2 * s.image_width + 1), by omega, by omega,
      h3, ?_⟩
    intro row1 col1 _ hc1 heq
    exact flat_index_unique (2 * s.image_width + 1) row1 col1 _ _ (by omega) h2
      (by rw [heq, h3])

end OutputLayout

section BatchDriver

variable {α : Type} [LinearOrderedField α] [FloorRing α]

/-- C12. Batch driver.  Let the output cloud have a slot for every query
index, each with room for `(W + 1) * (2 * W + 1)` values.  Then `computeFeature`
ends without a failure if and only if `computeSiForPoint` succeeds for every
query index, and in that case every slot `k` holds the grid of `indices[k]` in
row-major order; and if `computeSiForPoint` fails with `err` for an index, having
succeeded for all the indices `pre` before it, then `computeFeature` fails with
`err`, the indices after the failing one play no part in the outcome, the slots
of `pre` hold their grids, and all the other slots are left as they were. -/
theorem batch_driver (s : SpinImageEstimation α) (e : Env α) (output : PointCloudOut α)
    (hlen : s.indices.length ≤ output.length)
    (hcap : ∀ hist ∈ output, (s.image_width + 1) * (2 * s.image_width + 1) ≤ hist.length) :
    ((computeFeature s e output).failure = none ↔
        ∀ index ∈ s.indices, ∃ g, computeSiForPoint s e index = Except.ok g) ∧
      ((∀ index ∈ s.indices, ∃ g, computeSiForPoint s e index = Except.ok g) →
        ∀ k, k < s.indices.length → ∃ index g hist, s.indices.get? k = some index ∧
          computeSiForPoint s e index = Except.ok g ∧ output.get? k = some hist ∧
          (computeFeature s e output).output.get? k = some (rowMajor g ++
            hist.drop ((s.image_width + 1) * (2 * s.image_width + 1)))) ∧
      ∀ pre index post err, s.indices = pre ++ index :: post →
        (∀ i ∈ pre, ∃ g, computeSiForPoint s e i = Except.ok g) →
        computeSiForPoint s e index = Except.error err →
        (computeFeature s e output).failure = some err ∧
        (∀ post1, computeFeatureFrom s e 0 (pre ++ index :: post1) output
          = computeFeature s e output) ∧
        (∀ j, pre.length ≤ j → (computeFeature s e output).output.get? j = output.get? j) ∧
        ∀ k, k < pre.length → ∃ i g hist, pre.get? k = some i ∧
          computeSiForPoint s e i = Except.ok g ∧ output.get? k = some hist ∧
          (computeFeature s e output).output.get? k = some (rowMajor g ++
            hist.drop ((s.image_width + 1) * (2 * s.image_width + 1))) := by
  have hok : (∀ index ∈ s.indices, ∃ g, computeSiForPoint s e index = Except.ok g) →
      ∃ output1 : PointCloudOut α, computeFeature s e output = ⟨output1, none⟩ ∧
        ∀ k, k < s.indices.length → ∃ index g hist, s.indices.get? k = some index ∧
          computeSiForPoint s e index = Except.ok g ∧ output.get? k = some hist ∧
          output1.get? k = some (rowMajor g ++
            hist.drop ((s.image_width + 1) * (2 * s.image_width + 1))) := by
    intro hall
    obtain ⟨output1, hrun, _, _, _, hin⟩ :=
      computeFeatureFrom_succeed s e s.indices 0 output hall (by omega) hcap
    refine ⟨output1, ?_, fun k hk => ?_⟩
    · have := hrun []
      rw [List.append_nil] at this
      unfold computeFeature
      rw [this]
      rfl
    · have := hin k hk
      rw [Nat.zero_add] at this
      exact this
  have hfail : ∀ pre index post err, s.indices = pre ++ index :: post →
      (∀ i ∈ pre, ∃ g, computeSiForPoint s e i = Except.ok g) →
      computeSiForPoint s e index = Except.error err →
      ∃ output1 : PointCloudOut α,
        (∀ post1, computeFeatureFrom s e 0 (pre ++ index :: post1) output
          = ⟨output1, some err⟩) ∧
        (∀ j, pre.length ≤ j → output1.get? j = output.get? j) ∧
        ∀ k, k < pre.length → ∃ i g hist, pre.get? k = some i ∧
          computeSiForPoint s e i = Except.ok g ∧ output.get? k = some hist ∧
          output1.get? k = some (rowMajor g ++
            hist.drop ((s.image_width + 1) * (2 * s.image_width + 1))) := by
    intro pre index post err hsplit hpre herr
    have hl : 0 + pre.length ≤ output.length := by
      have : pre.length ≤ s.indices.length := by
        rw [hsplit, List.length_append]
        omega
      omega
    obtain ⟨output1, hrun, _, _, hout, hin⟩ :=
      computeFeatureFrom_succeed s e pre 0 output hpre hl hcap
    refine ⟨output1, fun post1 => ?_, fun j hj => hout j (Or.inr (by omega)), fun k hk => ?_⟩
    · rw [hrun, computeFeatureFrom_error s e index post1 _ output1 err herr]
    · have := hin k hk
      rw [Nat.zero_add] at this
      exact this
  refine ⟨⟨fun hnone => ?_, fun hall => ?_⟩, fun hall k hk => ?_, ?_⟩
  · by_contra hnot
    obtain ⟨pre, index, post, hsplit, hpre, hx⟩ := first_failure _ s.indices hnot
    have herr : ∃ err, computeSiForPoint s e index = Except.error err := by
      cases hres : computeSiForPoint s e index with
      | error err => exact ⟨err, rfl⟩
      | ok g => exact absurd ⟨g, hres⟩ hx
    obtain ⟨err, herr⟩ := herr
    obtain ⟨output1, hrun, _⟩ := hfail pre index post err hsplit hpre herr
    have := hrun post
    rw [← hsplit] at this
    unfold computeFeature at hnone
    rw [this] at hnone
    cases hnone
  · obtain ⟨output1, hrun, _⟩ := hok hall
    rw [hrun]
  · obtain ⟨output1, hrun, hin⟩ := hok hall
    rw [hrun]
    exact hin k hk
  · intro pre index post err hsplit hpre herr
    obtain ⟨output1, hrun, hout, hin⟩ := hfail pre index post err hsplit hpre herr
    have hrun1 : computeFeature s e output = ⟨output1, some err⟩ := by
      have := hrun post
      rw [← hsplit] at this
      exact this
    rw [hrun1]
    exact ⟨rfl, hrun, hout, hin⟩

end BatchDriver

section LoopCongruence

variable {α : Type} [LinearOrderedField α] [FloorRing α]

/-- The loop over the neighbours depends on the object and on the environment
only through the treatment of the single neighbours. -/
theorem accumulate_congr (s s1 : SpinImageEstimation α) (e e1 : Env α) (q : Vector3f α)
    (n ax : Option (Vector3f α))
    (hs : ∀ nn, neighborSplat s e q n ax nn = neighborSplat s1 e1 q n ax nn)
    (ha : ∀ acc c, accumulateOne s e acc c = accumulateOne s1 e1 acc c)
    (l : List Nat) (acc : Grid α × Grid α) :
    accumulate s e q n ax l acc = accumulate s1 e1 q n ax l acc := by
  induction l generalizing acc with
  | nil => rfl
  | cons nn rest ih =>
    unfold accumulate
    rw [hs nn]
    cases neighborSplat s1 e1 q n ax nn with
    | error err => rfl
    | ok r =>
      cases r with
      | none => simp only [bind_ok_eq]; exact ih acc
      | some c =>
        simp only [bind_ok_eq]
        rw [ha acc c]
        cases accumulateOne s1 e1 acc c with
        | error err => rfl
        | ok acc1 => simp only [bind_ok_eq]; exact ih acc1

end LoopCongruence

section BatchExamples

theorem batch_eval_zero :
    computeSiForPoint (batchScene : SpinImageEstimation ℝ)
      (sparseEnv Real.sqrt Real.arcsin Real.arccos Real.pi false [0, 1, 2]) 0
      = Except.ok [[0, 1 / 2, 0], [0, 1 / 2, 0]] := by
  have hacc := demo_accumulate ⟨0, 0, 1⟩ rfl rfl (by norm_num) (by norm_num)
  rw [accumulate_congr (demoScene true (1 / 8) 2 0 ⟨0, 0, 1⟩ : SpinImageEstimation ℝ) batchScene
    (plainEnv Real.sqrt Real.arcsin Real.arccos Real.pi false [0, 1, 2])
    (sparseEnv Real.sqrt Real.arcsin Real.arccos Real.pi false [0, 1, 2]) ⟨0, 0, 0⟩
    (some ⟨0, 0, 1⟩) (some ⟨0, 0, 1⟩) (fun _ => rfl) (fun _ _ => rfl)] at hacc
  have ho : originOf (batchScene : SpinImageEstimation ℝ) 0
      = Except.ok (⟨0, 0, 0⟩, some ⟨0, 0, 1⟩) := rfl
  have hax : rotationAxisOf (batchScene : SpinImageEstimation ℝ) 0 (some ⟨0, 0, 1⟩)
      = Except.ok (some ⟨0, 0, 1⟩) := rfl
  have hc1 : cassert (sparseEnv Real.sqrt Real.arcsin Real.arccos Real.pi false [0, 1, 2])
      (decide ((batchScene : SpinImageEstimation ℝ).image_width > 0)) = Except.ok () := rfl
  have hc2 : cassert (sparseEnv Real.sqrt Real.arcsin Real.arccos Real.pi false [0, 1, 2])
      (decide ((batchScene : SpinImageEstimation ℝ).support_angle_cos ≤ 1 ∧
        (batchScene : SpinImageEstimation ℝ).support_angle_cos ≥ 0)) = Except.ok () := by
    apply cassert_of_true
    simp only [batchScene, demoScene]
    norm_num
  unfold computeSiForPoint
  rw [hc1, hc2, bind_ok_eq, bind_ok_eq, ho, bind_ok_eq, hax, bind_ok_eq]
  have hs : (sparseEnv Real.sqrt Real.arcsin Real.arccos Real.pi false
      [0, 1, 2]).searchForNeighbors 0 (batchScene : SpinImageEstimation ℝ).search_radius
      = [0, 1, 2] := rfl
  have hw : (batchScene : SpinImageEstimation ℝ).image_width = 1 := rfl
  have hm : (batchScene : SpinImageEstimation ℝ).min_pts_neighb = 1 := rfl
  simp only [hs, hw, hm, hacc, bind_ok_eq]
  norm_num [toInt32, normalize, batchScene, demoScene, gridDivScalar, gridSum, pure_eq_ok]

theorem batch_eval_one :
    computeSiForPoint (batchScene : SpinImageEstimation ℝ)
      (sparseEnv Real.sqrt Real.arcsin Real.arccos Real.pi false [0, 1, 2]) 1
      = Except.error SiError.tooFewPoints := by
  have ho : originOf (batchScene : SpinImageEstimation ℝ) 1
      = Except.ok (⟨1, 0, 0⟩, some ⟨0, 0, 1⟩) := rfl
  have hax : rotationAxisOf (batchScene : SpinImageEstimation ℝ) 1 (some ⟨0, 0, 1⟩)
      = Except.ok (some ⟨0, 0, 1⟩) := rfl
  have hc1 : cassert (sparseEnv Real.sqrt Real.arcsin Real.arccos Real.pi false [0, 1, 2])
      (decide ((batchScene : SpinImageEstimation ℝ).image_width > 0)) = Except.ok () := rfl
  have hc2 : cassert (sparseEnv Real.sqrt Real.arcsin Real.arccos Real.pi false [0, 1, 2])
      (decide ((batchScene : SpinImageEstimation ℝ).support_angle_cos ≤ 1 ∧
        (batchScene : SpinImageEstimation ℝ).support_angle_cos ≥ 0)) = Except.ok () := by
    apply cassert_of_true
    simp only [batchScene, demoScene]
    norm_num
  unfold computeSiForPoint
  rw [hc1, hc2, bind_ok_eq, bind_ok_eq, ho, bind_ok_eq, hax, bind_ok_eq]
  have hs : (sparseEnv Real.sqrt Real.arcsin Real.arccos Real.pi false
      [0, 1, 2]).searchForNeighbors 1 (batchScene : SpinImageEstimation ℝ).search_radius
      = [] := rfl
  have hm : (batchScene : SpinImageEstimation ℝ).min_pts_neighb = 1 := rfl
  simp only [hs, hm]
  norm_num [toInt32, throw_eq_error]

/-- Witness of C11: the single query point of the demonstration scene, with an
output slot of seven values. -/
theorem output_layout_witness :
    (computeFeature (demoScene true (1 / 8) 2 0 ⟨0, 0, 1⟩ : SpinImageEstimation ℝ)
        (plainEnv Real.sqrt Real.arcsin Real.arccos Real.pi false [0, 1, 2])
        [[9, 9, 9, 9, 9, 9, 9]]).failure = none ∧
      (computeFeature (demoScene true (1 / 8) 2 0 ⟨0, 0, 1⟩ : SpinImageEstimation ℝ)
        (plainEnv Real.sqrt Real.arcsin Real.arccos Real.pi false [0, 1, 2])
        [[9, 9, 9, 9, 9, 9, 9]]).output.get? 0 = some [0, 1 / 2, 0, 0, 1 / 2, 0, 9] := by
  have heval := demo_eval ⟨0, 0, 1⟩ rfl rfl (by norm_num) (by norm_num)
  obtain ⟨hnone, index, g, hist, slot, hidx, hg, hh, hslot, hval, _⟩ :=
    output_layout (demoScene true (1 / 8) 2 0 ⟨0, 0, 1⟩ : SpinImageEstimation ℝ)
      (plainEnv Real.sqrt Real.arcsin Real.arccos Real.pi false [0, 1, 2])
      [[9, 9, 9, 9, 9, 9, 9]] 0
      (fun index hindex => by
        have h0 : index = 0 := List.mem_singleton.1 hindex
        rw [h0]
        exact ⟨_, heval⟩)
      (Nat.le_refl 1)
      (fun hist hhist => by
        have h0 : hist = [9, 9, 9, 9, 9, 9, 9] := List.mem_singleton.1 hhist
        rw [h0]
        decide)
      Nat.one_pos
  refine ⟨hnone, ?_⟩
  cases hidx
  cases hh
  rw [heval] at hg
  cases hg
  rw [hslot, hval]
  rfl

/-- Witness of C12: of the three query points of the scene the second has too
few neighbours; the batch fails with that error, the first slot holds the grid
of the first query point and the two other slots are left as they were. -/
theorem batch_driver_witness :
    (computeFeature (batchScene : SpinImageEstimation ℝ)
        (sparseEnv Real.sqrt Real.arcsin Real.arccos Real.pi false [0, 1, 2])
        [[9, 9, 9, 9, 9, 9], [8, 8, 8, 8, 8, 8], [7, 7, 7, 7, 7, 7]]).failure
        = some SiError.tooFewPoints ∧
      (computeFeature (batchScene : SpinImageEstimation ℝ)
        (sparseEnv Real.sqrt Real.arcsin Real.arccos Real.pi false [0, 1, 2])
        [[9, 9, 9, 9, 9, 9], [8, 8, 8, 8, 8, 8], [7, 7, 7, 7, 7, 7]]).output
        = [[0, 1 / 2, 0, 0, 1 / 2, 0], [8, 8, 8, 8, 8, 8], [7, 7, 7, 7, 7, 7]] := by
  obtain ⟨hfail, _, hout, hin⟩ :=
    (batch_driver (batchScene : SpinImageEstimation ℝ)
      (sparseEnv Real.sqrt Real.arcsin Real.arccos Real.pi false [0, 1, 2])
      [[9, 9, 9, 9, 9, 9], [8, 8, 8, 8, 8, 8], [7, 7, 7, 7, 7, 7]]
      (Nat.le_refl 3)
      (fun hist hhist => by
        simp only [List.mem_cons, List.mem_singleton, List.not_mem_nil, or_false] at hhist
        rcases hhist with h0 | h0 | h0 <;> rw [h0] <;> decide)).2.2 [0] 1 [2]
      SiError.tooFewPoints rfl
      (fun i hi => by
        have h0 : i = 0 := List.mem_singleton.1 hi
        rw [h0]
        exact ⟨_, batch_eval_zero⟩)
      batch_eval_one
  refine ⟨hfail, ?_⟩
  obtain ⟨i, g, hist, hi, hg, hh, hslot⟩ := hin 0 Nat.one_pos
  cases hi
  cases hh
  rw [batch_eval_zero] at hg
  cases hg
  apply List.ext_get?
  intro n
  match n with
  | 0 => rw [hslot]; rfl
  | n + 1 => rw [hout (n + 1) (Nat.le_add_left 1 n)]; rfl

end BatchExamples

section SelectionExamples

/-- Witness of C13: with a fixed axis and no input normals the axis of the
query index 1 is the fixed axis; with an axis cloud it is the entry 1 of the
cloud, here a vector of length 3. -/
theorem axis_selection_witness :
    rotationAxisOf (initScene true false none [] : SpinImageEstimation ℚ) 1 none
        = Except.ok (some ⟨0, 0, 1⟩) ∧
      rotationAxisOf
        (initScene false true (some [⟨0, 0, 1⟩, ⟨0, 1, 0⟩]) [⟨0, 0, 2⟩, ⟨3, 0, 0⟩] :
          SpinImageEstimation ℚ) 1 (some ⟨0, 1, 0⟩)
        = Except.ok (some ⟨3, 0, 0⟩) :=
  ⟨(axis_selection (initScene true false none [] : SpinImageEstimation ℚ)
      (plainEnv id id id 3 false []) 1 (⟨1, 0, 0⟩, none) rfl).1 rfl,
    (axis_selection
      (initScene false true (some [⟨0, 0, 1⟩, ⟨0, 1, 0⟩]) [⟨0, 0, 2⟩, ⟨3, 0, 0⟩] :
        SpinImageEstimation ℚ)
      (plainEnv id id id 3 false []) 1 (⟨1, 0, 0⟩, some ⟨0, 1, 0⟩)
      rfl).2.1 rfl rfl [⟨0, 0, 2⟩, ⟨3, 0, 0⟩] ⟨3, 0, 0⟩ rfl rfl⟩

/-- Witness of C17: an object with two query points and no surface; after
`initCompute` the surface is the query cloud and the surface normals are the
input normals. -/
theorem self_comparison_aliasing_witness :
    (aliasSurface (initScene false false (some [⟨0, 0, 1⟩, ⟨0, 1, 0⟩]) [] :
        SpinImageEstimation ℚ)).surface = some [⟨0, 0, 0⟩, ⟨1, 0, 0⟩] ∧
      (aliasSurface (initScene false false (some [⟨0, 0, 1⟩, ⟨0, 1, 0⟩]) [] :
        SpinImageEstimation ℚ)).normals = some [⟨0, 0, 1⟩, ⟨0, 1, 0⟩] :=
  have h := (self_comparison_aliasing
    (initScene false false (some [⟨0, 0, 1⟩, ⟨0, 1, 0⟩]) [] : SpinImageEstimation ℚ)
    (plainEnv id id id 3 false [])
    ⟨true, none, aliasSurface (initScene false false (some [⟨0, 0, 1⟩, ⟨0, 1, 0⟩]) [])⟩
    (by simp [initCompute, initScene, plainEnv, aliasSurface, aliasInputNormals, cassert,
      cloudSize, bind_ok_eq, pure_eq_ok])
    rfl).1 rfl
  ⟨h.1, h.2.1⟩

/-- Example of index safety in exact arithmetic: the neighbour 1 of the
demonstration scene, at distance 1
from the query point for a search radius of 2. -/
theorem grid_index_safety_witness :
    ∃ g1, gridAddCells (gridZero 2 3 : Grid ℝ) (bilinearCells ⟨0, 1, 1 / 2, 0⟩) = Except.ok g1 ∧
      GridShape g1 2 3 :=
  (grid_index_safety (demoScene true (1 / 8) 2 0 ⟨0, 0, 1⟩ : SpinImageEstimation ℝ)
    (plainEnv Real.sqrt Real.arcsin Real.arccos Real.pi false [0, 1, 2]) ⟨0, 0, 0⟩ ⟨1, 0, 0⟩
    (some ⟨0, 0, 1⟩) (some ⟨0, 0, 1⟩) 1 1 ⟨0, 1, 1 / 2, 0⟩ (Nat.le_refl 1)
    (by simp only [demoScene]; norm_num)
    Real.sqrt_nonneg
    (fun x _ _ => abs_le.2 ⟨by
      have := Real.neg_pi_div_two_le_arcsin x
      simp only [plainEnv]
      linarith, Real.arcsin_le_pi_div_two x⟩)
    Real.pi_pos rfl
    (by
      simp only [norm, plainEnv, Vector3f.sub, Vector3f.dot, demoScene]
      norm_num)
    (demo_splat_side ⟨0, 0, 1⟩ ⟨1, 0, 0⟩ 1 rfl rfl rfl (by norm_num) rfl rfl (by norm_num)
      (by norm_num))).2.1 (gridZero 2 3) (gridShape_zero 2 3)

end SelectionExamples

section EntryLemmas

variable {α : Type} [LinearOrderedField α] [FloorRing α]

theorem gridAt_of_shape (g : Grid α) (rows cols r c : Nat) (hs : GridShape g rows cols)
    (hr : r < rows) (hc : c < cols) : gridAt g r c = some (entry g r c) := by
  have hlen : r < g.length := by rw [hs.1]; exact hr
  have hrow : g.get? r = some (g.get ⟨r, hlen⟩) := List.get?_eq_get hlen
  have hrl : c < (g.get ⟨r, hlen⟩).length := by
    rw [hs.2 _ (List.get?_mem hrow)]; exact hc
  have hcol : (g.get ⟨r, hlen⟩).get? c = some ((g.get ⟨r, hlen⟩).get ⟨c, hrl⟩) :=
    List.get?_eq_get hrl
  unfold entry gridAt
  rw [hrow]
  simp only [Option.some_bind, hcol, Option.getD_some]

theorem entry_gridZero (rows cols r c : Nat) : entry (gridZero rows cols : Grid α) r c = 0 := by
  unfold entry gridAt gridZero
  rw [List.get?_eq_getElem?, List.getElem?_replicate]
  split
  · simp only [Option.some_bind]
    rw [List.get?_eq_getElem?, List.getElem?_replicate]
    split <;> rfl
  · rfl

theorem rowAdd_get (row : List α) (k c : Nat) (w : α) :
    (rowAdd row k w).get? c = if c = k then (row.get? c).map (fun x => x + w) else row.get? c := by
  induction row generalizing k c with
  | nil => simp [rowAdd]
  | cons x xs ih =>
    cases k with
    | zero =>
      cases c with
      | zero => simp [rowAdd]
      | succ c => simp [rowAdd]
    | succ k =>
      cases c with
      | zero => simp [rowAdd]
      | succ c =>
        simp only [rowAdd, List.get?_cons_succ, ih, Nat.succ_inj']

theorem entry_gridAdd (g g1 : Grid α) (r c : Int) (w : α) (r1 c1 : Nat)
    (h : gridAdd g r c w = Except.ok g1) :
    entry g1 r1 c1 = entry g r1 c1 + (if (r, c) = ((r1 : Int), (c1 : Int)) then w else 0) := by
  unfold gridAdd at h
  split at h
  · rename_i hpos
    split at h
    · cases h
    · rename_i row hrow
      split at h
      · rename_i hlt
        cases h
        have hcond : ((r, c) = ((r1 : Int), (c1 : Int))) ↔ (r1 = r.toNat ∧ c1 = c.toNat) := by
          rw [Prod.mk.injEq]
          constructor
          · rintro ⟨h1, h2⟩
            exact ⟨by omega, by omega⟩
          · rintro ⟨h1, h2⟩
            exact ⟨by omega, by omega⟩
        unfold entry gridAt
        by_cases hr : r1 = r.toNat
        · subst hr
          have hlen : r.toNat < g.length := by
            rw [List.get?_eq_some] at hrow
            exact hrow.1
          rw [List.get?_eq_getElem?, List.get?_eq_getElem?, List.getElem?_set_self hlen,
            ← List.get?_eq_getElem?, hrow]
          simp only [Option.some_bind, rowAdd_get]
          by_cases hc : c1 = c.toNat
          · subst hc
            rw [if_pos rfl, if_pos (hcond.2 ⟨rfl, rfl⟩)]
            obtain ⟨v, hv⟩ : ∃ v, row.get? c.toNat = some v :=
              ⟨row.get ⟨_, hlt⟩, List.get?_eq_get hlt⟩
            rw [hv]
            rfl
          · rw [if_neg hc, if_neg (fun hh => hc (hcond.1 hh).2), add_zero]
        · have hne : r.toNat ≠ r1 := fun hh => hr hh.symm
          rw [List.get?_eq_getElem?, List.get?_eq_getElem?, List.getElem?_set_ne hne,
            if_neg (fun hh => hr (hcond.1 hh).1), add_zero]
      · cases h
  · cases h

theorem entry_gridAddCells (cells : List ((Int × Int) × α)) (g g1 : Grid α) (r c : Nat)
    (h : gridAddCells g cells = Except.ok g1) :
    entry g1 r c = entry g r c + cellWeight cells r c := by
  induction cells generalizing g with
  | nil =>
    cases h
    simp [cellWeight]
  | cons cell cells ih =>
    unfold gridAddCells at h
    rw [bind_eq_ok_iff] at h
    obtain ⟨g2, h2, h3⟩ := h
    rw [ih g2 h3, entry_gridAdd g g2 _ _ _ r c h2]
    simp only [cellWeight, List.map_cons, List.sum_cons]
    ring

theorem entry_map (g : Grid α) (f : α → α) (hf : f 0 = 0) (r c : Nat) :
    entry (g.map (fun row => row.map f)) r c = f (entry g r c) := by
  unfold entry gridAt
  rw [List.get?_eq_getElem?, List.get?_eq_getElem?, List.getElem?_map]
  cases hrow : g[r]? with
  | none => simp [hf]
  | some row =>
    simp only [Option.map_some', Option.some_bind]
    rw [List.get?_eq_getElem?, List.get?_eq_getElem?, List.getElem?_map]
    cases hcol : row[c]? with
    | none => simp [hf]
    | some v => simp

theorem gridAt_map (g : Grid α) (f : α → α) (r c : Nat) :
    gridAt (g.map (fun row => row.map f)) r c = (gridAt g r c).map f := by
  unfold gridAt
  rw [List.get?_eq_getElem?, List.get?_eq_getElem?, List.getElem?_map]
  cases hrow : g[r]? with
  | none => rfl
  | some row =>
    simp only [Option.map_some', Option.some_bind]
    rw [List.get?_eq_getElem?, List.get?_eq_getElem?, List.getElem?_map]

end EntryLemmas

section QuotientEntries

variable {α : Type} [LinearOrderedField α] [FloorRing α]

theorem rowDiv_ok (xs ys : List α) (h : ∀ y ∈ ys, y ≠ 0) : ∃ qs, rowDiv xs ys = Except.ok qs := by
  induction xs generalizing ys with
  | nil => exact ⟨[], by unfold rowDiv; rfl⟩
  | cons x xs ih =>
    cases ys with
    | nil => exact ⟨[], by unfold rowDiv; rfl⟩
    | cons y ys =>
      obtain ⟨qs, hqs⟩ := ih ys (fun z hz => h z (List.mem_cons_of_mem _ hz))
      refine ⟨x / y :: qs, ?_⟩
      unfold rowDiv
      rw [fdiv_of_ne x y (h y (List.mem_cons_self _ _)), bind_ok_eq, hqs, bind_ok_eq]
      rfl

theorem gridDiv_ok (num den : Grid α) (h : ∀ row ∈ den, ∀ y ∈ row, y ≠ 0) :
    ∃ g, gridDiv num den = Except.ok g := by
  induction num generalizing den with
  | nil => exact ⟨[], by unfold gridDiv; rfl⟩
  | cons r rs ih =>
    cases den with
    | nil => exact ⟨[], by unfold gridDiv; rfl⟩
    | cons d ds =>
      obtain ⟨q, hq⟩ := rowDiv_ok r d (h d (List.mem_cons_self _ _))
      obtain ⟨qs, hqs⟩ := ih ds (fun row hrow => h row (List.mem_cons_of_mem _ hrow))
      refine ⟨q :: qs, ?_⟩
      unfold gridDiv
      rw [hq, bind_ok_eq, hqs, bind_ok_eq]
      rfl

theorem mem_grid_gridAt (g : Grid α) (row : List α) (y : α) (hrow : row ∈ g) (hy : y ∈ row) :
    ∃ r c, gridAt g r c = some y := by
  obtain ⟨r, hr⟩ := List.mem_iff_get?.1 hrow
  obtain ⟨c, hc⟩ := List.mem_iff_get?.1 hy
  exact ⟨r, c, by unfold gridAt; rw [hr]; exact hc⟩

theorem rowDiv_get (xs ys qs : List α) (c : Nat) (x y : α) (h : rowDiv xs ys = Except.ok qs)
    (hx : xs.get? c = some x) (hy : ys.get? c = some y) : qs.get? c = some (x / y) := by
  induction xs generalizing ys qs c with
  | nil => cases hx
  | cons x0 xs ih =>
    cases ys with
    | nil => cases hy
    | cons y0 ys =>
      unfold rowDiv at h
      rw [bind_eq_ok_iff] at h
      obtain ⟨q, hq, h⟩ := h
      rw [bind_eq_ok_iff] at h
      obtain ⟨qs1, hqs1, h⟩ := h
      cases h
      cases c with
      | zero =>
        simp only [List.get?_cons_zero, Option.some.injEq] at hx hy ⊢
        subst hx hy
        exact (fdiv_eq_ok _ _ _ hq).2
      | succ c =>
        simp only [List.get?_cons_succ] at hx hy ⊢
        exact ih ys qs1 c hqs1 hx hy

theorem gridDiv_at (num den g : Grid α) (r c : Nat) (x y : α)
    (h : gridDiv num den = Except.ok g)
    (hx : gridAt num r c = some x) (hy : gridAt den r c = some y) :
    gridAt g r c = some (x / y) := by
  induction num generalizing den g r with
  | nil => simp [gridAt] at hx
  | cons r0 rs ih =>
    cases den with
    | nil => simp [gridAt] at hy
    | cons d0 ds =>
      unfold gridDiv at h
      rw [bind_eq_ok_iff] at h
      obtain ⟨q, hq, h⟩ := h
      rw [bind_eq_ok_iff] at h
      obtain ⟨qs1, hqs1, h⟩ := h
      cases h
      cases r with
      | zero =>
        simp only [gridAt, List.get?_cons_zero, Option.some_bind] at hx hy ⊢
        exact rowDiv_get r0 d0 q c x y hq hx hy
      | succ r =>
        simp only [gridAt, List.get?_cons_succ] at hx hy ⊢
        exact ih ds qs1 r hqs1 hx hy

end QuotientEntries

section AngularExample

theorem tiny_norm_two (nd : Bool) (l : List Nat) :
    norm (plainEnv Real.sqrt Real.arcsin Real.arccos Real.pi nd l)
      ((⟨0, 23 / 2 * epsDouble, 0⟩ : Vector3f ℝ).sub ⟨0, 0, 0⟩) = 23 / 2 * epsDouble := by
  have h : (0 : ℝ) ≤ 23 / 2 * epsDouble := by unfold epsDouble; norm_num
  simp only [norm, plainEnv, Vector3f.sub, Vector3f.dot, sub_zero, mul_zero, add_zero, zero_add]
  exact Real.sqrt_mul_self h

theorem tiny_interpolate_two (angular nd : Bool) (l : List Nat) :
    interpolate (tinyScene angular : SpinImageEstimation ℝ)
      (plainEnv Real.sqrt Real.arcsin Real.arccos Real.pi nd l) (12 * epsDouble / 16)
      (23 / 2 * epsDouble) 0 = Except.ok ⟨15, 16, 1 / 3, 0⟩ := by
  have hpi : (Real.pi : ℝ) ≠ 0 := Real.pi_ne_zero
  have hf : ⌊(46 / 3 : ℝ)⌋ = 15 := by
    rw [Int.floor_eq_iff]; norm_num
  cases nd
  · simp only [interpolate, cassert, betaBinSize, fdiv, tinyScene, plainEnv, alphaBorder,
      betaBorder, epsFloat, epsDouble, pure_eq_ok, bind_ok_eq]
    norm_num [hpi, hf, bind_ok_eq, pure_eq_ok]
  · simp only [interpolate, cassert, betaBinSize, fdiv, tinyScene, plainEnv, alphaBorder,
      betaBorder, epsFloat, epsDouble, pure_eq_ok, bind_ok_eq]
    norm_num [hpi, hf, bind_ok_eq, pure_eq_ok]

theorem tiny_filter_two (angular : Bool) :
    normalFilter (tinyScene angular : SpinImageEstimation ℝ) (some ⟨0, 0, 1⟩) 2
      = Except.ok (some (if angular = true then 1 else -2)) := by
  cases angular
  · simp [normalFilter, tinyScene, pure_eq_ok]
  · simp only [normalFilter, tinyScene, initialized, pointAt, List.get?, Vector3f.dot, epsFloat,
      pure_eq_ok, bind_ok_eq]
    norm_num

theorem tiny_splat_two (angular nd : Bool) (l : List Nat) :
    neighborSplat (tinyScene angular : SpinImageEstimation ℝ)
      (plainEnv Real.sqrt Real.arcsin Real.arccos Real.pi nd l) ⟨0, 0, 0⟩
      (some ⟨0, 0, 1⟩) (some ⟨0, 0, 1⟩) 2
      = Except.ok (some (if angular = true then 1 else -2, ⟨15, 16, 1 / 3, 0⟩)) := by
  have hp : pointAt (tinyScene angular : SpinImageEstimation ℝ).surface 2
      = Except.ok ⟨0, 23 / 2 * epsDouble, 0⟩ := rfl
  have hd : ((⟨0, 23 / 2 * epsDouble, 0⟩ : Vector3f ℝ).sub ⟨0, 0, 0⟩).dot ⟨0, 0, 1⟩ = 0 := by
    simp [Vector3f.sub, Vector3f.dot]
  have hpos : (0 : ℝ) < epsDouble := epsDouble_pos
  have hnc : ¬ |23 / 2 * (epsDouble : ℝ)| < 10 * epsDouble := by
    rw [abs_of_pos (by linarith)]; linarith
  have hc : coordinates (tinyScene angular : SpinImageEstimation ℝ)
      (plainEnv Real.sqrt Real.arcsin Real.arccos Real.pi nd l) (12 * epsDouble / 16)
      (23 / 2 * epsDouble) 0 = some (23 / 2 * epsDouble, 0) := by
    simp [coordinates, tinyScene, plainEnv]
  have hassert : cassert (plainEnv Real.sqrt Real.arcsin Real.arccos Real.pi nd l)
      (decide (23 / 2 * (epsDouble : ℝ) > 0)) = Except.ok () :=
    cassert_of_true _ _ (decide_eq_true (by linarith))
  unfold neighborSplat
  rw [tiny_filter_two]
  simp only [bind_ok_eq, hp, tiny_norm_two, if_neg hnc, hassert, initialized, pure_eq_ok, hd,
    zero_div, tiny_binSize]
  have hcl : max (-1 : ℝ) (min 1 0) = 0 := by norm_num
  have habs : ¬ |(0 : ℝ)| > 1 + 10 * epsFloat := by
    rw [abs_zero]; have := epsFloat_pos (α := ℝ); linarith
  rw [if_neg habs]
  simp only [hcl, hc, tiny_interpolate_two]
  rfl

end AngularExample

section AngularAccumulation

variable {α : Type} [LinearOrderedField α] [FloorRing α]

theorem cellWeight_scale (cells : List ((Int × Int) × α)) (k : α) (r c : Nat) :
    cellWeight (cells.map (fun cell => (cell.1, cell.2 * k))) r c = cellWeight cells r c * k := by
  unfold cellWeight
  induction cells with
  | nil => simp
  | cons cell cells ih =>
    simp only [List.map_cons, List.sum_cons] at ih ⊢
    rw [ih]
    split <;> ring

/-- In angular mode, the accumulation of a neighbour whose four cells lie in the
arrays succeeds and adds the weights of the cells to the entries of `m_matrix`,
and the weights times the angle to the entries of `m_averAngles`. -/
theorem accumulateOne_angular (s : SpinImageEstimation α) (e : Env α) (acc : Grid α × Grid α)
    (cosine : α) (sp : Splat α) (rows cols : Nat) (hangular : s.is_angular = true)
    (h1 : GridShape acc.1 rows cols) (h2 : GridShape acc.2 rows cols)
    (hcells : ∀ cell ∈ bilinearCells sp,
      0 ≤ cell.1.1 ∧ cell.1.1 < rows ∧ 0 ≤ cell.1.2 ∧ cell.1.2 < cols) :
    ∃ acc1, accumulateOne s e acc (cosine, sp) = Except.ok acc1 ∧
      GridShape acc1.1 rows cols ∧ GridShape acc1.2 rows cols ∧
      ∀ r c, entry acc1.1 r c = entry acc.1 r c + cellWeight (bilinearCells sp) r c ∧
        entry acc1.2 r c = entry acc.2 r c + cellWeight (bilinearCells sp) r c * e.acos cosine := by
  obtain ⟨m, hm, hms⟩ := gridAddCells_ok_of_shape (bilinearCells sp) acc.1 rows cols h1 hcells
  obtain ⟨a, ha, has⟩ := gridAddCells_ok_of_shape
    ((bilinearCells sp).map (fun cell => (cell.1, cell.2 * e.acos cosine))) acc.2 rows cols h2
    (fun cell hcell => by
      obtain ⟨cell0, hcell0, rfl⟩ := List.mem_map.1 hcell
      exact hcells cell0 hcell0)
  refine ⟨(m, a), ?_, hms, has, fun r c => ⟨entry_gridAddCells _ _ _ r c hm, ?_⟩⟩
  · unfold accumulateOne
    simp only [hm, bind_ok_eq, hangular, if_true, ha, pure_eq_ok]
  · rw [entry_gridAddCells _ _ _ r c ha, cellWeight_scale]

end AngularAccumulation

section AngularRange

theorem tiny_weights (r c : Nat) :
    cellWeight (bilinearCells (⟨15, 16, -1 / 3, 0⟩ : Splat ℝ)) r c
      + cellWeight (bilinearCells (⟨15, 16, 1 / 3, 0⟩ : Splat ℝ)) r c
      = if ((15 : Int), (16 : Int)) = ((r : Int), (c : Int)) then 2 else 0 := by
  simp only [cellWeight, bilinearCells, List.map_cons, List.map_nil, List.sum_cons, List.sum_nil]
  split_ifs <;> norm_num

/-- C14. Angular mode without assertions, `W = 16`, search radius
`12 * epsilon` (double epsilon), radial mode, with the neighbours 1 (at the
distance of the search radius, normal perpendicular to the normal of the query
point) and 2 (at the distance `11.5 * epsilon`, normal parallel to it).  The
adjustment of lines 195-200 gives the neighbour 1 the offset `a = -1/3`, so that
it is added to the cell `(16, 16)` with the weight `-1/3`, and the neighbour 2 is
added to this cell with the weight `1/3`: `computeSiForPoint` returns a grid
whose entry `(16, 16)` is `(-pi/6) / epsilon`, a negative number.  With
assertions the same call fails at the assertion of line 211. -/
theorem angular_entry_negative :
    (∃ g : Grid ℝ,
        computeSiForPoint (tinyScene true : SpinImageEstimation ℝ)
          (plainEnv Real.sqrt Real.arcsin Real.arccos Real.pi true [1, 2]) 0 = Except.ok g ∧
        gridAt g 16 16 = some (-(Real.pi / 6) / epsDouble) ∧
        -(Real.pi / 6) / epsDouble < (0 : ℝ)) ∧
      computeSiForPoint (tinyScene true : SpinImageEstimation ℝ)
        (plainEnv Real.sqrt Real.arcsin Real.arccos Real.pi false [1, 2]) 0
        = Except.error SiError.assertionFailed := by
  have ho : originOf (tinyScene true : SpinImageEstimation ℝ) 0
      = Except.ok (⟨0, 0, 0⟩, some ⟨0, 0, 1⟩) := rfl
  have hax : rotationAxisOf (tinyScene true : SpinImageEstimation ℝ) 0 (some ⟨0, 0, 1⟩)
      = Except.ok (some ⟨0, 0, 1⟩) := rfl
  have hm : (tinyScene true : SpinImageEstimation ℝ).min_pts_neighb = 0 := rfl
  have hw : (tinyScene true : SpinImageEstimation ℝ).image_width = 16 := rfl
  have heps : (0 : ℝ) < epsDouble := epsDouble_pos
  constructor
  · have hs1 := tiny_splat_one true true [1, 2]
    have hs2 := tiny_splat_two true true [1, 2]
    simp only [if_true] at hs1 hs2
    obtain ⟨acc1, hacc1, hsh1, hsh1a, hent1⟩ := accumulateOne_angular
      (tinyScene true : SpinImageEstimation ℝ)
      (plainEnv Real.sqrt Real.arcsin Real.arccos Real.pi true [1, 2])
      (gridZero 17 33, gridZero 17 33) 0 ⟨15, 16, -1 / 3, 0⟩ 17 33 rfl
      (gridShape_zero 17 33) (gridShape_zero 17 33)
      (bilinearCells_in_grid _ 16 (by norm_num) (by norm_num) (by norm_num) (by norm_num))
    obtain ⟨acc2, hacc2, hsh2, hsh2a, hent2⟩ := accumulateOne_angular
      (tinyScene true : SpinImageEstimation ℝ)
      (plainEnv Real.sqrt Real.arcsin Real.arccos Real.pi true [1, 2])
      acc1 1 ⟨15, 16, 1 / 3, 0⟩ 17 33 rfl hsh1 hsh1a
      (bilinearCells_in_grid _ 16 (by norm_num) (by norm_num) (by norm_num) (by norm_num))
    have hM : ∀ r c, entry acc2.1 r c
        = if ((15 : Int), (16 : Int)) = ((r : Int), (c : Int)) then 2 else 0 := by
      intro r c
      rw [(hent2 r c).1, (hent1 r c).1, entry_gridZero, zero_add, tiny_weights]
    have hA : entry acc2.2 16 16 = -(Real.pi / 6) := by
      rw [(hent2 16 16).2, (hent1 16 16).2, entry_gridZero]
      simp only [plainEnv, Real.arccos_zero, Real.arccos_one, cellWeight, bilinearCells,
        List.map_cons, List.map_nil, List.sum_cons, List.sum_nil]
      norm_num
      ring
    have hacc : accumulate (tinyScene true : SpinImageEstimation ℝ)
        (plainEnv Real.sqrt Real.arcsin Real.arccos Real.pi true [1, 2]) ⟨0, 0, 0⟩
        (some ⟨0, 0, 1⟩) (some ⟨0, 0, 1⟩) [1, 2] (gridZero 17 33, gridZero 17 33)
        = Except.ok acc2 := by
      simp only [accumulate, hs1, hs2, bind_ok_eq, hacc1, hacc2, pure_eq_ok]
    have hden : ∀ row ∈ gridAddScalar acc2.1 (epsDouble : ℝ), ∀ y ∈ row, y ≠ 0 := by
      intro row hrow y hy
      obtain ⟨r, c, hrc⟩ := mem_grid_gridAt _ row y hrow hy
      unfold gridAddScalar at hrc
      rw [gridAt_map] at hrc
      cases hv : gridAt acc2.1 r c with
      | none => rw [hv] at hrc; cases hrc
      | some v =>
        rw [hv] at hrc
        simp only [Option.map_some', Option.some.injEq] at hrc
        have hev : entry acc2.1 r c = v := by unfold entry; rw [hv]; rfl
        rw [hM r c] at hev
        rw [← hrc, ← hev]
        split_ifs <;> linarith
    obtain ⟨g, hg⟩ := gridDiv_ok acc2.2 (gridAddScalar acc2.1 (epsDouble : ℝ)) hden
    have hnum : gridAt acc2.2 16 16 = some (-(Real.pi / 6)) := by
      rw [gridAt_of_shape acc2.2 17 33 16 16 hsh2a (by norm_num) (by norm_num), hA]
    have hdenv : gridAt (gridAddScalar acc2.1 (epsDouble : ℝ)) 16 16 = some (0 + epsDouble) := by
      unfold gridAddScalar
      rw [gridAt_map, gridAt_of_shape acc2.1 17 33 16 16 hsh2 (by norm_num) (by norm_num), hM]
      simp
    refine ⟨g, ?_, ?_, ?_⟩
    · have hc1 : cassert (plainEnv Real.sqrt Real.arcsin Real.arccos Real.pi true [1, 2])
          (decide ((tinyScene true : SpinImageEstimation ℝ).image_width > 0))
          = Except.ok () := rfl
      have hc2 : cassert (plainEnv Real.sqrt Real.arcsin Real.arccos Real.pi true [1, 2])
          (decide ((tinyScene true : SpinImageEstimation ℝ).support_angle_cos ≤ 1 ∧
            (tinyScene true : SpinImageEstimation ℝ).support_angle_cos ≥ 0))
          = Except.ok () := rfl
      have hl : (plainEnv Real.sqrt Real.arcsin Real.arccos Real.pi true
          [1, 2]).searchForNeighbors 0 (tinyScene true : SpinImageEstimation ℝ).search_radius
          = [1, 2] := rfl
      unfold computeSiForPoint
      rw [hc1, hc2, bind_ok_eq, bind_ok_eq, ho, bind_ok_eq, hax, bind_ok_eq]
      simp only [hl, hm, hw, hacc, bind_ok_eq]
      have hn : normalize (tinyScene true : SpinImageEstimation ℝ) (([1, 2] : List Nat).length : Int)
          acc2 = Except.ok g := by
        unfold normalize
        have hang : (tinyScene true : SpinImageEstimation ℝ).is_angular = true := rfl
        rw [if_pos hang]
        exact hg
      rw [hn]
      norm_num [toInt32]
    · have := gridDiv_at _ _ g 16 16 _ _ hg hnum hdenv
      rw [this, zero_add]
    · apply div_neg_of_neg_of_pos _ heps
      have := Real.pi_pos
      linarith
  · have hc1 : cassert (plainEnv Real.sqrt Real.arcsin Real.arccos Real.pi false [1, 2])
        (decide ((tinyScene true : SpinImageEstimation ℝ).image_width > 0)) = Except.ok () := rfl
    have hc2 : cassert (plainEnv Real.sqrt Real.arcsin Real.arccos Real.pi false [1, 2])
        (decide ((tinyScene true : SpinImageEstimation ℝ).support_angle_cos ≤ 1 ∧
          (tinyScene true : SpinImageEstimation ℝ).support_angle_cos ≥ 0)) = Except.ok () := by
      apply cassert_of_true
      simp only [tinyScene]
      norm_num
    have hl : (plainEnv Real.sqrt Real.arcsin Real.arccos Real.pi false
        [1, 2]).searchForNeighbors 0 (tinyScene true : SpinImageEstimation ℝ).search_radius
        = [1, 2] := rfl
    have hs := tiny_splat_one true false [1, 2]
    simp only [Bool.false_eq_true, if_false] at hs
    unfold computeSiForPoint
    rw [hc1, hc2, bind_ok_eq, bind_ok_eq, ho, bind_ok_eq, hax, bind_ok_eq]
    simp only [hl, hm, accumulate, hs, bind_error_eq]
    norm_num [toInt32, bind_error_eq]

end AngularRange

section MirrorCells

variable {α : Type} [LinearOrderedField α] [FloorRing α]

theorem cellWeight_bilinear (sp : Splat α) (r c : Nat) :
    cellWeight (bilinearCells sp) r c
      = (if sp.alpha_bin = (r : Int) ∧ sp.beta_bin = (c : Int) then (1 - sp.a) * (1 - sp.b) else 0)
        + (if sp.alpha_bin + 1 = (r : Int) ∧ sp.beta_bin = (c : Int) then sp.a * (1 - sp.b) else 0)
        + (if sp.alpha_bin = (r : Int) ∧ sp.beta_bin + 1 = (c : Int) then (1 - sp.a) * sp.b else 0)
        + (if sp.alpha_bin + 1 = (r : Int) ∧ sp.beta_bin + 1 = (c : Int) then sp.a * sp.b
          else 0) := by
  simp only [cellWeight, bilinearCells, List.map_cons, List.map_nil, List.sum_cons, List.sum_nil,
    Prod.mk.injEq]
  ring

/-- The cells of a neighbour and of its mirror image, when `beta / bin_size` is
not an integer: the mirror image lies in the bin `2W - 1 - beta_bin` with the
offset `1 - b`. -/
theorem cellWeight_mirror_frac (A B : Int) (a b : α) (W r c : Nat) (hc : c ≤ 2 * W) :
    cellWeight (bilinearCells ⟨A, 2 * (W : Int) - 1 - B, a, 1 - b⟩) r (2 * W - c)
      = cellWeight (bilinearCells ⟨A, B, a, b⟩) r c := by
  have hcast : ((2 * W - c : Nat) : Int) = 2 * (W : Int) - (c : Int) := by
    rw [Nat.cast_sub hc]; push_cast; ring
  rw [cellWeight_bilinear, cellWeight_bilinear, hcast]
  have e1 : (2 * (W : Int) - 1 - B = 2 * (W : Int) - (c : Int)) ↔ (B + 1 = (c : Int)) := by
    constructor <;> intro h <;> omega
  have e2 : (2 * (W : Int) - 1 - B + 1 = 2 * (W : Int) - (c : Int)) ↔ (B = (c : Int)) := by
    constructor <;> intro h <;> omega
  simp only [e1, e2]
  split_ifs <;> ring

/-- The cells of a neighbour and of its mirror image, when `beta / bin_size` is
an integer: both have the offset `b = 0`, and the mirror image lies in the bin
`2W - beta_bin`. -/
theorem cellWeight_mirror_int (A B : Int) (a : α) (W r c : Nat) (hc : c ≤ 2 * W) :
    cellWeight (bilinearCells ⟨A, 2 * (W : Int) - B, a, 0⟩) r (2 * W - c)
      = cellWeight (bilinearCells ⟨A, B, a, 0⟩) r c := by
  have hcast : ((2 * W - c : Nat) : Int) = 2 * (W : Int) - (c : Int) := by
    rw [Nat.cast_sub hc]; push_cast; ring
  rw [cellWeight_bilinear, cellWeight_bilinear, hcast]
  have e1 : (2 * (W : Int) - B = 2 * (W : Int) - (c : Int)) ↔ (B = (c : Int)) := by
    constructor <;> intro h <;> omega
  simp only [e1, mul_zero, sub_zero, mul_one, ite_self, add_zero]

end MirrorCells

section Reflection

variable {α : Type} [LinearOrderedField α] [FloorRing α]

theorem reflect_dot_axis (axis q p : Vector3f α) :
    ((reflect axis q p).sub q).dot axis = -((p.sub q).dot axis) := by
  by_cases ha : axis.dot axis = 0
  · have h0 := dot_self_eq_zero axis ha
    rw [h0]
    simp [reflect, Vector3f.sub, Vector3f.dot]
  · simp only [reflect, Vector3f.sub, Vector3f.dot] at ha ⊢
    field_simp
    ring

theorem reflect_dot_self (axis q p : Vector3f α) :
    ((reflect axis q p).sub q).dot ((reflect axis q p).sub q) = (p.sub q).dot (p.sub q) := by
  by_cases ha : axis.dot axis = 0
  · have h0 := dot_self_eq_zero axis ha
    rw [h0]
    simp [reflect, Vector3f.sub, Vector3f.dot]
  · simp only [reflect, Vector3f.sub, Vector3f.dot] at ha ⊢
    field_simp
    ring

theorem clamp_neg (x : α) : max (-1) (min 1 (-x)) = -max (-1) (min 1 x) := by
  simp only [max_def, min_def]
  split_ifs <;> linarith

theorem floor_neg_of_fract_ne (x : α) (h : Int.fract x ≠ 0) : ⌊-x⌋ = -⌊x⌋ - 1 := by
  rw [Int.floor_eq_iff]
  have h1 := Int.floor_le x
  have h2 := Int.lt_floor_add_one x
  have h3 : (⌊x⌋ : α) ≠ x := fun hh => h (by rw [Int.fract, hh]; ring)
  have h4 : (⌊x⌋ : α) < x := lt_of_le_of_ne h1 h3
  push_cast
  constructor <;> linarith

theorem floor_neg_of_fract_eq (x : α) (h : Int.fract x = 0) : ⌊-x⌋ = -⌊x⌋ := by
  have hx : x = (⌊x⌋ : α) := by
    have := Int.fract_add_floor x
    rw [h, zero_add] at this
    exact this.symm
  rw [hx, ← Int.cast_neg, Int.floor_intCast, Int.floor_intCast]

end Reflection

section MirrorPlace

variable {α : Type} [LinearOrderedField α] [FloorRing α]

theorem betaBorder_inside (s : SpinImageEstimation α) (bs beta : α) (k : Int)
    (h : k < (s.image_width : Int)) :
    betaBorder s bs (k + (s.image_width : Int)) beta = (k + (s.image_width : Int), beta) := by
  unfold betaBorder
  rw [if_neg (by omega)]

/-- In rectangular mode, a neighbour inside the support and the neighbour with
the opposite `beta` are added to mirrored cells with the same weights. -/
theorem interpolate_mirror (s : SpinImageEstimation α) (e : Env α) (bs alpha beta : α)
    (sp sp1 : Splat α) (hrect : s.is_radial = false)
    (hin : |beta| < bs * (s.image_width : α))
    (h : interpolate s e bs alpha beta = Except.ok sp)
    (h1 : interpolate s e bs alpha (-beta) = Except.ok sp1)
    (r c : Nat) (hc : c ≤ 2 * s.image_width) :
    cellWeight (bilinearCells sp1) r (2 * s.image_width - c)
      = cellWeight (bilinearCells sp) r c := by
  obtain ⟨bbs, hbbs, _, _, hA, hB, ha, hb, _⟩ := interpolate_ok_spec s e bs alpha beta sp h
  obtain ⟨bbs1, hbbs1, _, _, hA1, hB1, ha1, hb1, _⟩ :=
    interpolate_ok_spec s e bs alpha (-beta) sp1 h1
  have hbeta : betaBinSize s e bs = Except.ok bs := by
    unfold betaBinSize
    rw [hrect]
    rfl
  rw [hbeta] at hbbs hbbs1
  cases hbbs
  cases hbbs1
  have hW0 : (0 : α) ≤ (s.image_width : α) := Nat.cast_nonneg _
  have hpos : 0 < bs * (s.image_width : α) := lt_of_le_of_lt (abs_nonneg beta) hin
  have hbs : 0 < bs := by
    by_contra hneg
    have := mul_nonpos_of_nonpos_of_nonneg (not_lt.1 hneg) hW0
    linarith
  have hx1 : beta / bs < (s.image_width : α) := by
    rw [div_lt_iff₀ hbs]
    have := le_abs_self beta
    linarith
  have hx2 : -(beta / bs) < (s.image_width : α) := by
    rw [← neg_div, div_lt_iff₀ hbs]
    have := neg_abs_le beta
    linarith
  have hf1 : ⌊beta / bs⌋ < (s.image_width : Int) := by
    rw [Int.floor_lt]
    exact_mod_cast hx1
  have hf2 : ⌊-(beta / bs)⌋ < (s.image_width : Int) := by
    rw [Int.floor_lt]
    exact_mod_cast hx2
  rw [betaBorder_inside s bs beta _ hf1] at hB hb
  rw [neg_div] at hB1 hb1
  rw [betaBorder_inside s bs (-beta) _ hf2] at hB1 hb1
  simp only [add_sub_cancel_right] at hb hb1
  rw [neg_div] at hb1
  obtain ⟨A, B, a, b⟩ := sp
  obtain ⟨A1, B1, a1, b1⟩ := sp1
  simp only at hA hB ha hb hA1 hB1 ha1 hb1
  have hAA : A1 = A := by rw [hA1, hA]
  have haa : a1 = a := by rw [ha1, ha]
  by_cases hfr : Int.fract (beta / bs) = 0
  · have hfl := floor_neg_of_fract_eq (beta / bs) hfr
    have hb0 : b = 0 := by
      rw [hb]
      exact hfr
    have hb10 : b1 = 0 := by
      rw [hb1, hfl]
      push_cast
      have : beta / bs - (⌊beta / bs⌋ : α) = 0 := hfr
      linarith
    have hBB : B1 = 2 * (s.image_width : Int) - B := by
      rw [hB1, hB, hfl]
      ring
    rw [hAA, haa, hb0, hb10, hBB]
    exact cellWeight_mirror_int A B a s.image_width r c hc
  · have hfl := floor_neg_of_fract_ne (beta / bs) hfr
    have hb10 : b1 = 1 - b := by
      rw [hb1, hb, hfl]
      push_cast
      ring
    have hBB : B1 = 2 * (s.image_width : Int) - 1 - B := by
      rw [hB1, hB, hfl]
      ring
    rw [hAA, haa, hb10, hBB]
    exact cellWeight_mirror_frac A B a b s.image_width r c hc

theorem coordinates_rect (s : SpinImageEstimation α) (e : Env α) (bs dn cd : α)
    (hrect : s.is_radial = false) :
    coordinates s e bs dn cd
      = if |dn * cd| ≥ bs * (s.image_width : α)
          ∨ dn * e.sqrt (1 - cd * cd) ≥ bs * (s.image_width : α) then none
        else some (dn * e.sqrt (1 - cd * cd), dn * cd) := by
  unfold coordinates
  rw [hrect]
  rfl

theorem coordinates_rect_neg (s : SpinImageEstimation α) (e : Env α) (bs dn cd : α)
    (hrect : s.is_radial = false) :
    coordinates s e bs dn (-cd)
      = (coordinates s e bs dn cd).map (fun ab => (ab.1, -ab.2)) := by
  rw [coordinates_rect s e bs dn cd hrect, coordinates_rect s e bs dn (-cd) hrect,
    neg_mul_neg cd cd, mul_neg, abs_neg]
  split_ifs <;> rfl

theorem coordinates_rect_inside (s : SpinImageEstimation α) (e : Env α) (bs dn cd alpha beta : α)
    (hrect : s.is_radial = false) (h : coordinates s e bs dn cd = some (alpha, beta)) :
    |beta| < bs * (s.image_width : α) := by
  rw [coordinates_rect s e bs dn cd hrect] at h
  split at h
  · cases h
  · rename_i hcyl
    push_neg at hcyl
    simp only [Option.some.injEq, Prod.mk.injEq] at h
    rw [← h.2]
    exact hcyl.1

/-- In rectangular mode, the places in the grid of a point and of its mirror
image in the plane through the query point perpendicular to the axis are
mirrored: the same weights go to the cells `(r, c)` and `(r, 2W - c)`. -/
theorem placeOf_mirror (s : SpinImageEstimation α) (e : Env α) (q axis p : Vector3f α)
    (sp sp1 : Splat α) (hrect : s.is_radial = false)
    (h : placeOf s e q axis p = some sp)
    (h1 : placeOf s e q axis (reflect axis q p) = some sp1)
    (r c : Nat) (hc : c ≤ 2 * s.image_width) :
    cellWeight (bilinearCells sp1) r (2 * s.image_width - c)
      = cellWeight (bilinearCells sp) r c := by
  have hn : norm e ((reflect axis q p).sub q) = norm e (p.sub q) := by
    unfold norm
    rw [reflect_dot_self]
  unfold placeOf at h h1
  rw [hn, reflect_dot_axis, neg_div, clamp_neg] at h1
  cases hbs : binSize s e with
  | error err => rw [hbs] at h; cases h
  | ok bs =>
    rw [hbs] at h h1
    simp only at h h1
    rw [coordinates_rect_neg s e bs _ _ hrect] at h1
    cases hco : coordinates s e bs (norm e (p.sub q))
        (max (-1) (min 1 ((p.sub q).dot axis / norm e (p.sub q)))) with
    | none => rw [hco] at h; cases h
    | some ab =>
      obtain ⟨alpha, beta⟩ := ab
      rw [hco] at h h1
      simp only [Option.map_some'] at h h1
      have hin := coordinates_rect_inside s e bs _ _ alpha beta hrect hco
      cases hi : interpolate s e bs alpha beta with
      | error err => rw [hi] at h; cases h
      | ok sp0 =>
        rw [hi] at h
        cases h
        cases hi1 : interpolate s e bs alpha (-beta) with
        | error err => rw [hi1] at h1; cases h1
        | ok sp2 =>
          rw [hi1] at h1
          cases h1
          exact interpolate_mirror s e bs alpha beta sp sp1 hrect hin hi hi1 r c hc

end MirrorPlace

section EntriesOfTheLoop

variable {α : Type} [LinearOrderedField α] [FloorRing α]

theorem neighborSplat_placeOf (s : SpinImageEstimation α) (e : Env α) (q axis : Vector3f α)
    (n : Option (Vector3f α)) (nn : Nat) (c : α) (sp : Splat α)
    (h : neighborSplat s e q n (some axis) nn = Except.ok (some (c, sp))) :
    ∃ p, surfacePoint s nn = some p ∧ placeOf s e q axis p = some sp := by
  obtain ⟨p, axis1, bs, alpha, beta, _, hp, hax, _, hbs, hco, hint⟩ :=
    neighborSplat_ok_spec s e q n (some axis) nn c sp h
  cases hax
  refine ⟨p, by unfold surfacePoint; rw [hp], ?_⟩
  unfold placeOf
  rw [hbs]
  simp only [hco, hint]

theorem entry_accumulateOne (s : SpinImageEstimation α) (e : Env α) (acc acc1 : Grid α × Grid α)
    (c : α × Splat α) (r col : Nat) (h : accumulateOne s e acc c = Except.ok acc1) :
    entry acc1.1 r col = entry acc.1 r col + cellWeight (bilinearCells c.2) r col := by
  unfold accumulateOne at h
  rw [bind_eq_ok_iff] at h
  obtain ⟨m, hm, h⟩ := h
  have hent := entry_gridAddCells _ _ _ r col hm
  split at h
  · rw [bind_eq_ok_iff] at h
    obtain ⟨m2, _, h⟩ := h
    cases h
    exact hent
  · cases h
    exact hent

/-- The entries of `m_matrix` after the loop: every contributing neighbour has
added the weights of its four cells, which depend on its point only. -/
theorem accumulate_entry (s : SpinImageEstimation α) (e : Env α) (q axis : Vector3f α)
    (n : Option (Vector3f α)) (l : List Nat) (acc acc1 : Grid α × Grid α) (r c : Nat)
    (h : accumulate s e q n (some axis) l acc = Except.ok acc1) :
    entry acc1.1 r c = entry acc.1 r c
      + ((((l.filter (contributes s e q n (some axis))).filterMap (surfacePoint s)).map
          (pointWeight s e q axis r c)).sum) := by
  induction l generalizing acc with
  | nil =>
    cases h
    simp
  | cons nn rest ih =>
    unfold accumulate at h
    rw [bind_eq_ok_iff] at h
    obtain ⟨res, hres, h⟩ := h
    cases res with
    | none =>
      have hc : contributes s e q n (some axis) nn = false := by simp [contributes, hres]
      rw [ih acc h, List.filter_cons_of_neg (by simp [hc])]
    | some c0 =>
      have hc : contributes s e q n (some axis) nn = true := by simp [contributes, hres]
      simp only at h
      rw [bind_eq_ok_iff] at h
      obtain ⟨acc2, h2, h⟩ := h
      obtain ⟨p, hp, hplace⟩ := neighborSplat_placeOf s e q axis n nn c0.1 c0.2 hres
      rw [ih acc2 h, entry_accumulateOne s e acc acc2 c0 r c h2, List.filter_cons_of_pos hc,
        List.filterMap_cons_some hp, List.map_cons, List.sum_cons]
      have hw : pointWeight s e q axis r c p = cellWeight (bilinearCells c0.2) r c := by
        unfold pointWeight
        rw [hplace]
      rw [hw]
      ring

theorem contributorPoints_place (s : SpinImageEstimation α) (e : Env α) (q axis : Vector3f α)
    (n : Option (Vector3f α)) (l : List Nat) (p : Vector3f α)
    (hp : p ∈ (l.filter (contributes s e q n (some axis))).filterMap (surfacePoint s)) :
    ∃ sp, placeOf s e q axis p = some sp := by
  obtain ⟨nn, hnn, hsp⟩ := List.mem_filterMap.1 hp
  have hc : contributes s e q n (some axis) nn = true := (List.mem_filter.1 hnn).2
  unfold contributes at hc
  cases hres : neighborSplat s e q n (some axis) nn with
  | error err => rw [hres] at hc; cases hc
  | ok res =>
    cases res with
    | none => rw [hres] at hc; cases hc
    | some c0 =>
      obtain ⟨p1, hp1, hplace⟩ := neighborSplat_placeOf s e q axis n nn c0.1 c0.2 hres
      rw [hsp] at hp1
      cases hp1
      exact ⟨c0.2, hplace⟩

/-- The sum of the weights over a set of points that is symmetric under the
reflection is the same for the cells `(r, c)` and `(r, 2W - c)`. -/
theorem pointWeight_sum_mirror (s : SpinImageEstimation α) (e : Env α) (q axis : Vector3f α)
    (pts : List (Vector3f α)) (hrect : s.is_radial = false)
    (hplace : ∀ p ∈ pts, ∃ sp, placeOf s e q axis p = some sp)
    (hsym : List.Perm pts (pts.map (reflect axis q)))
    (r c : Nat) (hc : c ≤ 2 * s.image_width) :
    (pts.map (pointWeight s e q axis r (2 * s.image_width - c))).sum
      = (pts.map (pointWeight s e q axis r c)).sum := by
  rw [(List.Perm.map (pointWeight s e q axis r (2 * s.image_width - c)) hsym).sum_eq,
    List.map_map]
  congr 1
  apply List.map_congr_left
  intro p hp
  obtain ⟨sp, hsp⟩ := hplace p hp
  have hmem : reflect axis q p ∈ pts :=
    hsym.symm.subset (List.mem_map_of_mem _ hp)
  obtain ⟨sp1, hsp1⟩ := hplace _ hmem
  simp only [Function.comp, pointWeight, hsp, hsp1]
  exact placeOf_mirror s e q axis p sp sp1 hrect hsp hsp1 r c hc

end EntriesOfTheLoop

section MirrorSymmetry

variable {α : Type} [LinearOrderedField α] [FloorRing α]

/-- C18. Mirror symmetry.  In rectangular, non-angular mode, let the points of
the contributing neighbours of a query point `q` with the rotation axis `axis`
be symmetric under the reflection in the plane through `q` perpendicular to
`axis`: the list of these points is a rearrangement of the list of their mirror
images (as it is when they all lie in that plane).  Then the grid `g` returned
by `computeSiForPoint` satisfies `g (r, c) = g (r, 2W - c)` for every row
`r ≤ W` and every column `c ≤ 2W`. -/
theorem mirror_symmetry (s : SpinImageEstimation α) (e : Env α) (index : Nat)
    (q axis : Vector3f α) (n : Option (Vector3f α)) (g : Grid α)
    (hrect : s.is_radial = false) (hnonangular : s.is_angular = false)
    (ho : originOf s index = Except.ok (q, n))
    (hax : rotationAxisOf s index n = Except.ok (some axis))
    (hsym : List.Perm (contributorPoints s e index)
      ((contributorPoints s e index).map (reflect axis q)))
    (hg : computeSiForPoint s e index = Except.ok g) :
    ∀ r c, r ≤ s.image_width → c ≤ 2 * s.image_width →
      ∃ v, gridAt g r c = some v ∧ gridAt g r (2 * s.image_width - c) = some v := by
  intro r c hr hc
  have hshape := computeSiForPoint_shape s e index g hg
  obtain ⟨origin, ax, acc, ho1, hax1, hacc, hn⟩ := computeSiForPoint_unfold s e index g hg
  rw [ho] at ho1
  cases ho1
  rw [hax] at hax1
  cases hax1
  have hpts : contributorPoints s e index
      = ((e.searchForNeighbors index s.search_radius).filter
          (contributes s e q n (some axis))).filterMap (surfacePoint s) := by
    unfold contributorPoints contributors
    rw [ho]
    simp only [hax]
  rw [hpts] at hsym
  have hsum := pointWeight_sum_mirror s e q axis _ hrect
    (fun p hp => contributorPoints_place s e q axis n _ p hp) hsym r c hc
  have hacc1 : entry acc.1 r (2 * s.image_width - c) = entry acc.1 r c := by
    rw [accumulate_entry s e q axis n _ _ acc r c hacc,
      accumulate_entry s e q axis n _ _ acc r (2 * s.image_width - c) hacc, hsum,
      entry_gridZero, entry_gridZero]
  have hentry : entry g r (2 * s.image_width - c) = entry g r c := by
    unfold normalize at hn
    rw [hnonangular] at hn
    simp only [Bool.false_eq_true, if_false] at hn
    split at hn
    · unfold gridDivScalar at hn
      split at hn
      · cases hn
      · cases hn
        rw [entry_map acc.1 (fun x => x / gridSum acc.1) (zero_div _),
          entry_map acc.1 (fun x => x / gridSum acc.1) (zero_div _), hacc1]
    · cases hn
      exact hacc1
  refine ⟨entry g r c, gridAt_of_shape g _ _ r c hshape (by omega) (by omega), ?_⟩
  rw [gridAt_of_shape g _ _ r (2 * s.image_width - c) hshape (by omega) (by omega), hentry]

end MirrorSymmetry

section MirrorExample

theorem mirror_binSize (l : List Nat) :
    binSize (mirrorScene (8 * Real.sqrt 2) : SpinImageEstimation ℝ)
      (plainEnv Real.sqrt Real.arcsin Real.arccos Real.pi false l) = Except.ok 8 := by
  have h2 : Real.sqrt 2 ≠ 0 := by
    rw [Ne, Real.sqrt_eq_zero']; norm_num
  simp only [binSize, mirrorScene, plainEnv, fdiv, bind_ok_eq, pure_eq_ok]
  norm_num [h2, bind_ok_eq]

theorem mirror_filter (nn : Nat) :
    normalFilter (mirrorScene (8 * Real.sqrt 2) : SpinImageEstimation ℝ) (some ⟨0, 0, 1⟩) nn
      = Except.ok (some (-2)) := by
  simp [normalFilter, mirrorScene, pure_eq_ok]

theorem sqrt_twenty_five : Real.sqrt 25 = 5 := by
  rw [show (25 : ℝ) = 5 * 5 by norm_num]
  exact Real.sqrt_mul_self (by norm_num)

theorem sqrt_nine_twenty_fifths : Real.sqrt (9 / 25) = 3 / 5 := by
  rw [show (9 / 25 : ℝ) = 3 / 5 * (3 / 5) by norm_num]
  exact Real.sqrt_mul_self (by norm_num)

theorem mirror_splat_up (l : List Nat) :
    neighborSplat (mirrorScene (8 * Real.sqrt 2) : SpinImageEstimation ℝ)
      (plainEnv Real.sqrt Real.arcsin Real.arccos Real.pi false l) ⟨0, 0, 0⟩
      (some ⟨0, 0, 1⟩) (some ⟨0, 0, 1⟩) 1 = Except.ok (some (-2, ⟨0, 1, 3 / 8, 1 / 2⟩)) := by
  have hp : pointAt (mirrorScene (8 * Real.sqrt 2) : SpinImageEstimation ℝ).surface 1
      = Except.ok ⟨3, 0, 4⟩ := rfl
  have hn : norm (plainEnv Real.sqrt Real.arcsin Real.arccos Real.pi false l)
      ((⟨3, 0, 4⟩ : Vector3f ℝ).sub ⟨0, 0, 0⟩) = 5 := by
    simp only [norm, plainEnv, Vector3f.sub, Vector3f.dot]
    norm_num [sqrt_twenty_five]
  have hd : ((⟨3, 0, 4⟩ : Vector3f ℝ).sub ⟨0, 0, 0⟩).dot ⟨0, 0, 1⟩ = 4 := by
    simp [Vector3f.sub, Vector3f.dot]
  have hcl : max (-1 : ℝ) (min 1 (4 / 5)) = 4 / 5 := by norm_num
  have hsq : Real.sqrt (1 - 4 / 5 * (4 / 5)) = 3 / 5 := by
    rw [show (1 - 4 / 5 * (4 / 5) : ℝ) = 9 / 25 by norm_num]
    exact sqrt_nine_twenty_fifths
  have hc : coordinates (mirrorScene (8 * Real.sqrt 2) : SpinImageEstimation ℝ)
      (plainEnv Real.sqrt Real.arcsin Real.arccos Real.pi false l) 8 5 (4 / 5) = some (3, 4) := by
    simp only [coordinates, mirrorScene, plainEnv, hsq]
    norm_num
  have hf1 : ⌊(1 / 2 : ℝ)⌋ = 0 := by rw [Int.floor_eq_iff]; norm_num
  have hf2 : ⌊(3 / 8 : ℝ)⌋ = 0 := by rw [Int.floor_eq_iff]; norm_num
  have hi : interpolate (mirrorScene (8 * Real.sqrt 2) : SpinImageEstimation ℝ)
      (plainEnv Real.sqrt Real.arcsin Real.arccos Real.pi false l) 8 3 4
      = Except.ok ⟨0, 1, 3 / 8, 1 / 2⟩ := by
    simp only [interpolate, cassert, betaBinSize, fdiv, mirrorScene, plainEnv, alphaBorder,
      betaBorder, epsFloat, epsDouble, pure_eq_ok, bind_ok_eq]
    norm_num [hf1, hf2, bind_ok_eq, pure_eq_ok]
  have hnc : ¬ |(5 : ℝ)| < 10 * epsDouble := by
    unfold epsDouble; norm_num
  have hassert : cassert (plainEnv Real.sqrt Real.arcsin Real.arccos Real.pi false l)
      (decide ((5 : ℝ) > 0)) = Except.ok () :=
    cassert_of_true _ _ (decide_eq_true (by norm_num))
  have habs : ¬ |(4 / 5 : ℝ)| > 1 + 10 * epsFloat := by
    unfold epsFloat; norm_num [abs_of_pos]
  unfold neighborSplat
  rw [mirror_filter]
  simp only [bind_ok_eq, hp, hn, if_neg hnc, hassert, initialized, pure_eq_ok, hd,
    mirror_binSize]
  rw [if_neg habs]
  simp only [hcl, hc, hi]
  rfl

theorem mirror_splat_down (l : List Nat) :
    neighborSplat (mirrorScene (8 * Real.sqrt 2) : SpinImageEstimation ℝ)
      (plainEnv Real.sqrt Real.arcsin Real.arccos Real.pi false l) ⟨0, 0, 0⟩
      (some ⟨0, 0, 1⟩) (some ⟨0, 0, 1⟩) 2 = Except.ok (some (-2, ⟨0, 0, 3 / 8, 1 / 2⟩)) := by
  have hp : pointAt (mirrorScene (8 * Real.sqrt 2) : SpinImageEstimation ℝ).surface 2
      = Except.ok ⟨3, 0, -4⟩ := rfl
  have hn : norm (plainEnv Real.sqrt Real.arcsin Real.arccos Real.pi false l)
      ((⟨3, 0, -4⟩ : Vector3f ℝ).sub ⟨0, 0, 0⟩) = 5 := by
    simp only [norm, plainEnv, Vector3f.sub, Vector3f.dot]
    norm_num [sqrt_twenty_five]
  have hd : ((⟨3, 0, -4⟩ : Vector3f ℝ).sub ⟨0, 0, 0⟩).dot ⟨0, 0, 1⟩ = -4 := by
    simp [Vector3f.sub, Vector3f.dot]
  have hcl : max (-1 : ℝ) (min 1 (-4 / 5)) = -4 / 5 := by norm_num
  have hsq : Real.sqrt (1 - -4 / 5 * (-4 / 5)) = 3 / 5 := by
    rw [show (1 - -4 / 5 * (-4 / 5) : ℝ) = 9 / 25 by norm_num]
    exact sqrt_nine_twenty_fifths
  have hc : coordinates (mirrorScene (8 * Real.sqrt 2) : SpinImageEstimation ℝ)
      (plainEnv Real.sqrt Real.arcsin Real.arccos Real.pi false l) 8 5 (-4 / 5)
      = some (3, -4) := by
    simp only [coordinates, mirrorScene, plainEnv, hsq]
    norm_num
  have hf1 : ⌊(-1 / 2 : ℝ)⌋ = -1 := by rw [Int.floor_eq_iff]; norm_num
  have hf2 : ⌊(3 / 8 : ℝ)⌋ = 0 := by rw [Int.floor_eq_iff]; norm_num
  have hi : interpolate (mirrorScene (8 * Real.sqrt 2) : SpinImageEstimation ℝ)
      (plainEnv Real.sqrt Real.arcsin Real.arccos Real.pi false l) 8 3 (-4)
      = Except.ok ⟨0, 0, 3 / 8, 1 / 2⟩ := by
    simp only [interpolate, cassert, betaBinSize, fdiv, mirrorScene, plainEnv, alphaBorder,
      betaBorder, epsFloat, epsDouble, pure_eq_ok, bind_ok_eq]
    norm_num [hf1, hf2, bind_ok_eq, pure_eq_ok]
  have hnc : ¬ |(5 : ℝ)| < 10 * epsDouble := by
    unfold epsDouble; norm_num
  have hassert : cassert (plainEnv Real.sqrt Real.arcsin Real.arccos Real.pi false l)
      (decide ((5 : ℝ) > 0)) = Except.ok () :=
    cassert_of_true _ _ (decide_eq_true (by norm_num))
  have habs : ¬ |(-4 / 5 : ℝ)| > 1 + 10 * epsFloat := by
    rw [show (-4 / 5 : ℝ) = -(4 / 5) by norm_num, abs_neg]
    unfold epsFloat; norm_num [abs_of_pos]
  unfold neighborSplat
  rw [mirror_filter]
  simp only [bind_ok_eq, hp, hn, if_neg hnc, hassert, initialized, pure_eq_ok, hd,
    mirror_binSize]
  rw [if_neg habs]
  simp only [hcl, hc, hi]
  rfl

end MirrorExample

section MirrorWitness

theorem mirror_eval :
    computeSiForPoint (mirrorScene (8 * Real.sqrt 2) : SpinImageEstimation ℝ)
      (plainEnv Real.sqrt Real.arcsin Real.arccos Real.pi false [1, 2]) 0
      = Except.ok [[5 / 32, 5 / 16, 5 / 32], [3 / 32, 3 / 16, 3 / 32]] := by
  have ho : originOf (mirrorScene (8 * Real.sqrt 2) : SpinImageEstimation ℝ) 0
      = Except.ok (⟨0, 0, 0⟩, some ⟨0, 0, 1⟩) := rfl
  have hax : rotationAxisOf (mirrorScene (8 * Real.sqrt 2) : SpinImageEstimation ℝ) 0
      (some ⟨0, 0, 1⟩) = Except.ok (some ⟨0, 0, 1⟩) := rfl
  have hc1 : cassert (plainEnv Real.sqrt Real.arcsin Real.arccos Real.pi false [1, 2])
      (decide ((mirrorScene (8 * Real.sqrt 2) : SpinImageEstimation ℝ).image_width > 0))
      = Except.ok () := rfl
  have hc2 : cassert (plainEnv Real.sqrt Real.arcsin Real.arccos Real.pi false [1, 2])
      (decide ((mirrorScene (8 * Real.sqrt 2) : SpinImageEstimation ℝ).support_angle_cos ≤ 1 ∧
        (mirrorScene (8 * Real.sqrt 2) : SpinImageEstimation ℝ).support_angle_cos ≥ 0))
      = Except.ok () := by
    apply cassert_of_true
    simp only [mirrorScene]
    norm_num
  have hl : (plainEnv Real.sqrt Real.arcsin Real.arccos Real.pi false
      [1, 2]).searchForNeighbors 0
      (mirrorScene (8 * Real.sqrt 2) : SpinImageEstimation ℝ).search_radius = [1, 2] := rfl
  have hm : (mirrorScene (8 * Real.sqrt 2) : SpinImageEstimation ℝ).min_pts_neighb = 0 := rfl
  have hw : (mirrorScene (8 * Real.sqrt 2) : SpinImageEstimation ℝ).image_width = 1 := rfl
  have hz : (gridZero 2 3 : Grid ℝ) = [[0, 0, 0], [0, 0, 0]] := rfl
  have a1 : accumulateOne (mirrorScene (8 * Real.sqrt 2) : SpinImageEstimation ℝ)
      (plainEnv Real.sqrt Real.arcsin Real.arccos Real.pi false [1, 2])
      (gridZero 2 3, gridZero 2 3) (-2, ⟨0, 1, 3 / 8, 1 / 2⟩)
      = Except.ok ([[0, 5 / 16, 5 / 16], [0, 3 / 16, 3 / 16]], gridZero 2 3) := by
    rw [hz]
    simp only [accumulateOne, bilinearCells, gridAddCells, gridAdd, mirrorScene, bind_ok_eq,
      pure_eq_ok]
    norm_num [rowAdd, bind_ok_eq, pure_eq_ok]
  have a2 : accumulateOne (mirrorScene (8 * Real.sqrt 2) : SpinImageEstimation ℝ)
      (plainEnv Real.sqrt Real.arcsin Real.arccos Real.pi false [1, 2])
      ([[0, 5 / 16, 5 / 16], [0, 3 / 16, 3 / 16]], gridZero 2 3) (-2, ⟨0, 0, 3 / 8, 1 / 2⟩)
      = Except.ok ([[5 / 16, 5 / 8, 5 / 16], [3 / 16, 3 / 8, 3 / 16]], gridZero 2 3) := by
    simp only [accumulateOne, bilinearCells, gridAddCells, gridAdd, mirrorScene, bind_ok_eq,
      pure_eq_ok]
    norm_num [rowAdd, bind_ok_eq, pure_eq_ok]
  unfold computeSiForPoint
  rw [hc1, hc2, bind_ok_eq, bind_ok_eq, ho, bind_ok_eq, hax, bind_ok_eq]
  simp only [hl, hm, hw, accumulate, mirror_splat_up, mirror_splat_down, bind_ok_eq, a1, a2,
    pure_eq_ok]
  norm_num [toInt32, normalize, mirrorScene, gridDivScalar, gridSum, pure_eq_ok]

theorem mirror_points :
    contributorPoints (mirrorScene (8 * Real.sqrt 2) : SpinImageEstimation ℝ)
      (plainEnv Real.sqrt Real.arcsin Real.arccos Real.pi false [1, 2]) 0
      = [⟨3, 0, 4⟩, ⟨3, 0, -4⟩] := by
  have ho : originOf (mirrorScene (8 * Real.sqrt 2) : SpinImageEstimation ℝ) 0
      = Except.ok (⟨0, 0, 0⟩, some ⟨0, 0, 1⟩) := rfl
  have hax : rotationAxisOf (mirrorScene (8 * Real.sqrt 2) : SpinImageEstimation ℝ) 0
      (some ⟨0, 0, 1⟩) = Except.ok (some ⟨0, 0, 1⟩) := rfl
  have hl : (plainEnv Real.sqrt Real.arcsin Real.arccos Real.pi false
      [1, 2]).searchForNeighbors 0
      (mirrorScene (8 * Real.sqrt 2) : SpinImageEstimation ℝ).search_radius = [1, 2] := rfl
  have hcont : contributors (mirrorScene (8 * Real.sqrt 2) : SpinImageEstimation ℝ)
      (plainEnv Real.sqrt Real.arcsin Real.arccos Real.pi false [1, 2]) 0 = [1, 2] := by
    unfold contributors
    simp only [ho, hax, hl]
    simp only [List.filter, contributes, mirror_splat_up, mirror_splat_down]
  unfold contributorPoints
  rw [hcont]
  rfl

theorem mirror_reflect :
    ([⟨3, 0, 4⟩, ⟨3, 0, -4⟩] : List (Vector3f ℝ)).map (reflect ⟨0, 0, 1⟩ ⟨0, 0, 0⟩)
      = [⟨3, 0, -4⟩, ⟨3, 0, 4⟩] := by
  simp only [List.map, reflect, Vector3f.sub, Vector3f.dot]
  norm_num

/-- Witness of C18: the query point at the origin with the axis `(0, 0, 1)` and
the two neighbours `(3, 0, 4)` and `(3, 0, -4)`, mirror images of each other;
the grid `[[5/32, 5/16, 5/32], [3/32, 3/16, 3/32]]` has equal entries in the
columns 0 and 2. -/
theorem mirror_symmetry_witness :
    ∃ v, gridAt ([[5 / 32, 5 / 16, 5 / 32], [3 / 32, 3 / 16, 3 / 32]] : Grid ℝ) 1 0 = some v ∧
      gridAt ([[5 / 32, 5 / 16, 5 / 32], [3 / 32, 3 / 16, 3 / 32]] : Grid ℝ) 1 2 = some v :=
  mirror_symmetry (mirrorScene (8 * Real.sqrt 2) : SpinImageEstimation ℝ)
    (plainEnv Real.sqrt Real.arcsin Real.arccos Real.pi false [1, 2]) 0 ⟨0, 0, 0⟩ ⟨0, 0, 1⟩
    (some ⟨0, 0, 1⟩) _ rfl rfl rfl rfl
    (by
      rw [mirror_points, mirror_reflect]
      exact List.Perm.swap _ _ _)
    mirror_eval 1 0 (Nat.le_refl 1) (Nat.zero_le _)

end MirrorWitness

section AngularRangeChecked

variable {α : Type} [LinearOrderedField α] [FloorRing α]

theorem normalFilter_angular_range (s : SpinImageEstimation α) (n : Option (Vector3f α))
    (nn : Nat) (c : α) (hangular : s.is_angular = true)
    (h : normalFilter s n nn = Except.ok (some c)) : 0 ≤ c ∧ c ≤ 1 := by
  unfold normalFilter at h
  rw [if_pos (Or.inr hangular)] at h
  rw [bind_eq_ok_iff] at h
  obtain ⟨qn, _, h⟩ := h
  rw [bind_eq_ok_iff] at h
  obtain ⟨nv, _, h⟩ := h
  dsimp only at h
  have hcl := clamp_range (qn.dot nv)
  split at h
  · cases h
  · split at h
    · cases h
    · split at h
      · rename_i hneg
        cases h
        exact ⟨by linarith, by linarith [hcl.1]⟩
      · rename_i hneg
        cases h
        exact ⟨not_lt.1 hneg, hcl.2⟩

theorem cellWeight_nonneg (sp : Splat α) (r c : Nat) (ha0 : 0 ≤ sp.a) (ha1 : sp.a ≤ 1)
    (hb0 : 0 ≤ sp.b) (hb1 : sp.b ≤ 1) : 0 ≤ cellWeight (bilinearCells sp) r c := by
  rw [cellWeight_bilinear]
  have h1 : 0 ≤ (1 - sp.a) * (1 - sp.b) := mul_nonneg (by linarith) (by linarith)
  have h2 : 0 ≤ sp.a * (1 - sp.b) := mul_nonneg ha0 (by linarith)
  have h3 : 0 ≤ (1 - sp.a) * sp.b := mul_nonneg (by linarith) hb0
  have h4 : 0 ≤ sp.a * sp.b := mul_nonneg ha0 hb0
  split_ifs <;> linarith

theorem entry_accumulateOne_snd (s : SpinImageEstimation α) (e : Env α)
    (acc acc1 : Grid α × Grid α) (c : α × Splat α) (r col : Nat) (hangular : s.is_angular = true)
    (h : accumulateOne s e acc c = Except.ok acc1) :
    entry acc1.2 r col
      = entry acc.2 r col + cellWeight (bilinearCells c.2) r col * e.acos c.1 := by
  unfold accumulateOne at h
  rw [bind_eq_ok_iff] at h
  obtain ⟨m, _, h⟩ := h
  rw [if_pos hangular, bind_eq_ok_iff] at h
  obtain ⟨m2, hm2, h⟩ := h
  cases h
  rw [entry_gridAddCells _ _ _ r col hm2, cellWeight_scale]

/-- With assertions enabled, the loop in angular mode keeps every entry of
`m_matrix` non-negative and every entry of `m_averAngles` between 0 and `PI`
times the entry of `m_matrix`. -/
theorem accumulate_angular_range (s : SpinImageEstimation α) (e : Env α) (q : Vector3f α)
    (n ax : Option (Vector3f α)) (l : List Nat) (acc acc1 : Grid α × Grid α) (r c : Nat)
    (hangular : s.is_angular = true) (hdebug : e.ndebug = false)
    (hacos : ∀ x, 0 ≤ x → x ≤ 1 → 0 ≤ e.acos x ∧ e.acos x ≤ e.PI)
    (hinv : 0 ≤ entry acc.1 r c ∧ 0 ≤ entry acc.2 r c ∧ entry acc.2 r c ≤ e.PI * entry acc.1 r c)
    (h : accumulate s e q n ax l acc = Except.ok acc1) :
    0 ≤ entry acc1.1 r c ∧ 0 ≤ entry acc1.2 r c ∧
      entry acc1.2 r c ≤ e.PI * entry acc1.1 r c := by
  induction l generalizing acc with
  | nil => cases h; exact hinv
  | cons nn rest ih =>
    unfold accumulate at h
    rw [bind_eq_ok_iff] at h
    obtain ⟨res, hres, h⟩ := h
    cases res with
    | none => exact ih acc hinv h
    | some c0 =>
      simp only at h
      rw [bind_eq_ok_iff] at h
      obtain ⟨acc2, h2, h⟩ := h
      obtain ⟨p, axis, bs, alpha, beta, hfilter, _, _, _, _, _, hint⟩ :=
        neighborSplat_ok_spec s e q n ax nn c0.1 c0.2 hres
      obtain ⟨_, _, _, _, _, _, _, _, hab⟩ := interpolate_ok_spec s e bs alpha beta c0.2 hint
      obtain ⟨ha0, ha1, hb0, hb1⟩ := hab hdebug
      obtain ⟨hc0, hc1⟩ := normalFilter_angular_range s n nn c0.1 hangular hfilter
      obtain ⟨ht0, ht1⟩ := hacos c0.1 hc0 hc1
      have hw := cellWeight_nonneg c0.2 r c ha0 ha1 hb0 hb1
      apply ih acc2 _ h
      rw [entry_accumulateOne s e acc acc2 c0 r c h2,
        entry_accumulateOne_snd s e acc acc2 c0 r c hangular h2]
      obtain ⟨i1, i2, i3⟩ := hinv
      refine ⟨by linarith, by nlinarith [mul_nonneg hw ht0], ?_⟩
      have : cellWeight (bilinearCells c0.2) r c * e.acos c0.1
          ≤ e.PI * cellWeight (bilinearCells c0.2) r c := by
        rw [mul_comm e.PI]
        exact mul_le_mul_of_nonneg_left ht1 hw
      linarith

/-- With assertions enabled (and `acos` with values in `[0, PI]`), every entry of
a grid returned in angular mode lies in `[0, PI]`: the negative entries of the
angular mode need a build without assertions. -/
theorem angular_range_checked (s : SpinImageEstimation α) (e : Env α) (index : Nat)
    (g : Grid α) (hangular : s.is_angular = true) (hdebug : e.ndebug = false)
    (hacos : ∀ x, 0 ≤ x → x ≤ 1 → 0 ≤ e.acos x ∧ e.acos x ≤ e.PI)
    (hg : computeSiForPoint s e index = Except.ok g) :
    ∀ r c, r ≤ s.image_width → c ≤ 2 * s.image_width →
      ∃ v, gridAt g r c = some v ∧ 0 ≤ v ∧ v ≤ e.PI := by
  intro r c hr hc
  obtain ⟨origin, axis, acc, _, _, hacc, hn⟩ := computeSiForPoint_unfold s e index g hg
  have hPI : 0 ≤ e.PI := le_trans (hacos 0 le_rfl zero_le_one).1 (hacos 0 le_rfl zero_le_one).2
  have hs1 := gridShape_accumulate s e _ _ _ _ _ acc _ _ (gridShape_zero _ _) hacc
  have hs2 := gridShape_accumulate_snd s e _ _ _ _ _ acc _ _ (gridShape_zero _ _) hacc
  obtain ⟨i1, i2, i3⟩ := accumulate_angular_range s e _ _ _ _ _ acc r c hangular hdebug hacos
    (by simp only [entry_gridZero, mul_zero, le_refl, and_self]) hacc
  unfold normalize at hn
  rw [if_pos hangular] at hn
  have hnum := gridAt_of_shape acc.2 _ _ r c hs2 (by omega) (by omega)
  have hden : gridAt (gridAddScalar acc.1 (epsDouble : α)) r c
      = some (entry acc.1 r c + epsDouble) := by
    unfold gridAddScalar
    rw [gridAt_map, gridAt_of_shape acc.1 _ _ r c hs1 (by omega) (by omega)]
    rfl
  have heps : (0 : α) < epsDouble := epsDouble_pos
  have hpos : 0 < entry acc.1 r c + epsDouble := by linarith
  refine ⟨_, gridDiv_at _ _ g r c _ _ hn hnum hden, div_nonneg i2 hpos.le, ?_⟩
  rw [div_le_iff₀ hpos]
  nlinarith [mul_nonneg hPI heps.le]

end AngularRangeChecked

section AlignmentCheck

variable {α : Type} [LinearOrderedField α] [FloorRing α]

/-- The filter on the normals, when it is active and the two normals are read:
the exception for a cosine beyond the tolerance, the `continue` for an absolute
cosine below the threshold, and otherwise the absolute value of the clamped
cosine. -/
theorem normalFilter_active (s : SpinImageEstimation α) (query_normal n : Vector3f α)
    (nn : Nat) (hfilter : 0 < s.support_angle_cos ∨ s.is_angular = true)
    (hn : pointAt s.normals nn = Except.ok n) :
    normalFilter s (some query_normal) nn
      = if |query_normal.dot n| > 1 + 10 * epsFloat then
          Except.error SiError.normalsNotNormalized
        else if |max (-1) (min 1 (query_normal.dot n))| < s.support_angle_cos then
          Except.ok none
        else Except.ok (some |max (-1) (min 1 (query_normal.dot n))|) := by
  unfold normalFilter
  rw [if_pos hfilter, hn]
  simp only [initialized, pure_eq_ok, bind_ok_eq]
  split
  · rfl
  · split
    · rfl
    · split
      · rename_i hneg
        rw [abs_of_neg hneg]
      · rename_i hneg
        rw [abs_of_nonneg (not_lt.1 hneg)]

/-- C22. Normal-alignment check.  With the filter active (`support_angle_cos > 0`
or angular mode), for a neighbour whose normal `n` is read: the exception "Some
normals are not normalized" is raised if and only if
`|dot (query normal, n)| > 1 + 10 * epsilon` (single precision epsilon);
otherwise the cosine is clamped into `[-1, 1]`, the neighbour is skipped if and
only if the absolute value of the clamped cosine is strictly below
`support_angle_cos`, and for a neighbour that is not skipped the value handed
on (also the one that reaches the accumulation) is that absolute value, which
lies in `[0, 1]`. -/
theorem normal_alignment_check (s : SpinImageEstimation α) (query_normal n : Vector3f α)
    (nn : Nat) (hfilter : 0 < s.support_angle_cos ∨ s.is_angular = true)
    (hn : pointAt s.normals nn = Except.ok n) :
    (normalFilter s (some query_normal) nn = Except.error SiError.normalsNotNormalized ↔
        |query_normal.dot n| > 1 + 10 * epsFloat) ∧
      (-1 ≤ max (-1) (min 1 (query_normal.dot n)) ∧ max (-1) (min 1 (query_normal.dot n)) ≤ 1) ∧
      (normalFilter s (some query_normal) nn = Except.ok none ↔
        ¬ |query_normal.dot n| > 1 + 10 * epsFloat ∧
          |max (-1) (min 1 (query_normal.dot n))| < s.support_angle_cos) ∧
      (∀ c, normalFilter s (some query_normal) nn = Except.ok (some c) ↔
        ¬ |query_normal.dot n| > 1 + 10 * epsFloat ∧
          ¬ |max (-1) (min 1 (query_normal.dot n))| < s.support_angle_cos ∧
          c = |max (-1) (min 1 (query_normal.dot n))|) ∧
      (∀ c, normalFilter s (some query_normal) nn = Except.ok (some c) → 0 ≤ c ∧ c ≤ 1) ∧
      ∀ (e : Env α) (q : Vector3f α) (ax : Option (Vector3f α)) (c : α) (sp : Splat α),
        neighborSplat s e q (some query_normal) ax nn = Except.ok (some (c, sp)) →
          c = |max (-1) (min 1 (query_normal.dot n))| := by
  have hf := normalFilter_active s query_normal n nn hfilter hn
  have hcl := clamp_range (query_normal.dot n)
  have habs : |max (-1) (min 1 (query_normal.dot n))| ≤ 1 := abs_le.2 hcl
  have hsome : ∀ c, normalFilter s (some query_normal) nn = Except.ok (some c) ↔
      ¬ |query_normal.dot n| > 1 + 10 * epsFloat ∧
        ¬ |max (-1) (min 1 (query_normal.dot n))| < s.support_angle_cos ∧
        c = |max (-1) (min 1 (query_normal.dot n))| := by
    intro c
    rw [hf]
    by_cases h1 : |query_normal.dot n| > 1 + 10 * epsFloat
    · simp [h1]
    · by_cases h2 : |max (-1) (min 1 (query_normal.dot n))| < s.support_angle_cos
      · simp [h1, h2]
      · rw [if_neg h1, if_neg h2]
        simp only [Except.ok.injEq, Option.some.injEq, h1, h2, not_false_eq_true, true_and]
        exact eq_comm
  refine ⟨?_, hcl, ?_, hsome, ?_, ?_⟩
  · rw [hf]
    by_cases h1 : |query_normal.dot n| > 1 + 10 * epsFloat
    · simp [h1]
    · by_cases h2 : |max (-1) (min 1 (query_normal.dot n))| < s.support_angle_cos
      · simp [h1, h2]
      · simp [h1, h2]
  · rw [hf]
    by_cases h1 : |query_normal.dot n| > 1 + 10 * epsFloat
    · simp [h1]
    · by_cases h2 : |max (-1) (min 1 (query_normal.dot n))| < s.support_angle_cos
      · simp [h1, h2]
      · simp [h1, h2]
  · intro c hc
    obtain ⟨_, _, rfl⟩ := (hsome c).1 hc
    exact ⟨abs_nonneg _, habs⟩
  · intro e q ax c sp h
    obtain ⟨_, _, _, _, _, hfil, _⟩ := neighborSplat_ok_spec s e q (some query_normal) ax nn c sp h
    exact ((hsome c).1 hfil).2.2

end AlignmentCheck

section BadAxis

variable {α : Type} [LinearOrderedField α] [FloorRing α]

theorem neighborSplat_axis_not_normalized (s : SpinImageEstimation α) (e : Env α)
    (q p axis : Vector3f α) (n : Option (Vector3f α)) (nn : Nat) (c : α)
    (hfilter : normalFilter s n nn = Except.ok (some c))
    (hp : pointAt s.surface nn = Except.ok p)
    (hfar : ¬ |norm e (p.sub q)| < 10 * epsDouble)
    (hassert : e.ndebug = true ∨ norm e (p.sub q) > 0)
    (hcos : |(p.sub q).dot axis / norm e (p.sub q)| > 1 + 10 * epsFloat) :
    neighborSplat s e q n (some axis) nn = Except.error SiError.axisNotNormalized := by
  have hc : cassert e (decide (norm e (p.sub q) > 0)) = Except.ok () := by
    unfold cassert
    rcases hassert with h | h
    · simp [h, pure_eq_ok]
    · simp [h, pure_eq_ok]
  unfold neighborSplat
  rw [hfilter]
  simp only [bind_ok_eq, hp, if_neg hfar, hc, initialized, pure_eq_ok, if_pos hcos]
  rfl

/-- C21 (amended). For a query that passes the initial assertions and reads and
whose neighbour count meets the minimum: if one of the neighbours returned
passes the filter on the normals, is not coincident with the query point and
has `|dot (direction, axis) / |direction|| > 1 + 10 * epsilon`,
`computeSiForPoint` returns no grid but fails, with another exception than "too
few points"; and it fails with "Some rotation axis is not normalized" when that
neighbour is the first one returned by the search. -/
theorem bad_axis_fail (s : SpinImageEstimation α) (e : Env α) (index nn : Nat)
    (q p axis : Vector3f α) (n : Option (Vector3f α)) (c : α)
    (hassert : e.ndebug = true ∨
      (s.image_width > 0 ∧ s.support_angle_cos ≤ 1 ∧ s.support_angle_cos ≥ 0))
    (horigin : originOf s index = Except.ok (q, n))
    (haxis : rotationAxisOf s index n = Except.ok (some axis))
    (hcount : ¬ ((e.searchForNeighbors index s.search_radius).length : Int)
      < toInt32 s.min_pts_neighb)
    (hnn : nn ∈ e.searchForNeighbors index s.search_radius)
    (hfilter : normalFilter s n nn = Except.ok (some c))
    (hp : pointAt s.surface nn = Except.ok p)
    (hfar : ¬ |norm e (p.sub q)| < 10 * epsDouble)
    (hpos : e.ndebug = true ∨ norm e (p.sub q) > 0)
    (hcos : |(p.sub q).dot axis / norm e (p.sub q)| > 1 + 10 * epsFloat) :
    (∃ err, computeSiForPoint s e index = Except.error err ∧ err ≠ SiError.tooFewPoints) ∧
      ((e.searchForNeighbors index s.search_radius).head? = some nn →
        computeSiForPoint s e index = Except.error SiError.axisNotNormalized) := by
  have hc1 : cassert e (decide (s.image_width > 0)) = Except.ok () := by
    unfold cassert
    rcases hassert with h | h
    · simp [h, pure_eq_ok]
    · simp [h.1, pure_eq_ok]
  have hc2 : cassert e (decide (s.support_angle_cos ≤ 1 ∧ s.support_angle_cos ≥ 0))
      = Except.ok () := by
    unfold cassert
    rcases hassert with h | h
    · simp [h, pure_eq_ok]
    · simp [h.2.1, h.2.2, pure_eq_ok]
  have hsplat := neighborSplat_axis_not_normalized s e q p axis n nn c hfilter hp hfar hpos hcos
  have hred : computeSiForPoint s e index
      = (accumulate s e q n (some axis)
          (e.searchForNeighbors index s.search_radius)
          (gridZero (s.image_width + 1) (2 * s.image_width + 1),
            gridZero (s.image_width + 1) (2 * s.image_width + 1))
        >>= fun acc =>
          normalize s ((e.searchForNeighbors index s.search_radius).length : Int) acc) := by
    unfold computeSiForPoint
    rw [hc1, hc2, bind_ok_eq, bind_ok_eq, horigin, bind_ok_eq, haxis, bind_ok_eq]
    simp only [if_neg hcount]
  constructor
  · obtain ⟨err, herr⟩ := accumulate_error_of_mem s e q n (some axis)
      (e.searchForNeighbors index s.search_radius)
      (gridZero (s.image_width + 1) (2 * s.image_width + 1),
        gridZero (s.image_width + 1) (2 * s.image_width + 1)) nn _ hnn hsplat
    refine ⟨err, ?_, ?_⟩
    · rw [hred, herr]; rfl
    · intro h
      have := notTooFew_accumulate s e q n (some axis)
        (e.searchForNeighbors index s.search_radius)
        (gridZero (s.image_width + 1) (2 * s.image_width + 1),
          gridZero (s.image_width + 1) (2 * s.image_width + 1))
      rw [herr, h] at this
      exact this rfl
  · intro hhead
    rw [hred]
    cases hl : e.searchForNeighbors index s.search_radius with
    | nil => rw [hl] at hhead; cases hhead
    | cons x rest =>
      rw [hl] at hhead
      simp only [List.head?_cons, Option.some.injEq] at hhead
      subst hhead
      unfold accumulate
      rw [hsplat]
      rfl

end BadAxis

section OtherErrorKinds

variable {α : Type} [LinearOrderedField α] [FloorRing α]

theorem noNormalsError_pure {β : Type} (a : β) : NoNormalsError (pure a : Except SiError β) := by
  intro h; cases h

theorem noNormalsError_ok {β : Type} (a : β) : NoNormalsError (Except.ok a : Except SiError β) := by
  intro h; cases h

theorem noNormalsError_throw {β : Type} (err : SiError)
    (h : err ≠ SiError.normalsNotNormalized) :
    NoNormalsError (throw err : Except SiError β) := by
  intro h1; cases h1; exact h rfl

theorem noNormalsError_bind {β γ : Type} {x : Except SiError β} {f : β → Except SiError γ}
    (hx : NoNormalsError x) (hf : ∀ a, NoNormalsError (f a)) : NoNormalsError (x >>= f) := by
  cases x with
  | error err => intro h; rw [bind_error_eq] at h; cases h; exact hx rfl
  | ok a => intro h; rw [bind_ok_eq] at h; exact hf a h

theorem noNormalsError_cassert (e : Env α) (c : Bool) : NoNormalsError (cassert e c) := by
  unfold cassert; split
  · exact noNormalsError_pure _
  · exact noNormalsError_throw _ (by decide)

theorem noNormalsError_fdiv (x y : α) : NoNormalsError (fdiv x y) := by
  unfold fdiv; split
  · exact noNormalsError_throw _ (by decide)
  · exact noNormalsError_pure _

theorem noNormalsError_pointAt (c : Cloud α) (i : Nat) : NoNormalsError (pointAt c i) := by
  unfold pointAt
  split
  · exact noNormalsError_throw _ (by decide)
  · split
    · exact noNormalsError_throw _ (by decide)
    · exact noNormalsError_pure _

theorem noNormalsError_initialized (v : Option (Vector3f α)) : NoNormalsError (initialized v) := by
  unfold initialized
  split
  · exact noNormalsError_throw _ (by decide)
  · exact noNormalsError_pure _

theorem noNormalsError_originOf (s : SpinImageEstimation α) (i : Nat) : NoNormalsError (originOf s i) := by
  unfold originOf
  refine noNormalsError_bind (noNormalsError_pointAt _ _) (fun q => ?_)
  split
  · exact noNormalsError_bind (noNormalsError_pointAt _ _) (fun _ => noNormalsError_pure _)
  · exact noNormalsError_pure _

theorem noNormalsError_rotationAxisOf (s : SpinImageEstimation α) (i : Nat)
    (n : Option (Vector3f α)) : NoNormalsError (rotationAxisOf s i n) := by
  unfold rotationAxisOf
  split
  · exact noNormalsError_pure _
  · split
    · exact noNormalsError_bind (noNormalsError_pointAt _ _) (fun _ => noNormalsError_pure _)
    · exact noNormalsError_pure _

theorem noNormalsError_binSize (s : SpinImageEstimation α) (e : Env α) : NoNormalsError (binSize s e) := by
  unfold binSize
  split
  · exact noNormalsError_fdiv _ _
  · exact noNormalsError_bind (noNormalsError_fdiv _ _) (fun _ => noNormalsError_fdiv _ _)

theorem noNormalsError_betaBinSize (s : SpinImageEstimation α) (e : Env α) (b : α) :
    NoNormalsError (betaBinSize s e b) := by
  unfold betaBinSize
  split
  · exact noNormalsError_bind (noNormalsError_fdiv _ _) (fun _ => noNormalsError_fdiv _ _)
  · exact noNormalsError_pure _

theorem normalFilter_inactive (s : SpinImageEstimation α) (n : Option (Vector3f α)) (nn : Nat)
    (hcos : s.support_angle_cos = 0) (hangular : s.is_angular = false) :
    normalFilter s n nn = Except.ok (some (-2)) := by
  unfold normalFilter
  rw [if_neg (by rw [hcos, hangular]; simp)]
  rfl

theorem noNormalsError_normalFilter (s : SpinImageEstimation α) (n : Option (Vector3f α))
    (nn : Nat) (hcos : s.support_angle_cos = 0) (hangular : s.is_angular = false) :
    NoNormalsError (normalFilter s n nn) := by
  rw [normalFilter_inactive s n nn hcos hangular]
  exact noNormalsError_ok _

theorem noNormalsError_interpolate (s : SpinImageEstimation α) (e : Env α) (bs al be : α) :
    NoNormalsError (interpolate s e bs al be) := by
  unfold interpolate
  refine noNormalsError_bind (noNormalsError_cassert _ _) (fun _ => ?_)
  refine noNormalsError_bind (noNormalsError_cassert _ _) (fun _ => ?_)
  refine noNormalsError_bind (noNormalsError_betaBinSize _ _ _) (fun _ => ?_)
  refine noNormalsError_bind (noNormalsError_fdiv _ _) (fun _ => ?_)
  refine noNormalsError_bind (noNormalsError_cassert _ _) (fun _ => ?_)
  refine noNormalsError_bind (noNormalsError_fdiv _ _) (fun _ => ?_)
  refine noNormalsError_bind (noNormalsError_cassert _ _) (fun _ => ?_)
  refine noNormalsError_bind (noNormalsError_cassert _ _) (fun _ => ?_)
  refine noNormalsError_bind (noNormalsError_cassert _ _) (fun _ => ?_)
  exact noNormalsError_pure _

theorem noNormalsError_neighborSplat (s : SpinImageEstimation α) (e : Env α) (q : Vector3f α)
    (n ax : Option (Vector3f α)) (nn : Nat)
    (hcos : s.support_angle_cos = 0) (hangular : s.is_angular = false) :
    NoNormalsError (neighborSplat s e q n ax nn) := by
  unfold neighborSplat
  refine noNormalsError_bind (noNormalsError_normalFilter _ _ _ hcos hangular) (fun r => ?_)
  split
  · exact noNormalsError_pure _
  · refine noNormalsError_bind (noNormalsError_pointAt _ _) (fun _ => ?_)
    dsimp only
    split
    · exact noNormalsError_pure _
    · refine noNormalsError_bind (noNormalsError_cassert _ _) (fun _ => ?_)
      refine noNormalsError_bind (noNormalsError_initialized _) (fun _ => ?_)
      dsimp only
      split
      · exact noNormalsError_throw _ (by decide)
      · refine noNormalsError_bind (noNormalsError_binSize _ _) (fun _ => ?_)
        split
        · exact noNormalsError_pure _
        · exact noNormalsError_bind (noNormalsError_interpolate _ _ _ _ _) (fun _ => noNormalsError_pure _)


theorem noNormalsError_gridAdd (g : Grid α) (r c : Int) (w : α) : NoNormalsError (gridAdd g r c w) := by
  unfold gridAdd
  split
  · split
    · exact noNormalsError_throw _ (by decide)
    · split
      · exact noNormalsError_pure _
      · exact noNormalsError_throw _ (by decide)
  · exact noNormalsError_throw _ (by decide)

theorem noNormalsError_gridAddCells (cells : List ((Int × Int) × α)) (g : Grid α) :
    NoNormalsError (gridAddCells g cells) := by
  induction cells generalizing g with
  | nil => exact noNormalsError_pure _
  | cons cell cells ih =>
    unfold gridAddCells
    exact noNormalsError_bind (noNormalsError_gridAdd _ _ _ _) (fun g1 => ih g1)

theorem noNormalsError_accumulateOne (s : SpinImageEstimation α) (e : Env α) (acc : Grid α × Grid α)
    (c : α × Splat α) : NoNormalsError (accumulateOne s e acc c) := by
  unfold accumulateOne
  refine noNormalsError_bind (noNormalsError_gridAddCells _ _) (fun _ => ?_)
  split
  · exact noNormalsError_bind (noNormalsError_gridAddCells _ _) (fun _ => noNormalsError_pure _)
  · exact noNormalsError_pure _

theorem noNormalsError_accumulate (s : SpinImageEstimation α) (e : Env α) (q : Vector3f α)
    (n ax : Option (Vector3f α)) (l : List Nat) (acc : Grid α × Grid α)
    (hcos : s.support_angle_cos = 0) (hangular : s.is_angular = false) :
    NoNormalsError (accumulate s e q n ax l acc) := by
  induction l generalizing acc with
  | nil => exact noNormalsError_pure _
  | cons nn rest ih =>
    unfold accumulate
    refine noNormalsError_bind (noNormalsError_neighborSplat _ _ _ _ _ _ hcos hangular)
      (fun r => ?_)
    split
    · exact ih acc
    · exact noNormalsError_bind (noNormalsError_accumulateOne _ _ _ _) (fun acc1 => ih acc1)

theorem noNormalsError_rowDiv (xs ys : List α) : NoNormalsError (rowDiv xs ys) := by
  induction xs generalizing ys with
  | nil => unfold rowDiv; exact noNormalsError_pure _
  | cons x xs ih =>
    cases ys with
    | nil => unfold rowDiv; exact noNormalsError_pure _
    | cons y ys =>
      unfold rowDiv
      refine noNormalsError_bind (noNormalsError_fdiv _ _) (fun _ => ?_)
      exact noNormalsError_bind (ih ys) (fun _ => noNormalsError_pure _)

theorem noNormalsError_gridDiv (xs ys : Grid α) : NoNormalsError (gridDiv xs ys) := by
  induction xs generalizing ys with
  | nil => unfold gridDiv; exact noNormalsError_pure _
  | cons x xs ih =>
    cases ys with
    | nil => unfold gridDiv; exact noNormalsError_pure _
    | cons y ys =>
      unfold gridDiv
      refine noNormalsError_bind (noNormalsError_rowDiv _ _) (fun _ => ?_)
      exact noNormalsError_bind (ih ys) (fun _ => noNormalsError_pure _)

theorem noNormalsError_normalize (s : SpinImageEstimation α) (cnt : Int) (acc : Grid α × Grid α) :
    NoNormalsError (normalize s cnt acc) := by
  unfold normalize
  split
  · exact noNormalsError_gridDiv _ _
  · split
    · unfold gridDivScalar
      split
      · exact noNormalsError_throw _ (by decide)
      · exact noNormalsError_pure _
    · exact noNormalsError_pure _
theorem noNormalsError_computeSiForPoint (s : SpinImageEstimation α) (e : Env α) (index : Nat)
    (hcos : s.support_angle_cos = 0) (hangular : s.is_angular = false) :
    NoNormalsError (computeSiForPoint s e index) := by
  unfold computeSiForPoint
  refine noNormalsError_bind (noNormalsError_cassert _ _) (fun _ => ?_)
  refine noNormalsError_bind (noNormalsError_cassert _ _) (fun _ => ?_)
  refine noNormalsError_bind (noNormalsError_originOf _ _) (fun _ => ?_)
  refine noNormalsError_bind (noNormalsError_rotationAxisOf _ _ _) (fun _ => ?_)
  dsimp only
  split
  · exact noNormalsError_throw _ (by decide)
  · exact noNormalsError_bind (noNormalsError_accumulate _ _ _ _ _ _ _ hcos hangular)
      (fun _ => noNormalsError_normalize _ _ _)

end OtherErrorKinds

section LoopCongruenceGeneral

variable {α : Type} [LinearOrderedField α] [FloorRing α]

/-- The loop over the neighbours depends on the object, the environment, the
query point, its normal and the axis only through the treatment of the single
neighbours. -/
theorem accumulate_congr_general (s s1 : SpinImageEstimation α) (e e1 : Env α)
    (q q1 : Vector3f α) (n ax n1 ax1 : Option (Vector3f α))
    (hs : ∀ nn, neighborSplat s e q n ax nn = neighborSplat s1 e1 q1 n1 ax1 nn)
    (ha : ∀ acc c, accumulateOne s e acc c = accumulateOne s1 e1 acc c)
    (l : List Nat) (acc : Grid α × Grid α) :
    accumulate s e q n ax l acc = accumulate s1 e1 q1 n1 ax1 l acc := by
  induction l generalizing acc with
  | nil => rfl
  | cons nn rest ih =>
    unfold accumulate
    rw [hs nn]
    cases neighborSplat s1 e1 q1 n1 ax1 nn with
    | error err => rfl
    | ok r =>
      cases r with
      | none => simp only [bind_ok_eq]; exact ih acc
      | some c =>
        simp only [bind_ok_eq]
        rw [ha acc c]
        cases accumulateOne s1 e1 acc c with
        | error err => rfl
        | ok acc1 => simp only [bind_ok_eq]; exact ih acc1

/-- The function `computeSiForPoint` after the reads of the query point and of
the axis. -/
theorem computeSiForPoint_of_origin (s : SpinImageEstimation α) (e : Env α) (index : Nat)
    (q : Vector3f α) (n ax : Option (Vector3f α))
    (horigin : originOf s index = Except.ok (q, n))
    (haxis : rotationAxisOf s index n = Except.ok ax) :
    computeSiForPoint s e index =
      (cassert e (decide (s.image_width > 0)) >>= fun _ =>
        cassert e (decide (s.support_angle_cos ≤ 1 ∧ s.support_angle_cos ≥ 0)) >>= fun _ =>
          if ((e.searchForNeighbors index s.search_radius).length : Int)
              < toInt32 s.min_pts_neighb then
            throw SiError.tooFewPoints
          else
            accumulate s e q n ax (e.searchForNeighbors index s.search_radius)
                (gridZero (s.image_width + 1) (2 * s.image_width + 1),
                  gridZero (s.image_width + 1) (2 * s.image_width + 1)) >>= fun acc =>
              normalize s ((e.searchForNeighbors index s.search_radius).length : Int) acc) := by
  unfold computeSiForPoint
  cases cassert e (decide (s.image_width > 0)) with
  | error err => rfl
  | ok u1 =>
    simp only [bind_ok_eq]
    cases cassert e (decide (s.support_angle_cos ≤ 1 ∧ s.support_angle_cos ≥ 0)) with
    | error err => rfl
    | ok u2 =>
      simp only [bind_ok_eq, horigin, haxis]

end LoopCongruenceGeneral

section InactiveFilter

variable {α : Type} [LinearOrderedField α] [FloorRing α]

/-- C24. Inactive filter.  With `support_angle_cos = 0` and angular mode off, the
filter on the normals lets every neighbour pass without reading a normal (the
value handed on is the placeholder `-2`), `computeSiForPoint` never fails with
"Some normals are not normalized", and its outcome, grid or error, is the same
for any two clouds of surface normals and of input normals with which the reads
of the query point give the same rotation axis. -/
theorem inactive_filter_ignores_normals (s : SpinImageEstimation α) (e : Env α) (index : Nat)
    (normals1 input_normals1 : Cloud α) (q : Vector3f α) (n n1 ax : Option (Vector3f α))
    (hcos : s.support_angle_cos = 0) (hangular : s.is_angular = false)
    (horigin : originOf s index = Except.ok (q, n))
    (haxis : rotationAxisOf s index n = Except.ok ax)
    (horigin1 : originOf { s with normals := normals1, input_normals := input_normals1 } index
      = Except.ok (q, n1))
    (haxis1 : rotationAxisOf { s with normals := normals1, input_normals := input_normals1 }
      index n1 = Except.ok ax) :
    computeSiForPoint { s with normals := normals1, input_normals := input_normals1 } e index
        = computeSiForPoint s e index ∧
      (∀ (origin_normal : Option (Vector3f α)) (nn : Nat),
        normalFilter s origin_normal nn = Except.ok (some (-2))) ∧
      computeSiForPoint s e index ≠ Except.error SiError.normalsNotNormalized := by
  refine ⟨?_, fun origin_normal nn => normalFilter_inactive s origin_normal nn hcos hangular,
    noNormalsError_computeSiForPoint s e index hcos hangular⟩
  rw [computeSiForPoint_of_origin _ e index q n1 ax horigin1 haxis1,
    computeSiForPoint_of_origin s e index q n ax horigin haxis]
  have hsplat : ∀ nn,
      neighborSplat { s with normals := normals1, input_normals := input_normals1 } e q n1 ax nn
        = neighborSplat s e q n ax nn := by
    intro nn
    unfold neighborSplat
    rw [normalFilter_inactive s n nn hcos hangular,
      normalFilter_inactive { s with normals := normals1, input_normals := input_normals1 }
        n1 nn hcos hangular]
    rfl
  rw [accumulate_congr_general _ s e e q q n1 ax n ax hsplat (fun _ _ => rfl)]
  rfl

end InactiveFilter

section UndirectedNormals

variable {α : Type} [LinearOrderedField α] [FloorRing α]

theorem dot_neg_left (u v : Vector3f α) : (Vector3f.neg u).dot v = -(u.dot v) := by
  simp only [Vector3f.neg, Vector3f.dot]
  ring

theorem dot_neg_right (u v : Vector3f α) : u.dot (Vector3f.neg v) = -(u.dot v) := by
  simp only [Vector3f.neg, Vector3f.dot]
  ring

theorem flipFrom_get (flip : Nat → Bool) (l : List (Vector3f α)) (i k : Nat) :
    (flipFrom flip i l).get? k
      = (l.get? k).map (fun v => if flip (i + k) then Vector3f.neg v else v) := by
  induction l generalizing i k with
  | nil => simp [flipFrom]
  | cons v vs ih =>
    cases k with
    | zero => simp [flipFrom]
    | succ k =>
      simp only [flipFrom, List.get?_cons_succ, ih]
      congr 2
      funext w
      rw [show i + 1 + k = i + (k + 1) by omega]

theorem pointAt_flipNormals (flip : Nat → Bool) (c : Cloud α) (nn : Nat) :
    pointAt (flipNormals flip c) nn
      = (pointAt c nn).map (fun v => if flip nn then Vector3f.neg v else v) := by
  unfold pointAt flipNormals
  cases c with
  | none => rfl
  | some pts =>
    simp only [Option.map_some', flipFrom_get, Nat.zero_add]
    cases pts.get? nn with
    | none => rfl
    | some v => rfl

/-- The filter on the normals sees the two normals only through the absolute
value of their dot product: it is not changed when the normal of the query
point, the normal of the neighbour, or both are negated. -/
theorem normalFilter_flip (s : SpinImageEstimation α) (flip : Nat → Bool)
    (input_normals1 : Cloud α) (n : Option (Vector3f α)) (b : Bool) (nn : Nat) :
    normalFilter { s with normals := flipNormals flip s.normals, input_normals := input_normals1 }
        (n.map (fun v => if b then Vector3f.neg v else v)) nn
      = normalFilter s n nn := by
  by_cases hfilter : 0 < s.support_angle_cos ∨ s.is_angular = true
  · cases n with
    | none =>
      unfold normalFilter
      simp only [if_pos hfilter, Option.map_none', initialized]
      rfl
    | some qn =>
      cases hp : pointAt s.normals nn with
      | error err =>
        have hp1 : pointAt (flipNormals flip s.normals) nn = Except.error err := by
          rw [pointAt_flipNormals, hp]; rfl
        unfold normalFilter
        simp only [if_pos hfilter, Option.map_some', initialized, pure_eq_ok, bind_ok_eq, hp, hp1,
          bind_error_eq]
      | ok v =>
        have hp1 : pointAt
            ({ s with normals := flipNormals flip s.normals,
                      input_normals := input_normals1 } : SpinImageEstimation α).normals nn
            = Except.ok (if flip nn then Vector3f.neg v else v) := by
          show pointAt (flipNormals flip s.normals) nn = _
          rw [pointAt_flipNormals, hp]; rfl
        have h1 := normalFilter_active
          ({ s with normals := flipNormals flip s.normals,
                    input_normals := input_normals1 } : SpinImageEstimation α)
          (if b then Vector3f.neg qn else qn) (if flip nn then Vector3f.neg v else v) nn
          hfilter hp1
        rw [Option.map_some', h1, normalFilter_active s qn v nn hfilter hp]
        show (if |(if b then Vector3f.neg qn else qn).dot
              (if flip nn then Vector3f.neg v else v)| > 1 + 10 * epsFloat then
            Except.error SiError.normalsNotNormalized
          else if |max (-1) (min 1 ((if b then Vector3f.neg qn else qn).dot
              (if flip nn then Vector3f.neg v else v)))| < s.support_angle_cos then
            Except.ok none
          else Except.ok (some |max (-1) (min 1 ((if b then Vector3f.neg qn else qn).dot
              (if flip nn then Vector3f.neg v else v)))|)) = _
        have hdot : (if b then Vector3f.neg qn else qn).dot
            (if flip nn then Vector3f.neg v else v) = qn.dot v ∨
            (if b then Vector3f.neg qn else qn).dot
              (if flip nn then Vector3f.neg v else v) = -(qn.dot v) := by
          cases b <;> cases flip nn <;>
            simp [dot_neg_left, dot_neg_right]
        rcases hdot with h | h
        · rw [h]
        · rw [h, clamp_neg, abs_neg, abs_neg]
  · unfold normalFilter
    rw [if_neg hfilter, if_neg hfilter]

theorem neighborSplat_flip (s : SpinImageEstimation α) (e : Env α) (flip : Nat → Bool)
    (input_normals1 : Cloud α) (q : Vector3f α) (n ax : Option (Vector3f α)) (b : Bool)
    (nn : Nat) :
    neighborSplat
        { s with normals := flipNormals flip s.normals, input_normals := input_normals1 } e q
        (n.map (fun v => if b then Vector3f.neg v else v)) ax nn
      = neighborSplat s e q n ax nn := by
  unfold neighborSplat
  rw [normalFilter_flip s flip input_normals1 n b nn]
  rfl

theorem originOf_flip (s : SpinImageEstimation α) (flip : Nat → Bool) (index : Nat) :
    originOf { s with normals := flipNormals flip s.normals,
                      input_normals := flipNormals flip s.input_normals } index
      = (originOf s index).map (fun o : Vector3f α × Option (Vector3f α) =>
          (o.1, o.2.map (fun v => if flip index then Vector3f.neg v else v))) := by
  unfold originOf
  show (pointAt s.input index >>= fun origin_point =>
      match flipNormals flip s.input_normals with
      | some _ => pointAt (flipNormals flip s.input_normals) index >>= fun origin_normal =>
          pure (origin_point, some origin_normal)
      | none => pure (origin_point, none)) = _
  cases pointAt s.input index with
  | error err => rfl
  | ok q =>
    simp only [bind_ok_eq]
    cases hin : s.input_normals with
    | none => rfl
    | some pts =>
      have h1 : flipNormals flip (some pts) = some (flipFrom flip 0 pts) := rfl
      rw [h1]
      simp only
      rw [← h1, pointAt_flipNormals]
      cases pointAt (some pts) index with
      | error err => rfl
      | ok v => rfl

/-- The outcome of `computeSiForPoint` for an object whose surface normals are
flipped at the points marked by `flip`, whose query normal is flipped or not,
and whose axis is the same. -/
theorem computeSiForPoint_flip (s : SpinImageEstimation α) (e : Env α) (index : Nat)
    (flip : Nat → Bool) (input_normals1 : Cloud α) (b : Bool)
    (horigin : originOf
        { s with normals := flipNormals flip s.normals, input_normals := input_normals1 } index
      = (originOf s index).map (fun o : Vector3f α × Option (Vector3f α) =>
          (o.1, o.2.map (fun v => if b then Vector3f.neg v else v))))
    (haxis : ∀ n, rotationAxisOf
        { s with normals := flipNormals flip s.normals, input_normals := input_normals1 } index
        (n.map (fun v => if b then Vector3f.neg v else v)) = rotationAxisOf s index n) :
    computeSiForPoint
        { s with normals := flipNormals flip s.normals, input_normals := input_normals1 } e index
      = computeSiForPoint s e index := by
  unfold computeSiForPoint
  rw [horigin]
  show (cassert e (decide (s.image_width > 0)) >>= fun _ =>
      cassert e (decide (s.support_angle_cos ≤ 1 ∧ s.support_angle_cos ≥ 0)) >>= fun _ => _) = _
  cases cassert e (decide (s.image_width > 0)) with
  | error err => rfl
  | ok u1 =>
    simp only [bind_ok_eq]
    cases cassert e (decide (s.support_angle_cos ≤ 1 ∧ s.support_angle_cos ≥ 0)) with
    | error err => rfl
    | ok u2 =>
      simp only [bind_ok_eq]
      cases originOf s index with
      | error err => rfl
      | ok origin =>
        rw [map_ok_eq, bind_ok_eq, bind_ok_eq]
        simp only
        rw [haxis origin.2]
        cases rotationAxisOf s index origin.2 with
        | error err => rfl
        | ok ax =>
          simp only [bind_ok_eq]
          rw [accumulate_congr_general _ s e e origin.1 origin.1 _ ax origin.2 ax
            (fun nn => neighborSplat_flip s e flip input_normals1 origin.1 origin.2 ax b nn)
            (fun _ _ => rfl)]
          rfl

/-- C23. Undirected normals.  Negating the normals of any surface points (those
marked by `flip`) leaves the outcome of `computeSiForPoint`, grid or error,
unchanged, in every configuration: when the query normals are a cloud of their
own, and also when the surface normals are the query normals themselves
(self-comparison) and the normal of the query point is not among the negated
ones or does not supply the rotation axis (an axis is given explicitly). -/
theorem undirected_normals (s : SpinImageEstimation α) (e : Env α) (index : Nat)
    (flip : Nat → Bool) :
    computeSiForPoint { s with normals := flipNormals flip s.normals } e index
        = computeSiForPoint s e index ∧
      (flip index = false ∨ s.use_custom_axis = true ∨ s.use_custom_axes_cloud = true →
        computeSiForPoint
            { s with normals := flipNormals flip s.normals,
                     input_normals := flipNormals flip s.input_normals } e index
          = computeSiForPoint s e index) := by
  constructor
  · have h := computeSiForPoint_flip s e index flip s.input_normals false
      (by
        show originOf s index = _
        cases originOf s index with
        | error err => rfl
        | ok o =>
          obtain ⟨o1, o2⟩ := o
          cases o2 <;> rfl)
      (fun n => by
        show rotationAxisOf s index _ = _
        cases n <;> rfl)
    exact h
  · intro hcond
    refine computeSiForPoint_flip s e index flip _ (flip index) (originOf_flip s flip index)
      (fun n => ?_)
    show rotationAxisOf s index _ = _
    rcases hcond with h | h | h
    · rw [h]
      cases n <;> rfl
    · unfold rotationAxisOf
      rw [if_pos h, if_pos h]
    · unfold rotationAxisOf
      by_cases hc : s.use_custom_axis = true
      · rw [if_pos hc, if_pos hc]
      · rw [if_neg hc, if_neg hc, if_pos h, if_pos h]

end UndirectedNormals

section Coordinates

variable {α : Type} [LinearOrderedField α] [FloorRing α]

theorem dot_self_nonneg (v : Vector3f α) : 0 ≤ v.dot v := by
  simp only [Vector3f.dot]
  nlinarith [mul_self_nonneg v.x, mul_self_nonneg v.y, mul_self_nonneg v.z]

theorem coordinates_radial (s : SpinImageEstimation α) (e : Env α) (bs d c : α)
    (hradial : s.is_radial = true) :
    coordinates s e bs d c = some (d, e.asin c) := by
  unfold coordinates
  rw [if_pos hradial]

/-- C25. Rectangular coordinates.  For a neighbour `p` of the query point `q`
with the axis `axis`, let `d` be the distance `|p - q|` and `c` the clamped
`cos_dir_axis`; then `0 ≤ d` and `-1 ≤ c ≤ 1`.  In rectangular mode
`beta = d * c` and `alpha = d * sqrt (1 - c * c)`, so that `alpha ≥ 0` and
`alpha ^ 2 + beta ^ 2 = d ^ 2`, and the neighbour is skipped at this step if and
only if `|beta| ≥ W * bin_size` or `alpha ≥ W * bin_size`.  In radial mode
`alpha = d` and `beta = asin c`, between `-PI / 2` and `PI / 2`, and no neighbour
is skipped at this step.  The math library is taken to give, for `x ≥ 0`,
`sqrt x ≥ 0` with `sqrt x * sqrt x = x`, and `|asin x| ≤ PI / 2` on `[-1, 1]`. -/
theorem rectangular_coordinates (s : SpinImageEstimation α) (e : Env α) (bs : α)
    (p q axis : Vector3f α)
    (hsqrt : ∀ x, 0 ≤ x → 0 ≤ e.sqrt x ∧ e.sqrt x * e.sqrt x = x)
    (hasin : ∀ x, -1 ≤ x → x ≤ 1 → -(e.PI / 2) ≤ e.asin x ∧ e.asin x ≤ e.PI / 2) :
    (0 ≤ norm e (p.sub q) ∧
        -1 ≤ max (-1) (min 1 ((p.sub q).dot axis / norm e (p.sub q))) ∧
        max (-1) (min 1 ((p.sub q).dot axis / norm e (p.sub q))) ≤ 1) ∧
      (s.is_radial = false →
        0 ≤ norm e (p.sub q) * e.sqrt (1 -
            max (-1) (min 1 ((p.sub q).dot axis / norm e (p.sub q))) *
            max (-1) (min 1 ((p.sub q).dot axis / norm e (p.sub q)))) ∧
        (norm e (p.sub q) * e.sqrt (1 -
            max (-1) (min 1 ((p.sub q).dot axis / norm e (p.sub q))) *
            max (-1) (min 1 ((p.sub q).dot axis / norm e (p.sub q))))) ^ 2
          + (norm e (p.sub q) *
              max (-1) (min 1 ((p.sub q).dot axis / norm e (p.sub q)))) ^ 2
          = norm e (p.sub q) ^ 2 ∧
        (coordinates s e bs (norm e (p.sub q))
            (max (-1) (min 1 ((p.sub q).dot axis / norm e (p.sub q)))) = none ↔
          |norm e (p.sub q) * max (-1) (min 1 ((p.sub q).dot axis / norm e (p.sub q)))|
              ≥ bs * (s.image_width : α) ∨
            norm e (p.sub q) * e.sqrt (1 -
              max (-1) (min 1 ((p.sub q).dot axis / norm e (p.sub q))) *
              max (-1) (min 1 ((p.sub q).dot axis / norm e (p.sub q))))
              ≥ bs * (s.image_width : α)) ∧
        ∀ alpha beta, coordinates s e bs (norm e (p.sub q))
            (max (-1) (min 1 ((p.sub q).dot axis / norm e (p.sub q)))) = some (alpha, beta) →
          beta = norm e (p.sub q) *
              max (-1) (min 1 ((p.sub q).dot axis / norm e (p.sub q))) ∧
            alpha = norm e (p.sub q) * e.sqrt (1 -
              max (-1) (min 1 ((p.sub q).dot axis / norm e (p.sub q))) *
              max (-1) (min 1 ((p.sub q).dot axis / norm e (p.sub q))))) ∧
      (s.is_radial = true →
        coordinates s e bs (norm e (p.sub q))
            (max (-1) (min 1 ((p.sub q).dot axis / norm e (p.sub q))))
          = some (norm e (p.sub q),
              e.asin (max (-1) (min 1 ((p.sub q).dot axis / norm e (p.sub q))))) ∧
        -(e.PI / 2) ≤ e.asin (max (-1) (min 1 ((p.sub q).dot axis / norm e (p.sub q)))) ∧
        e.asin (max (-1) (min 1 ((p.sub q).dot axis / norm e (p.sub q)))) ≤ e.PI / 2) := by
  have hd : 0 ≤ norm e (p.sub q) := (hsqrt _ (dot_self_nonneg _)).1
  have hc := clamp_range ((p.sub q).dot axis / norm e (p.sub q))
  generalize norm e (p.sub q) = d at hd hc ⊢
  generalize max (-1) (min 1 ((p.sub q).dot axis / d)) = c at hc ⊢
  have h1c : 0 ≤ 1 - c * c := by nlinarith [hc.1, hc.2]
  obtain ⟨hs0, hs1⟩ := hsqrt _ h1c
  refine ⟨⟨hd, hc⟩, fun hrect => ⟨mul_nonneg hd hs0, ?_, ?_, ?_⟩, fun hradial =>
    ⟨coordinates_radial s e bs d c hradial, hasin c hc.1 hc.2⟩⟩
  · have : (d * e.sqrt (1 - c * c)) ^ 2 = d ^ 2 * (e.sqrt (1 - c * c) * e.sqrt (1 - c * c)) := by
      ring
    rw [this, hs1]
    ring
  · rw [coordinates_rect s e bs d c hrect]
    split
    · rename_i h
      exact ⟨fun _ => h, fun _ => rfl⟩
    · rename_i h
      exact Iff.intro (fun hh => Option.noConfusion hh) (fun hh => absurd hh h)
  · intro alpha beta hco
    rw [coordinates_rect s e bs d c hrect] at hco
    split at hco
    · cases hco
    · simp only [Option.some.injEq, Prod.mk.injEq] at hco
      exact ⟨hco.2.symm, hco.1.symm⟩

end Coordinates

section SupportCylinder

variable {α : Type} [LinearOrderedField α] [FloorRing α]

theorem binSize_radial (s : SpinImageEstimation α) (e : Env α) (hradial : s.is_radial = true)
    (hW : 1 ≤ s.image_width) :
    binSize s e = Except.ok (s.search_radius / (s.image_width : α)) := by
  have hW0 : (s.image_width : α) ≠ 0 := by
    have : (0 : α) < (s.image_width : α) := by exact_mod_cast hW
    exact ne_of_gt this
  unfold binSize
  rw [if_pos hradial, fdiv_of_ne _ _ hW0]

theorem binSize_rect (s : SpinImageEstimation α) (e : Env α) (hrect : s.is_radial = false)
    (hW : 1 ≤ s.image_width) (h2 : e.sqrt 2 ≠ 0) :
    binSize s e = Except.ok (s.search_radius / ((s.image_width : α) * e.sqrt 2)) := by
  have hW0 : (s.image_width : α) ≠ 0 := by
    have : (0 : α) < (s.image_width : α) := by exact_mod_cast hW
    exact ne_of_gt this
  unfold binSize
  rw [hrect]
  simp only [Bool.false_eq_true, if_false]
  rw [fdiv_of_ne _ _ hW0, bind_ok_eq, fdiv_of_ne _ _ h2, div_div]

/-- C26. Support cylinder and search sphere.  In rectangular mode with `W ≥ 1`
and a search radius `r > 0`, `bin_size = r / (W * sqrt 2)`, and every neighbour
`p` that passes the cylinder test (`alpha < W * bin_size` and
`|beta| < W * bin_size`) lies at a distance strictly less than `r` from the
query point `q`; in radial mode `bin_size = r / W`.  The math library is taken
to give, for `x ≥ 0`, `sqrt x ≥ 0` with `sqrt x * sqrt x = x`. -/
theorem cylinder_in_sphere (s : SpinImageEstimation α) (e : Env α) (p q axis : Vector3f α)
    (hW : 1 ≤ s.image_width) (hr : 0 < s.search_radius)
    (hsqrt : ∀ x, 0 ≤ x → 0 ≤ e.sqrt x ∧ e.sqrt x * e.sqrt x = x) :
    (s.is_radial = false →
        binSize s e = Except.ok (s.search_radius / ((s.image_width : α) * e.sqrt 2)) ∧
        ∀ alpha beta,
          coordinates s e (s.search_radius / ((s.image_width : α) * e.sqrt 2))
              (norm e (p.sub q))
              (max (-1) (min 1 ((p.sub q).dot axis / norm e (p.sub q)))) = some (alpha, beta) →
            alpha < (s.image_width : α) * (s.search_radius / ((s.image_width : α) * e.sqrt 2)) ∧
            |beta| < (s.image_width : α) * (s.search_radius / ((s.image_width : α) * e.sqrt 2)) ∧
            norm e (p.sub q) < s.search_radius) ∧
      (s.is_radial = true →
        binSize s e = Except.ok (s.search_radius / (s.image_width : α))) := by
  obtain ⟨h20, h22⟩ := hsqrt 2 (by norm_num)
  have h2ne : e.sqrt 2 ≠ 0 := by
    intro h
    rw [h, mul_zero] at h22
    norm_num at h22
  have h2pos : 0 < e.sqrt 2 := lt_of_le_of_ne h20 (Ne.symm h2ne)
  have hWpos : (0 : α) < (s.image_width : α) := by exact_mod_cast hW
  refine ⟨fun hrect => ⟨binSize_rect s e hrect hW h2ne, fun alpha beta hco => ?_⟩,
    fun hradial => binSize_radial s e hradial hW⟩
  have hd : 0 ≤ norm e (p.sub q) := (hsqrt _ (dot_self_nonneg _)).1
  have hc := clamp_range ((p.sub q).dot axis / norm e (p.sub q))
  generalize norm e (p.sub q) = d at hd hc hco ⊢
  generalize max (-1) (min 1 ((p.sub q).dot axis / d)) = c at hc hco ⊢
  have h1c : 0 ≤ 1 - c * c := by nlinarith [hc.1, hc.2]
  obtain ⟨hs0, hs1⟩ := hsqrt _ h1c
  have hR : (s.image_width : α) * (s.search_radius / ((s.image_width : α) * e.sqrt 2))
      = s.search_radius / e.sqrt 2 := by
    field_simp
    ring
  rw [coordinates_rect s e _ d c hrect] at hco
  split at hco
  · cases hco
  · rename_i hcyl
    push_neg at hcyl
    simp only [Option.some.injEq, Prod.mk.injEq] at hco
    obtain ⟨ha, hb⟩ := hco
    rw [mul_comm (s.search_radius / ((s.image_width : α) * e.sqrt 2))] at hcyl
    rw [ha, hb] at hcyl
    refine ⟨hcyl.2, hcyl.1, ?_⟩
    rw [hR] at hcyl
    have halpha0 : 0 ≤ alpha := by rw [← ha]; exact mul_nonneg hd hs0
    have hsum : alpha * alpha + beta * beta = d * d := by
      rw [← ha, ← hb]
      have : d * e.sqrt (1 - c * c) * (d * e.sqrt (1 - c * c))
          = d * d * (e.sqrt (1 - c * c) * e.sqrt (1 - c * c)) := by ring
      rw [this, hs1]
      ring
    have hR0 : 0 < s.search_radius / e.sqrt 2 := div_pos hr h2pos
    have hRR : s.search_radius / e.sqrt 2 * (s.search_radius / e.sqrt 2) * 2
        = s.search_radius * s.search_radius := by
      rw [div_mul_div_comm, h22]
      ring
    have ha2 : alpha * alpha < s.search_radius / e.sqrt 2 * (s.search_radius / e.sqrt 2) :=
      mul_self_lt_mul_self halpha0 hcyl.2
    have hb2 : beta * beta < s.search_radius / e.sqrt 2 * (s.search_radius / e.sqrt 2) := by
      have := abs_mul_abs_self beta
      rw [← this]
      exact mul_self_lt_mul_self (abs_nonneg beta) hcyl.1
    by_contra hge
    push_neg at hge
    have := mul_self_le_mul_self hr.le hge
    linarith

end SupportCylinder

section DeadBorders

variable {α : Type} [LinearOrderedField α] [FloorRing α]

/-- C30. Border branches.  In rectangular mode, every neighbour that passes the
cylinder test has `floor (alpha / bin_size) ≤ W - 1` and
`floor (beta / bin_size) + W ≤ 2W - 1`, so that neither adjustment of a border
bin is made.  In radial mode with `W ≥ 1`, a search radius `r > 0` and `PI > 0`
(`bin_size = r / W`, `beta_bin_size = PI / 2 / W`): for `alpha ≤ r` the
adjustment in `alpha` is made if and only if `alpha = r`, and for
`beta ≤ PI / 2` the adjustment in `beta` is made if and only if
`beta = PI / 2`. -/
theorem border_branches (s : SpinImageEstimation α) (e : Env α) :
    (s.is_radial = false → ∀ bs d c alpha beta, coordinates s e bs d c = some (alpha, beta) →
        ⌊alpha / bs⌋ ≤ (s.image_width : Int) - 1 ∧
        ⌊beta / bs⌋ + (s.image_width : Int) ≤ 2 * (s.image_width : Int) - 1 ∧
        betaBinSize s e bs = Except.ok bs ∧
        alphaBorder s bs ⌊alpha / bs⌋ alpha = (⌊alpha / bs⌋, alpha) ∧
        betaBorder s bs (⌊beta / bs⌋ + (s.image_width : Int)) beta
          = (⌊beta / bs⌋ + (s.image_width : Int), beta)) ∧
      (s.is_radial = true → 1 ≤ s.image_width → 0 < s.search_radius → 0 < e.PI →
        binSize s e = Except.ok (s.search_radius / (s.image_width : α)) ∧
        betaBinSize s e (s.search_radius / (s.image_width : α))
          = Except.ok (e.PI / 2 / (s.image_width : α)) ∧
        (∀ alpha, alpha ≤ s.search_radius →
          (⌊alpha / (s.search_radius / (s.image_width : α))⌋ = (s.image_width : Int) ↔
            alpha = s.search_radius)) ∧
        (∀ beta, beta ≤ e.PI / 2 →
          (⌊beta / (e.PI / 2 / (s.image_width : α))⌋ + (s.image_width : Int)
              = 2 * (s.image_width : Int) ↔ beta = e.PI / 2)) ∧
        (∀ alpha, alpha ≠ s.search_radius → alpha ≤ s.search_radius →
          alphaBorder s (s.search_radius / (s.image_width : α))
              ⌊alpha / (s.search_radius / (s.image_width : α))⌋ alpha
            = (⌊alpha / (s.search_radius / (s.image_width : α))⌋, alpha)) ∧
        (∀ beta, beta ≠ e.PI / 2 → beta ≤ e.PI / 2 →
          betaBorder s (e.PI / 2 / (s.image_width : α))
              (⌊beta / (e.PI / 2 / (s.image_width : α))⌋ + (s.image_width : Int)) beta
            = (⌊beta / (e.PI / 2 / (s.image_width : α))⌋ + (s.image_width : Int), beta))) := by
  constructor
  · intro hrect bs d c alpha beta hco
    rw [coordinates_rect s e bs d c hrect] at hco
    split at hco
    · cases hco
    · rename_i hcyl
      push_neg at hcyl
      simp only [Option.some.injEq, Prod.mk.injEq] at hco
      rw [hco.1, hco.2] at hcyl
      obtain ⟨hb, ha⟩ := hcyl
      have hW0 : (0 : α) ≤ (s.image_width : α) := Nat.cast_nonneg _
      have hpos : 0 < bs * (s.image_width : α) := lt_of_le_of_lt (abs_nonneg beta) hb
      have hbs : 0 < bs := by
        by_contra hneg
        have := mul_nonpos_of_nonpos_of_nonneg (not_lt.1 hneg) hW0
        linarith
      have hx1 : alpha / bs < (s.image_width : α) := by
        rw [div_lt_iff₀ hbs]; linarith
      have hx2 : beta / bs < (s.image_width : α) := by
        rw [div_lt_iff₀ hbs]
        have := le_abs_self beta
        linarith
      have hf1 : ⌊alpha / bs⌋ < (s.image_width : Int) := by
        rw [Int.floor_lt]; exact_mod_cast hx1
      have hf2 : ⌊beta / bs⌋ < (s.image_width : Int) := by
        rw [Int.floor_lt]; exact_mod_cast hx2
      refine ⟨by omega, by omega, ?_, ?_, ?_⟩
      · unfold betaBinSize
        rw [hrect]
        rfl
      · unfold alphaBorder
        rw [if_neg (by omega)]
      · unfold betaBorder
        rw [if_neg (by omega)]
  · intro hradial hW hr hPI
    have hWpos : (0 : α) < (s.image_width : α) := by exact_mod_cast hW
    have hbs : 0 < s.search_radius / (s.image_width : α) := div_pos hr hWpos
    have hbbs : 0 < e.PI / 2 / (s.image_width : α) := div_pos (by linarith) hWpos
    have hfa : ∀ alpha, alpha ≤ s.search_radius →
        (⌊alpha / (s.search_radius / (s.image_width : α))⌋ = (s.image_width : Int) ↔
          alpha = s.search_radius) := by
      intro alpha ha
      rw [Int.floor_eq_iff]
      constructor
      · rintro ⟨h1, _⟩
        rw [le_div_iff₀ hbs] at h1
        have h3 : ((s.image_width : Int) : α) * (s.search_radius / (s.image_width : α))
            = s.search_radius := by
          push_cast
          field_simp
        rw [h3] at h1
        exact le_antisymm ha h1
      · intro h
        have h3 : alpha / (s.search_radius / (s.image_width : α)) = (s.image_width : α) := by
          rw [h]
          field_simp
        rw [h3]
        push_cast
        exact ⟨le_refl _, by linarith⟩
    have hfb : ∀ beta, beta ≤ e.PI / 2 →
        (⌊beta / (e.PI / 2 / (s.image_width : α))⌋ + (s.image_width : Int)
            = 2 * (s.image_width : Int) ↔ beta = e.PI / 2) := by
      intro beta hb
      have hiff : (⌊beta / (e.PI / 2 / (s.image_width : α))⌋ + (s.image_width : Int)
          = 2 * (s.image_width : Int)) ↔
          ⌊beta / (e.PI / 2 / (s.image_width : α))⌋ = (s.image_width : Int) := by
        constructor <;> intro h <;> omega
      rw [hiff, Int.floor_eq_iff]
      constructor
      · rintro ⟨h1, _⟩
        rw [le_div_iff₀ hbbs] at h1
        have h3 : ((s.image_width : Int) : α) * (e.PI / 2 / (s.image_width : α))
            = e.PI / 2 := by
          push_cast
          field_simp
          ring
        rw [h3] at h1
        exact le_antisymm hb h1
      · intro h
        have h3 : beta / (e.PI / 2 / (s.image_width : α)) = (s.image_width : α) := by
          rw [h]
          field_simp
          ring
        rw [h3]
        push_cast
        exact ⟨le_refl _, by linarith⟩
    refine ⟨binSize_radial s e hradial hW, ?_, hfa, hfb, ?_, ?_⟩
    · have hW0 : (s.image_width : α) ≠ 0 := ne_of_gt hWpos
      unfold betaBinSize
      rw [if_pos hradial, fdiv_of_ne _ _ (by norm_num), bind_ok_eq, fdiv_of_ne _ _ hW0]
    · intro alpha hne ha
      unfold alphaBorder
      rw [if_neg (fun h => hne ((hfa alpha ha).1 h))]
    · intro beta hne hb
      unfold betaBorder
      rw [if_neg (fun h => hne ((hfb beta hb).1 h))]

end DeadBorders

section RawMass

variable {α : Type} [LinearOrderedField α] [FloorRing α]

/-- C27. Raw mass.  When the loop over the neighbours of a query point completes
without error, the sum of all entries of `m_matrix` before the normalisation is
the number of the contributing neighbours; hence, in non-angular mode with at
least one contributing neighbour, every grid that `computeSiForPoint` returns is
the raw grid divided, entry by entry, by that number. -/
theorem raw_mass (s : SpinImageEstimation α) (e : Env α) (index : Nat) (q : Vector3f α)
    (n ax : Option (Vector3f α)) (acc : Grid α × Grid α)
    (horigin : originOf s index = Except.ok (q, n))
    (haxis : rotationAxisOf s index n = Except.ok ax)
    (hacc : accumulate s e q n ax (e.searchForNeighbors index s.search_radius)
      (gridZero (s.image_width + 1) (2 * s.image_width + 1),
        gridZero (s.image_width + 1) (2 * s.image_width + 1)) = Except.ok acc) :
    gridSum acc.1 = ((contributors s e index).length : α) ∧
      ∀ g, computeSiForPoint s e index = Except.ok g → s.is_angular = false →
        1 ≤ (contributors s e index).length →
        g = acc.1.map (fun row => row.map (fun x => x / ((contributors s e index).length : α))) ∧
        ∀ r c, entry g r c = entry acc.1 r c / ((contributors s e index).length : α) := by
  have hcont : contributors s e index
      = (e.searchForNeighbors index s.search_radius).filter (contributes s e q n ax) := by
    unfold contributors
    rw [horigin]
    simp only [haxis]
  have hsum : gridSum acc.1 = ((contributors s e index).length : α) := by
    rw [accumulate_sum s e q n ax _ _ acc hacc, gridSum_zero, zero_add, hcont]
  refine ⟨hsum, fun g hg hangular hone => ?_⟩
  have hmap : g = acc.1.map
      (fun row => row.map (fun x => x / ((contributors s e index).length : α))) := by
    rw [computeSiForPoint_of_origin s e index q n ax horigin haxis] at hg
    rw [bind_eq_ok_iff] at hg
    obtain ⟨_, _, hg⟩ := hg
    rw [bind_eq_ok_iff] at hg
    obtain ⟨_, _, hg⟩ := hg
    split at hg
    · cases hg
    · rw [hacc, bind_ok_eq] at hg
      unfold normalize at hg
      rw [hangular] at hg
      simp only [Bool.false_eq_true, if_false] at hg
      split at hg
      · unfold gridDivScalar at hg
        split at hg
        · cases hg
        · cases hg
          rw [hsum]
      · rename_i hcnt
        cases hg
        have hle : (contributors s e index).length
            ≤ (e.searchForNeighbors index s.search_radius).length := by
          rw [hcont]
          exact List.length_filter_le _ _
        have hk : (contributors s e index).length = 1 := by
          have : ((e.searchForNeighbors index s.search_radius).length : Int) ≤ 1 :=
            not_lt.1 hcnt
          omega
        rw [hk, Nat.cast_one, grid_map_div_one]
  refine ⟨hmap, fun r c => ?_⟩
  rw [hmap]
  exact entry_map acc.1 (fun x => x / ((contributors s e index).length : α)) (zero_div _) r c

end RawMass

section CopyFailure

variable {α : Type} [LinearOrderedField α] [FloorRing α]

theorem copyRow_fail (vs : List α) (hist : List α) (base iCol : Nat)
    (hle : base + iCol ≤ hist.length) (h : hist.length < base + iCol + vs.length) :
    copyRow hist base vs iCol = Except.error SiError.invalidAccess := by
  induction vs generalizing hist iCol with
  | nil => simp only [List.length_nil] at h; omega
  | cons v vs ih =>
    simp only [List.length_cons] at h
    unfold copyRow
    unfold histSet
    by_cases hlt : base + iCol < hist.length
    · rw [if_pos hlt]
      simp only [pure_eq_ok, bind_ok_eq]
      exact ih (hist.set (base + iCol) v) (iCol + 1)
        (by rw [List.length_set]; omega) (by rw [List.length_set]; omega)
    · rw [if_neg hlt]
      rfl

theorem copyRows_fail (rows : Grid α) (hist : List α) (cols iRow : Nat)
    (hrows : ∀ row ∈ rows, row.length = cols)
    (hle : iRow * cols ≤ hist.length)
    (h : hist.length < iRow * cols + rows.length * cols) :
    copyRows hist cols rows iRow = Except.error SiError.invalidAccess := by
  induction rows generalizing hist iRow with
  | nil => simp only [List.length_nil, Nat.zero_mul] at h; omega
  | cons row rows ih =>
    have hrow : row.length = cols := hrows row (List.mem_cons_self _ _)
    simp only [List.length_cons, Nat.add_mul, Nat.one_mul] at h
    unfold copyRows
    by_cases hfit : iRow * cols + cols ≤ hist.length
    · rw [copyRow_spec row hist (iRow * cols) 0 (by rw [hrow]; omega)]
      simp only [bind_ok_eq, Nat.add_zero]
      have hl := splice_length hist (iRow * cols) row (by rw [hrow]; omega)
      exact ih (splice hist (iRow * cols) row) (iRow + 1)
        (fun r hr => hrows r (List.mem_cons_of_mem _ hr))
        (by rw [hl, Nat.add_mul, Nat.one_mul]; exact hfit)
        (by rw [hl, Nat.add_mul, Nat.one_mul]; omega)
    · rw [copyRow_fail row hist (iRow * cols) 0 (by omega) (by rw [hrow]; omega)]
      rfl

theorem writeSlot_fail (output : PointCloudOut α) (i_input : Nat) (res : Grid α)
    (hist : List α) (rows cols : Nat) (hs : GridShape res (rows + 1) cols)
    (hslot : output.get? i_input = some hist) (hcap : hist.length < (rows + 1) * cols) :
    writeSlot output i_input res = Except.error SiError.invalidAccess := by
  unfold writeSlot
  rw [hslot]
  simp only
  rw [gridCols_of_shape res rows cols hs, copyRows_fail res hist cols 0 hs.2
    (by omega) (by rw [hs.1]; omega)]
  rfl

end CopyFailure

section MatrixWidth

variable {α : Type} [LinearOrderedField α] [FloorRing α]

theorem resizeMatrix_length (rows cols : Nat) (old : Nat → Nat → α) :
    (resizeMatrix rows cols old).length = rows := by
  simp [resizeMatrix]

theorem resizeMatrix_row_length (rows cols : Nat) (old : Nat → Nat → α) :
    ∀ hist ∈ resizeMatrix rows cols old, hist.length = cols := by
  intro hist hh
  unfold resizeMatrix at hh
  obtain ⟨i, _, rfl⟩ := List.mem_map.1 hh
  simp

theorem resizeMatrix_get (rows cols : Nat) (old : Nat → Nat → α) (k : Nat) (hk : k < rows) :
    (resizeMatrix rows cols old).get? k = some ((List.range cols).map (old k)) := by
  unfold resizeMatrix
  rw [List.get?_eq_getElem?, List.getElem?_map, List.getElem?_range hk]
  rfl

theorem cells_le_iff (W : Nat) : (W + 1) * (2 * W + 1) ≤ 153 ↔ W ≤ 8 := by
  constructor
  · intro h
    by_contra hW
    have h9 : 9 ≤ W := by omega
    have : (9 + 1) * (2 * 9 + 1) ≤ (W + 1) * (2 * W + 1) :=
      Nat.mul_le_mul (by omega) (by omega)
    omega
  · intro h
    interval_cases W <;> decide

theorem cells_eq_iff (W : Nat) : (W + 1) * (2 * W + 1) = 153 ↔ W = 8 := by
  constructor
  · intro h
    have h8 : W ≤ 8 := (cells_le_iff W).1 (by omega)
    interval_cases W <;> simp at h ⊢
  · intro h
    subst h
    rfl

theorem flat_indices_inside_iff (W N : Nat) :
    (∀ row col, row ≤ W → col ≤ 2 * W → row * (2 * W + 1) + col < N) ↔
      (W + 1) * (2 * W + 1) ≤ N := by
  constructor
  · intro h
    have := h W (2 * W) (Nat.le_refl _) (Nat.le_refl _)
    rw [Nat.add_mul, Nat.one_mul]
    omega
  · intro h row col hr hc
    have h1 : row * (2 * W + 1) ≤ W * (2 * W + 1) := Nat.mul_le_mul_right _ hr
    rw [Nat.add_mul, Nat.one_mul] at h
    omega

/-- C28. Fixed-width matrix output.  The specialisation of `computeFeature` for
`Eigen::MatrixXf` resizes the output to 153 columns for every query point,
whatever the image width `W`.  The flat indices `row * (2W + 1) + col` it
writes all lie below 153 if and only if `(W + 1) * (2W + 1) ≤ 153`, that is
`W ≤ 8`, and they are all of the 153 columns only for `W = 8`.  On the code, when
`computeSiForPoint` succeeds for every query index (and there is one): the call
ends without a failure if and only if `W ≤ 8`; for `W > 8` it fails at the first
write outside the row; for `W ≤ 8` every row holds the grid in row-major order
followed by the `153 - (W + 1) * (2W + 1)` coefficients that are not written. -/
theorem matrix_output_width (s : SpinImageEstimation α) (e : Env α) (old : Nat → Nat → α) :
    ((resizeMatrix s.indices.length 153 old).length = s.indices.length ∧
        ∀ hist ∈ resizeMatrix s.indices.length 153 old, hist.length = 153) ∧
      ((∀ row col, row ≤ s.image_width → col ≤ 2 * s.image_width →
          row * (2 * s.image_width + 1) + col < 153) ↔
        (s.image_width + 1) * (2 * s.image_width + 1) ≤ 153) ∧
      ((s.image_width + 1) * (2 * s.image_width + 1) ≤ 153 ↔ s.image_width ≤ 8) ∧
      ((s.image_width + 1) * (2 * s.image_width + 1) = 153 ↔ s.image_width = 8) ∧
      ((∀ index ∈ s.indices, ∃ g, computeSiForPoint s e index = Except.ok g) →
        s.indices ≠ [] →
        ((computeFeatureMatrix s e old).failure = none ↔ s.image_width ≤ 8) ∧
        (8 < s.image_width →
          (computeFeatureMatrix s e old).failure = some SiError.invalidAccess) ∧
        (s.image_width ≤ 8 → ∀ k, k < s.indices.length →
          ∃ index g, s.indices.get? k = some index ∧
            computeSiForPoint s e index = Except.ok g ∧
            (computeFeatureMatrix s e old).output.get? k
              = some (rowMajor g ++ ((List.range 153).map (old k)).drop
                  ((s.image_width + 1) * (2 * s.image_width + 1))))) := by
  refine ⟨⟨resizeMatrix_length _ _ _, resizeMatrix_row_length _ _ _⟩,
    flat_indices_inside_iff _ _, cells_le_iff _, cells_eq_iff _, fun hall hne => ?_⟩
  have hsmall : s.image_width ≤ 8 →
      ∃ output1 : PointCloudOut α, computeFeatureMatrix s e old = ⟨output1, none⟩ ∧
        ∀ k, k < s.indices.length → ∃ index g, s.indices.get? k = some index ∧
          computeSiForPoint s e index = Except.ok g ∧
          output1.get? k = some (rowMajor g ++ ((List.range 153).map (old k)).drop
            ((s.image_width + 1) * (2 * s.image_width + 1))) := by
    intro hW
    obtain ⟨output1, hrun, _, _, _, hin⟩ :=
      computeFeatureFrom_succeed s e s.indices 0 (resizeMatrix s.indices.length 153 old) hall
        (by rw [resizeMatrix_length]; omega)
        (fun hist hh => by
          rw [resizeMatrix_row_length _ _ _ hist hh]
          exact (cells_le_iff _).2 hW)
    refine ⟨output1, ?_, fun k hk => ?_⟩
    · have := hrun []
      rw [List.append_nil] at this
      unfold computeFeatureMatrix
      rw [this]
      rfl
    · obtain ⟨index, g, hist, h1, h2, h3, h4⟩ := hin k hk
      rw [Nat.zero_add] at h3 h4
      rw [resizeMatrix_get _ _ _ k hk] at h3
      cases h3
      exact ⟨index, g, h1, h2, h4⟩
  have hbig : 8 < s.image_width →
      computeFeatureMatrix s e old
        = ⟨resizeMatrix s.indices.length 153 old, some SiError.invalidAccess⟩ := by
    intro hW
    cases hl : s.indices with
    | nil => exact absurd hl hne
    | cons index rest =>
      obtain ⟨g, hg⟩ := hall index (by rw [hl]; exact List.mem_cons_self _ _)
      have hshape := computeSiForPoint_shape s e index g hg
      have hslot := resizeMatrix_get (rest.length + 1) 153 old 0 (Nat.succ_pos _)
      have hw := writeSlot_fail (resizeMatrix (rest.length + 1) 153 old) 0 g _
        s.image_width (2 * s.image_width + 1) hshape hslot
        (by
          simp only [List.length_map, List.length_range]
          have := (cells_le_iff s.image_width).not.2 (by omega)
          omega)
      unfold computeFeatureMatrix
      rw [hl, List.length_cons, computeFeatureFrom]
      simp only [hg, hw]
  refine ⟨⟨fun hnone => ?_, fun hW => ?_⟩, fun hW => ?_, fun hW k hk => ?_⟩
  · by_contra hW
    rw [hbig (by omega)] at hnone
    cases hnone
  · obtain ⟨output1, hrun, _⟩ := hsmall hW
    rw [hrun]
  · rw [hbig hW]
  · obtain ⟨output1, hrun, hin⟩ := hsmall hW
    rw [hrun]
    exact hin k hk

end MatrixWidth

section GridExtensionality

variable {α : Type} [LinearOrderedField α] [FloorRing α]

theorem row_ext_of_length (row row1 : List α) (cols : Nat) (h : row.length = cols)
    (h1 : row1.length = cols) (hget : ∀ c, c < cols → row.get? c = row1.get? c) :
    row = row1 := by
  apply List.ext_get?
  intro c
  by_cases hc : c < cols
  · exact hget c hc
  · rw [List.get?_eq_none.2 (by omega), List.get?_eq_none.2 (by omega)]

/-- Two arrays of the same size with the same coefficients are equal. -/
theorem grid_ext (g g1 : Grid α) (rows cols : Nat) (hs : GridShape g rows cols)
    (hs1 : GridShape g1 rows cols) (h : ∀ r c, entry g r c = entry g1 r c) : g = g1 := by
  apply List.ext_get?
  intro r
  by_cases hr : r < rows
  · have hlen : r < g.length := by rw [hs.1]; exact hr
    have hlen1 : r < g1.length := by rw [hs1.1]; exact hr
    have hrow : g.get? r = some (g.get ⟨r, hlen⟩) := List.get?_eq_get hlen
    have hrow1 : g1.get? r = some (g1.get ⟨r, hlen1⟩) := List.get?_eq_get hlen1
    rw [hrow, hrow1]
    congr 1
    apply row_ext_of_length _ _ cols (hs.2 _ (List.get?_mem hrow)) (hs1.2 _ (List.get?_mem hrow1))
    intro c hc
    have e1 := gridAt_of_shape g rows cols r c hs hr hc
    have e2 := gridAt_of_shape g1 rows cols r c hs1 hr hc
    unfold gridAt at e1 e2
    rw [hrow] at e1
    rw [hrow1] at e2
    simp only [Option.some_bind] at e1 e2
    rw [e1, e2, h r c]
  · rw [List.get?_eq_none.2 (by rw [hs.1]; omega), List.get?_eq_none.2 (by rw [hs1.1]; omega)]

end GridExtensionality

section SuccessOfTheLoop

variable {α : Type} [LinearOrderedField α] [FloorRing α]

theorem gridAdd_ok_range (g g1 : Grid α) (rows cols : Nat) (r c : Int) (w : α)
    (hs : GridShape g rows cols) (h : gridAdd g r c w = Except.ok g1) :
    0 ≤ r ∧ r < (rows : Int) ∧ 0 ≤ c ∧ c < (cols : Int) := by
  unfold gridAdd at h
  split at h
  · rename_i hpos
    split at h
    · cases h
    · rename_i row hrow
      split at h
      · rename_i hlt
        have hlen : r.toNat < g.length := by
          rw [List.get?_eq_some] at hrow
          exact hrow.1
        have hrl := hs.2 row (List.get?_mem hrow)
        rw [hs.1] at hlen
        rw [hrl] at hlt
        exact ⟨hpos.1, by omega, hpos.2, by omega⟩
      · cases h
  · cases h

theorem gridAddCells_ok_range (cells : List ((Int × Int) × α)) (g g1 : Grid α) (rows cols : Nat)
    (hs : GridShape g rows cols) (h : gridAddCells g cells = Except.ok g1) :
    ∀ cell ∈ cells,
      0 ≤ cell.1.1 ∧ cell.1.1 < (rows : Int) ∧ 0 ≤ cell.1.2 ∧ cell.1.2 < (cols : Int) := by
  induction cells generalizing g with
  | nil => intro cell hcell; cases hcell
  | cons cell0 cells ih =>
    unfold gridAddCells at h
    rw [bind_eq_ok_iff] at h
    obtain ⟨g2, h2, h3⟩ := h
    intro cell hcell
    rcases List.mem_cons.1 hcell with rfl | hcell
    · exact gridAdd_ok_range g g2 rows cols _ _ _ hs h2
    · exact ih g2 (gridShape_gridAdd g g2 _ _ _ rows cols hs h2) h3 cell hcell

/-- The accumulation of a neighbour succeeds exactly when its four cells lie
inside the arrays. -/
theorem accumulateOne_ok_iff (s : SpinImageEstimation α) (e : Env α) (acc : Grid α × Grid α)
    (c : α × Splat α) (rows cols : Nat) (h1 : GridShape acc.1 rows cols)
    (h2 : GridShape acc.2 rows cols) :
    (∃ acc1, accumulateOne s e acc c = Except.ok acc1) ↔
      ∀ cell ∈ bilinearCells c.2,
        0 ≤ cell.1.1 ∧ cell.1.1 < (rows : Int) ∧ 0 ≤ cell.1.2 ∧ cell.1.2 < (cols : Int) := by
  constructor
  · rintro ⟨acc1, h⟩
    unfold accumulateOne at h
    rw [bind_eq_ok_iff] at h
    obtain ⟨m, hm, _⟩ := h
    exact gridAddCells_ok_range _ acc.1 m rows cols h1 hm
  · intro hcells
    obtain ⟨m, hm, _⟩ := gridAddCells_ok_of_shape (bilinearCells c.2) acc.1 rows cols h1 hcells
    obtain ⟨a, ha, _⟩ := gridAddCells_ok_of_shape
      ((bilinearCells c.2).map (fun cell => (cell.1, cell.2 * e.acos c.1))) acc.2 rows cols h2
      (fun cell hcell => by
        obtain ⟨cell0, hcell0, rfl⟩ := List.mem_map.1 hcell
        exact hcells cell0 hcell0)
    unfold accumulateOne
    by_cases hangular : s.is_angular = true
    · exact ⟨(m, a), by simp only [hm, bind_ok_eq, hangular, if_true, ha, pure_eq_ok]⟩
    · exact ⟨(m, acc.2), by simp only [hm, bind_ok_eq, hangular, if_false, pure_eq_ok]; rfl⟩

/-- The loop over the neighbours ends without an error exactly when every
iteration does: which neighbours fail does not depend on their order. -/
theorem accumulate_ok_iff (s : SpinImageEstimation α) (e : Env α) (q : Vector3f α)
    (n ax : Option (Vector3f α)) (l : List Nat) (acc : Grid α × Grid α) (rows cols : Nat)
    (h1 : GridShape acc.1 rows cols) (h2 : GridShape acc.2 rows cols) :
    (∃ acc1, accumulate s e q n ax l acc = Except.ok acc1) ↔
      ∀ nn ∈ l, IterationSucceeds s e q n ax rows cols nn := by
  induction l generalizing acc with
  | nil =>
    exact Iff.intro (fun _ nn hnn => absurd hnn (List.not_mem_nil nn)) (fun _ => ⟨acc, rfl⟩)
  | cons nn rest ih =>
    unfold accumulate
    cases hres : neighborSplat s e q n ax nn with
    | error err =>
      simp only [bind_error_eq]
      constructor
      · rintro ⟨_, h⟩; cases h
      · intro h
        have := h nn (List.mem_cons_self _ _)
        unfold IterationSucceeds at this
        rw [hres] at this
        exact this.elim
    | ok res =>
      simp only [bind_ok_eq]
      cases res with
      | none =>
        simp only
        rw [ih acc h1 h2]
        constructor
        · intro h x hx
          rcases List.mem_cons.1 hx with rfl | hx
          · unfold IterationSucceeds
            rw [hres]
            trivial
          · exact h x hx
        · intro h x hx
          exact h x (List.mem_cons_of_mem _ hx)
      | some c =>
        simp only
        constructor
        · rintro ⟨acc1, h⟩
          rw [bind_eq_ok_iff] at h
          obtain ⟨acc2, hacc2, h⟩ := h
          have hcells := (accumulateOne_ok_iff s e acc c rows cols h1 h2).1 ⟨acc2, hacc2⟩
          have hrest := (ih acc2 (gridShape_accumulateOne s e acc acc2 c rows cols h1 hacc2)
            (gridShape_accumulateOne_snd s e acc acc2 c rows cols h2 hacc2)).1 ⟨acc1, h⟩
          intro x hx
          rcases List.mem_cons.1 hx with rfl | hx
          · unfold IterationSucceeds
            rw [hres]
            exact hcells
          · exact hrest x hx
        · intro h
          have hnn := h nn (List.mem_cons_self _ _)
          unfold IterationSucceeds at hnn
          rw [hres] at hnn
          obtain ⟨acc2, hacc2⟩ := (accumulateOne_ok_iff s e acc c rows cols h1 h2).2 hnn
          obtain ⟨acc1, hacc1⟩ := (ih acc2
            (gridShape_accumulateOne s e acc acc2 c rows cols h1 hacc2)
            (gridShape_accumulateOne_snd s e acc acc2 c rows cols h2 hacc2)).2
            (fun x hx => h x (List.mem_cons_of_mem _ hx))
          exact ⟨acc1, by rw [hacc2, bind_ok_eq]; exact hacc1⟩

end SuccessOfTheLoop

section EntriesByNeighbour

variable {α : Type} [LinearOrderedField α] [FloorRing α]

theorem entry_accumulateOne_angle (s : SpinImageEstimation α) (e : Env α)
    (acc acc1 : Grid α × Grid α) (c : α × Splat α) (r col : Nat)
    (h : accumulateOne s e acc c = Except.ok acc1) :
    entry acc1.2 r col = entry acc.2 r col
      + (if s.is_angular then cellWeight (bilinearCells c.2) r col * e.acos c.1 else 0) := by
  by_cases hangular : s.is_angular = true
  · rw [if_pos hangular]
    exact entry_accumulateOne_snd s e acc acc1 c r col hangular h
  · rw [if_neg hangular, add_zero]
    unfold accumulateOne at h
    rw [bind_eq_ok_iff] at h
    obtain ⟨m, _, h⟩ := h
    rw [if_neg hangular] at h
    cases h
    rfl

/-- The entries of the two arrays after the loop: sums over the neighbours. -/
theorem accumulate_entries (s : SpinImageEstimation α) (e : Env α) (q : Vector3f α)
    (n ax : Option (Vector3f α)) (l : List Nat) (acc acc1 : Grid α × Grid α) (r c : Nat)
    (h : accumulate s e q n ax l acc = Except.ok acc1) :
    entry acc1.1 r c = entry acc.1 r c + (l.map (neighbourWeight s e q n ax r c)).sum ∧
      entry acc1.2 r c = entry acc.2 r c + (l.map (neighbourAngle s e q n ax r c)).sum := by
  induction l generalizing acc with
  | nil =>
    cases h
    simp
  | cons nn rest ih =>
    unfold accumulate at h
    rw [bind_eq_ok_iff] at h
    obtain ⟨res, hres, h⟩ := h
    cases res with
    | none =>
      have hw : neighbourWeight s e q n ax r c nn = 0 := by
        unfold neighbourWeight
        rw [hres]
      have hang : neighbourAngle s e q n ax r c nn = 0 := by
        unfold neighbourAngle
        rw [hres]
      obtain ⟨i1, i2⟩ := ih acc h
      simp only [List.map_cons, List.sum_cons, hw, hang, zero_add]
      exact ⟨i1, i2⟩
    | some c0 =>
      have hw : neighbourWeight s e q n ax r c nn = cellWeight (bilinearCells c0.2) r c := by
        unfold neighbourWeight
        rw [hres]
      have hang : neighbourAngle s e q n ax r c nn
          = if s.is_angular then cellWeight (bilinearCells c0.2) r c * e.acos c0.1 else 0 := by
        unfold neighbourAngle
        rw [hres]
      simp only at h
      rw [bind_eq_ok_iff] at h
      obtain ⟨acc2, h2, h⟩ := h
      obtain ⟨i1, i2⟩ := ih acc2 h
      rw [i1, i2, entry_accumulateOne s e acc acc2 c0 r c h2,
        entry_accumulateOne_angle s e acc acc2 c0 r c h2]
      simp only [List.map_cons, List.sum_cons, hw, hang]
      constructor <;> ring

/-- The result of the loop does not depend on the order of the neighbours. -/
theorem accumulate_perm (s : SpinImageEstimation α) (e : Env α) (q : Vector3f α)
    (n ax : Option (Vector3f α)) (l l1 : List Nat) (acc acc1 : Grid α × Grid α)
    (rows cols : Nat) (h1 : GridShape acc.1 rows cols) (h2 : GridShape acc.2 rows cols)
    (hperm : List.Perm l1 l) (h : accumulate s e q n ax l acc = Except.ok acc1) :
    accumulate s e q n ax l1 acc = Except.ok acc1 := by
  have hall := (accumulate_ok_iff s e q n ax l acc rows cols h1 h2).1 ⟨acc1, h⟩
  obtain ⟨acc2, hacc2⟩ := (accumulate_ok_iff s e q n ax l1 acc rows cols h1 h2).2
    (fun nn hnn => hall nn (hperm.subset hnn))
  have hfst : acc2.1 = acc1.1 := by
    apply grid_ext _ _ rows cols (gridShape_accumulate s e q n ax l1 acc acc2 rows cols h1 hacc2)
      (gridShape_accumulate s e q n ax l acc acc1 rows cols h1 h)
    intro r c
    rw [(accumulate_entries s e q n ax l1 acc acc2 r c hacc2).1,
      (accumulate_entries s e q n ax l acc acc1 r c h).1,
      (List.Perm.map (neighbourWeight s e q n ax r c) hperm).sum_eq]
  have hsnd : acc2.2 = acc1.2 := by
    apply grid_ext _ _ rows cols
      (gridShape_accumulate_snd s e q n ax l1 acc acc2 rows cols h2 hacc2)
      (gridShape_accumulate_snd s e q n ax l acc acc1 rows cols h2 h)
    intro r c
    rw [(accumulate_entries s e q n ax l1 acc acc2 r c hacc2).2,
      (accumulate_entries s e q n ax l acc acc1 r c h).2,
      (List.Perm.map (neighbourAngle s e q n ax r c) hperm).sum_eq]
  rw [hacc2]
  congr 1
  exact Prod.ext hfst hsnd

end EntriesByNeighbour

section OrderOfTheNeighbours

variable {α : Type} [LinearOrderedField α] [FloorRing α]

theorem computeSiForPoint_perm (s : SpinImageEstimation α) (e : Env α) (index : Nat)
    (search1 : Nat → α → List Nat) (g : Grid α)
    (hperm : List.Perm (search1 index s.search_radius)
      (e.searchForNeighbors index s.search_radius))
    (hg : computeSiForPoint s e index = Except.ok g) :
    computeSiForPoint s { e with searchForNeighbors := search1 } index = Except.ok g := by
  obtain ⟨origin, ax, acc, ho, hax, _, _⟩ := computeSiForPoint_unfold s e index g hg
  rw [computeSiForPoint_of_origin s e index origin.1 origin.2 ax ho hax] at hg
  rw [computeSiForPoint_of_origin s _ index origin.1 origin.2 ax ho hax]
  rw [bind_eq_ok_iff] at hg
  obtain ⟨u1, hc1, hg⟩ := hg
  rw [bind_eq_ok_iff] at hg
  obtain ⟨u2, hc2, hg⟩ := hg
  split at hg
  · cases hg
  · rename_i hcount
    rw [bind_eq_ok_iff] at hg
    obtain ⟨acc1, hacc1, hn⟩ := hg
    have hc1a : cassert ({ e with searchForNeighbors := search1 } : Env α)
        (decide (s.image_width > 0)) = Except.ok u1 := hc1
    have hc2a : cassert ({ e with searchForNeighbors := search1 } : Env α)
        (decide (s.support_angle_cos ≤ 1 ∧ s.support_angle_cos ≥ 0)) = Except.ok u2 := hc2
    rw [hc1a, bind_ok_eq, hc2a, bind_ok_eq]
    show (if ((search1 index s.search_radius).length : Int) < toInt32 s.min_pts_neighb then
        throw SiError.tooFewPoints
      else
        accumulate s { e with searchForNeighbors := search1 } origin.1 origin.2 ax
            (search1 index s.search_radius)
            (gridZero (s.image_width + 1) (2 * s.image_width + 1),
              gridZero (s.image_width + 1) (2 * s.image_width + 1)) >>= fun acc =>
          normalize s ((search1 index s.search_radius).length : Int) acc) = Except.ok g
    rw [hperm.length_eq, if_neg hcount,
      accumulate_congr s s { e with searchForNeighbors := search1 } e origin.1 origin.2 ax
        (fun _ => rfl) (fun _ _ => rfl),
      accumulate_perm s e origin.1 origin.2 ax _ _ _ acc1 _ _ (gridShape_zero _ _)
        (gridShape_zero _ _) hperm hacc1, bind_ok_eq]
    exact hn

/-- C29. Neighbour-order independence.  Let the radius search return, for the
query point, a rearrangement of the list it returns in the environment `e`
(everything else being the same).  Then `computeSiForPoint` returns a grid with
the one list if and only if it returns the same grid with the other, and it
fails with the one if and only if it fails with the other. -/
theorem neighbour_order_independence (s : SpinImageEstimation α) (e : Env α) (index : Nat)
    (search1 : Nat → α → List Nat)
    (hperm : List.Perm (search1 index s.search_radius)
      (e.searchForNeighbors index s.search_radius)) :
    (∀ g, computeSiForPoint s { e with searchForNeighbors := search1 } index = Except.ok g ↔
        computeSiForPoint s e index = Except.ok g) ∧
      ((∃ err, computeSiForPoint s { e with searchForNeighbors := search1 } index
          = Except.error err) ↔
        ∃ err, computeSiForPoint s e index = Except.error err) := by
  have hiff : ∀ g, computeSiForPoint s { e with searchForNeighbors := search1 } index
      = Except.ok g ↔ computeSiForPoint s e index = Except.ok g := by
    intro g
    constructor
    · intro hg
      exact computeSiForPoint_perm s { e with searchForNeighbors := search1 } index
        e.searchForNeighbors g hperm.symm hg
    · intro hg
      exact computeSiForPoint_perm s e index search1 g hperm hg
  refine ⟨hiff, ?_⟩
  constructor
  · rintro ⟨err, herr⟩
    cases hres : computeSiForPoint s e index with
    | error err1 => exact ⟨err1, rfl⟩
    | ok g =>
      rw [(hiff g).2 hres] at herr
      cases herr
  · rintro ⟨err, herr⟩
    cases hres : computeSiForPoint s { e with searchForNeighbors := search1 } index with
    | error err1 => exact ⟨err1, rfl⟩
    | ok g =>
      rw [(hiff g).1 hres] at herr
      cases herr

end OrderOfTheNeighbours

section AxisExamples

/-- C21 (as stated, refuted). The query point of the demonstration scene with the
normal `(0, 0, 1/2)`, which is also its rotation axis: the axis has the squared
length `1/4`, the neighbours 1 and 2 pass the filter on the normals and are not
coincident with the query point, and `computeSiForPoint` returns a grid: the
direction of each neighbour is perpendicular to the axis, so that
`cos_dir_axis = 0` passes the test of line 156. -/
theorem short_axis_counterexample :
    rotationAxisOf (demoScene true (1 / 8) 2 0 ⟨0, 0, 1 / 2⟩ : SpinImageEstimation ℝ) 0
        (some ⟨0, 0, 1 / 2⟩) = Except.ok (some ⟨0, 0, 1 / 2⟩) ∧
      (⟨0, 0, 1 / 2⟩ : Vector3f ℝ).dot ⟨0, 0, 1 / 2⟩ = 1 / 4 ∧
      contributors (demoScene true (1 / 8) 2 0 ⟨0, 0, 1 / 2⟩ : SpinImageEstimation ℝ)
        (plainEnv Real.sqrt Real.arcsin Real.arccos Real.pi false [0, 1, 2]) 0 = [1, 2] ∧
      computeSiForPoint (demoScene true (1 / 8) 2 0 ⟨0, 0, 1 / 2⟩ : SpinImageEstimation ℝ)
          (plainEnv Real.sqrt Real.arcsin Real.arccos Real.pi false [0, 1, 2]) 0
        = Except.ok [[0, 1 / 2, 0], [0, 1 / 2, 0]] := by
  refine ⟨rfl, ?_, demo_contributors ⟨0, 0, 1 / 2⟩ rfl rfl (by norm_num) (by norm_num),
    demo_eval ⟨0, 0, 1 / 2⟩ rfl rfl (by norm_num) (by norm_num)⟩
  simp only [Vector3f.dot]
  norm_num

theorem long_axis_norm (l : List Nat) :
    norm (plainEnv Real.sqrt Real.arcsin Real.arccos Real.pi false l)
      ((⟨3, 0, 4⟩ : Vector3f ℝ).sub ⟨0, 0, 0⟩) = 5 := by
  simp only [norm, plainEnv, Vector3f.sub, Vector3f.dot]
  norm_num [sqrt_twenty_five]

/-- Witness of C21: with the fixed axis `(0, 0, 2)` the first neighbour
`(3, 0, 4)`, at distance 5, has `cos_dir_axis = 8/5`, and the computation fails
with "Some rotation axis is not normalized". -/
theorem bad_axis_fail_witness :
    computeSiForPoint (longAxisScene 8 : SpinImageEstimation ℝ)
        (plainEnv Real.sqrt Real.arcsin Real.arccos Real.pi false [1, 2]) 0
      = Except.error SiError.axisNotNormalized :=
  (bad_axis_fail (longAxisScene 8 : SpinImageEstimation ℝ)
    (plainEnv Real.sqrt Real.arcsin Real.arccos Real.pi false [1, 2]) 0 1
    ⟨0, 0, 0⟩ ⟨3, 0, 4⟩ ⟨0, 0, 2⟩ (some ⟨0, 0, 1⟩) (-2)
    (Or.inr (by simp only [longAxisScene, mirrorScene]; norm_num))
    rfl rfl
    (by simp [longAxisScene, mirrorScene, plainEnv, toInt32])
    (by simp [plainEnv])
    (normalFilter_inactive _ _ _ rfl rfl)
    rfl
    (by rw [long_axis_norm]; unfold epsDouble; norm_num)
    (Or.inr (by rw [long_axis_norm]; norm_num))
    (by
      rw [long_axis_norm]
      simp only [Vector3f.sub, Vector3f.dot, epsFloat]
      norm_num [abs_of_pos])).2 rfl

/-- Witness of C22: in the demonstration scene with the query normal
`(0, 0, 2)`, the normal of the point 0 has the dot product 4 with it, and the
filter raises "Some normals are not normalized". -/
theorem normal_alignment_check_witness :
    normalFilter (demoScene true (1 / 8) 2 0 ⟨0, 0, 2⟩ : SpinImageEstimation ℝ)
        (some ⟨0, 0, 2⟩) 0 = Except.error SiError.normalsNotNormalized :=
  (normal_alignment_check (demoScene true (1 / 8) 2 0 ⟨0, 0, 2⟩ : SpinImageEstimation ℝ)
    ⟨0, 0, 2⟩ ⟨0, 0, 2⟩ 0 (Or.inl (by simp only [demoScene]; norm_num)) rfl).1.2
    (by simp only [Vector3f.dot, epsFloat]; norm_num [abs_of_pos])

end AxisExamples

section MoreExamples

/-- Witness of C24: the scene `mirrorScene`, whose filter is inactive, without
surface normals and with the normal of the query point as the only input
normal. -/
theorem inactive_filter_ignores_normals_witness :
    computeSiForPoint
        { (mirrorScene 8 : SpinImageEstimation ℚ) with
          normals := none, input_normals := some [⟨0, 0, 1⟩] }
        (plainEnv id id id 3 false [1, 2]) 0
      = computeSiForPoint (mirrorScene 8 : SpinImageEstimation ℚ)
          (plainEnv id id id 3 false [1, 2]) 0 :=
  (inactive_filter_ignores_normals (mirrorScene 8 : SpinImageEstimation ℚ)
    (plainEnv id id id 3 false [1, 2]) 0 none (some [⟨0, 0, 1⟩]) ⟨0, 0, 0⟩
    (some ⟨0, 0, 1⟩) (some ⟨0, 0, 1⟩) (some ⟨0, 0, 1⟩) rfl rfl rfl rfl rfl rfl).1

theorem real_sqrt_spec :
    ∀ x : ℝ, 0 ≤ x → 0 ≤ Real.sqrt x ∧ Real.sqrt x * Real.sqrt x = x :=
  fun x hx => ⟨Real.sqrt_nonneg x, Real.mul_self_sqrt hx⟩

/-- Witness of C25: the neighbour `(3, 0, 4)` of the scene `mirrorScene`, at the
distance 5 from the query point. -/
theorem rectangular_coordinates_witness :
    0 ≤ norm (plainEnv Real.sqrt Real.arcsin Real.arccos Real.pi false [1, 2])
      ((⟨3, 0, 4⟩ : Vector3f ℝ).sub ⟨0, 0, 0⟩) :=
  (rectangular_coordinates (mirrorScene (8 * Real.sqrt 2) : SpinImageEstimation ℝ)
    (plainEnv Real.sqrt Real.arcsin Real.arccos Real.pi false [1, 2]) 8
    ⟨3, 0, 4⟩ ⟨0, 0, 0⟩ ⟨0, 0, 1⟩ real_sqrt_spec
    (fun x _ _ => ⟨Real.neg_pi_div_two_le_arcsin x, Real.arcsin_le_pi_div_two x⟩)).1.1

/-- Witness of C26: the scene `mirrorScene` with the search radius
`8 * sqrt 2` and `W = 1`. -/
theorem cylinder_in_sphere_witness :
    binSize (mirrorScene (8 * Real.sqrt 2) : SpinImageEstimation ℝ)
        (plainEnv Real.sqrt Real.arcsin Real.arccos Real.pi false [1, 2])
      = Except.ok (8 * Real.sqrt 2 / (((1 : Nat) : ℝ) * Real.sqrt 2)) :=
  ((cylinder_in_sphere (mirrorScene (8 * Real.sqrt 2) : SpinImageEstimation ℝ)
    (plainEnv Real.sqrt Real.arcsin Real.arccos Real.pi false [1, 2])
    ⟨3, 0, 4⟩ ⟨0, 0, 0⟩ ⟨0, 0, 1⟩ (Nat.le_refl 1)
    (mul_pos (by norm_num) (Real.sqrt_pos.2 (by norm_num)))
    real_sqrt_spec).1 rfl).1

/-- Witness of C27: the demonstration scene, whose raw grid
`[[0, 1, 0], [0, 1, 0]]` has the sum 2 for two contributing neighbours. -/
theorem raw_mass_witness :
    gridSum ([[0, 1, 0], [0, 1, 0]] : Grid ℝ)
      = ((contributors (demoScene true (1 / 8) 2 0 ⟨0, 0, 1⟩ : SpinImageEstimation ℝ)
          (plainEnv Real.sqrt Real.arcsin Real.arccos Real.pi false [0, 1, 2]) 0).length : ℝ) :=
  (raw_mass (demoScene true (1 / 8) 2 0 ⟨0, 0, 1⟩ : SpinImageEstimation ℝ)
    (plainEnv Real.sqrt Real.arcsin Real.arccos Real.pi false [0, 1, 2]) 0 ⟨0, 0, 0⟩
    (some ⟨0, 0, 1⟩) (some ⟨0, 0, 1⟩) ([[0, 1, 0], [0, 1, 0]], gridZero 2 3) rfl rfl
    (demo_accumulate ⟨0, 0, 1⟩ rfl rfl (by norm_num) (by norm_num))).1

/-- Witness of C29: the scene `mirrorScene` with the neighbours returned in the
order 2, 1 instead of 1, 2 gives the same grid. -/
theorem neighbour_order_independence_witness :
    computeSiForPoint (mirrorScene (8 * Real.sqrt 2) : SpinImageEstimation ℝ)
        (plainEnv Real.sqrt Real.arcsin Real.arccos Real.pi false [2, 1]) 0
      = Except.ok [[5 / 32, 5 / 16, 5 / 32], [3 / 32, 3 / 16, 3 / 32]] :=
  ((neighbour_order_independence (mirrorScene (8 * Real.sqrt 2) : SpinImageEstimation ℝ)
    (plainEnv Real.sqrt Real.arcsin Real.arccos Real.pi false [1, 2]) 0 (fun _ _ => [2, 1])
    (List.Perm.swap 1 2 [])).1 _).2 mirror_eval

end MoreExamples

section Rounding

variable {α : Type} [LinearOrderedField α] [FloorRing α]

theorem roundHalfEven_near (x : α) : |((roundHalfEven x : Int) : α) - x| ≤ 1 / 2 := by
  have h1 := Int.floor_le x
  have h2 := Int.lt_floor_add_one x
  unfold roundHalfEven
  rw [abs_le]
  split_ifs with c1 c2 c3
  · constructor <;> linarith
  · push_cast; constructor <;> linarith
  · have : x - (⌊x⌋ : α) = 1 / 2 := le_antisymm (not_lt.1 c2) (not_lt.1 c1)
    constructor <;> linarith
  · have : x - (⌊x⌋ : α) = 1 / 2 := le_antisymm (not_lt.1 c2) (not_lt.1 c1)
    push_cast; constructor <;> linarith

theorem ulpDouble_pos (x : α) : 0 < ulpDouble x := by
  unfold ulpDouble; positivity

theorem roundDouble_near (x : α) : |roundDouble x - x| ≤ ulpDouble x / 2 := by
  have hu := ulpDouble_pos x
  have h := roundHalfEven_near (x / ulpDouble x)
  have e1 : roundDouble x - x
      = (((roundHalfEven (x / ulpDouble x) : Int) : α) - x / ulpDouble x) * ulpDouble x := by
    unfold roundDouble
    field_simp
  rw [e1, abs_mul, abs_of_pos hu]
  calc |((roundHalfEven (x / ulpDouble x) : Int) : α) - x / ulpDouble x| * ulpDouble x
      ≤ 1 / 2 * ulpDouble x := mul_le_mul_of_nonneg_right h hu.le
    _ = ulpDouble x / 2 := by ring

theorem ulpDouble_normal (x : α) (hx : 1 / 2 ^ 1022 ≤ |x|) : ulpDouble x ≤ |x| / 2 ^ 52 := by
  have hpos : 0 < |x| := lt_of_lt_of_le (by positivity) hx
  have hlog : (-1022 : Int) ≤ Int.log 2 |x| := by
    rw [← Int.zpow_le_iff_le_log (by norm_num) hpos]
    have e2 : (((2 : ℕ) : α)) ^ (-1022 : Int) = 1 / 2 ^ 1022 := by
      rw [zpow_neg, one_div]
      norm_cast
    rw [e2]
    exact hx
  have hself := Int.zpow_log_le_self (b := 2) (by norm_num) hpos
  unfold ulpDouble
  rw [max_eq_left hlog, zpow_sub₀ (by norm_num : (2 : α) ≠ 0)]
  have : ((2 : α) ^ (52 : Int)) = 2 ^ 52 := by norm_cast
  rw [this]
  have h2 : ((2 : ℕ) : α) = 2 := by norm_cast
  rw [h2] at hself
  exact div_le_div_of_nonneg_right hself (by positivity)

theorem roundDouble_rel (x : α) (hx : 1 / 2 ^ 1022 ≤ |x|) :
    |roundDouble x - x| ≤ |x| / 2 ^ 53 := by
  have h1 := roundDouble_near x
  have h2 := ulpDouble_normal x hx
  calc |roundDouble x - x| ≤ ulpDouble x / 2 := h1
    _ ≤ |x| / 2 ^ 52 / 2 := by linarith
    _ = |x| / 2 ^ 53 := by ring

end Rounding

section RoundingBounds

variable {α : Type} [LinearOrderedField α] [FloorRing α]

theorem roundHalfEven_zero : roundHalfEven (0 : α) = 0 := by
  unfold roundHalfEven
  simp

theorem roundDouble_zero : roundDouble (0 : α) = 0 := by
  unfold roundDouble
  rw [zero_div, roundHalfEven_zero]
  simp

theorem ulpDouble_subnormal (x : α) (h0 : 0 < |x|) (hx : |x| < 1 / 2 ^ 1022) :
    ulpDouble x = 1 / 2 ^ 1074 := by
  have hlog : Int.log 2 |x| < (-1022 : Int) := by
    rw [← Int.lt_zpow_iff_log_lt (by norm_num) h0]
    have e2 : (((2 : ℕ) : α)) ^ (-1022 : Int) = 1 / 2 ^ 1022 := by
      rw [zpow_neg, one_div]
      norm_cast
    rw [e2]
    exact hx
  unfold ulpDouble
  rw [max_eq_right hlog.le]
  have : ((-1022 : Int) - 52) = -1074 := by norm_num
  rw [this, zpow_neg, one_div]
  norm_cast

theorem roundDouble_abs_le (x : α) : |roundDouble x| ≤ 2 * |x| + 1 / 2 ^ 1075 := by
  rcases eq_or_lt_of_le (abs_nonneg x) with h0 | h0
  · have hx : x = 0 := abs_eq_zero.1 h0.symm
    rw [hx, roundDouble_zero]
    simp
  · have hnear := roundDouble_near x
    have htri : |roundDouble x| ≤ |roundDouble x - x| + |x| := by
      have := abs_add (roundDouble x - x) x
      simpa using this
    rcases le_or_lt (1 / 2 ^ 1022) |x| with hn | hs
    · have := roundDouble_rel x hn
      have h53 : |x| / 2 ^ 53 ≤ |x| := div_le_self h0.le (by norm_num)
      have : (0 : α) ≤ 1 / 2 ^ 1075 := by positivity
      linarith
    · have hu := ulpDouble_subnormal x h0 hs
      rw [hu] at hnear
      have e3 : (1 : α) / 2 ^ 1074 / 2 = 1 / 2 ^ 1075 := by
        rw [div_div]; norm_num
      rw [e3] at hnear
      linarith

theorem toDouble_of_le (x : α) (hx : |x| ≤ 2 ^ 1022) : toDouble x = Except.ok (roundDouble x) := by
  have h := roundDouble_abs_le x
  have h1 : (1 : α) / 2 ^ 1075 ≤ 1 := by
    rw [div_le_one (by positivity)]
    exact one_le_pow₀ (by norm_num)
  have h2 : (1 : α) ≤ 2 ^ 1022 := one_le_pow₀ (by norm_num)
  have h3 : (2 : α) ^ 1024 = 4 * 2 ^ 1022 := by
    rw [show (1024 : ℕ) = 2 + 1022 from rfl, pow_add]; norm_num
  unfold toDouble
  rw [if_pos (by rw [h3]; linarith)]
  rfl

theorem divDouble_of_le (x y : α) (hy : y ≠ 0) (hx : |x / y| ≤ 2 ^ 1022) :
    divDouble x y = Except.ok (roundDouble (x / y)) := by
  unfold divDouble
  rw [if_neg hy]
  exact toDouble_of_le _ hx

theorem toDouble_eq_ok (x y : α) (h : toDouble x = Except.ok y) : y = roundDouble x := by
  unfold toDouble at h
  split at h
  · cases h; rfl
  · cases h

theorem divDouble_eq_ok (x y q : α) (h : divDouble x y = Except.ok q) :
    y ≠ 0 ∧ q = roundDouble (x / y) := by
  unfold divDouble at h
  split at h
  · cases h
  · exact ⟨by assumption, toDouble_eq_ok _ _ h⟩

theorem edge_lo (W q0 q u : α) (hu0 : 0 < u) (hWu : W * u ≤ 1 / 4) (hu : u ≤ 1 / 4)
    (h0 : W ≤ q0 * (1 + u)) (h1 : q0 * (1 - u) ≤ q) : W - 1 ≤ q := by
  by_contra hcon
  rw [not_le] at hcon
  have a := mul_le_mul_of_nonneg_right h0 (by linarith : (0 : α) ≤ 1 - u)
  have b := mul_le_mul_of_nonneg_right h1 (by linarith : (0 : α) ≤ 1 + u)
  have c := mul_lt_mul_of_pos_right hcon (by linarith : (0 : α) < 1 + u)
  have d : q0 * (1 + u) * (1 - u) = q0 * (1 - u) * (1 + u) := by ring
  have e1 : W * (1 - u) = W - W * u := by ring
  have e2 : (W - 1) * (1 + u) = W + W * u - 1 - u := by ring
  linarith

theorem edge_hi (W q0 q u : α) (hu0 : 0 < u) (hWu : W * u ≤ 1 / 4) (hu : u ≤ 1 / 4)
    (h0 : q0 * (1 - u) ≤ W) (h1 : q ≤ q0 * (1 + u)) : q < W + 1 := by
  by_contra hcon
  rw [not_lt] at hcon
  have a := mul_le_mul_of_nonneg_right h0 (by linarith : (0 : α) ≤ 1 + u)
  have b := mul_le_mul_of_nonneg_right h1 (by linarith : (0 : α) ≤ 1 - u)
  have c := mul_le_mul_of_nonneg_right hcon (by linarith : (0 : α) ≤ 1 - u)
  have d : q0 * (1 + u) * (1 - u) = q0 * (1 - u) * (1 + u) := by ring
  have e1 : W * (1 + u) = W + W * u := by ring
  have e2 : (W + 1) * (1 - u) = W - W * u + 1 - u := by ring
  linarith

theorem tiny_le_half : (1 : α) / 2 ^ 1022 ≤ 1 / 2 := by
  rw [div_le_div_iff₀ (by positivity) (by norm_num)]
  have : (2 : α) ^ 1 ≤ 2 ^ 1022 := pow_le_pow_right₀ (by norm_num) (by norm_num)
  rw [one_mul, one_mul]
  simpa using this

theorem edge_quotient_aux (x bs q : α) (W : Nat) (hW1 : 1 ≤ W) (hW2 : W < 2 ^ 31)
    (hxpos : 0 < x) (hrel : |bs - x / (W : α)| ≤ |x / (W : α)| / 2 ^ 53)
    (hrel2 : 1 / 2 ≤ x / bs → |q - x / bs| ≤ |x / bs| / 2 ^ 53) :
    0 < bs ∧ bs ≤ 2 * (x / (W : α)) ∧ 1 / 2 ≤ x / bs ∧ x / bs ≤ 2 * (W : α) ∧
      (⌊q⌋ = (W : Int) - 1 ∨ ⌊q⌋ = (W : Int)) := by
  have hWr : (1 : α) ≤ (W : α) := by exact_mod_cast hW1
  have hWpos : (0 : α) < (W : α) := by linarith
  have hWlt : (W : α) < 2 ^ 31 := by exact_mod_cast hW2
  have hq : 0 < x / (W : α) := div_pos hxpos hWpos
  rw [abs_of_pos hq, abs_le] at hrel
  obtain ⟨hl, hu⟩ := hrel
  have h53 : (0 : α) < 2 ^ 53 := by positivity
  have hupos : (0 : α) < 1 / 2 ^ 53 := by positivity
  have hu4 : (1 : α) / 2 ^ 53 ≤ 1 / 4 := by norm_num
  have hWu4 : (W : α) * (1 / 2 ^ 53) ≤ 1 / 4 := by
    have : (W : α) * (1 / 2 ^ 53) ≤ 2 ^ 31 * (1 / 2 ^ 53) :=
      mul_le_mul_of_nonneg_right hWlt.le hupos.le
    have e : (2 : α) ^ 31 * (1 / 2 ^ 53) ≤ 1 / 4 := by norm_num
    linarith
  generalize huv : (1 : α) / 2 ^ 53 = u at hupos hu4 hWu4
  have hl' : x / (W : α) * (1 - u) ≤ bs := by
    have : x / (W : α) * (1 - u) = x / (W : α) - x / (W : α) / 2 ^ 53 := by
      rw [← huv]; ring
    linarith
  have hu' : bs ≤ x / (W : α) * (1 + u) := by
    have : x / (W : α) * (1 + u) = x / (W : α) + x / (W : α) / 2 ^ 53 := by
      rw [← huv]; ring
    linarith
  clear hl hu
  have hbspos : 0 < bs := by
    have : 0 < x / (W : α) * (1 - u) := mul_pos hq (by linarith)
    linarith
  have hbs2 : bs ≤ 2 * (x / (W : α)) := by
    have : x / (W : α) * (1 + u) ≤ x / (W : α) * 2 :=
      mul_le_mul_of_nonneg_left (by linarith) hq.le
    linarith
  have hq0pos : 0 < x / bs := div_pos hxpos hbspos
  have hWbs_lo : x * (1 - u) ≤ (W : α) * bs := by
    have := mul_le_mul_of_nonneg_left hl' hWpos.le
    calc x * (1 - u) = (W : α) * (x / (W : α) * (1 - u)) := by
          field_simp
      _ ≤ (W : α) * bs := this
  have hWbs_hi : (W : α) * bs ≤ x * (1 + u) := by
    have := mul_le_mul_of_nonneg_left hu' hWpos.le
    calc (W : α) * bs ≤ (W : α) * (x / (W : α) * (1 + u)) := this
      _ = x * (1 + u) := by
          field_simp
  have hq0_lo : (W : α) ≤ x / bs * (1 + u) := by
    rw [div_mul_eq_mul_div, le_div_iff₀ hbspos]
    exact hWbs_hi
  have hq0_hi : x / bs * (1 - u) ≤ (W : α) := by
    rw [div_mul_eq_mul_div, div_le_iff₀ hbspos]
    exact hWbs_lo
  have hq0W : x / bs ≤ 2 * (W : α) := by
    have : x / bs * (1 / 2) ≤ x / bs * (1 - u) :=
      mul_le_mul_of_nonneg_left (by linarith) hq0pos.le
    linarith
  have hq0half : (1 : α) / 2 ≤ x / bs := by
    have : x / bs * (1 + u) ≤ x / bs * 2 :=
      mul_le_mul_of_nonneg_left (by linarith) hq0pos.le
    linarith
  have hr2 := hrel2 hq0half
  rw [abs_of_pos hq0pos, abs_le] at hr2
  obtain ⟨hl2, hu2⟩ := hr2
  have hqlo : (W : α) - 1 ≤ q :=
    edge_lo (W : α) (x / bs) q u hupos hWu4 hu4 hq0_lo (by
      have : x / bs * (1 - u) = x / bs - x / bs / 2 ^ 53 := by
        rw [← huv]; ring
      linarith)
  have hqhi : q < (W : α) + 1 :=
    edge_hi (W : α) (x / bs) q u hupos hWu4 hu4 hq0_hi (by
      have : x / bs * (1 + u) = x / bs + x / bs / 2 ^ 53 := by
        rw [← huv]; ring
      linarith)
  refine ⟨hbspos, hbs2, hq0half, hq0W, ?_⟩
  have hf1 : (W : Int) - 1 ≤ ⌊q⌋ := by
    rw [Int.le_floor]; push_cast; exact hqlo
  have hf2 : ⌊q⌋ < (W : Int) + 1 := by
    rw [Int.floor_lt]; push_cast; exact hqhi
  omega

/-- The quotient of `x` by the rounded `x / W`, rounded: its floor is `W - 1` or
`W`. -/
theorem edge_quotient (x : α) (W : Nat) (hW1 : 1 ≤ W) (hW2 : W < 2 ^ 31)
    (hx : (W : α) / 2 ^ 1022 ≤ x) :
    0 < roundDouble (x / (W : α)) ∧
      roundDouble (x / (W : α)) ≤ 2 * (x / (W : α)) ∧
      x / roundDouble (x / (W : α)) ≤ 2 * (W : α) ∧
      (⌊roundDouble (x / roundDouble (x / (W : α)))⌋ = (W : Int) - 1 ∨
        ⌊roundDouble (x / roundDouble (x / (W : α)))⌋ = (W : Int)) := by
  have hWr : (1 : α) ≤ (W : α) := by exact_mod_cast hW1
  have hWpos : (0 : α) < (W : α) := lt_of_lt_of_le one_pos hWr
  have hxpos : 0 < x := lt_of_lt_of_le (by positivity) hx
  have hq : 0 < x / (W : α) := div_pos hxpos hWpos
  have hn : 1 / 2 ^ 1022 ≤ |x / (W : α)| := by
    rw [abs_of_pos hq, le_div_iff₀ hWpos, one_div, inv_mul_eq_div]
    exact hx
  have hrel := roundDouble_rel (x / (W : α)) hn
  have hrel2 : 1 / 2 ≤ x / roundDouble (x / (W : α)) →
      |roundDouble (x / roundDouble (x / (W : α))) - x / roundDouble (x / (W : α))|
        ≤ |x / roundDouble (x / (W : α))| / 2 ^ 53 := by
    intro hhalf
    apply roundDouble_rel
    rw [abs_of_pos (lt_of_lt_of_le (by norm_num) hhalf)]
    exact le_trans tiny_le_half hhalf
  obtain ⟨h1, h2, _, h4, h5⟩ :=
    edge_quotient_aux x _ _ W hW1 hW2 hxpos hrel hrel2
  exact ⟨h1, h2, h4, h5⟩

end RoundingBounds

section RoundingValues

variable {α : Type} [LinearOrderedField α] [FloorRing α]

theorem roundHalfEven_of_near (t : α) (m : Int) (h : |t - (m : α)| < 1 / 2) :
    roundHalfEven t = m := by
  have h1 := roundHalfEven_near t
  rw [abs_le] at h1
  rw [abs_lt] at h
  have h2 : ((roundHalfEven t : Int) : α) - (m : α) < 1 := by linarith
  have h3 : (m : α) - ((roundHalfEven t : Int) : α) < 1 := by linarith
  have h4 : roundHalfEven t - m < 1 := by
    have : (((roundHalfEven t - m : Int)) : α) < ((1 : Int) : α) := by push_cast; linarith
    exact_mod_cast this
  have h5 : m - roundHalfEven t < 1 := by
    have : (((m - roundHalfEven t : Int)) : α) < ((1 : Int) : α) := by push_cast; linarith
    exact_mod_cast this
  omega

theorem roundDouble_eval (x : α) (z m : Int) (hz : -1022 ≤ z) (h1 : (2 : α) ^ z ≤ |x|)
    (h2 : |x| < (2 : α) ^ (z + 1)) (h3 : |x / (2 : α) ^ (z - 52) - (m : α)| < 1 / 2) :
    roundDouble x = (m : α) * (2 : α) ^ (z - 52) := by
  have hpos : 0 < |x| := lt_of_lt_of_le (by positivity) h1
  have hlog : Int.log 2 |x| = z := by
    have a := (Int.zpow_le_iff_le_log (b := 2) (by norm_num) hpos (x := z)).1 (by
      simpa using h1)
    have b := (Int.lt_zpow_iff_log_lt (b := 2) (by norm_num) hpos (x := z + 1)).1 (by
      simpa using h2)
    omega
  have hulp : ulpDouble x = (2 : α) ^ (z - 52) := by
    unfold ulpDouble
    rw [hlog, max_eq_left hz]
  unfold roundDouble
  rw [hulp, roundHalfEven_of_near _ m h3]

theorem toDouble_eval (x : α) (z m : Int) (hz : -1022 ≤ z) (hz2 : z ≤ 1021)
    (h1 : (2 : α) ^ z ≤ |x|) (h2 : |x| < (2 : α) ^ (z + 1))
    (h3 : |x / (2 : α) ^ (z - 52) - (m : α)| < 1 / 2) :
    toDouble x = Except.ok ((m : α) * (2 : α) ^ (z - 52)) := by
  have hle : |x| ≤ 2 ^ 1022 := by
    have : (2 : α) ^ (z + 1) ≤ (2 : α) ^ (1022 : Int) :=
      zpow_le_zpow_right₀ (by norm_num) (by omega)
    have e : (2 : α) ^ (1022 : Int) = 2 ^ 1022 := zpow_natCast (2 : α) 1022
    rw [e] at this
    exact le_trans h2.le this
  rw [toDouble_of_le x hle, roundDouble_eval x z m hz h1 h2 h3]

end RoundingValues

section DoubleSteps

variable {α : Type} [LinearOrderedField α] [FloorRing α]

theorem cassertDouble_ndebug (e : Env α) (cond : Except SiError Bool) (hnd : e.ndebug = true) :
    cassertDouble e cond = Except.ok () := by
  unfold cassertDouble
  rw [if_pos hnd]; rfl

theorem interpolateDouble_beta_assert (s : SpinImageEstimation α) (e : Env α)
    (bs alpha beta edge bound half bbs bq : α)
    (hnd : e.ndebug = false) (hrad : s.is_radial = true) (h0 : 0 ≤ alpha)
    (h1 : mulDouble bs (s.image_width : α) = Except.ok edge)
    (h2 : addDouble edge (20 * epsFloat) = Except.ok bound) (h3 : alpha ≤ bound)
    (h4 : divDouble e.PI 2 = Except.ok half)
    (h5 : divDouble half (s.image_width : α) = Except.ok bbs)
    (h6 : divDouble beta bbs = Except.ok bq)
    (h7 : ⌊bq⌋ + (s.image_width : Int) < 0) :
    interpolateDouble s e bs alpha beta = Except.error SiError.assertionFailed := by
  have c1 : cassert e (decide (alpha ≥ 0)) = Except.ok () :=
    cassert_of_true _ _ (decide_eq_true h0)
  have c2 : cassertDouble e (do
      let edge ← mulDouble bs (s.image_width : α)
      let bound ← addDouble edge (20 * epsFloat)
      pure (decide (alpha ≤ bound))) = Except.ok () := by
    unfold cassertDouble
    simp only [hnd, Bool.false_eq_true, if_false, h1, h2, bind_ok_eq, pure_eq_ok,
      decide_eq_true h3, if_true]
  have c3 : cassert e (decide (0 ≤ ⌊bq⌋ + (s.image_width : Int) ∧
      ⌊bq⌋ + (s.image_width : Int) < 2 * (s.image_width : Int) + 1))
      = Except.error SiError.assertionFailed := by
    unfold cassert
    have : ¬ (0 ≤ ⌊bq⌋ + (s.image_width : Int) ∧
        ⌊bq⌋ + (s.image_width : Int) < 2 * (s.image_width : Int) + 1) := by
      intro h; omega
    simp only [hnd, decide_eq_false this, Bool.or_self, Bool.false_eq_true, if_false,
      throw_eq_error]
  have hb : betaBinSizeDouble s e bs = Except.ok bbs := by
    unfold betaBinSizeDouble
    simp only [hrad, if_true, h4, h5, bind_ok_eq]
  unfold interpolateDouble
  simp only [c1, c2, hb, h6, c3, bind_ok_eq, bind_error_eq]

theorem interpolateDouble_ndebug (s : SpinImageEstimation α) (e : Env α)
    (bs alpha beta bbs bq aq a_q a b_q b : α) (ba bb : Int × α)
    (hnd : e.ndebug = true)
    (h1 : betaBinSizeDouble s e bs = Except.ok bbs)
    (h2 : divDouble beta bbs = Except.ok bq)
    (h3 : divDouble alpha bs = Except.ok aq)
    (h4 : alphaBorderDouble s bs ⌊aq⌋ alpha = Except.ok ba)
    (h5 : betaBorderDouble s bbs (⌊bq⌋ + (s.image_width : Int)) beta = Except.ok bb)
    (h6 : divDouble ba.2 bs = Except.ok a_q)
    (h7 : subDouble a_q ((ba.1 : Int) : α) = Except.ok a)
    (h8 : divDouble bb.2 bbs = Except.ok b_q)
    (h9 : subDouble b_q (((bb.1 - (s.image_width : Int) : Int)) : α) = Except.ok b) :
    interpolateDouble s e bs alpha beta = Except.ok ⟨ba.1, bb.1, a, b⟩ := by
  unfold interpolateDouble
  simp only [cassert_ndebug e _ hnd, cassertDouble_ndebug e _ hnd, h1, h2, h3, h4, h5, h6, h7,
    h8, h9, bind_ok_eq, pure_eq_ok]

theorem cassertDouble_of_true (e : Env α) (bs alpha edge bound : α) (W : α)
    (h1 : mulDouble bs W = Except.ok edge)
    (h2 : addDouble edge (20 * epsFloat) = Except.ok bound) (h3 : alpha ≤ bound) :
    cassertDouble e (do
      let edge ← mulDouble bs W
      let bound ← addDouble edge (20 * epsFloat)
      pure (decide (alpha ≤ bound))) = Except.ok () := by
  unfold cassertDouble
  cases hnd : e.ndebug
  · simp only [Bool.false_eq_true, if_false, h1, h2, bind_ok_eq, pure_eq_ok,
      decide_eq_true h3, if_true]
  · simp only [if_true, pure_eq_ok]

theorem interpolateDouble_ok (s : SpinImageEstimation α) (e : Env α)
    (bs alpha beta edge bound bbs bq aq a_q a b_q b : α) (ba bb : Int × α)
    (h0 : 0 ≤ alpha)
    (g1 : mulDouble bs (s.image_width : α) = Except.ok edge)
    (g2 : addDouble edge (20 * epsFloat) = Except.ok bound) (g3 : alpha ≤ bound)
    (h1 : betaBinSizeDouble s e bs = Except.ok bbs)
    (h2 : divDouble beta bbs = Except.ok bq)
    (hb : 0 ≤ ⌊bq⌋ + (s.image_width : Int) ∧
      ⌊bq⌋ + (s.image_width : Int) < 2 * (s.image_width : Int) + 1)
    (h3 : divDouble alpha bs = Except.ok aq)
    (ha : 0 ≤ ⌊aq⌋ ∧ ⌊aq⌋ < (s.image_width : Int) + 1)
    (h4 : alphaBorderDouble s bs ⌊aq⌋ alpha = Except.ok ba)
    (h5 : betaBorderDouble s bbs (⌊bq⌋ + (s.image_width : Int)) beta = Except.ok bb)
    (h6 : divDouble ba.2 bs = Except.ok a_q)
    (h7 : subDouble a_q ((ba.1 : Int) : α) = Except.ok a)
    (h8 : divDouble bb.2 bbs = Except.ok b_q)
    (h9 : subDouble b_q (((bb.1 - (s.image_width : Int) : Int)) : α) = Except.ok b)
    (hA : 0 ≤ a ∧ a ≤ 1) (hB : 0 ≤ b ∧ b ≤ 1) :
    interpolateDouble s e bs alpha beta = Except.ok ⟨ba.1, bb.1, a, b⟩ := by
  have c1 : cassert e (decide (alpha ≥ 0)) = Except.ok () :=
    cassert_of_true _ _ (decide_eq_true h0)
  have c2 := cassertDouble_of_true e bs alpha edge bound (s.image_width : α) g1 g2 g3
  have c3 := cassert_of_true e _ (decide_eq_true hb)
  have c4 := cassert_of_true e _ (decide_eq_true ha)
  have c5 := cassert_of_true e _ (decide_eq_true hA)
  have c6 := cassert_of_true e _ (decide_eq_true hB)
  unfold interpolateDouble
  simp only [c1, c2, bind_ok_eq]
  simp only [c3, c4, c5, c6, h1, h2, h3, h4, h5, h6, h7, h8, h9, bind_ok_eq, pure_eq_ok]

theorem cassert_bind_eq_ok {β : Type} (e : Env α) (c : Bool) (f : Unit → Except SiError β)
    (y : β) (h : (cassert e c >>= f) = Except.ok y) : f () = Except.ok y := by
  rw [bind_eq_ok_iff] at h
  obtain ⟨_, _, h⟩ := h
  exact h

/-- What a returned splat records: the quotients and the border adjustments
it went through. -/
theorem interpolateDouble_ok_spec (s : SpinImageEstimation α) (e : Env α) (bs alpha beta : α)
    (sp : Splat α) (h : interpolateDouble s e bs alpha beta = Except.ok sp) :
    ∃ bbs bq aq ba bb, betaBinSizeDouble s e bs = Except.ok bbs ∧
      divDouble beta bbs = Except.ok bq ∧ divDouble alpha bs = Except.ok aq ∧
      alphaBorderDouble s bs ⌊aq⌋ alpha = Except.ok ba ∧
      betaBorderDouble s bbs (⌊bq⌋ + (s.image_width : Int)) beta = Except.ok bb ∧
      sp.alpha_bin = ba.1 ∧ sp.beta_bin = bb.1 := by
  unfold interpolateDouble at h
  rw [bind_eq_ok_iff] at h
  obtain ⟨_, _, h⟩ := h
  rw [bind_eq_ok_iff] at h
  obtain ⟨_, _, h⟩ := h
  rw [bind_eq_ok_iff] at h
  obtain ⟨bbs, hbbs, h⟩ := h
  rw [bind_eq_ok_iff] at h
  obtain ⟨bq, hbq, h⟩ := h
  rw [bind_eq_ok_iff] at h
  obtain ⟨_, _, h⟩ := h
  rw [bind_eq_ok_iff] at h
  obtain ⟨aq, haq, h⟩ := h
  rw [bind_eq_ok_iff] at h
  obtain ⟨_, _, h⟩ := h
  rw [bind_eq_ok_iff] at h
  obtain ⟨ba, hba, h⟩ := h
  rw [bind_eq_ok_iff] at h
  obtain ⟨bb, hbb, h⟩ := h
  rw [bind_eq_ok_iff] at h
  obtain ⟨_, _, h⟩ := h
  rw [bind_eq_ok_iff] at h
  obtain ⟨_, _, h⟩ := h
  rw [bind_eq_ok_iff] at h
  obtain ⟨_, _, h⟩ := h
  rw [bind_eq_ok_iff] at h
  obtain ⟨_, _, h⟩ := h
  rw [bind_eq_ok_iff] at h
  obtain ⟨_, _, h⟩ := h
  rw [bind_eq_ok_iff] at h
  obtain ⟨_, _, h⟩ := h
  cases h
  exact ⟨bbs, bq, aq, ba, bb, hbbs, hbq, haq, hba, hbb, rfl, rfl⟩

end DoubleSteps

section BelowRange

theorem gridAdd_negative_column {α : Type} [LinearOrderedField α] [FloorRing α]
    (g : Grid α) (r c : Int) (w : α) (hc : c < 0) :
    gridAdd g r c w = Except.error SiError.invalidAccess := by
  unfold gridAdd
  rw [if_neg (by intro h; omega)]
  rfl

theorem wide_binSize (e : Env ℝ) :
    binSizeDouble (wideScene : SpinImageEstimation ℝ) e
      = Except.ok (4725088133634619 / 144115188075855872) := by
  have h : toDouble ((2 : ℝ) / 61) = Except.ok (4725088133634619 / 144115188075855872) := by
    rw [toDouble_eval ((2 : ℝ) / 61) (-5) 4725088133634619 (by norm_num) (by norm_num)
      (by norm_num [abs_of_pos]) (by norm_num [abs_of_pos]) (by norm_num [abs_lt])]
    norm_num
  simp only [binSizeDouble, wideScene, if_true, divDouble]
  norm_num [h]

theorem wide_half (e : Env ℝ) (hPI : e.PI = 884279719003555 / 281474976710656) :
    divDouble e.PI 2 = Except.ok (884279719003555 / 562949953421312) := by
  have h : toDouble ((884279719003555 / 281474976710656 : ℝ) / 2)
      = Except.ok (884279719003555 / 562949953421312) := by
    rw [toDouble_eval _ 0 7074237752028440 (by norm_num) (by norm_num)
      (by norm_num [abs_of_pos]) (by norm_num [abs_of_pos]) (by norm_num [abs_lt])]
    norm_num
  rw [hPI]
  unfold divDouble
  rw [if_neg (by norm_num)]
  exact h

theorem roundDouble_pi : roundDouble Real.pi = 884279719003555 / 281474976710656 := by
  have h1 := Real.pi_gt_d20
  have h2 := Real.pi_lt_d20
  have hpos : (0 : ℝ) < Real.pi := Real.pi_pos
  rw [roundDouble_eval Real.pi 1 7074237752028440 (by norm_num)
    (by rw [abs_of_pos hpos]; norm_num; linarith)
    (by rw [abs_of_pos hpos]; norm_num; linarith)
    (by rw [abs_lt]; constructor <;> norm_num <;> linarith)]
  norm_num

theorem roundDouble_arcsin_neg_one :
    roundDouble (Real.arcsin (-1)) = -(884279719003555 / 562949953421312) := by
  have h1 := Real.pi_gt_d20
  have h2 := Real.pi_lt_d20
  have hpos : (0 : ℝ) < Real.pi := Real.pi_pos
  rw [Real.arcsin_neg_one]
  rw [roundDouble_eval (-(Real.pi / 2)) 0 (-7074237752028440) (by norm_num)
    (by rw [abs_neg, abs_of_pos (by linarith)]; norm_num; linarith)
    (by rw [abs_neg, abs_of_pos (by linarith)]; norm_num; linarith)
    (by rw [abs_lt]; constructor <;> norm_num <;> linarith)]
  norm_num

theorem roundDouble_one : roundDouble (1 : ℝ) = 1 := by
  rw [roundDouble_eval (1 : ℝ) 0 4503599627370496 (by norm_num) (by norm_num) (by norm_num)
    (by norm_num)]
  norm_num

theorem rounded_PI (nd : Bool) (l : List Nat) :
    (roundedEnv Real.sqrt Real.arcsin Real.arccos Real.pi nd l).PI
      = 884279719003555 / 281474976710656 :=
  roundDouble_pi

theorem wide_betaBinSize :
    divDouble (884279719003555 / 562949953421312 : ℝ)
        (((wideScene : SpinImageEstimation ℝ).image_width : ℕ) : ℝ)
      = Except.ok (1855537771023853 / 72057594037927936) := by
  have h : toDouble ((884279719003555 / 562949953421312 : ℝ) / 61)
      = Except.ok (1855537771023853 / 72057594037927936) := by
    rw [toDouble_eval _ (-6) 7422151084095412 (by norm_num) (by norm_num)
      (by norm_num [abs_of_pos]) (by norm_num [abs_of_pos]) (by norm_num [abs_lt])]
    norm_num
  simp only [wideScene, divDouble, Nat.cast_ofNat]
  rw [if_neg (by norm_num)]
  exact h

theorem wide_beta_quotient :
    divDouble (-(884279719003555 / 562949953421312) : ℝ) (1855537771023853 / 72057594037927936)
      = Except.ok (-8584986789675009 / 140737488355328) := by
  have h : toDouble (-(884279719003555 / 562949953421312 : ℝ)
      / (1855537771023853 / 72057594037927936))
      = Except.ok (-8584986789675009 / 140737488355328) := by
    rw [toDouble_eval _ 5 (-8584986789675009) (by norm_num) (by norm_num)
      (by norm_num [abs_of_neg, abs_of_pos]) (by norm_num [abs_of_neg, abs_of_pos])
      (by norm_num [abs_lt])]
    norm_num
  unfold divDouble
  rw [if_neg (by norm_num)]
  exact h

theorem wide_edge :
    mulDouble (4725088133634619 / 144115188075855872 : ℝ)
        (((wideScene : SpinImageEstimation ℝ).image_width : ℕ) : ℝ)
      = Except.ok 2 := by
  have h : toDouble ((4725088133634619 / 144115188075855872 : ℝ) * 61) = Except.ok 2 := by
    rw [toDouble_eval _ 1 4503599627370496 (by norm_num) (by norm_num)
      (by norm_num [abs_of_pos]) (by norm_num [abs_of_pos]) (by norm_num [abs_lt])]
    norm_num
  simp only [wideScene, mulDouble, Nat.cast_ofNat]
  exact h

theorem wide_bound :
    addDouble (2 : ℝ) (20 * epsFloat) = Except.ok (4194309 / 2097152) := by
  have h : toDouble ((2 : ℝ) + 20 * (1 / 2 ^ 23)) = Except.ok (4194309 / 2097152) := by
    rw [toDouble_eval _ 1 4503604996079616 (by norm_num) (by norm_num)
      (by norm_num [abs_of_pos]) (by norm_num [abs_of_pos]) (by norm_num [abs_lt])]
    norm_num
  simp only [addDouble, epsFloat]
  exact h

theorem wide_alpha_quotient :
    divDouble (1 : ℝ) (4725088133634619 / 144115188075855872) = Except.ok (61 / 2) := by
  have h : toDouble ((1 : ℝ) / (4725088133634619 / 144115188075855872)) = Except.ok (61 / 2) := by
    rw [toDouble_eval _ 4 8584986789675008 (by norm_num) (by norm_num)
      (by norm_num [abs_of_pos]) (by norm_num [abs_of_pos]) (by norm_num [abs_lt])]
    norm_num
  unfold divDouble
  rw [if_neg (by norm_num)]
  exact h

theorem wide_offset_a : subDouble (61 / 2 : ℝ) (((30 : Int)) : ℝ) = Except.ok (1 / 2) := by
  have h : toDouble ((61 / 2 : ℝ) - 30) = Except.ok (1 / 2) := by
    rw [toDouble_eval _ (-1) 4503599627370496 (by norm_num) (by norm_num)
      (by norm_num [abs_of_pos]) (by norm_num [abs_of_pos]) (by norm_num [abs_lt])]
    norm_num
  unfold subDouble
  push_cast
  exact h

theorem wide_offset_b :
    subDouble (-8584986789675009 / 140737488355328 : ℝ) (((-62 : Int)) : ℝ)
      = Except.ok (140737488355327 / 140737488355328) := by
  have h : toDouble ((-8584986789675009 / 140737488355328 : ℝ) - (-62))
      = Except.ok (140737488355327 / 140737488355328) := by
    rw [toDouble_eval _ (-1) 9007199254740928 (by norm_num) (by norm_num)
      (by norm_num [abs_of_pos]) (by norm_num [abs_of_pos]) (by norm_num [abs_lt])]
    norm_num
  unfold subDouble
  push_cast
  exact h

theorem wide_floor_beta : ⌊(-8584986789675009 / 140737488355328 : ℝ)⌋ = -62 := by
  rw [Int.floor_eq_iff]; norm_num

theorem wide_floor_alpha : ⌊(61 / 2 : ℝ)⌋ = 30 := by
  rw [Int.floor_eq_iff]; norm_num

/-- C19. Radial mode, `W = 61`, search radius 2, so that `bin_size` is the
`double` nearest to `2 / 61`; the math library returns the `double` nearest to
the exact value, and `PI` is the `double` nearest to the number pi.  The
neighbour `(0, 0, -1)` of the query point `(0, 0, 0)` with the axis `(0, 0, 1)`
lies at distance `alpha = 1` in the direction opposite to the axis:
`cos_dir_axis = -1` and `beta = asin (-1)`, the `double` `-PI / 2`.  In `double`
arithmetic `beta / beta_bin_size` is `-61.00000000000001`, its floor is `-62`
and `beta_bin = -1`: with assertions the assertion of line 191 fails; without
them the neighbour is placed at column `-1`, outside the array of `62 x 123`
cells. -/
theorem beta_bin_below_range :
    binSizeDouble (wideScene : SpinImageEstimation ℝ)
        (roundedEnv Real.sqrt Real.arcsin Real.arccos Real.pi false [1])
      = Except.ok (4725088133634619 / 144115188075855872) ∧
    pointAt (wideScene : SpinImageEstimation ℝ).surface 1 = Except.ok ⟨0, 0, -1⟩ ∧
    norm (roundedEnv Real.sqrt Real.arcsin Real.arccos Real.pi false [1])
        ((⟨0, 0, -1⟩ : Vector3f ℝ).sub ⟨0, 0, 0⟩) = 1 ∧
    ((⟨0, 0, -1⟩ : Vector3f ℝ).sub ⟨0, 0, 0⟩).dot ⟨0, 0, 1⟩ / 1 = -1 ∧
    coordinatesDouble (wideScene : SpinImageEstimation ℝ)
        (roundedEnv Real.sqrt Real.arcsin Real.arccos Real.pi false [1])
        (4725088133634619 / 144115188075855872) 1 (-1)
      = Except.ok (some (1, -(884279719003555 / 562949953421312))) ∧
    interpolateDouble (wideScene : SpinImageEstimation ℝ)
        (roundedEnv Real.sqrt Real.arcsin Real.arccos Real.pi false [1])
        (4725088133634619 / 144115188075855872) 1 (-(884279719003555 / 562949953421312))
      = Except.error SiError.assertionFailed ∧
    interpolateDouble (wideScene : SpinImageEstimation ℝ)
        (roundedEnv Real.sqrt Real.arcsin Real.arccos Real.pi true [1])
        (4725088133634619 / 144115188075855872) 1 (-(884279719003555 / 562949953421312))
      = Except.ok ⟨30, -1, 1 / 2, 140737488355327 / 140737488355328⟩ ∧
    gridAddCells (gridZero 62 123 : Grid ℝ)
        (bilinearCells ⟨30, -1, 1 / 2, 140737488355327 / 140737488355328⟩)
      = Except.error SiError.invalidAccess := by
  refine ⟨wide_binSize _, rfl, ?_, ?_, ?_, ?_, ?_, ?_⟩
  · simp only [norm, roundedEnv, plainEnv, Vector3f.sub, Vector3f.dot]
    norm_num [roundDouble_one]
  · simp [Vector3f.sub, Vector3f.dot]
  · have hrad : (wideScene : SpinImageEstimation ℝ).is_radial = true := rfl
    unfold coordinatesDouble
    rw [if_pos hrad]
    simp only [roundedEnv, plainEnv, roundDouble_arcsin_neg_one, pure_eq_ok]
  · exact interpolateDouble_beta_assert _ _ _ 1 _ 2 (4194309 / 2097152)
      (884279719003555 / 562949953421312) (1855537771023853 / 72057594037927936)
      (-8584986789675009 / 140737488355328) rfl rfl (by norm_num) wide_edge wide_bound
      (by norm_num) (wide_half _ (rounded_PI false [1])) wide_betaBinSize wide_beta_quotient
      (by rw [wide_floor_beta]; simp [wideScene])
  · have hb : betaBinSizeDouble (wideScene : SpinImageEstimation ℝ)
        (roundedEnv Real.sqrt Real.arcsin Real.arccos Real.pi true [1])
        (4725088133634619 / 144115188075855872)
        = Except.ok (1855537771023853 / 72057594037927936) := by
      have hrad : (wideScene : SpinImageEstimation ℝ).is_radial = true := rfl
      unfold betaBinSizeDouble
      rw [if_pos hrad, wide_half _ (rounded_PI true [1]), bind_ok_eq]
      exact wide_betaBinSize
    have ha : alphaBorderDouble (wideScene : SpinImageEstimation ℝ)
        (4725088133634619 / 144115188075855872) ⌊(61 / 2 : ℝ)⌋ 1 = Except.ok (30, 1) := by
      rw [wide_floor_alpha]
      unfold alphaBorderDouble
      rw [if_neg (by simp [wideScene])]
      rfl
    have hbb : betaBorderDouble (wideScene : SpinImageEstimation ℝ)
        (1855537771023853 / 72057594037927936)
        (⌊(-8584986789675009 / 140737488355328 : ℝ)⌋
          + ((wideScene : SpinImageEstimation ℝ).image_width : Int))
        (-(884279719003555 / 562949953421312))
        = Except.ok (-1, -(884279719003555 / 562949953421312)) := by
      rw [wide_floor_beta]
      unfold betaBorderDouble
      rw [if_neg (by simp [wideScene])]
      simp [wideScene, pure_eq_ok]
    exact interpolateDouble_ndebug _ _ _ 1 _ _ _ _ (61 / 2) (1 / 2)
      (-8584986789675009 / 140737488355328) (140737488355327 / 140737488355328) (30, 1)
      (-1, -(884279719003555 / 562949953421312)) rfl hb wide_beta_quotient wide_alpha_quotient
      ha hbb wide_alpha_quotient wide_offset_a wide_beta_quotient
      (by
        have : ((((-1 : Int), (-(884279719003555 / 562949953421312) : ℝ)).1
            - ((wideScene : SpinImageEstimation ℝ).image_width : Int) : Int)) = -62 := by
          simp [wideScene]
        rw [this]
        exact wide_offset_b)
  · simp only [bilinearCells, gridAddCells]
    rw [gridAdd_negative_column _ _ _ _ (by norm_num)]
    rfl

end BelowRange

section EdgeBins

variable {α : Type} [LinearOrderedField α] [FloorRing α]

theorem pow_1000_le : (2 : α) ^ 1000 * 2 ^ 22 = 2 ^ 1022 := by
  rw [← pow_add]

theorem edge_nudge_ok (bs x : α) (W : Nat) (hW1 : 1 ≤ W) (h0 : 0 < bs)
    (h1 : bs ≤ 2 * (x / (W : α))) (hx : x ≤ 2 ^ 1000) :
    ∃ e1 a1, mulDouble bs (W : α) = Except.ok e1 ∧ subDouble e1 epsDouble = Except.ok a1 := by
  have hWr : (1 : α) ≤ (W : α) := by exact_mod_cast hW1
  have hWpos : (0 : α) < (W : α) := by linarith
  have hR : (1 : α) ≤ 2 ^ 1000 := one_le_pow₀ (by norm_num)
  have hM := pow_1000_le (α := α)
  have htiny : (1 : α) / 2 ^ 1075 ≤ 1 := by
    rw [div_le_one (by positivity)]
    exact one_le_pow₀ (by norm_num)
  have heps : (epsDouble : α) ≤ 1 := by
    unfold epsDouble
    rw [div_le_one (by positivity)]
    exact one_le_pow₀ (by norm_num)
  have heps0 : (0 : α) < epsDouble := epsDouble_pos
  have hprod : bs * (W : α) ≤ 2 * x := by
    have := mul_le_mul_of_nonneg_right h1 hWpos.le
    calc bs * (W : α) ≤ 2 * (x / (W : α)) * (W : α) := this
      _ = 2 * x := by field_simp
  have hprod0 : 0 < bs * (W : α) := mul_pos h0 hWpos
  have hr := roundDouble_abs_le (bs * (W : α))
  rw [abs_of_pos hprod0] at hr
  have hr2 := roundDouble_abs_le (roundDouble (bs * (W : α)) - epsDouble)
  have htri : |roundDouble (bs * (W : α)) - epsDouble|
      ≤ |roundDouble (bs * (W : α))| + epsDouble := by
    have := abs_sub (roundDouble (bs * (W : α))) epsDouble
    rw [abs_of_pos heps0] at this
    exact this
  have key : ∀ y : α, |y| ≤ 2 ^ 1000 * 2 ^ 22 → toDouble y = Except.ok (roundDouble y) := by
    intro y hy
    rw [hM] at hy
    exact toDouble_of_le y hy
  clear hM
  generalize (2 : α) ^ 1000 = R at hx hR key
  generalize (1 : α) / 2 ^ 1075 = t at htiny hr hr2
  have h22 : (2 : α) ^ 22 = 4194304 := by norm_num
  rw [h22] at key
  refine ⟨roundDouble (bs * (W : α)), roundDouble (roundDouble (bs * (W : α)) - epsDouble), ?_, ?_⟩
  · unfold mulDouble
    apply key
    rw [abs_of_pos hprod0]
    linarith
  · unfold subDouble
    apply key
    linarith

theorem key_1000 (y : α) (hy : |y| ≤ 2 ^ 1000) : toDouble y = Except.ok (roundDouble y) := by
  apply toDouble_of_le
  have h : (2 : α) ^ 1000 ≤ 2 ^ 1022 := pow_le_pow_right₀ (by norm_num) (by norm_num)
  exact le_trans hy h

theorem width_le_1000 (W : Nat) (hW2 : W < 2 ^ 31) : 2 * (W : α) ≤ 2 ^ 1000 := by
  have h1 : (W : α) < 2 ^ 31 := by exact_mod_cast hW2
  have h2 : (2 : α) ^ 32 ≤ 2 ^ 1000 := pow_le_pow_right₀ (by norm_num) (by norm_num)
  have h3 : (2 : α) ^ 32 = 2 * 2 ^ 31 := by
    rw [show (32 : ℕ) = 1 + 31 from rfl, pow_add]; norm_num
  have h4 : 2 * (W : α) ≤ 2 ^ 32 := by rw [h3]; linarith
  exact le_trans h4 h2

theorem alphaBorderDouble_below (s : SpinImageEstimation α) (bs alpha : α) (fl : Int)
    (h : fl ≠ (s.image_width : Int)) :
    alphaBorderDouble s bs fl alpha = Except.ok (fl, alpha) := by
  unfold alphaBorderDouble
  rw [if_neg h]; rfl

theorem betaBorderDouble_below (s : SpinImageEstimation α) (bbs beta : α) (fl : Int)
    (h : fl ≠ 2 * (s.image_width : Int)) :
    betaBorderDouble s bbs fl beta = Except.ok (fl, beta) := by
  unfold betaBorderDouble
  rw [if_neg h]; rfl

theorem alpha_edge_bin (s : SpinImageEstimation α) (e : Env α) (hrad : s.is_radial = true)
    (hW1 : 1 ≤ s.image_width) (hW2 : s.image_width < 2 ^ 31)
    (hr1 : (s.image_width : α) / 2 ^ 1022 ≤ s.search_radius)
    (hr2 : s.search_radius ≤ 2 ^ 1000) :
    ∃ bs q alpha1, binSizeDouble s e = Except.ok bs ∧
      divDouble s.search_radius bs = Except.ok q ∧
      alphaBorderDouble s bs ⌊q⌋ s.search_radius
        = Except.ok ((s.image_width : Int) - 1, alpha1) ∧
      ∀ e1 beta sp, interpolateDouble s e1 bs s.search_radius beta = Except.ok sp →
        sp.alpha_bin = (s.image_width : Int) - 1 := by
  have hWr : (1 : α) ≤ (s.image_width : α) := by exact_mod_cast hW1
  have hWpos : (0 : α) < (s.image_width : α) := by linarith
  have hrpos : 0 < s.search_radius := lt_of_lt_of_le (by positivity) hr1
  obtain ⟨hbs0, hbs2, hq0, hfl⟩ := edge_quotient s.search_radius s.image_width hW1 hW2 hr1
  have hbin : binSizeDouble s e
      = Except.ok (roundDouble (s.search_radius / (s.image_width : α))) := by
    unfold binSizeDouble
    rw [if_pos hrad]
    unfold divDouble
    rw [if_neg hWpos.ne']
    apply key_1000
    rw [abs_of_pos (div_pos hrpos hWpos)]
    exact le_trans (div_le_self hrpos.le hWr) hr2
  have hquot : divDouble s.search_radius (roundDouble (s.search_radius / (s.image_width : α)))
      = Except.ok (roundDouble
          (s.search_radius / roundDouble (s.search_radius / (s.image_width : α)))) := by
    unfold divDouble
    rw [if_neg hbs0.ne']
    apply key_1000
    rw [abs_of_pos (div_pos hrpos hbs0)]
    exact le_trans hq0 (width_le_1000 _ hW2)
  have hborder : ∃ alpha1, alphaBorderDouble s
      (roundDouble (s.search_radius / (s.image_width : α)))
      ⌊roundDouble (s.search_radius / roundDouble (s.search_radius / (s.image_width : α)))⌋
      s.search_radius = Except.ok ((s.image_width : Int) - 1, alpha1) := by
    rcases hfl with h | h
    · rw [h]
      exact ⟨_, alphaBorderDouble_below s _ _ _ (by omega)⟩
    · rw [h]
      obtain ⟨e1, a1, he1, ha1⟩ := edge_nudge_ok _ _ s.image_width hW1 hbs0 hbs2 hr2
      refine ⟨a1, ?_⟩
      unfold alphaBorderDouble
      rw [if_pos rfl]
      have hc : ((((s.image_width : Int) - 1 + 1 : Int)) : α) = (s.image_width : α) := by
        push_cast; ring
      rw [hc, he1, bind_ok_eq, ha1, bind_ok_eq]
      rfl
  obtain ⟨alpha1, hb⟩ := hborder
  refine ⟨_, _, alpha1, hbin, hquot, hb, ?_⟩
  intro e1 beta sp hsp
  obtain ⟨bbs, bq, aq, ba, bb, _, _, haq, hba, _, hsa, _⟩ :=
    interpolateDouble_ok_spec s e1 _ _ _ sp hsp
  rw [hquot] at haq
  cases haq
  rw [hb] at hba
  cases hba
  exact hsa

theorem half_pi_bounds (PI : α) (h3 : 3 ≤ PI) (h4 : PI ≤ 4) :
    1 ≤ roundDouble (PI / 2) ∧ roundDouble (PI / 2) ≤ 3 := by
  have hpos : (0 : α) < PI / 2 := by linarith
  have hn : 1 / 2 ^ 1022 ≤ |PI / 2| := by
    rw [abs_of_pos hpos]
    have := tiny_le_half (α := α)
    linarith
  have hrel := roundDouble_rel (PI / 2) hn
  rw [abs_of_pos hpos, abs_le] at hrel
  have hu4 : (1 : α) / 2 ^ 53 ≤ 1 / 4 := by norm_num
  have hsm : PI / 2 / 2 ^ 53 ≤ PI / 2 * (1 / 4) := by
    have := mul_le_mul_of_nonneg_left hu4 hpos.le
    calc PI / 2 / 2 ^ 53 = PI / 2 * (1 / 2 ^ 53) := by ring
      _ ≤ PI / 2 * (1 / 4) := this
  constructor <;> linarith [hrel.1, hrel.2]

theorem beta_edge_bin (s : SpinImageEstimation α) (e : Env α) (bin_size : α)
    (hrad : s.is_radial = true) (hW1 : 1 ≤ s.image_width) (hW2 : s.image_width < 2 ^ 31)
    (h3 : 3 ≤ e.PI) (h4 : e.PI ≤ 4) :
    ∃ half bbs q beta1, divDouble e.PI 2 = Except.ok half ∧
      betaBinSizeDouble s e bin_size = Except.ok bbs ∧
      divDouble half bbs = Except.ok q ∧
      betaBorderDouble s bbs (⌊q⌋ + (s.image_width : Int)) half
        = Except.ok (2 * (s.image_width : Int) - 1, beta1) ∧
      ∀ alpha sp, interpolateDouble s e bin_size alpha half = Except.ok sp →
        sp.beta_bin = 2 * (s.image_width : Int) - 1 := by
  have hWr : (1 : α) ≤ (s.image_width : α) := by exact_mod_cast hW1
  have hWpos : (0 : α) < (s.image_width : α) := by linarith
  obtain ⟨hh1, hh3⟩ := half_pi_bounds e.PI h3 h4
  have hhpos : 0 < roundDouble (e.PI / 2) := by linarith
  have hR : (3 : α) ≤ 2 ^ 1000 := by
    have : (2 : α) ^ 2 ≤ 2 ^ 1000 := pow_le_pow_right₀ (by norm_num) (by norm_num)
    linarith
  have hhalf : divDouble e.PI 2 = Except.ok (roundDouble (e.PI / 2)) := by
    unfold divDouble
    rw [if_neg (by norm_num)]
    apply key_1000
    rw [abs_of_pos (by linarith)]
    linarith
  have hx : (s.image_width : α) / 2 ^ 1022 ≤ roundDouble (e.PI / 2) := by
    have hW : (s.image_width : α) ≤ 2 ^ 1022 := by
      have h1 : (s.image_width : α) < 2 ^ 31 := by exact_mod_cast hW2
      have h2 : (2 : α) ^ 31 ≤ 2 ^ 1022 := pow_le_pow_right₀ (by norm_num) (by norm_num)
      exact le_trans h1.le h2
    have : (s.image_width : α) / 2 ^ 1022 ≤ 1 := (div_le_one (by positivity)).2 hW
    linarith
  obtain ⟨hbs0, hbs2, hq0, hfl⟩ := edge_quotient (roundDouble (e.PI / 2)) s.image_width hW1 hW2 hx
  have hbin : betaBinSizeDouble s e bin_size
      = Except.ok (roundDouble (roundDouble (e.PI / 2) / (s.image_width : α))) := by
    unfold betaBinSizeDouble
    rw [if_pos hrad, hhalf, bind_ok_eq]
    unfold divDouble
    rw [if_neg hWpos.ne']
    apply key_1000
    rw [abs_of_pos (div_pos hhpos hWpos)]
    exact le_trans (div_le_self hhpos.le hWr) (le_trans hh3 hR)
  have hquot : divDouble (roundDouble (e.PI / 2))
      (roundDouble (roundDouble (e.PI / 2) / (s.image_width : α)))
      = Except.ok (roundDouble (roundDouble (e.PI / 2)
          / roundDouble (roundDouble (e.PI / 2) / (s.image_width : α)))) := by
    unfold divDouble
    rw [if_neg hbs0.ne']
    apply key_1000
    rw [abs_of_pos (div_pos hhpos hbs0)]
    exact le_trans hq0 (width_le_1000 _ hW2)
  have hborder : ∃ beta1, betaBorderDouble s
      (roundDouble (roundDouble (e.PI / 2) / (s.image_width : α)))
      (⌊roundDouble (roundDouble (e.PI / 2)
          / roundDouble (roundDouble (e.PI / 2) / (s.image_width : α)))⌋
        + (s.image_width : Int))
      (roundDouble (e.PI / 2)) = Except.ok (2 * (s.image_width : Int) - 1, beta1) := by
    rcases hfl with h | h
    · rw [h]
      have hc : (s.image_width : Int) - 1 + (s.image_width : Int)
          = 2 * (s.image_width : Int) - 1 := by ring
      rw [hc]
      exact ⟨_, betaBorderDouble_below s _ _ _ (by omega)⟩
    · rw [h]
      obtain ⟨e1, a1, he1, ha1⟩ :=
        edge_nudge_ok _ _ s.image_width hW1 hbs0 hbs2 (le_trans hh3 hR)
      refine ⟨a1, ?_⟩
      unfold betaBorderDouble
      rw [if_pos (by ring)]
      have hc : ((((s.image_width : Int) + (s.image_width : Int) - 1 - (s.image_width : Int) + 1
          : Int)) : α) = (s.image_width : α) := by
        push_cast; ring
      rw [hc, he1, bind_ok_eq, ha1, bind_ok_eq]
      have hc2 : (s.image_width : Int) + (s.image_width : Int) - 1
          = 2 * (s.image_width : Int) - 1 := by ring
      rw [hc2]
      rfl
  obtain ⟨beta1, hb⟩ := hborder
  refine ⟨_, _, _, beta1, hhalf, hbin, hquot, hb, ?_⟩
  intro alpha sp hsp
  obtain ⟨bbs, bq, aq, ba, bb, hbbs, hbq, _, _, hbb, _, hsb⟩ :=
    interpolateDouble_ok_spec s e _ _ _ sp hsp
  rw [hbin] at hbbs
  cases hbbs
  rw [hquot] at hbq
  cases hbq
  rw [hb] at hbb
  cases hbb
  exact hsb

end EdgeBins

section Returns

variable {α : Type} [LinearOrderedField α] [FloorRing α]

theorem roundDouble_bound (x B : α) (h : |x| ≤ B) : |roundDouble x| ≤ 2 * B + 1 := by
  have h1 := roundDouble_abs_le x
  have htiny : (1 : α) / 2 ^ 1075 ≤ 1 := by
    rw [div_le_one (by positivity)]
    exact one_le_pow₀ (by norm_num)
  generalize (1 : α) / 2 ^ 1075 = t at h1 htiny
  linarith

theorem toDouble_bound (x B : α) (h : |x| ≤ B) (hB : B ≤ 2 ^ 1000) :
    toDouble x = Except.ok (roundDouble x) :=
  key_1000 x (le_trans h hB)

theorem divDouble_bound (x y B : α) (hy : y ≠ 0) (h : |x / y| ≤ B) (hB : B ≤ 2 ^ 1000) :
    divDouble x y = Except.ok (roundDouble (x / y)) := by
  unfold divDouble
  rw [if_neg hy]
  exact toDouble_bound _ B h hB

theorem floor_cast_bound (x B : α) (h : |x| ≤ B) : |((⌊x⌋ : Int) : α)| ≤ B + 1 := by
  have h1 := Int.floor_le x
  have h2 := Int.lt_floor_add_one x
  rw [abs_le] at h ⊢
  constructor <;> linarith [h.1, h.2]

/-- Without assertions the interpolation returns a splat as soon as the
quotients it forms stay below `2 ^ 1000`. -/
theorem interpolateDouble_returns (s : SpinImageEstimation α) (e : Env α)
    (bs bbs alpha beta B : α) (hB : 4 * B + 4 ≤ 2 ^ 1000) (ba bb : Int × α)
    (hnd : e.ndebug = true) (hbs : bs ≠ 0) (hbbs : bbs ≠ 0)
    (h1 : betaBinSizeDouble s e bs = Except.ok bbs)
    (h2 : |beta / bbs| ≤ B) (h3 : |alpha / bs| ≤ B)
    (h4 : alphaBorderDouble s bs ⌊roundDouble (alpha / bs)⌋ alpha = Except.ok ba)
    (h5 : betaBorderDouble s bbs (⌊roundDouble (beta / bbs)⌋ + (s.image_width : Int)) beta
      = Except.ok bb)
    (h6 : |ba.2 / bs| ≤ B) (h7 : |((ba.1 : Int) : α)| ≤ B)
    (h8 : |bb.2 / bbs| ≤ B) (h9 : |(((bb.1 - (s.image_width : Int) : Int)) : α)| ≤ B) :
    ∃ sp, interpolateDouble s e bs alpha beta = Except.ok sp ∧
      sp.alpha_bin = ba.1 ∧ sp.beta_bin = bb.1 := by
  have hB0 : B ≤ 2 ^ 1000 := by
    have : 0 ≤ B := le_trans (abs_nonneg _) h2
    linarith
  have d2 := divDouble_bound beta bbs B hbbs h2 hB0
  have d3 := divDouble_bound alpha bs B hbs h3 hB0
  have d6 := divDouble_bound ba.2 bs B hbs h6 hB0
  have d8 := divDouble_bound bb.2 bbs B hbbs h8 hB0
  have r6 := roundDouble_bound _ B h6
  have r8 := roundDouble_bound _ B h8
  have s7 : subDouble (roundDouble (ba.2 / bs)) ((ba.1 : Int) : α)
      = Except.ok (roundDouble (roundDouble (ba.2 / bs) - ((ba.1 : Int) : α))) := by
    unfold subDouble
    apply toDouble_bound _ (3 * B + 1) _ (by linarith)
    have := abs_sub (roundDouble (ba.2 / bs)) ((ba.1 : Int) : α)
    linarith
  have s9 : subDouble (roundDouble (bb.2 / bbs)) (((bb.1 - (s.image_width : Int) : Int)) : α)
      = Except.ok (roundDouble (roundDouble (bb.2 / bbs)
          - (((bb.1 - (s.image_width : Int) : Int)) : α))) := by
    unfold subDouble
    apply toDouble_bound _ (3 * B + 1) _ (by linarith)
    have := abs_sub (roundDouble (bb.2 / bbs)) (((bb.1 - (s.image_width : Int) : Int)) : α)
    linarith
  exact ⟨_, interpolateDouble_ndebug s e bs alpha beta bbs _ _ _ _ _ _ ba bb hnd h1 d2 d3 h4 h5
    d6 s7 d8 s9, rfl, rfl⟩

theorem tiny_le_eps : (1 : α) / 2 ^ 1075 ≤ epsDouble := by
  unfold epsDouble
  rw [div_le_div_iff₀ (by positivity) (by positivity), one_mul, one_mul]
  exact pow_le_pow_right₀ (by norm_num) (by norm_num)

theorem epsDouble_le_one : (epsDouble : α) ≤ 1 := by
  unfold epsDouble
  rw [div_le_one (by positivity)]
  exact one_le_pow₀ (by norm_num)

theorem nudge_bound (b W : α) (hb : 0 ≤ b * W) :
    |roundDouble (roundDouble (b * W) - epsDouble)| ≤ 4 * (b * W) + 5 * epsDouble := by
  have h1 := roundDouble_abs_le (b * W)
  rw [abs_of_nonneg hb] at h1
  have h2 := roundDouble_abs_le (roundDouble (b * W) - epsDouble)
  have h3 := abs_sub (roundDouble (b * W)) (epsDouble : α)
  rw [abs_of_pos (epsDouble_pos (α := α))] at h3
  have h4 := tiny_le_eps (α := α)
  generalize (1 : α) / 2 ^ 1075 = t at h1 h2 h4
  linarith

theorem eps_div_le (bs : α) (h : 1 / 2 ^ 1023 ≤ bs) : epsDouble / bs ≤ 2 ^ 971 := by
  have hpos : 0 < bs := lt_of_lt_of_le (by positivity) h
  rw [div_le_iff₀ hpos]
  have e1 : (2 : α) ^ 971 * (1 / 2 ^ 1023) = epsDouble := by
    unfold epsDouble
    rw [mul_one_div, div_eq_div_iff (by positivity) (by positivity), one_mul, ← pow_add]
  have := mul_le_mul_of_nonneg_left h (by positivity : (0 : α) ≤ 2 ^ 971)
  rw [e1] at this
  exact this

theorem big_bound (W : α) (hW : W ≤ 2 ^ 31) :
    4 * (200 * W + 2 ^ 974) + 4 ≤ 2 ^ 1000 := by
  have e1 : (2 : α) ^ 1000 = 2 ^ 974 * 2 ^ 26 := by rw [← pow_add]
  have e2 : (2 : α) ^ 41 ≤ 2 ^ 974 := pow_le_pow_right₀ (by norm_num) (by norm_num)
  have e3 : 800 * W + 4 ≤ 2 ^ 41 := by
    have : 800 * W ≤ 800 * 2 ^ 31 := by linarith
    have e4 : (800 : α) * 2 ^ 31 + 4 ≤ 2 ^ 41 := by norm_num
    linarith
  rw [e1]
  have e5 : (2 : α) ^ 26 = 67108864 := by norm_num
  rw [e5]
  generalize (2 : α) ^ 974 = S at *
  generalize (2 : α) ^ 41 = T at *
  linarith

theorem pow_971 : 5 * (2 : α) ^ 971 ≤ 2 ^ 974 := by
  have : (2 : α) ^ 974 = 2 ^ 971 * 2 ^ 3 := by rw [← pow_add]
  rw [this]
  have h : (0 : α) < 2 ^ 971 := by positivity
  generalize (2 : α) ^ 971 = S at *
  norm_num
  linarith

theorem alpha_border_bounds (s : SpinImageEstimation α) (bs alpha S : α)
    (hW1 : 1 ≤ s.image_width) (hbs0 : 0 < bs)
    (hnudge : ∃ e1 a1, mulDouble bs (s.image_width : α) = Except.ok e1 ∧
      subDouble e1 epsDouble = Except.ok a1)
    (hqa : |alpha / bs| ≤ 2 * (s.image_width : α)) (hS : 5 * epsDouble ≤ S * bs) :
    ∃ ba, alphaBorderDouble s bs ⌊roundDouble (alpha / bs)⌋ alpha = Except.ok ba ∧
      |ba.2 / bs| ≤ 4 * (s.image_width : α) + S ∧
      |((ba.1 : Int) : α)| ≤ 4 * (s.image_width : α) + 2 := by
  have hWr : (1 : α) ≤ (s.image_width : α) := by exact_mod_cast hW1
  have hWpos : (0 : α) < (s.image_width : α) := by linarith
  have hS0 : 0 ≤ S := by
    by_contra hneg
    rw [not_le] at hneg
    have := mul_neg_of_neg_of_pos hneg hbs0
    linarith [epsDouble_pos (α := α)]
  by_cases hc : ⌊roundDouble (alpha / bs)⌋ = (s.image_width : Int)
  · obtain ⟨e1, a1, he1, ha1⟩ := hnudge
    have he1eq := toDouble_eq_ok _ _ he1
    have ha1eq := toDouble_eq_ok _ _ ha1
    refine ⟨((s.image_width : Int) - 1, a1), ?_, ?_, ?_⟩
    · rw [hc]
      unfold alphaBorderDouble
      rw [if_pos rfl]
      have hcast : ((((s.image_width : Int) - 1 + 1 : Int)) : α) = (s.image_width : α) := by
        push_cast; ring
      rw [hcast, he1, bind_ok_eq, ha1, bind_ok_eq]
      rfl
    · have hnb := nudge_bound bs (s.image_width : α) (mul_nonneg hbs0.le hWpos.le)
      rw [← he1eq, ← ha1eq] at hnb
      show |a1 / bs| ≤ _
      rw [abs_div, abs_of_pos hbs0, div_le_iff₀ hbs0]
      have e2 : (4 * (s.image_width : α) + S) * bs
          = 4 * (bs * (s.image_width : α)) + S * bs := by ring
      rw [e2]
      linarith
    · show |((((s.image_width : Int) - 1 : Int)) : α)| ≤ _
      push_cast
      rw [abs_of_nonneg (by linarith)]
      linarith
  · refine ⟨(⌊roundDouble (alpha / bs)⌋, alpha), alphaBorderDouble_below s bs alpha _ hc, ?_, ?_⟩
    · show |alpha / bs| ≤ _
      linarith
    · have h1 := roundDouble_bound _ _ hqa
      have h2 := floor_cast_bound _ _ h1
      show |((⌊roundDouble (alpha / bs)⌋ : Int) : α)| ≤ _
      linarith

theorem beta_border_bounds (s : SpinImageEstimation α) (bbs beta S Q : α)
    (hW1 : 1 ≤ s.image_width) (hbbs0 : 0 < bbs)
    (hnudge : ∃ e1 a1, mulDouble bbs (s.image_width : α) = Except.ok e1 ∧
      subDouble e1 epsDouble = Except.ok a1)
    (hqb : |beta / bbs| ≤ Q) (hQ : 0 ≤ Q) (hS : 5 * epsDouble ≤ S * bbs) :
    ∃ bb, betaBorderDouble s bbs (⌊roundDouble (beta / bbs)⌋ + (s.image_width : Int)) beta
        = Except.ok bb ∧
      |bb.2 / bbs| ≤ 4 * (s.image_width : α) + S + Q ∧
      |(((bb.1 - (s.image_width : Int) : Int)) : α)| ≤ (s.image_width : α) + 2 * Q + 2 := by
  have hWr : (1 : α) ≤ (s.image_width : α) := by exact_mod_cast hW1
  have hWpos : (0 : α) < (s.image_width : α) := by linarith
  have hS0 : 0 ≤ S := by
    by_contra hneg
    rw [not_le] at hneg
    have := mul_neg_of_neg_of_pos hneg hbbs0
    linarith [epsDouble_pos (α := α)]
  by_cases hc : ⌊roundDouble (beta / bbs)⌋ + (s.image_width : Int) = 2 * (s.image_width : Int)
  · obtain ⟨e1, a1, he1, ha1⟩ := hnudge
    have he1eq := toDouble_eq_ok _ _ he1
    have ha1eq := toDouble_eq_ok _ _ ha1
    refine ⟨(2 * (s.image_width : Int) - 1, a1), ?_, ?_, ?_⟩
    · rw [hc]
      unfold betaBorderDouble
      rw [if_pos rfl]
      have hcast : (((2 * (s.image_width : Int) - 1 - (s.image_width : Int) + 1 : Int)) : α)
          = (s.image_width : α) := by
        push_cast; ring
      rw [hcast, he1, bind_ok_eq, ha1, bind_ok_eq]
      rfl
    · have hnb := nudge_bound bbs (s.image_width : α) (mul_nonneg hbbs0.le hWpos.le)
      rw [← he1eq, ← ha1eq] at hnb
      show |a1 / bbs| ≤ _
      rw [abs_div, abs_of_pos hbbs0, div_le_iff₀ hbbs0]
      have e2 : (4 * (s.image_width : α) + S + Q) * bbs
          = 4 * (bbs * (s.image_width : α)) + S * bbs + Q * bbs := by ring
      rw [e2]
      have := mul_nonneg hQ hbbs0.le
      linarith
    · show |(((2 * (s.image_width : Int) - 1 - (s.image_width : Int) : Int)) : α)| ≤ _
      push_cast
      rw [abs_of_nonneg (by linarith)]
      linarith
  · refine ⟨(⌊roundDouble (beta / bbs)⌋ + (s.image_width : Int), beta),
      betaBorderDouble_below s bbs beta _ hc, ?_, ?_⟩
    · show |beta / bbs| ≤ _
      linarith
    · have h1 := roundDouble_bound _ _ hqb
      have h2 := floor_cast_bound _ _ h1
      show |(((⌊roundDouble (beta / bbs)⌋ + (s.image_width : Int) - (s.image_width : Int)
        : Int)) : α)| ≤ _
      have e3 : ⌊roundDouble (beta / bbs)⌋ + (s.image_width : Int) - (s.image_width : Int)
          = ⌊roundDouble (beta / bbs)⌋ := by ring
      rw [e3]
      linarith

theorem radius_bin_size (r : α) (W : Nat) (hW1 : 1 ≤ W) (hW2 : W < 2 ^ 31)
    (hr1 : (W : α) / 2 ^ 1022 ≤ r) :
    0 < roundDouble (r / (W : α)) ∧ roundDouble (r / (W : α)) ≤ 2 * (r / (W : α)) ∧
      r / roundDouble (r / (W : α)) ≤ 2 * (W : α) ∧
      5 * epsDouble ≤ 2 ^ 974 * roundDouble (r / (W : α)) := by
  have hWr : (1 : α) ≤ (W : α) := by exact_mod_cast hW1
  have hWpos : (0 : α) < (W : α) := by linarith
  have hrpos : 0 < r := lt_of_lt_of_le (by positivity) hr1
  obtain ⟨hbs0, hbs2, hq0, _⟩ := edge_quotient r W hW1 hW2 hr1
  have hn : 1 / 2 ^ 1022 ≤ |r / (W : α)| := by
    rw [abs_of_pos (div_pos hrpos hWpos), le_div_iff₀ hWpos, one_div, inv_mul_eq_div]
    exact hr1
  have hbslow : 1 / 2 ^ 1023 ≤ roundDouble (r / (W : α)) := by
    have hrel := roundDouble_rel _ hn
    rw [abs_of_pos (div_pos hrpos hWpos)] at hn hrel
    rw [abs_le] at hrel
    have hu : r / (W : α) / 2 ^ 53 ≤ r / (W : α) / 2 :=
      div_le_div_of_nonneg_left (div_pos hrpos hWpos).le (by norm_num) (by norm_num)
    have e1 : (1 : α) / 2 ^ 1023 = 1 / 2 ^ 1022 / 2 := by
      rw [div_div]; congr 1
      exact pow_succ 2 1022
    rw [e1]
    generalize (1 : α) / 2 ^ 1022 = L at *
    linarith [hrel.1]
  refine ⟨hbs0, hbs2, hq0, ?_⟩
  have hepsbs := (div_le_iff₀ hbs0).1 (eps_div_le _ hbslow)
  have hp := mul_le_mul_of_nonneg_right (pow_971 (α := α)) hbs0.le
  generalize (2 : α) ^ 971 = S1 at *
  generalize (2 : α) ^ 974 = S2 at *
  linarith

/-- In a build without assertions, in radial mode, the interpolation of a
neighbour within the search radius returns a splat (`double` arithmetic). -/
theorem within_radius_returns (s : SpinImageEstimation α) (e : Env α)
    (hnd : e.ndebug = true) (hrad : s.is_radial = true)
    (hW1 : 1 ≤ s.image_width) (hW2 : s.image_width < 2 ^ 31)
    (hr1 : (s.image_width : α) / 2 ^ 1022 ≤ s.search_radius)
    (hr2 : s.search_radius ≤ 2 ^ 1000) (h3 : 3 ≤ e.PI) (h4 : e.PI ≤ 4)
    (alpha beta : α) (ha0 : 0 ≤ alpha) (ha1 : alpha ≤ s.search_radius) (hb : |beta| ≤ 4) :
    ∃ sp, interpolateDouble s e (roundDouble (s.search_radius / (s.image_width : α))) alpha beta
      = Except.ok sp := by
  have hWr : (1 : α) ≤ (s.image_width : α) := by exact_mod_cast hW1
  have hWpos : (0 : α) < (s.image_width : α) := by linarith
  have hWlt : (s.image_width : α) ≤ 2 ^ 31 := by
    have : (s.image_width : α) < 2 ^ 31 := by exact_mod_cast hW2
    exact this.le
  obtain ⟨hbs0, hbs2, hq0, hS⟩ := radius_bin_size s.search_radius s.image_width hW1 hW2 hr1
  -- the size of the bins along beta
  obtain ⟨half, bbs, q, beta1, hhalf, hbin, _, _, _⟩ :=
    beta_edge_bin s e (roundDouble (s.search_radius / (s.image_width : α))) hrad hW1 hW2 h3 h4
  obtain ⟨hne2, hhalfeq⟩ := divDouble_eq_ok _ _ _ hhalf
  obtain ⟨hh1, hh3⟩ := half_pi_bounds e.PI h3 h4
  have hbbs_eq : bbs = roundDouble (half / (s.image_width : α)) := by
    unfold betaBinSizeDouble at hbin
    rw [if_pos hrad, hhalf, bind_ok_eq] at hbin
    exact (divDouble_eq_ok _ _ _ hbin).2
  rw [← hhalfeq] at hh1 hh3
  have hhx : (s.image_width : α) / 2 ^ 1022 ≤ half := by
    have hW : (s.image_width : α) ≤ 2 ^ 1022 :=
      le_trans hWlt (pow_le_pow_right₀ (by norm_num) (by norm_num))
    have : (s.image_width : α) / 2 ^ 1022 ≤ 1 := (div_le_one (by positivity)).2 hW
    exact le_trans this hh1
  obtain ⟨hbbs0, hbbs2, hqb0, _⟩ := edge_quotient half s.image_width hW1 hW2 hhx
  rw [← hbbs_eq] at hbbs0 hbbs2 hqb0
  have hR : (3 : α) ≤ 2 ^ 1000 := by
    have : (2 : α) ^ 2 ≤ 2 ^ 1000 := pow_le_pow_right₀ (by norm_num) (by norm_num)
    exact le_trans (by norm_num) this
  have hnudge_a := edge_nudge_ok _ _ s.image_width hW1 hbs0 hbs2 hr2
  have hnudge_b := edge_nudge_ok bbs half s.image_width hW1 hbbs0 hbbs2 (le_trans hh3 hR)
  have hret := interpolateDouble_returns s e
    (roundDouble (s.search_radius / (s.image_width : α))) bbs alpha beta
    (200 * (s.image_width : α) + 2 ^ 974) (big_bound (s.image_width : α) hWlt)
  clear hr1 hr2 hhx hR hWlt
  have heps0 : (0 : α) < epsDouble := epsDouble_pos
  have heps1 := epsDouble_le_one (α := α)
  generalize roundDouble (s.search_radius / (s.image_width : α)) = bs at *
  generalize (2 : α) ^ 974 = S at *
  have hbbs_inv : 1 / bbs ≤ 2 * (s.image_width : α) := by
    have h1 : 1 / bbs ≤ half / bbs := div_le_div_of_nonneg_right hh1 hbbs0.le
    linarith
  have hqa : |alpha / bs| ≤ 2 * (s.image_width : α) := by
    rw [abs_of_nonneg (div_nonneg ha0 hbs0.le)]
    exact le_trans (div_le_div_of_nonneg_right ha1 hbs0.le) hq0
  have hqb : |beta / bbs| ≤ 8 * (s.image_width : α) := by
    rw [abs_div, abs_of_pos hbbs0, div_eq_mul_one_div]
    have h1 : |beta| * (1 / bbs) ≤ 4 * (1 / bbs) :=
      mul_le_mul_of_nonneg_right hb (by positivity)
    linarith
  have hSb : 5 * epsDouble ≤ 10 * (s.image_width : α) * bbs := by
    have h1 : 1 ≤ 2 * (s.image_width : α) * bbs := by
      have := (div_le_iff₀ hbbs0).1 hbbs_inv
      linarith
    linarith
  obtain ⟨ba, hba1, hba2, hba3⟩ :=
    alpha_border_bounds s bs alpha S hW1 hbs0 hnudge_a hqa hS
  obtain ⟨bb, hbb1, hbb2, hbb3⟩ :=
    beta_border_bounds s bbs beta (10 * (s.image_width : α)) (8 * (s.image_width : α)) hW1 hbbs0
      hnudge_b hqb (by linarith) hSb
  have hS0 : 0 ≤ S := by
    have := mul_nonneg hbs0.le hWpos.le
    by_contra hneg
    rw [not_le] at hneg
    have := mul_neg_of_neg_of_pos hneg hbs0
    linarith
  obtain ⟨sp, hsp, _, _⟩ := hret ba bb hnd hbs0.ne' hbbs0.ne' hbin
    (by linarith) (by linarith) hba1 hbb1 (by linarith) (by linarith) (by linarith) (by linarith)
  exact ⟨sp, hsp⟩

end Returns

section BoundaryClampingDouble

variable {α : Type} [LinearOrderedField α] [FloorRing α]

theorem coordinatesDouble_edge (s : SpinImageEstimation α) (e : Env α)
    (bin_size direction_norm cos_dir_axis alpha beta square rest edge : α)
    (hrad : s.is_radial = false)
    (h1 : mulDouble direction_norm cos_dir_axis = Except.ok beta)
    (h2 : mulDouble cos_dir_axis cos_dir_axis = Except.ok square)
    (h3 : subDouble 1 square = Except.ok rest)
    (h4 : mulDouble direction_norm (e.sqrt rest) = Except.ok alpha)
    (h5 : mulDouble bin_size (s.image_width : α) = Except.ok edge)
    (hedge : alpha = edge ∨ |beta| = edge) :
    coordinatesDouble s e bin_size direction_norm cos_dir_axis = Except.ok none := by
  unfold coordinatesDouble
  simp only [hrad, Bool.false_eq_true, if_false, h1, h2, h3, h4, h5, bind_ok_eq]
  rw [if_pos]
  · rfl
  · rcases hedge with h | h
    · exact Or.inr (le_of_eq h.symm)
    · exact Or.inl (le_of_eq h.symm)

/-- C4 (amended). In rectangular mode a neighbour exactly on the outer edge of
the support (`alpha = W * bin_size` or `|beta| = W * bin_size`, in exact
arithmetic or as computed in `double`s) is rejected by the cylinder test of
line 178 and gets no bin.  In radial mode no neighbour is rejected by that
test, and in `double` arithmetic, for `1 ≤ W < 2 ^ 31`: a neighbour at the
distance of the search radius `r` (with `W * 2 ^ (-1022) ≤ r ≤ 2 ^ 1000`,
`bin_size` being `r / W` as computed) has the quotient `alpha / bin_size`
computed with floor `W - 1` or `W`, and lines 192-200 give it
`alpha_bin = W - 1`; a neighbour with `beta = PI / 2` (with `3 ≤ PI ≤ 4`,
`beta_bin_size` being `PI / 2 / W` as computed) gets `beta_bin = 2W - 1` from
lines 189-206.  Every splat the interpolation returns for such a neighbour has
that bin, and in a build without assertions the interpolation returns one
(for `|beta| ≤ 4`, and for a neighbour within the search radius). -/
theorem boundary_clamping (s : SpinImageEstimation α) (e : Env α)
    (bin_size direction_norm cos_dir_axis : α) :
    (s.is_radial = false →
        (direction_norm * e.sqrt (1 - cos_dir_axis * cos_dir_axis) = bin_size * (s.image_width : α)
          ∨ |direction_norm * cos_dir_axis| = bin_size * (s.image_width : α)) →
        coordinates s e bin_size direction_norm cos_dir_axis = none) ∧
      (s.is_radial = false →
        ∀ alpha beta square rest edge,
          mulDouble direction_norm cos_dir_axis = Except.ok beta →
          mulDouble cos_dir_axis cos_dir_axis = Except.ok square →
          subDouble 1 square = Except.ok rest →
          mulDouble direction_norm (e.sqrt rest) = Except.ok alpha →
          mulDouble bin_size (s.image_width : α) = Except.ok edge →
          (alpha = edge ∨ |beta| = edge) →
          coordinatesDouble s e bin_size direction_norm cos_dir_axis = Except.ok none) ∧
      (s.is_radial = true →
        coordinates s e bin_size direction_norm cos_dir_axis
            = some (direction_norm, e.asin cos_dir_axis) ∧
          coordinatesDouble s e bin_size direction_norm cos_dir_axis
            = Except.ok (some (direction_norm, e.asin cos_dir_axis))) ∧
      (s.is_radial = true → 1 ≤ s.image_width → s.image_width < 2 ^ 31 →
        (s.image_width : α) / 2 ^ 1022 ≤ s.search_radius → s.search_radius ≤ 2 ^ 1000 →
        ∃ bs q alpha1, binSizeDouble s e = Except.ok bs ∧
          divDouble s.search_radius bs = Except.ok q ∧
          alphaBorderDouble s bs ⌊q⌋ s.search_radius
            = Except.ok ((s.image_width : Int) - 1, alpha1) ∧
          (∀ e1 beta sp, interpolateDouble s e1 bs s.search_radius beta = Except.ok sp →
            sp.alpha_bin = (s.image_width : Int) - 1) ∧
          ∀ e1 beta, e1.ndebug = true → 3 ≤ e1.PI → e1.PI ≤ 4 → |beta| ≤ 4 →
            ∃ sp, interpolateDouble s e1 bs s.search_radius beta = Except.ok sp ∧
              sp.alpha_bin = (s.image_width : Int) - 1) ∧
      (s.is_radial = true → 1 ≤ s.image_width → s.image_width < 2 ^ 31 →
        3 ≤ e.PI → e.PI ≤ 4 →
        ∃ half bbs q beta1, divDouble e.PI 2 = Except.ok half ∧
          betaBinSizeDouble s e bin_size = Except.ok bbs ∧
          divDouble half bbs = Except.ok q ∧
          betaBorderDouble s bbs (⌊q⌋ + (s.image_width : Int)) half
            = Except.ok (2 * (s.image_width : Int) - 1, beta1) ∧
          (∀ alpha sp, interpolateDouble s e bin_size alpha half = Except.ok sp →
            sp.beta_bin = 2 * (s.image_width : Int) - 1) ∧
          (e.ndebug = true → (s.image_width : α) / 2 ^ 1022 ≤ s.search_radius →
            s.search_radius ≤ 2 ^ 1000 →
            ∀ bs alpha, binSizeDouble s e = Except.ok bs → 0 ≤ alpha →
              alpha ≤ s.search_radius →
              ∃ sp, interpolateDouble s e bs alpha half = Except.ok sp ∧
                sp.beta_bin = 2 * (s.image_width : Int) - 1)) := by
  refine ⟨fun hrad hedge => ?_, fun hrad alpha beta square rest edge h1 h2 h3 h4 h5 hedge => ?_,
    fun hrad => ⟨?_, ?_⟩, fun hrad hW1 hW2 hr1 hr2 => ?_, fun hrad hW1 hW2 h3 h4 => ?_⟩
  · unfold coordinates
    simp only [hrad, Bool.false_eq_true, if_false]
    rw [if_pos]
    rcases hedge with h | h
    · exact Or.inr (le_of_eq h.symm)
    · exact Or.inl (le_of_eq h.symm)
  · exact coordinatesDouble_edge s e bin_size direction_norm cos_dir_axis alpha beta square rest
      edge hrad h1 h2 h3 h4 h5 hedge
  · unfold coordinates
    simp only [hrad, if_true]
  · unfold coordinatesDouble
    simp only [hrad, if_true, pure_eq_ok]
  · obtain ⟨bs, q, alpha1, k1, k2, k3, k4⟩ := alpha_edge_bin s e hrad hW1 hW2 hr1 hr2
    refine ⟨bs, q, alpha1, k1, k2, k3, k4, fun e1 beta hnd h3 h4 hb => ?_⟩
    have hbs : bs = roundDouble (s.search_radius / (s.image_width : α)) := by
      unfold binSizeDouble at k1
      rw [if_pos hrad] at k1
      exact (divDouble_eq_ok _ _ _ k1).2
    have hrpos : 0 ≤ s.search_radius := le_trans (by positivity) hr1
    obtain ⟨sp, hsp⟩ := within_radius_returns s e1 hnd hrad hW1 hW2 hr1 hr2 h3 h4
      s.search_radius beta hrpos (le_refl _) hb
    rw [← hbs] at hsp
    exact ⟨sp, hsp, k4 e1 beta sp hsp⟩
  · obtain ⟨half, bbs, q, beta1, k1, k2, k3, k4, k5⟩ :=
      beta_edge_bin s e bin_size hrad hW1 hW2 h3 h4
    refine ⟨half, bbs, q, beta1, k1, k2, k3, k4, k5, fun hnd hr1 hr2 bs alpha hbin ha0 ha1 => ?_⟩
    have hbs : bs = roundDouble (s.search_radius / (s.image_width : α)) := by
      unfold binSizeDouble at hbin
      rw [if_pos hrad] at hbin
      exact (divDouble_eq_ok _ _ _ hbin).2
    obtain ⟨hh1, hh3⟩ := half_pi_bounds e.PI h3 h4
    have hhalf : half = roundDouble (e.PI / 2) := (divDouble_eq_ok _ _ _ k1).2
    have hb : |half| ≤ 4 := by
      rw [hhalf, abs_of_pos (by linarith)]
      linarith
    obtain ⟨sp, hsp⟩ := within_radius_returns s e hnd hrad hW1 hW2 hr1 hr2 h3 h4
      alpha half ha0 ha1 hb
    rw [← hbs] at hsp
    obtain ⟨half2, _, _, _, j1, _, _, _, j5⟩ := beta_edge_bin s e bs hrad hW1 hW2 h3 h4
    rw [k1] at j1
    cases j1
    exact ⟨sp, hsp, j5 alpha sp hsp⟩

end BoundaryClampingDouble

section BoundaryClampingExample

theorem toDouble_zero {α : Type} [LinearOrderedField α] [FloorRing α] :
    toDouble (0 : α) = Except.ok 0 := by
  rw [toDouble_of_le 0 (by rw [abs_zero]; positivity), roundDouble_zero]

theorem wide_edge_alpha_quotient :
    divDouble (2 : ℝ) (4725088133634619 / 144115188075855872) = Except.ok 61 := by
  have h : toDouble ((2 : ℝ) / (4725088133634619 / 144115188075855872)) = Except.ok 61 := by
    rw [toDouble_eval _ 5 8584986789675008 (by norm_num) (by norm_num)
      (by norm_num [abs_of_pos]) (by norm_num [abs_of_pos]) (by norm_num [abs_lt])]
    norm_num
  unfold divDouble
  rw [if_neg (by norm_num)]
  exact h

theorem wide_nudge : subDouble (2 : ℝ) epsDouble
    = Except.ok (9007199254740991 / 4503599627370496) := by
  have h : toDouble ((2 : ℝ) - 1 / 2 ^ 52) = Except.ok (9007199254740991 / 4503599627370496) := by
    rw [toDouble_eval _ 0 9007199254740991 (by norm_num) (by norm_num)
      (by norm_num [abs_of_pos]) (by norm_num [abs_of_pos]) (by norm_num [abs_lt])]
    norm_num
  simp only [subDouble, epsDouble]
  exact h

theorem wide_nudged_quotient :
    divDouble (9007199254740991 / 4503599627370496 : ℝ) (4725088133634619 / 144115188075855872)
      = Except.ok (8584986789675007 / 140737488355328) := by
  have h : toDouble ((9007199254740991 / 4503599627370496 : ℝ)
      / (4725088133634619 / 144115188075855872))
      = Except.ok (8584986789675007 / 140737488355328) := by
    rw [toDouble_eval _ 5 8584986789675007 (by norm_num) (by norm_num)
      (by norm_num [abs_of_pos]) (by norm_num [abs_of_pos]) (by norm_num [abs_lt])]
    norm_num
  unfold divDouble
  rw [if_neg (by norm_num)]
  exact h

theorem wide_nudged_offset :
    subDouble (8584986789675007 / 140737488355328 : ℝ) (((60 : Int)) : ℝ)
      = Except.ok (140737488355327 / 140737488355328) := by
  have h : toDouble ((8584986789675007 / 140737488355328 : ℝ) - 60)
      = Except.ok (140737488355327 / 140737488355328) := by
    rw [toDouble_eval _ (-1) 9007199254740928 (by norm_num) (by norm_num)
      (by norm_num [abs_of_pos]) (by norm_num [abs_of_pos]) (by norm_num [abs_lt])]
    norm_num
  unfold subDouble
  push_cast
  exact h

theorem wide_zero_quotient :
    divDouble (0 : ℝ) (1855537771023853 / 72057594037927936) = Except.ok 0 := by
  unfold divDouble
  rw [if_neg (by norm_num), zero_div]
  exact toDouble_zero

/-- The neighbour `(2, 0, 0)` of the wide scene, at the distance of the search
radius and at right angles to the axis (`alpha = 2`, `beta = 0`): in `double`
arithmetic, also with assertions, it is placed in the last bin
`alpha_bin = 60`, with the offset `a = 1 - 2 ^ (-47)`. -/
theorem wide_edge_splat (nd : Bool) :
    interpolateDouble (wideScene : SpinImageEstimation ℝ)
        (roundedEnv Real.sqrt Real.arcsin Real.arccos Real.pi nd [2])
        (4725088133634619 / 144115188075855872) 2 0
      = Except.ok ⟨60, 61, 140737488355327 / 140737488355328, 0⟩ := by
  have hrad : (wideScene : SpinImageEstimation ℝ).is_radial = true := rfl
  have hW : ((wideScene : SpinImageEstimation ℝ).image_width : Int) = 61 := rfl
  have hb : betaBinSizeDouble (wideScene : SpinImageEstimation ℝ)
      (roundedEnv Real.sqrt Real.arcsin Real.arccos Real.pi nd [2])
      (4725088133634619 / 144115188075855872)
      = Except.ok (1855537771023853 / 72057594037927936) := by
    unfold betaBinSizeDouble
    rw [if_pos hrad, wide_half _ (rounded_PI nd [2]), bind_ok_eq]
    exact wide_betaBinSize
  have hf0 : ⌊(0 : ℝ)⌋ = 0 := Int.floor_zero
  have hf61 : ⌊(61 : ℝ)⌋ = 61 := by
    rw [Int.floor_eq_iff]; norm_num
  have ha : alphaBorderDouble (wideScene : SpinImageEstimation ℝ)
      (4725088133634619 / 144115188075855872) ⌊(61 : ℝ)⌋ 2
      = Except.ok (60, 9007199254740991 / 4503599627370496) := by
    rw [hf61]
    unfold alphaBorderDouble
    rw [if_pos hW.symm]
    have hc : ((((61 : Int) - 1 + 1 : Int)) : ℝ)
        = (((wideScene : SpinImageEstimation ℝ).image_width : ℕ) : ℝ) := by
      simp [wideScene]
    rw [hc, wide_edge, bind_ok_eq, wide_nudge, bind_ok_eq]
    rfl
  have hbb : betaBorderDouble (wideScene : SpinImageEstimation ℝ)
      (1855537771023853 / 72057594037927936)
      (⌊(0 : ℝ)⌋ + ((wideScene : SpinImageEstimation ℝ).image_width : Int)) 0
      = Except.ok (61, 0) := by
    rw [hf0, hW]
    unfold betaBorderDouble
    rw [if_neg (by rw [hW]; norm_num)]
    rfl
  have h9 : subDouble (0 : ℝ) (((((61 : Int), (0 : ℝ)).1
      - ((wideScene : SpinImageEstimation ℝ).image_width : Int) : Int)) : ℝ) = Except.ok 0 := by
    rw [hW]
    unfold subDouble
    simp only [sub_self, Int.cast_zero]
    exact toDouble_zero
  exact interpolateDouble_ok _ _ _ 2 0 2 (4194309 / 2097152) _ 0 61
    (8584986789675007 / 140737488355328) (140737488355327 / 140737488355328) 0 0
    (60, 9007199254740991 / 4503599627370496) (61, 0)
    (by norm_num) wide_edge wide_bound (by norm_num) hb wide_zero_quotient
    (by rw [hf0, hW]; norm_num) wide_edge_alpha_quotient (by rw [hf61, hW]; norm_num) ha hbb
    wide_nudged_quotient wide_nudged_offset wide_zero_quotient h9
    (by norm_num) (by norm_num)

/-- Witness of C4: in rectangular mode a neighbour on the edge
`beta = W * bin_size` is skipped; in radial mode with `W = 61` and the search
radius 2 no neighbour is skipped, the neighbour `(2, 0, 0)` at the distance of
the search radius gets `alpha_bin = 60`, also in a build with assertions, and
a neighbour with `beta = PI / 2` gets `beta_bin = 121`. -/
theorem boundary_clamping_witness :
    coordinates (demoScene false 0 (Real.sqrt 2) 0 ⟨0, 0, 1⟩ : SpinImageEstimation ℝ)
        (plainEnv Real.sqrt Real.arcsin Real.arccos Real.pi false [1]) 1 1 1 = none ∧
      coordinatesDouble (wideScene : SpinImageEstimation ℝ)
        (roundedEnv Real.sqrt Real.arcsin Real.arccos Real.pi false [2])
        (4725088133634619 / 144115188075855872) 2 0 = Except.ok (some (2, 0)) ∧
      (∃ sp, interpolateDouble (wideScene : SpinImageEstimation ℝ)
          (roundedEnv Real.sqrt Real.arcsin Real.arccos Real.pi false [2]) (4725088133634619 / 144115188075855872) 2 0 = Except.ok sp ∧
        sp.alpha_bin = 60) ∧
      (∃ half bbs q beta1,
        divDouble (roundedEnv Real.sqrt Real.arcsin Real.arccos Real.pi false [2]).PI 2
          = Except.ok half ∧
        betaBinSizeDouble (wideScene : SpinImageEstimation ℝ)
          (roundedEnv Real.sqrt Real.arcsin Real.arccos Real.pi false [2]) (4725088133634619 / 144115188075855872) = Except.ok bbs ∧
        divDouble half bbs = Except.ok q ∧
        betaBorderDouble (wideScene : SpinImageEstimation ℝ) bbs (⌊q⌋ + 61) half
          = Except.ok (121, beta1)) := by
  have hWr : ((demoScene false 0 (Real.sqrt 2) 0 ⟨0, 0, 1⟩ :
      SpinImageEstimation ℝ).image_width : ℝ) = 1 := by
    simp [demoScene]
  have key := boundary_clamping (wideScene : SpinImageEstimation ℝ)
    (roundedEnv Real.sqrt Real.arcsin Real.arccos Real.pi false [2])
    (4725088133634619 / 144115188075855872) 2 0
  have keyr := boundary_clamping
    (demoScene false 0 (Real.sqrt 2) 0 ⟨0, 0, 1⟩ : SpinImageEstimation ℝ)
    (plainEnv Real.sqrt Real.arcsin Real.arccos Real.pi false [1]) 1 1 1
  have hasin : (roundedEnv Real.sqrt Real.arcsin Real.arccos Real.pi false [2]).asin 0 = 0 := by
    simp only [roundedEnv, plainEnv, Real.arcsin_zero, roundDouble_zero]
  refine ⟨keyr.1 rfl (Or.inr (by rw [hWr]; norm_num)), ?_, ?_, ?_⟩
  · have hc := (key.2.2.1 rfl).2
    rw [hasin] at hc
    exact hc
  · obtain ⟨bs, q, alpha1, h1, _, _, h4, _⟩ := key.2.2.2.1 rfl (by simp [wideScene])
      (by simp [wideScene]) (by simp only [wideScene]; norm_num)
      (by simp only [wideScene]; norm_num)
    rw [wide_binSize] at h1
    cases h1
    exact ⟨_, wide_edge_splat false, h4 _ 0 _ (wide_edge_splat false)⟩
  · obtain ⟨half, bbs, q, beta1, h1, h2, h3, h4, _⟩ := key.2.2.2.2 rfl (by simp [wideScene])
      (by simp [wideScene]) (by rw [rounded_PI]; norm_num)
      (by rw [rounded_PI]; norm_num)
    exact ⟨half, bbs, q, beta1, h1, h2, h3, h4⟩

end BoundaryClampingExample

section SparseExample

theorem demo_accumulate_min (m : Nat) :
    accumulate (demoScene true (1 / 8) 2 m ⟨0, 0, 1⟩ : SpinImageEstimation ℝ)
      (plainEnv Real.sqrt Real.arcsin Real.arccos Real.pi false [0, 1, 2]) ⟨0, 0, 0⟩
      (some ⟨0, 0, 1⟩) (some ⟨0, 0, 1⟩) [0, 1, 2] (gridZero 2 3, gridZero 2 3)
      = Except.ok ([[0, 1, 0], [0, 1, 0]], gridZero 2 3) := by
  rw [← demo_accumulate ⟨0, 0, 1⟩ rfl rfl (by norm_num) (by norm_num)]
  exact accumulate_congr _ _ _ _ _ _ _ (fun _ => rfl) (fun _ _ => rfl) _ _

theorem sparse_empty_search :
    ((plainEnv Real.sqrt Real.arcsin Real.arccos Real.pi false []).searchForNeighbors 0
          (demoScene true (1 / 8) 2 2147483648 ⟨0, 0, 1⟩ : SpinImageEstimation ℝ).search_radius).length
        < (demoScene true (1 / 8) 2 2147483648 ⟨0, 0, 1⟩ : SpinImageEstimation ℝ).min_pts_neighb ∧
      computeSiForPoint (demoScene true (1 / 8) 2 2147483648 ⟨0, 0, 1⟩ : SpinImageEstimation ℝ)
          (plainEnv Real.sqrt Real.arcsin Real.arccos Real.pi false []) 0
        = Except.ok [[0, 0, 0], [0, 0, 0]] := by
  constructor
  · simp [plainEnv, demoScene]
  · have ho : originOf (demoScene true (1 / 8) 2 2147483648 ⟨0, 0, 1⟩ : SpinImageEstimation ℝ) 0
        = Except.ok (⟨0, 0, 0⟩, some ⟨0, 0, 1⟩) := rfl
    have hax : rotationAxisOf
        (demoScene true (1 / 8) 2 2147483648 ⟨0, 0, 1⟩ : SpinImageEstimation ℝ) 0 (some ⟨0, 0, 1⟩)
        = Except.ok (some ⟨0, 0, 1⟩) := rfl
    have hc1 : cassert (plainEnv Real.sqrt Real.arcsin Real.arccos Real.pi false [])
        (decide ((demoScene true (1 / 8) 2 2147483648 ⟨0, 0, 1⟩ :
          SpinImageEstimation ℝ).image_width > 0)) = Except.ok () := rfl
    have hc2 : cassert (plainEnv Real.sqrt Real.arcsin Real.arccos Real.pi false [])
        (decide ((demoScene true (1 / 8) 2 2147483648 ⟨0, 0, 1⟩ :
            SpinImageEstimation ℝ).support_angle_cos ≤ 1 ∧
          (demoScene true (1 / 8) 2 2147483648 ⟨0, 0, 1⟩ :
            SpinImageEstimation ℝ).support_angle_cos ≥ 0)) = Except.ok () := by
      apply cassert_of_true
      simp only [demoScene]
      norm_num
    have ht : toInt32 2147483648 = -2147483648 := by decide
    unfold computeSiForPoint
    rw [hc1, hc2, bind_ok_eq, bind_ok_eq, ho, bind_ok_eq, hax, bind_ok_eq]
    simp only [plainEnv, demoScene, ht, accumulate, normalize, List.length_nil, bind_ok_eq,
      pure_eq_ok]
    norm_num [gridZero]
    rfl

theorem sparse_three_neighbours :
    ((plainEnv Real.sqrt Real.arcsin Real.arccos Real.pi false [0, 1, 2]).searchForNeighbors 0
          (demoScene true (1 / 8) 2 2147483648 ⟨0, 0, 1⟩ : SpinImageEstimation ℝ).search_radius).length
        < (demoScene true (1 / 8) 2 2147483648 ⟨0, 0, 1⟩ : SpinImageEstimation ℝ).min_pts_neighb ∧
      computeSiForPoint (demoScene true (1 / 8) 2 2147483648 ⟨0, 0, 1⟩ : SpinImageEstimation ℝ)
          (plainEnv Real.sqrt Real.arcsin Real.arccos Real.pi false [0, 1, 2]) 0
        = Except.ok [[0, 1 / 2, 0], [0, 1 / 2, 0]] := by
  constructor
  · simp [plainEnv, demoScene]
  · have hacc := demo_accumulate_min 2147483648
    have ho : originOf (demoScene true (1 / 8) 2 2147483648 ⟨0, 0, 1⟩ : SpinImageEstimation ℝ) 0
        = Except.ok (⟨0, 0, 0⟩, some ⟨0, 0, 1⟩) := rfl
    have hax : rotationAxisOf
        (demoScene true (1 / 8) 2 2147483648 ⟨0, 0, 1⟩ : SpinImageEstimation ℝ) 0 (some ⟨0, 0, 1⟩)
        = Except.ok (some ⟨0, 0, 1⟩) := rfl
    have hc1 : cassert (plainEnv Real.sqrt Real.arcsin Real.arccos Real.pi false [0, 1, 2])
        (decide ((demoScene true (1 / 8) 2 2147483648 ⟨0, 0, 1⟩ :
          SpinImageEstimation ℝ).image_width > 0)) = Except.ok () := rfl
    have hc2 : cassert (plainEnv Real.sqrt Real.arcsin Real.arccos Real.pi false [0, 1, 2])
        (decide ((demoScene true (1 / 8) 2 2147483648 ⟨0, 0, 1⟩ :
            SpinImageEstimation ℝ).support_angle_cos ≤ 1 ∧
          (demoScene true (1 / 8) 2 2147483648 ⟨0, 0, 1⟩ :
            SpinImageEstimation ℝ).support_angle_cos ≥ 0)) = Except.ok () := by
      apply cassert_of_true
      simp only [demoScene]
      norm_num
    have ht : toInt32 2147483648 = -2147483648 := by decide
    unfold computeSiForPoint
    rw [hc1, hc2, bind_ok_eq, bind_ok_eq, ho, bind_ok_eq, hax, bind_ok_eq]
    have hs : (plainEnv Real.sqrt Real.arcsin Real.arccos Real.pi false [0, 1, 2]).searchForNeighbors 0
        (demoScene true (1 / 8) 2 2147483648 ⟨0, 0, 1⟩ : SpinImageEstimation ℝ).search_radius
        = [0, 1, 2] := rfl
    have hw : (demoScene true (1 / 8) 2 2147483648 ⟨0, 0, 1⟩ : SpinImageEstimation ℝ).image_width
        = 1 := rfl
    have hm : (demoScene true (1 / 8) 2 2147483648 ⟨0, 0, 1⟩ : SpinImageEstimation ℝ).min_pts_neighb
        = 2147483648 := rfl
    simp only [hs, hw, hm, hacc, bind_ok_eq, ht]
    norm_num [normalize, demoScene, gridDivScalar, gridSum, pure_eq_ok]

/-- C5. With `min_pts_neighb = 2 ^ 31` the number of neighbours is below the
minimum, and yet `computeSiForPoint` does not raise the "too few points"
exception and returns a grid: the conversion `(int) min_pts_neighb_` of line 110
wraps the threshold around to `-2 ^ 31`.  This is so when the search returns the
three points of the cloud, which all lie within the search radius 2 of the
query point, and when it returns no neighbour at all. -/
theorem too_few_points_missed :
    (((plainEnv Real.sqrt Real.arcsin Real.arccos Real.pi false [0, 1, 2]).searchForNeighbors 0
          (demoScene true (1 / 8) 2 2147483648 ⟨0, 0, 1⟩ : SpinImageEstimation ℝ).search_radius).length
        < (demoScene true (1 / 8) 2 2147483648 ⟨0, 0, 1⟩ : SpinImageEstimation ℝ).min_pts_neighb ∧
      computeSiForPoint (demoScene true (1 / 8) 2 2147483648 ⟨0, 0, 1⟩ : SpinImageEstimation ℝ)
          (plainEnv Real.sqrt Real.arcsin Real.arccos Real.pi false [0, 1, 2]) 0
        = Except.ok [[0, 1 / 2, 0], [0, 1 / 2, 0]]) ∧
    (((plainEnv Real.sqrt Real.arcsin Real.arccos Real.pi false []).searchForNeighbors 0
          (demoScene true (1 / 8) 2 2147483648 ⟨0, 0, 1⟩ : SpinImageEstimation ℝ).search_radius).length
        < (demoScene true (1 / 8) 2 2147483648 ⟨0, 0, 1⟩ : SpinImageEstimation ℝ).min_pts_neighb ∧
      computeSiForPoint (demoScene true (1 / 8) 2 2147483648 ⟨0, 0, 1⟩ : SpinImageEstimation ℝ)
          (plainEnv Real.sqrt Real.arcsin Real.arccos Real.pi false []) 0
        = Except.ok [[0, 0, 0], [0, 0, 0]]) :=
  ⟨sparse_three_neighbours, sparse_empty_search⟩

end SparseExample

end SpinImage
